import Mathlib

/-!
# Moki vs Avocados: actor kinematics, grapple engine, projectiles and enemies

A shallow embedding of `src/main.cpp`.

Numeric conventions of the embedding:

* `float` / `double` values live in an arbitrary linearly ordered field `F`
  with a floor function.  Instantiating `F` with `ℚ` gives executable
  definitions.  Every function is embedded in exact arithmetic under the
  source's name; this model carries the properties that do not depend on
  rounding or are stated over exact arithmetic.
* where rounding can change a discrete outcome (the landing resolver of
  `Sprite::handleInput`, the enemy resolver `avocadoAI`, the Shooting step and
  the frame time), the function is embedded a second time under the name
  `...Fl`, with a rounding `fl : F → F` applied to the result of every `float`
  operation and conversion, in the order of the source.  `fl32 : ℚ → ℚ` is
  IEEE 754 binary32 rounding to nearest, ties to even (subnormals included,
  overflow not modelled); `Float32Like fl` collects the properties of `fl32`
  that the general theorems use; with `fl` the identity the `...Fl` functions
  are the exact ones.
* `int` values are `Int` (no wrap-around; signed overflow is undefined in C++).
* `Uint32` tick values are `Nat`, with differences taken modulo `2 ^ 32`.
* the C library functions `std::sqrt`, `std::cos` and the constant `M_PI`
  are passed as arguments (`sqrt`, `cos`, `pi`); theorems that need an exact
  square root are stated for `F = ℝ` with `Real.sqrt`.
* the mutable globals `MOON_MODE`, `CAM_Y_ANCHOR`, `CAM_Y_PIXELS` are fields
  of `Game`; the other globals are never assigned and are constants here.
* `SDL_GetTicks()` is read once per embedded call and passed as `now`.
-/

set_option linter.unusedSectionVars false

namespace Moki

/-! ## Constants (`main.cpp` lines 17-79) -/

def SCREEN_WIDTH : Int := 1360
def SCREEN_HEIGHT : Int := 1024

def HITBOX_SHRINK_X : Int := 150
def HITBOX_SHRINK_Y : Int := 4
def OUTER_SHRINK_X : Int := 200
def OUTER_SHRINK_Y : Int := 100

def WORLD_GROUND_TOP : Int := 950

def WEB_LOCK_ROW : Int := 3 - 1
def WEB_LOCK_COL : Int := 8 - 1

/-- The value of `std::numeric_limits<int>::min()`. -/
def INT_MIN : Int := -2147483648

section Numeric

variable (F : Type) [LinearOrderedField F]

def GRAVITY_NORMAL : F := 0.50
def GRAVITY_MOON : F := 0.18
def JUMP_IMP_NORMAL : F := -12.0
def JUMP_IMP_MOON : F := -10.5
def WEB_ANCHOR_U : F := 0.78
def WEB_ANCHOR_V : F := 0.33
def WEB_ANCHOR_MIRROR : Bool := true

def AVOCADO_SCALE : F := 0.38
def AVOCADO_HP : Int := 2
def AVOCADO_WALK_SPEED : F := 2.2
def AVOCADO_CONTACT_DMG : Int := 6
def AVOCADO_DMG_COOLDOWN : Nat := 300
def AVOCADO_SPLIT_SHOWMS : Nat := 650

def KNIFE_CLIP : Int := 3
def KNIFE_SPEED : F := 3.0
def KNIFE_SCALE : F := 3.90
def KNIFE_DMG : Int := 1
def KNIFE_RECHARGE_MS : Nat := 900
def KNIFE_LIFETIME_MS : Nat := 4000
def KNIFE_SPIN_DPS : F := 720.0
def THROW_POSE_MS : Nat := 400
def KNIFE_SPAWN_OFF_X : F := 22.0
def KNIFE_SPAWN_OFF_Y : F := 30.0
def KNIFE_SPAWN_HAND_FRAC : F := 0.42

def CAM_ANCHOR_MIN : F := 0.30
def CAM_ANCHOR_MAX : F := 0.90
def CAM_ANCHOR_STEP : F := 0.02
def CAM_PIXEL_STEP : Int := 4

/-- The constant `EPS` local to `Sprite::handleInput` and to `avocadoAI`. -/
def EPS : F := 0.5

/-- The constant `MAX_STEP` local to `Sprite::handleInput` and to `avocadoAI`. -/
def MAX_STEP : F := 24.0

/-- The expression `MOON_MODE ? GRAVITY_MOON : GRAVITY_NORMAL`. -/
def gravity (moon : Bool) : F := if moon then GRAVITY_MOON F else GRAVITY_NORMAL F

/-- The expression `MOON_MODE ? JUMP_IMP_MOON : JUMP_IMP_NORMAL`. -/
def jumpImpulse (moon : Bool) : F := if moon then JUMP_IMP_MOON F else JUMP_IMP_NORMAL F

end Numeric

section Model

variable {F : Type} [LinearOrderedField F] [FloorRing F]

/-- The C++ conversion `(int)v` of a floating value: truncation toward zero. -/
def toInt (v : F) : Int := if 0 ≤ v then Int.floor v else Int.ceil v

/-- Difference `a - b` of two `Uint32` values (wraps modulo `2 ^ 32`). -/
def u32sub (a b : Nat) : Nat := (a + 4294967296 - b % 4294967296) % 4294967296

/-- Sum `a + b` of two `Uint32` values (wraps modulo `2 ^ 32`). -/
def u32add (a b : Nat) : Nat := (a + b) % 4294967296

/-- The helper `clampf(v, a, b) = std::max(a, std::min(b, v))`. -/
def clampf (v a b : F) : F := max a (min b v)

structure SDL_Rect where
  x : Int
  y : Int
  w : Int
  h : Int
deriving DecidableEq, Repr

structure SDL_Point where
  x : Int
  y : Int
deriving DecidableEq, Repr

structure SDL_FPoint (F : Type) where
  x : F
  y : F

/-- The SDL function `SDL_PointInRect`. -/
def SDL_PointInRect (p : SDL_Point) (r : SDL_Rect) : Bool :=
  decide (p.x ≥ r.x) && decide (p.x < r.x + r.w) && decide (p.y ≥ r.y) && decide (p.y < r.y + r.h)

/-- A platform.  The texture handle and glow colour (presentation) are omitted. -/
structure Tile where
  rect : SDL_Rect
  isDynamic : Bool := false
  glowUntilMS : Nat := 0
deriving DecidableEq, Repr

inductive SDL_RendererFlip where
  | SDL_FLIP_NONE
  | SDL_FLIP_HORIZONTAL
deriving DecidableEq, Repr

inductive FlipType where
  | None
  | Back
  | Front
deriving DecidableEq, Repr

/-- The two entries of the keyboard state array that `handleInput` reads:
`keys[SDL_SCANCODE_A]` and `keys[SDL_SCANCODE_D]`. -/
structure Keys where
  a : Bool
  d : Bool
deriving DecidableEq, Repr

/-- The data members of `class Sprite` (texture and renderer handles omitted). -/
structure Sprite (F : Type) where
  crop : SDL_Rect
  dst : SDL_Rect
  frameW : Int
  frameH : Int
  rows : Int
  cols : Int
  currentFrame : Int
  firstFrame : Int
  lastFrame : Int
  currentRow : Int
  lastAnimTick : Nat
  lastIdleTick : Nat
  x : F
  y : F
  velX : F
  velY : F
  speed : F
  scale : F
  onGround : Bool
  jumpCount : Int
  facing : SDL_RendererFlip
  flipping : Bool
  flipAngle : F
  flipStartMS : Nat
  flipSign : Int
  flipType : FlipType
  throwPoseUntilMS : Nat
  throwPoseRow : Int
  throwPoseCol : Int
  frameLock : Bool
  lockRow : Int
  lockCol : Int
  webU : F
  webV : F
  webMirror : Bool

namespace Sprite

/-- Method `Sprite::updateCrop`. -/
def updateCrop (s : Sprite F) : Sprite F :=
  { s with
    crop := { x := s.currentFrame * s.frameW, y := s.currentRow * s.frameH,
              w := s.frameW, h := s.frameH }
    dst := { s.dst with w := toInt ((s.frameW : F) * s.scale),
                        h := toInt ((s.frameH : F) * s.scale) } }

/-- The state a `Sprite` has when its constructor returns, for a sheet image of
`imgW` by `imgH` pixels (the constructor is called with `rows = 3`, `cols = 8`). -/
def construct (imgW imgH rows cols : Int) : Sprite F :=
  updateCrop
    { crop := ⟨0, 0, 0, 0⟩
      dst := ⟨0, 0, toInt (((imgW / cols : Int) : F) * 3.0), toInt (((imgH / rows : Int) : F) * 3.0)⟩
      frameW := imgW / cols
      frameH := imgH / rows
      rows := rows
      cols := cols
      currentFrame := 0
      firstFrame := 0
      lastFrame := 7
      currentRow := 0
      lastAnimTick := 0
      lastIdleTick := 0
      x := 0.0
      y := 0.0
      velX := 0.0
      velY := 0.0
      speed := 4.0
      scale := 3.0
      onGround := false
      jumpCount := 0
      facing := SDL_RendererFlip.SDL_FLIP_NONE
      flipping := false
      flipAngle := 0.0
      flipStartMS := 0
      flipSign := -1
      flipType := FlipType.None
      throwPoseUntilMS := 0
      throwPoseRow := 2
      throwPoseCol := 5
      frameLock := false
      lockRow := WEB_LOCK_ROW
      lockCol := WEB_LOCK_COL
      webU := WEB_ANCHOR_U F
      webV := WEB_ANCHOR_V F
      webMirror := WEB_ANCHOR_MIRROR }

/-- Method `Sprite::setWebAnchorUV`. -/
def setWebAnchorUV (s : Sprite F) (u v : F) (mirror : Bool) : Sprite F :=
  { s with webU := clampf u 0.0 1.0, webV := clampf v 0.0 1.0, webMirror := mirror }

/-- Method `Sprite::nudgeWebUV`. -/
def nudgeWebUV (s : Sprite F) (du dv : F) : Sprite F :=
  s.setWebAnchorUV (s.webU + du) (s.webV + dv) s.webMirror

/-- Method `Sprite::webAnchorWorld`. -/
def webAnchorWorld (s : Sprite F) : SDL_FPoint F :=
  let u := if s.webMirror && decide (s.facing = SDL_RendererFlip.SDL_FLIP_HORIZONTAL)
    then 1.0 - s.webU else s.webU
  { x := s.x + (s.dst.w : F) * u, y := s.y + (s.dst.h : F) * s.webV }

/-- Method `Sprite::placeOnTopOf`. -/
def placeOnTopOf (s : Sprite F) (tileTop : Int) : Sprite F :=
  { s with y := (tileTop : F) - (s.dst.h : F) }

/-- Method `Sprite::collisionRect`. -/
def collisionRect (s : Sprite F) : SDL_Rect :=
  let x0 := toInt s.x + HITBOX_SHRINK_X
  let y0 := toInt s.y + HITBOX_SHRINK_Y
  let w := s.dst.w - HITBOX_SHRINK_X * 2
  let h := s.dst.h - HITBOX_SHRINK_Y * 2
  let w := if w < 4 then 4 else w
  let h := if h < 4 then 4 else h
  { x := x0, y := y0, w := w, h := h }

/-- Method `Sprite::interactionRect`. -/
def interactionRect (s : Sprite F) : SDL_Rect :=
  let x0 := toInt s.x + OUTER_SHRINK_X
  let y0 := toInt s.y + OUTER_SHRINK_Y
  let w := s.dst.w - OUTER_SHRINK_X * 2
  let h := s.dst.h - OUTER_SHRINK_Y * 2
  let w := if w < 4 then 4 else w
  let h := if h < 4 then 4 else h
  { x := x0, y := y0, w := w, h := h }

/-- Method `Sprite::worldRect`. -/
def worldRect (s : Sprite F) : SDL_Rect :=
  { x := toInt s.x, y := toInt s.y, w := s.dst.w, h := s.dst.h }

/-- Method `Sprite::centerX`. -/
def centerX (s : Sprite F) : F := s.x + (s.dst.w : F) * 0.5

/-- Method `Sprite::centerY`. -/
def centerY (s : Sprite F) : F := s.y + (s.dst.h : F) * 0.5

/-- Method `Sprite::addVelocity` (despite its name it moves the position). -/
def addVelocity (s : Sprite F) (ax ay : F) : Sprite F :=
  { s with x := s.x + ax, y := s.y + ay }

/-- Method `Sprite::setVel`. -/
def setVel (s : Sprite F) (vx vy : F) : Sprite F :=
  { s with velX := vx, velY := vy }

/-- Method `Sprite::addVel`. -/
def addVel (s : Sprite F) (dx dy : F) : Sprite F :=
  { s with velX := s.velX + dx, velY := s.velY + dy }

/-- Method `Sprite::playAnim`. -/
def playAnim (s : Sprite F) (now : Nat) (f l r : Int) (speedMS : F) : Sprite F :=
  if s.frameLock then s
  else
    let s1 := { s with firstFrame := f, lastFrame := l, currentRow := r }
    if ((u32sub now s1.lastAnimTick : Nat) : Int) ≥ toInt speedMS then
      let s2 := { s1 with
        currentFrame := if s1.currentFrame + 1 > s1.lastFrame then s1.firstFrame
                        else s1.currentFrame + 1 }
      { updateCrop s2 with lastAnimTick := now }
    else s1

/-- Method `Sprite::idle`. -/
def idle (s : Sprite F) (now : Nat) (speedMS : F) : Sprite F :=
  if s.frameLock then s
  else if ((u32sub now s.lastIdleTick : Nat) : Int) ≥ toInt speedMS then
    let s1 := { s with currentRow := 0, currentFrame := Int.tmod (s.currentFrame + 1) s.cols }
    { updateCrop s1 with lastIdleTick := now }
  else s

/-- Method `Sprite::updateFlip`. -/
def updateFlip (s : Sprite F) (now : Nat) (cos : F → F) (pi : F) : Sprite F :=
  if !s.flipping then s
  else
    let dur : F := 600.0
    let t : F := ((u32sub now s.flipStartMS : Nat) : F) / dur
    if t ≥ 1.0 then { s with flipping := false, flipAngle := 0.0, flipType := FlipType.None }
    else
      let eased : F := 0.5 - 0.5 * cos (t * pi)
      { s with flipAngle := 360.0 * eased }

/-- Method `Sprite::setFrameLock`. -/
def setFrameLock (s : Sprite F) (on_ : Bool) (row col : Int) : Sprite F :=
  let s1 := { s with frameLock := on_ }
  if on_ then
    updateCrop { s1 with lockRow := row, lockCol := col, currentRow := row, currentFrame := col }
  else s1

/-- Method `Sprite::jump`. -/
def jump (s : Sprite F) (moon : Bool) (inputEnabled : Bool) : Sprite F :=
  if !inputEnabled then s
  else if s.onGround || decide (s.jumpCount < 2) then
    { s with velY := jumpImpulse F moon, onGround := false, jumpCount := s.jumpCount + 1 }
  else s

/-- Method `Sprite::hardResetPosition`. -/
def hardResetPosition (s : Sprite F) (tileTop : Int) : Sprite F :=
  let s1 := { s with flipping := false, flipAngle := 0.0, flipType := FlipType.None,
                     velX := 0.0, velY := 0.0, onGround := false, jumpCount := 0,
                     throwPoseUntilMS := 0 }
  let s2 := setFrameLock s1 false WEB_LOCK_ROW WEB_LOCK_COL
  let s3 := updateCrop { s2 with currentRow := 0, currentFrame := 0 }
  placeOnTopOf s3 tileTop

/-- The local variables `landed`, `bestTop`, `landedIndex` of `Sprite::handleInput`. -/
structure Landing where
  landed : Bool
  bestTop : Int
  landedIndex : Int
deriving DecidableEq, Repr

/-- One iteration of the tile loop of `Sprite::handleInput` (lines 273-281), for
the tile `t` at index `i`; `velY`, `prevBottom`, `nowBottom`, `cNow` are the
values those variables hold when the loop starts. -/
def landBody (velY prevBottom nowBottom : F) (cNow : SDL_Rect) (acc : Landing) (i : Nat)
    (t : Tile) : Landing :=
  if !(decide (cNow.x + cNow.w > t.rect.x) && decide (cNow.x < t.rect.x + t.rect.w)) then acc
  else if velY ≥ 0.0 then
    if prevBottom ≤ (t.rect.y : F) + EPS F ∧ nowBottom ≥ (t.rect.y : F) - EPS F then
      if nowBottom - prevBottom ≤ MAX_STEP F + max 0.0 velY then
        if t.rect.y > acc.bestTop then
          { landed := true, bestTop := t.rect.y, landedIndex := (i : Int) }
        else acc
      else acc
    else acc
  else acc

/-- The tile loop of `Sprite::handleInput` (line 272), run over the tiles from
index `i` on. -/
def landLoop (velY prevBottom nowBottom : F) (cNow : SDL_Rect) :
    List Tile → Nat → Landing → Landing
  | [], _, acc => acc
  | t :: ts, i, acc =>
      landLoop velY prevBottom nowBottom cNow ts (i + 1)
        (landBody velY prevBottom nowBottom cNow acc i t)

/-- Lines 249-250 of `Sprite::handleInput`: the horizontal intent `dx`. -/
def inputDx (keys : Keys) (inputEnabled : Bool) : F :=
  let dx : F := 0.0
  let dx : F := if inputEnabled && keys.a then -1.0 else dx
  let dx : F := if inputEnabled && keys.d then 1.0 else dx
  dx

/-- Line 251 of `Sprite::handleInput`: horizontal move and facing. -/
def move (s : Sprite F) (dx : F) : Sprite F :=
  { s with
    x := s.x + dx * s.speed
    facing := if dx < 0 then SDL_RendererFlip.SDL_FLIP_HORIZONTAL
              else if dx > 0 then SDL_RendererFlip.SDL_FLIP_NONE else s.facing }

/-- Lines 253-260 of `Sprite::handleInput`: the choice of animation frame. -/
def animate (s : Sprite F) (now : Nat) (dx : F) : Sprite F :=
  if s.frameLock then
    updateCrop { s with currentRow := s.lockRow, currentFrame := s.lockCol }
  else if decide (s.throwPoseUntilMS ≠ 0) && decide (now < s.throwPoseUntilMS) then
    updateCrop { s with currentRow := s.throwPoseRow, currentFrame := s.throwPoseCol }
  else
    let s2 := { s with throwPoseUntilMS := 0 }
    if dx ≠ 0 then playAnim s2 now 0 7 2 100 else idle s2 now 120

/-- Lines 249-260 of `Sprite::handleInput`: horizontal move, facing and the
choice of animation frame. -/
def moveAndAnimate (s : Sprite F) (now : Nat) (keys : Keys) (inputEnabled : Bool) : Sprite F :=
  animate (move s (inputDx keys inputEnabled)) now (inputDx keys inputEnabled)

/-- Line 266 of `Sprite::handleInput`: `velY += g; y += velY; onGround = false;`. -/
def integrate (s : Sprite F) (g : F) : Sprite F :=
  { s with velY := s.velY + g, y := s.y + (s.velY + g), onGround := false }

/-- Line 283 of `Sprite::handleInput`: the landing snap. -/
def snap (s : Sprite F) (r : Landing) : Sprite F :=
  if r.landed then
    { s with
      y := (r.bestTop : F) - (((collisionRect s).h + HITBOX_SHRINK_Y : Int) : F)
      velY := 0.0, onGround := true, jumpCount := 0, flipping := false, flipAngle := 0.0 }
  else s

/-- Method `Sprite::handleInput`.  Returns the new sprite and the returned
`landedIndex`. -/
def handleInput (s : Sprite F) (moon : Bool) (now : Nat) (cos : F → F) (pi : F)
    (keys : Keys) (tiles : List Tile) (inputEnabled : Bool) : Sprite F × Int :=
  let s1 := moveAndAnimate s now keys inputEnabled
  let g : F := gravity F moon
  let cPrev := collisionRect s1
  let prevBottom : F := ((cPrev.y + cPrev.h : Int) : F)
  let s3 := integrate s1 g
  let cNow := collisionRect s3
  let nowBottom : F := ((cNow.y + cNow.h : Int) : F)
  let r := landLoop s3.velY prevBottom nowBottom cNow tiles 0
    { landed := false, bestTop := INT_MIN, landedIndex := -1 }
  (updateFlip (snap s3 r) now cos pi, r.landedIndex)

end Sprite

/-! ## Projectiles, enemies and the grapple (`main.cpp` lines 407-434) -/

structure Knife (F : Type) where
  x : F
  y : F
  vx : F
  vy : F
  w : Int
  h : Int
  bornMS : Nat
  active : Bool
  angleDeg : F
  spinDPS : F
  dir : Int

structure Avocado (F : Type) where
  x : F
  y : F
  vx : F
  vy : F
  w : Int
  h : Int
  hp : Int
  split : Bool
  splitUntilMS : Nat
  lastTouchDmgMS : Nat
  counted : Bool

inductive WebState where
  | None
  | Shooting
  | Latched
deriving DecidableEq, Repr

structure Web (F : Type) where
  state : WebState
  rmbHeld : Bool
  anchorTile : Int
  startedMS : Nat
  ax : F
  ay : F
  targetLen : F
  curLen : F
  minLen : F
  maxLen : F
  shootSpeed : F
  damping : F
  reelRate : F
  pumpGain : F
  lastTension : F
  reelIn : Bool
  reelOut : Bool
  pump : Bool

/-- The value-initialised grapple `Web{}` (the member initialisers of lines 413-433). -/
def Web.init : Web F :=
  { state := WebState.None
    rmbHeld := false
    anchorTile := -1
    startedMS := 0
    ax := 0.0
    ay := 0.0
    targetLen := 0.0
    curLen := 0.0
    minLen := 70.0
    maxLen := 1800.0
    shootSpeed := 1400.0
    damping := 0.04
    reelRate := 550.0
    pumpGain := 0.45
    lastTension := 0.0
    reelIn := false
    reelOut := false
    pump := false }

/-- The variables of `main` that the simulation reads and writes, together with
the mutable globals and the function-local `static float lastL` of the latched
step.  `texKnife` and `texAvo` hold the pixel size of the two textures when they
were loaded (`none` for a null texture pointer); `deathSnd` tells whether the
death sound was loaded. -/
structure Game (F : Type) where
  tiles : List Tile
  dynPlatforms : List Tile
  player : Sprite F
  knives : List (Knife F)
  avocados : List (Avocado F)
  playerHP : Int
  clipKnives : Int
  lastRecharge : Nat
  avocadosCollected : Int
  nHeld : Bool
  gameOver : Bool
  deathPlayed : Bool
  web : Web F
  lastL : F
  running : Bool
  MOON_MODE : Bool
  KNIFE_UNLIMITED : Bool
  CAM_Y_ANCHOR : F
  CAM_Y_PIXELS : Int
  texKnife : Option (Int × Int)
  texAvo : Option (Int × Int)
  deathSnd : Bool
  prevTick : Nat
  dt : F

/-! ## Start-up and the lambdas of `main` (lines 487-567) -/

/-- All tiles in the order `main` concatenates them into `allTiles`. -/
def Game.allTiles (g : Game F) : List Tile := g.tiles ++ g.dynPlatforms

/-- The state in which `main` enters its loop (lines 487-514), for a player
sheet of `imgW` by `imgH` pixels; `now` is the tick read at lines 506 and 513. -/
def Game.initial (imgW imgH : Int) (texKnife texAvo : Option (Int × Int)) (deathSnd : Bool)
    (now : Nat) : Game F :=
  { tiles := [{ rect := ⟨-5000, WORLD_GROUND_TOP, 10000, 50⟩, isDynamic := false,
                glowUntilMS := 0 }]
    dynPlatforms := []
    player := Sprite.setWebAnchorUV
      (Sprite.placeOnTopOf (Sprite.construct imgW imgH 3 8) WORLD_GROUND_TOP)
      (WEB_ANCHOR_U F) (WEB_ANCHOR_V F) WEB_ANCHOR_MIRROR
    knives := []
    avocados := []
    playerHP := 100
    clipKnives := KNIFE_CLIP
    lastRecharge := now
    avocadosCollected := 0
    nHeld := false
    gameOver := false
    deathPlayed := false
    web := Web.init
    lastL := -1.0
    running := true
    MOON_MODE := false
    KNIFE_UNLIMITED := false
    CAM_Y_ANCHOR := 0.68
    CAM_Y_PIXELS := 0
    texKnife := texKnife
    texAvo := texAvo
    deathSnd := deathSnd
    prevTick := now
    dt := 1.0 / 60.0 }

/-- The lambda `resetGame` (lines 516-524). -/
def resetGame (now : Nat) (g : Game F) : Game F :=
  { g with
    knives := []
    avocados := []
    dynPlatforms := []
    playerHP := 100
    clipKnives := KNIFE_CLIP
    lastRecharge := now
    MOON_MODE := false
    CAM_Y_ANCHOR := 0.68
    CAM_Y_PIXELS := 0
    gameOver := false
    deathPlayed := false
    avocadosCollected := 0
    web := Web.init
    player := g.player.hardResetPosition WORLD_GROUND_TOP }

/-- Method `Sprite::triggerThrowPose`. -/
def Sprite.triggerThrowPose (s : Sprite F) (now : Nat) (holdMS : Nat) : Sprite F :=
  if s.frameLock then s
  else
    Sprite.updateCrop { s with throwPoseUntilMS := u32add now holdMS,
                               currentRow := s.throwPoseRow, currentFrame := s.throwPoseCol }

/-- Method `Sprite::startFlip`. -/
def Sprite.startFlip (s : Sprite F) (now : Nat) (type : FlipType) (inputEnabled : Bool) :
    Sprite F :=
  if !inputEnabled then s
  else if s.onGround || s.flipping then s
  else
    let facingLeft : Bool := decide (s.facing = SDL_RendererFlip.SDL_FLIP_HORIZONTAL)
    { s with
      flipping := true, flipType := type, flipAngle := 0.0, flipStartMS := now
      flipSign := if type = FlipType.Back then (if facingLeft then 1 else -1)
                  else (if facingLeft then -1 else 1) }

/-- The lambda `spawnKnife` (lines 526-540). -/
def spawnKnife (now : Nat) (dir : Int) (g : Game F) : Game F :=
  match g.texKnife with
  | none => g
  | some (kw, kh) =>
    if g.gameOver then g
    else if !g.KNIFE_UNLIMITED && decide (g.clipKnives ≤ 0) then g
    else
      let pRect := g.player.worldRect
      let handX : F := (pRect.x : F) + (pRect.w : F) * 0.5 + (dir : F) * KNIFE_SPAWN_OFF_X F
      let handY : F := (pRect.y : F) + (pRect.h : F) * KNIFE_SPAWN_HAND_FRAC F
        + KNIFE_SPAWN_OFF_Y F
      let w : Int := toInt ((kw : F) * KNIFE_SCALE F)
      let h : Int := toInt ((kh : F) * KNIFE_SCALE F)
      let k : Knife F :=
        { x := handX - (w : F) * 0.5, y := handY - (h : F) * 0.5
          vx := KNIFE_SPEED F * (if dir ≥ 0 then 1.0 else -1.0), vy := 0.0
          w := w, h := h, bornMS := now, active := true
          angleDeg := 0.0, spinDPS := KNIFE_SPIN_DPS F
          dir := if dir ≥ 0 then 1 else -1 }
      { g with
        knives := g.knives ++ [k]
        player := g.player.triggerThrowPose now THROW_POSE_MS
        clipKnives := if !g.KNIFE_UNLIMITED then g.clipKnives - 1 else g.clipKnives }

/-- The lambda `spawnAvocado` (lines 542-547). -/
def spawnAvocado (fromX fromY : F) (g : Game F) : Game F :=
  match g.texAvo with
  | none => g
  | some (aw, ah) =>
    if g.gameOver then g
    else
      let w : Int := toInt ((aw : F) * AVOCADO_SCALE F)
      let h : Int := toInt ((ah : F) * AVOCADO_SCALE F)
      let a : Avocado F :=
        { x := fromX, y := fromY - (h : F), vx := 0.0, vy := 0.0, w := w, h := h
          hp := AVOCADO_HP, split := false, splitUntilMS := 0, lastTouchDmgMS := 0
          counted := false }
      { g with avocados := g.avocados ++ [a] }

/-- The helper `overlapX` (lines 90-92). -/
def overlapX (a b : SDL_Rect) : Bool :=
  decide (a.x + a.w > b.x) && decide (a.x < b.x + b.w)

/-- The tile loop of the lambda `avocadoAI` (lines 557-565); `aRect` is carried
along because the body assigns `aRect.y`. -/
def avocadoTiles (prevY : F) : List Tile → Avocado F × SDL_Rect × Bool → Avocado F × SDL_Rect × Bool
  | [], acc => acc
  | t :: ts, (a, aRect, grounded) =>
    if !overlapX aRect t.rect then avocadoTiles prevY ts (a, aRect, grounded)
    else
      let prevBottom : F := prevY + (a.h : F)
      let nowBottom : F := a.y + (a.h : F)
      if a.vy ≥ 0.0 ∧ prevBottom ≤ (t.rect.y : F) + EPS F ∧ nowBottom ≥ (t.rect.y : F) - EPS F then
        if nowBottom - prevBottom ≤ MAX_STEP F + max 0.0 a.vy then
          let a1 := { a with y := ((t.rect.y - a.h : Int) : F), vy := 0.0 }
          avocadoTiles prevY ts (a1, { aRect with y := toInt a1.y }, true)
        else avocadoTiles prevY ts (a, aRect, grounded)
      else avocadoTiles prevY ts (a, aRect, grounded)

/-- The lambda `avocadoAI` (lines 549-567). -/
def avocadoAI (moon : Bool) (player : Sprite F) (a : Avocado F) (allTiles : List Tile) :
    Avocado F :=
  let a1 := { a with vy := a.vy + gravity F moon }
  let playerCenterX := player.centerX
  let aCenterX : F := a1.x + (a1.w : F) * 0.5
  let dir : F := if playerCenterX > aCenterX then 1.0 else -1.0
  let targetVX : F := AVOCADO_WALK_SPEED F * dir
  let prevY := a1.y
  let a2 := { a1 with y := a1.y + a1.vy }
  let aRect : SDL_Rect := { x := toInt a2.x, y := toInt a2.y, w := a2.w, h := a2.h }
  let r := avocadoTiles prevY allTiles (a2, aRect, false)
  let a3 := r.1
  let grounded := r.2.2
  let a4 := if grounded && !a3.split then { a3 with vx := targetVX }
            else { a3 with vx := a3.vx * 0.97 }
  { a4 with x := a4.x + a4.vx }

/-! ## Event handling (`main.cpp` lines 580-676) -/

/-- The key symbols whose handlers touch the simulation state.  Keys that only
drive the presentation (`f`, `h`, `F1`, `g`, `9`, `0`) and unbound keys are
`other`. -/
inductive Keycode where
  | r | space | b | v | m | t | o
  | leftBracket | rightBracket | semicolon | quote
  | e | q | lshift | rshift
  | i | k | j | l | n | escape | other
deriving DecidableEq, Repr

inductive MouseButton where
  | left | right | middle
deriving DecidableEq, Repr

inductive Event where
  | quit
  | keyDown (sym : Keycode)
  | keyUp (sym : Keycode)
  | mouseWheel (y : Int)
  | mouseButtonDown (button : MouseButton)
  | mouseButtonUp (button : MouseButton)
deriving DecidableEq, Repr

/-- What the environment answers while one event is handled: `SDL_GetTicks()`,
`SDL_GetModState() & KMOD_SHIFT`, `SDL_GetMouseState` and `rand()`. -/
structure Ambient where
  now : Nat
  shift : Bool
  mx : Int
  my : Int
  rand : Nat
deriving DecidableEq, Repr

/-- The camera origin computed at lines 641-642 (and again at 692-693). -/
def camera (g : Game F) : SDL_Point :=
  { x := Int.floor (g.player.centerX - (SCREEN_WIDTH : F) * 0.5)
    y := Int.floor (g.player.centerY - (SCREEN_HEIGHT : F) * g.CAM_Y_ANCHOR
          + (g.CAM_Y_PIXELS : F)) }

/-- The clicked world point `(worldX, worldY)` of line 644. -/
def worldPoint (amb : Ambient) (g : Game F) : SDL_Point :=
  { x := amb.mx + (camera g).x, y := amb.my + (camera g).y }

/-- The search loop of line 653: index of the first tile, counting from `i`,
whose rectangle contains `p`, or `-1`. -/
def hitIndexFrom (p : SDL_Point) : List Tile → Nat → Int
  | [], _ => -1
  | t :: ts, i => if SDL_PointInRect p t.rect then (i : Int) else hitIndexFrom p ts (i + 1)

/-- The grapple cast, lines 651-667 (the `else` branch of `if (nHeld)`). -/
def castWeb (sqrt : F → F) (amb : Ambient) (g : Game F) : Game F :=
  let p := worldPoint amb g
  let hitIndex := hitIndexFrom p g.allTiles 0
  if hitIndex ≠ -1 then
    let ax : F := (p.x : F)
    let ay : F := (p.y : F)
    let wa := g.player.webAnchorWorld
    let dx := ax - wa.x
    let dy := ay - wa.y
    let d := sqrt (dx * dx + dy * dy)
    { g with
      web := { g.web with
        state := WebState.Shooting
        ax := ax, ay := ay
        targetLen := clampf d g.web.minLen g.web.maxLen
        curLen := 0.0
        anchorTile := hitIndex
        startedMS := amb.now
        rmbHeld := true }
      player := g.player.setFrameLock true WEB_LOCK_ROW WEB_LOCK_COL }
  else g

/-- The platform placement, lines 647-649 (the `then` branch of `if (nHeld)`). -/
def placePlatform (amb : Ambient) (g : Game F) : Game F :=
  let p := worldPoint amb g
  let r : SDL_Rect := { x := p.x - 64, y := p.y - 12, w := 128, h := 24 }
  { g with dynPlatforms := g.dynPlatforms ++ [{ rect := r, isDynamic := true, glowUntilMS := 0 }] }

/-- The `SDL_KEYDOWN` block for a live game (lines 587-614). -/
def keyDownAlive (amb : Ambient) (sym : Keycode) (g : Game F) : Game F :=
  let step : F := if amb.shift then 0.03 else 0.01
  match sym with
  | Keycode.space => { g with player := g.player.jump g.MOON_MODE true }
  | Keycode.b =>
      if !g.player.onGround then { g with player := g.player.startFlip amb.now FlipType.Back true }
      else g
  | Keycode.v =>
      if !g.player.onGround then { g with player := g.player.startFlip amb.now FlipType.Front true }
      else g
  | Keycode.m => { g with MOON_MODE := !g.MOON_MODE }
  | Keycode.t => { g with KNIFE_UNLIMITED := !g.KNIFE_UNLIMITED }
  | Keycode.o =>
      let far : F := if amb.rand % 2 = 0 then g.player.x - 1200.0 else g.player.x + 1200.0
      spawnAvocado far ((WORLD_GROUND_TOP - 8 : Int) : F) g
  | Keycode.leftBracket =>
      { g with CAM_Y_ANCHOR := max (CAM_ANCHOR_MIN F) (g.CAM_Y_ANCHOR - CAM_ANCHOR_STEP F) }
  | Keycode.rightBracket =>
      { g with CAM_Y_ANCHOR := min (CAM_ANCHOR_MAX F) (g.CAM_Y_ANCHOR + CAM_ANCHOR_STEP F) }
  | Keycode.semicolon => { g with CAM_Y_PIXELS := g.CAM_Y_PIXELS - CAM_PIXEL_STEP }
  | Keycode.quote => { g with CAM_Y_PIXELS := g.CAM_Y_PIXELS + CAM_PIXEL_STEP }
  | Keycode.e => { g with web := { g.web with reelIn := true } }
  | Keycode.q => { g with web := { g.web with reelOut := true } }
  | Keycode.lshift => { g with web := { g.web with pump := true } }
  | Keycode.rshift => { g with web := { g.web with pump := true } }
  | Keycode.i => { g with player := g.player.nudgeWebUV 0.0 (-step) }
  | Keycode.k => { g with player := g.player.nudgeWebUV 0.0 step }
  | Keycode.j => { g with player := g.player.nudgeWebUV (-step) 0.0 }
  | Keycode.l => { g with player := g.player.nudgeWebUV step 0.0 }
  | Keycode.escape => { g with running := false }
  | _ => g

/-- The `SDL_KEYDOWN` handler (lines 584-619). -/
def onKeyDown (amb : Ambient) (sym : Keycode) (g : Game F) : Game F :=
  let g1 := if sym = Keycode.r then resetGame amb.now g else g
  if !g1.gameOver then keyDownAlive amb sym g1
  else
    let g2 := if sym = Keycode.r then resetGame amb.now g1 else g1
    if sym = Keycode.escape then { g2 with running := false } else g2

/-- The `SDL_KEYUP` handler (lines 620-624). -/
def onKeyUp (sym : Keycode) (g : Game F) : Game F :=
  match sym with
  | Keycode.e => { g with web := { g.web with reelIn := false } }
  | Keycode.q => { g with web := { g.web with reelOut := false } }
  | Keycode.lshift => { g with web := { g.web with pump := false } }
  | Keycode.rshift => { g with web := { g.web with pump := false } }
  | _ => g

/-- The `SDL_MOUSEWHEEL` handler (lines 626-631). -/
def onMouseWheel (wheelY : Int) (g : Game F) : Game F :=
  if g.web.state = WebState.Latched then
    let delta : F := (if wheelY > 0 then -1.0 else 1.0) * g.web.reelRate * 0.02
    { g with web := { g.web with
        targetLen := clampf (g.web.targetLen + delta) g.web.minLen g.web.maxLen } }
  else g

/-- The `SDL_MOUSEBUTTONDOWN` handler (lines 636-670), already inside the
`if (!gameOver)` of line 635. -/
def onMouseButtonDown (sqrt : F → F) (amb : Ambient) (button : MouseButton) (g : Game F) :
    Game F :=
  match button with
  | MouseButton.left =>
      let dir : Int :=
        if g.player.facing = SDL_RendererFlip.SDL_FLIP_HORIZONTAL then -1 else 1
      spawnKnife amb.now dir g
  | MouseButton.right => if g.nHeld then placePlatform amb g else castWeb sqrt amb g
  | MouseButton.middle => g

/-- The `SDL_MOUSEBUTTONUP` handler for the right button (lines 671-674), already
inside the `if (!gameOver)` of line 635. -/
def onRightButtonUp (g : Game F) : Game F :=
  { g with
    web := { g.web with rmbHeld := false }
    player := g.player.setFrameLock false WEB_LOCK_ROW WEB_LOCK_COL }

/-- The body of the `SDL_PollEvent` loop for one event (lines 582-675). -/
def handleEvent (sqrt : F → F) (amb : Ambient) (e : Event) (g : Game F) : Game F :=
  let g1 := if e = Event.quit then { g with running := false } else g
  let g2 := match e with
    | Event.keyDown sym => onKeyDown amb sym g1
    | _ => g1
  let g3 := match e with
    | Event.keyUp sym => onKeyUp sym g2
    | _ => g2
  let g4 := match e with
    | Event.mouseWheel y => onMouseWheel y g3
    | _ => g3
  let g5 := match e with
    | Event.keyDown Keycode.n => { g4 with nHeld := true }
    | Event.keyUp Keycode.n => { g4 with nHeld := false }
    | _ => g4
  if !g5.gameOver then
    match e with
    | Event.mouseButtonDown button => onMouseButtonDown sqrt amb button g5
    | Event.mouseButtonUp MouseButton.right => onRightButtonUp g5
    | _ => g5
  else g5

/-! ## The frame update (`main.cpp` lines 678-821) -/

/-- The SDL function `SDL_HasIntersection` for two non-null rectangles. -/
def SDL_HasIntersection (a b : SDL_Rect) : Bool :=
  if a.w ≤ 0 ∨ a.h ≤ 0 ∨ b.w ≤ 0 ∨ b.h ≤ 0 then false
  else
    decide (max a.x b.x < min (a.x + a.w) (b.x + b.w)) &&
    decide (max a.y b.y < min (a.y + a.h) (b.y + b.h))

/-- Assignment `ts[i].glowUntilMS = v` for an index known to be in range. -/
def setGlow (ts : List Tile) (i : Nat) (v : Nat) : List Tile :=
  ts.modify (fun t => { t with glowUntilMS := v }) i

/-- Lines 678-690: the player step and the landing glow. -/
def playerPhase (now : Nat) (cos : F → F) (pi : F) (keys : Keys) (g : Game F) : Game F :=
  let r := g.player.handleInput g.MOON_MODE now cos pi keys g.allTiles (!g.gameOver)
  let g1 := { g with player := r.1 }
  let landedIdx := r.2
  if landedIdx ≥ 0 then
    if landedIdx < (g1.tiles.length : Int) then
      { g1 with tiles := setGlow g1.tiles landedIdx.toNat (u32add now 120) }
    else
      let d := landedIdx - (g1.tiles.length : Int)
      if d ≥ 0 ∧ d < (g1.dynPlatforms.length : Int) then
        { g1 with dynPlatforms := setGlow g1.dynPlatforms d.toNat (u32add now 120) }
      else g1
  else g1

/-- Lines 695-698: ammo recharge. -/
def rechargePhase (now : Nat) (g : Game F) : Game F :=
  if !g.gameOver && !g.KNIFE_UNLIMITED then
    if g.clipKnives < KNIFE_CLIP ∧ u32sub now g.lastRecharge ≥ KNIFE_RECHARGE_MS then
      { g with clipKnives := g.clipKnives + 1, lastRecharge := now }
    else g
  else g

/-- The body of the knife loop of lines 701-706. -/
def moveKnife (nowMS : Nat) (k : Knife F) : Knife F :=
  if !k.active then k
  else
    let k1 := { k with x := k.x + k.vx, y := k.y + k.vy }
    let elapsed : F := ((u32sub nowMS k1.bornMS : Nat) : F) / 1000.0
    let k2 := { k1 with angleDeg := (k1.dir : F) * k1.spinDPS * elapsed }
    if u32sub nowMS k2.bornMS ≥ KNIFE_LIFETIME_MS then { k2 with active := false } else k2

/-- Lines 700-706: projectile motion and lifetime. -/
def knifePhase (nowMS : Nat) (g : Game F) : Game F :=
  { g with knives := g.knives.map (moveKnife nowMS) }

/-- Lines 708-714: the Shooting step. -/
def shootingStep (dt : F) (w : Web F) : Web F :=
  if w.state = WebState.Shooting then
    let w1 := { w with curLen := w.curLen + w.shootSpeed * dt }
    if w1.curLen ≥ w1.targetLen then
      { w1 with curLen := w1.targetLen, state := WebState.Latched }
    else w1
  else w

/-- Lines 708-714 on the whole game state. -/
def shootingPhase (dt : F) (g : Game F) : Game F :=
  { g with web := shootingStep dt g.web }

set_option linter.unusedVariables false in
/-- The body of the Latched, held step (lines 717-768).  It returns the new
player, grapple and `static float lastL`.  The assignments to `web.targetLen`
and `web.lastTension` are carried in locals and stored at the end.  The damped
`vx`, `vy` of lines 739-740 and 746-747 are overwritten at lines 763-764 before
any use, as in the source. -/
def latchedBody (sqrt : F → F) (moon : Bool) (dt : F) (player : Sprite F) (web : Web F)
    (lastL : F) : Sprite F × Web F × F :=
  let wa := player.webAnchorWorld
  let px := wa.x
  let py := wa.y
  let vx := player.velX
  let vy := player.velY
  let rx := px - web.ax
  let ry := py - web.ay
  let dist := max 1.0 (sqrt (rx * rx + ry * ry))
  let invDist := 1.0 / dist
  let rnx := rx * invDist
  let rny := ry * invDist
  let targetLen := web.targetLen
  let targetLen := if web.reelIn then targetLen - web.reelRate * dt else targetLen
  let targetLen := if web.reelOut then targetLen + web.reelRate * dt else targetLen
  let targetLen := clampf targetLen web.minLen web.maxLen
  let L := targetLen
  let vrad := vx * rnx + vy * rny
  let txv := -rny
  let tyv := rnx
  let vtan := vx * txv + vy * tyv
  let vx := vx - vx * web.damping * dt
  let vy := vy - vy * web.damping * dt
  let nx := web.ax + rnx * L
  let ny := web.ay + rny * L
  let player := player.addVelocity (nx - px) (ny - py)
  let vx := vx - vrad * rnx
  let vy := vy - vrad * rny
  let vtan :=
    if web.pump then
      let g := gravity F moon
      let bias := 1.0 - |rny|
      vtan + web.pumpGain * g * dt * (0.5 + 0.5 * bias)
    else vtan
  let lastL := if lastL < 0.0 then L else lastL
  let vtan :=
    if L < lastL * 0.999 then
      let scale := max 0.5 (min 2.0 (lastL / L))
      vtan * scale
    else vtan
  let lastL := L
  let vx := txv * vtan
  let vy := tyv * vtan
  let player := player.setVel vx vy
  let g := gravity F moon
  let lastTension := (vtan * vtan) / max 1.0 L + g * (-rny)
  (player, { web with targetLen := targetLen, lastTension := lastTension }, lastL)

/-- Lines 716-769: the Latched step, taken only while the cast button is held. -/
def latchedPhase (sqrt : F → F) (dt : F) (g : Game F) : Game F :=
  if g.web.state = WebState.Latched ∧ g.web.rmbHeld = true then
    let r := latchedBody sqrt g.MOON_MODE dt g.player g.web g.lastL
    { g with player := r.1, web := r.2.1, lastL := r.2.2 }
  else g

/-- The value of `boost` at line 778 for a player speed `vmag`. -/
def releaseBoost (vmag : F) : F := min 2.2 (0.35 + 0.15 * (vmag / 10.0))

/-- Lines 771-783: the release block. -/
def releasePhase (sqrt : F → F) (g : Game F) : Game F :=
  if !g.web.rmbHeld && decide (g.web.state ≠ WebState.None) then
    let player :=
      if g.web.state = WebState.Latched then
        let wa := g.player.webAnchorWorld
        let rx := wa.x - g.web.ax
        let ry := wa.y - g.web.ay
        let dist := max 1.0 (sqrt (rx * rx + ry * ry))
        let txv := -ry / dist
        let tyv := rx / dist
        let vmag := sqrt (g.player.velX * g.player.velX + g.player.velY * g.player.velY)
        let boost := releaseBoost vmag
        g.player.addVel (txv * boost) (tyv * boost)
      else g.player
    { g with
      web := { g.web with state := WebState.None }
      player := player.setFrameLock false WEB_LOCK_ROW WEB_LOCK_COL }
  else g

/-- The body of the enemy loop of lines 785-788. -/
def stepAvocado (now : Nat) (moon : Bool) (player : Sprite F) (allTiles : List Tile)
    (a : Avocado F) : Avocado F :=
  if a.split && decide (now ≥ a.splitUntilMS) then { a with w := 0, h := 0 }
  else avocadoAI moon player a allTiles

/-- Lines 785-788: enemy motion and expiry of the split display. -/
def avocadoPhase (now : Nat) (allTiles : List Tile) (g : Game F) : Game F :=
  if !g.gameOver then
    { g with avocados := g.avocados.map (stepAvocado now g.MOON_MODE g.player allTiles) }
  else g

/-- The inner loop of lines 793-803 for a knife with rectangle `kr`: the enemies
after the loop, whether the knife hit one, and the increment of the score. -/
def hitAvocados (now : Nat) (kr : SDL_Rect) : List (Avocado F) → List (Avocado F) × Bool × Int
  | [] => ([], false, 0)
  | a :: rest =>
    if a.w = 0 ∨ a.h = 0 then
      let r := hitAvocados now kr rest
      (a :: r.1, r.2.1, r.2.2)
    else
      let ar : SDL_Rect := { x := toInt a.x, y := toInt a.y, w := a.w, h := a.h }
      if SDL_HasIntersection kr ar then
        if !a.split then
          let a1 := { a with hp := a.hp - KNIFE_DMG }
          if a1.hp ≤ 0 then
            let a2 := { a1 with split := true, splitUntilMS := u32add now AVOCADO_SPLIT_SHOWMS }
            if !a2.counted then ({ a2 with counted := true } :: rest, true, 1)
            else (a2 :: rest, true, 0)
          else (a1 :: rest, true, 0)
        else (a :: rest, true, 0)
      else
        let r := hitAvocados now kr rest
        (a :: r.1, r.2.1, r.2.2)

/-- The outer loop of lines 790-804 over the knives: the knives and enemies after
the loop and the new score. -/
def hitKnives (now : Nat) : List (Knife F) → List (Avocado F) → Int →
    List (Knife F) × List (Avocado F) × Int
  | [], avs, score => ([], avs, score)
  | k :: ks, avs, score =>
    if !k.active then
      let r := hitKnives now ks avs score
      (k :: r.1, r.2.1, r.2.2)
    else
      let kr : SDL_Rect := { x := toInt k.x, y := toInt k.y, w := k.w, h := k.h }
      let h := hitAvocados now kr avs
      let k1 := if h.2.1 then { k with active := false } else k
      let r := hitKnives now ks h.1 (score + h.2.2)
      (k1 :: r.1, r.2.1, r.2.2)

/-- Lines 790-804: knife / avocado hit detection. -/
def hitPhase (now : Nat) (g : Game F) : Game F :=
  if !g.gameOver then
    let r := hitKnives now g.knives g.avocados g.avocadosCollected
    { g with knives := r.1, avocados := r.2.1, avocadosCollected := r.2.2 }
  else g

/-- The loop of lines 808-815: contact damage, with the enemies and the player's
hit points after the loop. -/
def contactLoop (now : Nat) (pRect : SDL_Rect) : List (Avocado F) → Int → List (Avocado F) × Int
  | [], hp => ([], hp)
  | a :: rest, hp =>
    if a.w = 0 ∨ a.h = 0 ∨ a.split = true then
      let r := contactLoop now pRect rest hp
      (a :: r.1, r.2)
    else
      let ar : SDL_Rect := { x := toInt a.x, y := toInt a.y, w := a.w, h := a.h }
      if SDL_HasIntersection pRect ar ∧ u32sub now a.lastTouchDmgMS ≥ AVOCADO_DMG_COOLDOWN then
        let r := contactLoop now pRect rest (max 0 (hp - AVOCADO_CONTACT_DMG))
        ({ a with lastTouchDmgMS := now } :: r.1, r.2)
      else
        let r := contactLoop now pRect rest hp
        (a :: r.1, r.2)

/-- Lines 806-816: contact damage. -/
def contactPhase (now : Nat) (g : Game F) : Game F :=
  if !g.gameOver then
    let r := contactLoop now g.player.worldRect g.avocados g.playerHP
    { g with avocados := r.1, playerHP := r.2 }
  else g

/-- Lines 818-819: the compacting pass. -/
def prunePhase (g : Game F) : Game F :=
  { g with
    knives := g.knives.filter (fun k => k.active)
    avocados := g.avocados.filter (fun a => !(decide (a.w = 0) || decide (a.h = 0))) }

/-- Line 821: entering game over. -/
def gameOverPhase (g : Game F) : Game F :=
  if !g.gameOver && decide (g.playerHP ≤ 0) then
    { g with gameOver := true
             deathPlayed := if !g.deathPlayed && g.deathSnd then true else g.deathPlayed }
  else g

/-- One frame update: everything the loop body does after the event loop and
before rendering (lines 678-821).  `allTiles` is the snapshot of line 678. -/
def frameUpdate (sqrt cos : F → F) (pi : F) (now : Nat) (dt : F) (keys : Keys) (g : Game F) :
    Game F :=
  let allTiles := g.allTiles
  let g := playerPhase now cos pi keys g
  let g := rechargePhase now g
  let g := knifePhase now g
  let g := shootingPhase dt g
  let g := latchedPhase sqrt dt g
  let g := releasePhase sqrt g
  let g := avocadoPhase now allTiles g
  let g := hitPhase now g
  let g := contactPhase now g
  let g := prunePhase g
  gameOverPhase g

/-- The frame time of line 577. -/
def frameDt (nowTick prevTick : Nat) : F :=
  max (1.0 / 240.0) (min (1.0 / 30.0) (((u32sub nowTick prevTick : Nat) : F) / 1000.0))

/-- One iteration of the main loop (lines 576-821): frame time, the queued
events in order, then the frame update. -/
def loopIteration (sqrt cos : F → F) (pi : F) (nowTick : Nat) (events : List (Ambient × Event))
    (keys : Keys) (g : Game F) : Game F :=
  let dt : F := frameDt nowTick g.prevTick
  let g := { g with dt := dt, prevTick := nowTick }
  let g := events.foldl (fun acc ev => handleEvent sqrt ev.1 ev.2 acc) g
  frameUpdate sqrt cos pi nowTick g.dt keys g

/-! ## Predicates used to state the properties -/

/-- The conjunction of the tests a tile must pass in the loop body of
`Sprite::handleInput` (lines 274-277) before its top is compared with `bestTop`. -/
def Sprite.qualifies (velY prevBottom nowBottom : F) (cNow : SDL_Rect) (t : Tile) : Prop :=
  (cNow.x + cNow.w > t.rect.x ∧ cNow.x < t.rect.x + t.rect.w) ∧ velY ≥ 0.0 ∧
  (prevBottom ≤ (t.rect.y : F) + EPS F ∧ nowBottom ≥ (t.rect.y : F) - EPS F) ∧
  nowBottom - prevBottom ≤ MAX_STEP F + max 0.0 velY

/-- Tile `t` is a landing candidate of the call
`s.handleInput moon now cos pi keys tiles inputEnabled`: it passes the tests of
lines 274-277 with the values `velY`, `prevBottom`, `nowBottom`, `cNow` that the
call computes. -/
def Sprite.landingCandidate (s : Sprite F) (moon : Bool) (now : Nat) (keys : Keys)
    (inputEnabled : Bool) (t : Tile) : Prop :=
  let s1 := Sprite.moveAndAnimate s now keys inputEnabled
  let cPrev := Sprite.collisionRect s1
  let s3 := Sprite.integrate s1 (gravity F moon)
  let cNow := Sprite.collisionRect s3
  Sprite.qualifies s3.velY ((cPrev.y + cPrev.h : Int) : F) ((cNow.y + cNow.h : Int) : F) cNow t

/-- Two sprite states agree on every field other than the animation bookkeeping
and the render size. -/
structure Sprite.SameKin (a b : Sprite F) : Prop where
  x : a.x = b.x
  y : a.y = b.y
  velX : a.velX = b.velX
  velY : a.velY = b.velY
  onGround : a.onGround = b.onGround
  jumpCount : a.jumpCount = b.jumpCount
  flipping : a.flipping = b.flipping
  flipAngle : a.flipAngle = b.flipAngle
  frameLock : a.frameLock = b.frameLock
  frameW : a.frameW = b.frameW
  frameH : a.frameH = b.frameH
  scale : a.scale = b.scale

/-- The render size agrees with the frame size and scale, as `updateCrop` sets it. -/
def Sprite.SizeOk (s : Sprite F) : Prop :=
  s.dst.w = toInt ((s.frameW : F) * s.scale) ∧ s.dst.h = toInt ((s.frameH : F) * s.scale)

/-- A sprite of frame size `frameW` by `frameH` (render size three times that,
as the constructor's `scale = 3.0` gives) at position `(x, y)` with vertical
velocity `velY`; every other field has its constructor value except the two
given flags. -/
def Sprite.sample (frameW frameH : Int) (x y velY : F) (onGround : Bool) (jumpCount : Int) :
    Sprite F :=
  { crop := ⟨0, 0, frameW, frameH⟩
    dst := ⟨0, 0, 3 * frameW, 3 * frameH⟩
    frameW := frameW
    frameH := frameH
    rows := 3
    cols := 8
    currentFrame := 0
    firstFrame := 0
    lastFrame := 7
    currentRow := 0
    lastAnimTick := 0
    lastIdleTick := 0
    x := x
    y := y
    velX := 0.0
    velY := velY
    speed := 4.0
    scale := 3.0
    onGround := onGround
    jumpCount := jumpCount
    facing := SDL_RendererFlip.SDL_FLIP_NONE
    flipping := false
    flipAngle := 0.0
    flipStartMS := 0
    flipSign := -1
    flipType := FlipType.None
    throwPoseUntilMS := 0
    throwPoseRow := 2
    throwPoseCol := 5
    frameLock := false
    lockRow := WEB_LOCK_ROW
    lockCol := WEB_LOCK_COL
    webU := WEB_ANCHOR_U F
    webV := WEB_ANCHOR_V F
    webMirror := WEB_ANCHOR_MIRROR }

/-- The landing selection as the spec words it, over exact arithmetic: if two different tiles of the list are landing candidates of
one `handleInput` call, the call lands on a candidate whose top `y` is
numerically smallest. -/
def LandsOnTopmost (s : Sprite F) (moon : Bool) (now : Nat) (cos : F → F) (pi : F)
    (keys : Keys) (tiles : List Tile) (inputEnabled : Bool) : Prop :=
  ∀ (i j : Nat) (ti tj : Tile), i ≠ j → tiles[i]? = some ti → tiles[j]? = some tj →
    s.landingCandidate moon now keys inputEnabled ti →
    s.landingCandidate moon now keys inputEnabled tj →
    ∃ (k : Nat) (t : Tile), tiles[k]? = some t ∧
      s.landingCandidate moon now keys inputEnabled t ∧
      (s.handleInput moon now cos pi keys tiles inputEnabled).2 = (k : Int) ∧
      (∀ u ∈ tiles, s.landingCandidate moon now keys inputEnabled u → t.rect.y ≤ u.rect.y) ∧
      ((s.handleInput moon now cos pi keys tiles inputEnabled).1.collisionRect.y
        + (s.handleInput moon now cos pi keys tiles inputEnabled).1.collisionRect.h
          = t.rect.y)

/-- The actor is at rest on tile `t`: no vertical velocity, grounded, jump
counter zero, collision-box bottom exactly on the tile's top, and the collision
box overlaps the tile horizontally. -/
def Sprite.AtRestOn (s : Sprite F) (t : Tile) : Prop :=
  s.velY = 0 ∧ s.onGround = true ∧ s.jumpCount = 0 ∧
  s.collisionRect.y + s.collisionRect.h = t.rect.y ∧
  (s.collisionRect.x + s.collisionRect.w > t.rect.x ∧ s.collisionRect.x < t.rect.x + t.rect.w)

/-- Idempotence of landing as the spec words it, over exact arithmetic: one more `handleInput` step with zero horizontal input, from
an actor at rest on a tile `t` of the list, leaves `y` unchanged and keeps
`onGround = true`, `jumpCount = 0`. -/
def LandingIdempotent (s : Sprite F) (t : Tile) (moon : Bool) (now : Nat) (cos : F → F)
    (pi : F) (keys : Keys) (tiles : List Tile) (inputEnabled : Bool) : Prop :=
  t ∈ tiles → s.AtRestOn t → (inputEnabled = false ∨ (keys.a = false ∧ keys.d = false)) →
    (s.handleInput moon now cos pi keys tiles inputEnabled).1.y = s.y ∧
    (s.handleInput moon now cos pi keys tiles inputEnabled).1.onGround = true ∧
    (s.handleInput moon now cos pi keys tiles inputEnabled).1.jumpCount = 0

/-- The render size after a step that may have called `updateCrop`. -/
def Sprite.DstStep (a b : Sprite F) : Prop :=
  a.dst = b.dst ∨
  (a.dst.w = toInt ((b.frameW : F) * b.scale) ∧ a.dst.h = toInt ((b.frameH : F) * b.scale))

/-- A sprite of render size 402 by 102 in free fall at `velY = 10`. -/
def fallingSprite : Sprite ℚ := Sprite.sample 134 34 0 0 10 false 0

/-- The ground tile that `main` creates at start-up (lines 488-492). -/
def groundTile : Tile :=
  { rect := ⟨-5000, WORLD_GROUND_TOP, 10000, 50⟩, isDynamic := false, glowUntilMS := 0 }

/-- The platform that a place-platform click at world point `(wx, wy)` creates
(lines 647-649). -/
def platformAt (wx wy : Int) : Tile :=
  { rect := ⟨wx - 64, wy - 12, 128, 24⟩, isDynamic := true, glowUntilMS := 0 }

/-- The ground and two adjacent platforms forming a step: tops `100` and `104`. -/
def stairTiles : List Tile := [groundTile, platformAt 136 112, platformAt 264 116]

/-- No key of the keyboard state is down. -/
def noKeys : Keys := { a := false, d := false }

/-- A sprite of render size 402 by 102 standing at `y = -10`: its collision box
has its bottom at `88`. -/
def restingSprite : Sprite ℚ := Sprite.sample 134 34 0 (-10) 0 true 0

/-- The ground and two adjacent platforms with tops `88` and `89`. -/
def sillTiles : List Tile := [groundTile, platformAt 136 100, platformAt 264 101]

/-- A sprite of render size 402 by 102 standing at `y = 0`: its collision box
has its bottom at `98`. -/
def standingSprite : Sprite ℚ := Sprite.sample 134 34 0 0 0 true 0

/-- The ground and one platform with top `98`. -/
def floorTiles : List Tile := [groundTile, platformAt 164 110]

/-- The inputs of one call of `Sprite::handleInput`. -/
structure FrameIn where
  moon : Bool
  now : Nat
  keys : Keys
  tiles : List Tile
  inputEnabled : Bool

/-- A run of `handleInput` calls: the final sprite, and whether any of the calls
registered a landing (returned an index `>= 0`). -/
def Sprite.airFrames (cos : F → F) (pi : F) : Sprite F → List FrameIn → Sprite F × Bool
  | s, [] => (s, false)
  | s, f :: fs =>
    let r := s.handleInput f.moon f.now cos pi f.keys f.tiles f.inputEnabled
    let rest := Sprite.airFrames cos pi r.1 fs
    (rest.1, decide (0 ≤ r.2) || rest.2)

/-- Either a `handleInput` call or a `jump` call. -/
inductive AirOp where
  | frame (f : FrameIn)
  | jump (moon : Bool) (inputEnabled : Bool)

/-- A run of `handleInput` and `jump` calls: the final sprite, and whether any
of the `handleInput` calls registered a landing. -/
def Sprite.airOps (cos : F → F) (pi : F) : Sprite F → List AirOp → Sprite F × Bool
  | s, [] => (s, false)
  | s, AirOp.frame f :: ops =>
    let r := s.handleInput f.moon f.now cos pi f.keys f.tiles f.inputEnabled
    let rest := Sprite.airOps cos pi r.1 ops
    (rest.1, decide (0 ≤ r.2) || rest.2)
  | s, AirOp.jump moon inputEnabled :: ops => Sprite.airOps cos pi (s.jump moon inputEnabled) ops

/-- The radial unit vector `(rnx, rny)` of the Latched step (lines 717-728). -/
def latchedRadial (sqrt : F → F) (player : Sprite F) (web : Web F) : F × F :=
  let wa := player.webAnchorWorld
  let rx := wa.x - web.ax
  let ry := wa.y - web.ay
  let dist := max 1.0 (sqrt (rx * rx + ry * ry))
  let invDist := 1.0 / dist
  (rx * invDist, ry * invDist)

/-- The rope length `L` of the Latched step (lines 730-733). -/
def latchedLen (web : Web F) (dt : F) : F :=
  let targetLen := web.targetLen
  let targetLen := if web.reelIn then targetLen - web.reelRate * dt else targetLen
  let targetLen := if web.reelOut then targetLen + web.reelRate * dt else targetLen
  clampf targetLen web.minLen web.maxLen

/-- The target rope length lies within its bounds, as every assignment to
`web.targetLen` after start-up leaves it. -/
def Web.LenOk (w : Web F) : Prop := w.minLen ≤ w.targetLen ∧ w.targetLen ≤ w.maxLen

/-- The grapple after repeated Latched steps, each preceded by setting the reel
keys to the given values. -/
def reelFrames (sqrt : F → F) : Game F → List (Bool × Bool × F) → Game F
  | g, [] => g
  | g, (rin, rout, dt) :: rest =>
    reelFrames sqrt
      (latchedPhase sqrt dt { g with web := { g.web with reelIn := rin, reelOut := rout } }) rest

/-- The distance, computed with `sqrt`, from the anchor `(web.ax, web.ay)` to the
player's grapple attachment point `webAnchorWorld()`. -/
def anchorDist (sqrt : F → F) (player : Sprite F) (web : Web F) : F :=
  sqrt ((player.webAnchorWorld.x - web.ax) * (player.webAnchorWorld.x - web.ax)
    + (player.webAnchorWorld.y - web.ay) * (player.webAnchorWorld.y - web.ay))

/-- A grapple Latched on the anchor `(ax, ay)` with rope length `len`; every
other field has the value `Web{}` gives it. -/
def Web.latched (ax ay len : F) (rmbHeld : Bool) : Web F :=
  { (Web.init : Web F) with
    state := WebState.Latched, rmbHeld := rmbHeld, ax := ax, ay := ay
    targetLen := len, curLen := len }

/-- A game state with the given player, grapple and game-over flag, the ground
tile only, and every other variable at its start-up value. -/
def Game.sample (player : Sprite F) (web : Web F) (gameOver : Bool) : Game F :=
  { tiles := [groundTile]
    dynPlatforms := []
    player := player
    knives := []
    avocados := []
    playerHP := if gameOver then 0 else 100
    clipKnives := KNIFE_CLIP
    lastRecharge := 0
    avocadosCollected := 0
    nHeld := false
    gameOver := gameOver
    deathPlayed := false
    web := web
    lastL := -1.0
    running := true
    MOON_MODE := false
    KNIFE_UNLIMITED := false
    CAM_Y_ANCHOR := 0.68
    CAM_Y_PIXELS := 0
    texKnife := none
    texAvo := none
    deathSnd := false
    prevTick := 0
    dt := 1.0 / 60.0 }

/-- The player of render size 300 by 300 standing on the ground at the origin
of `x` (`y = 654`), whose grapple attachment point is `(234, 753)`, with a
grapple Latched at rope length `len` on the anchor `(ax, ay)`, a point of a
platform placed there. -/
def grappleGame (F : Type) [LinearOrderedField F] (ax ay : Int) (len : F)
    (rmbHeld gameOver : Bool) : Game F :=
  { Game.sample (Sprite.sample 100 100 0 654 0 true 0)
      (Web.latched (ax : F) (ay : F) len rmbHeld) gameOver with
    dynPlatforms := [platformAt ax ay] }

/-- C1 as stated: after a Latched, held step with no reel-in, reel-out or pump
input, the distance from the anchor to the attachment point equals `targetLen`,
and `targetLen` is unchanged by the step. -/
def GrappleRigid (dt : ℝ) (g : Game ℝ) : Prop :=
  g.web.state = WebState.Latched → g.web.rmbHeld = true → g.web.reelIn = false →
  g.web.reelOut = false → g.web.pump = false →
    anchorDist Real.sqrt (latchedPhase Real.sqrt dt g).player (latchedPhase Real.sqrt dt g).web
      = (latchedPhase Real.sqrt dt g).web.targetLen ∧
    (latchedPhase Real.sqrt dt g).web.targetLen = g.web.targetLen

/-- The player of render size 300 by 300 standing on the ground (`x = 0`,
`y = 654`) with the grapple Idle. -/
def idleGame (F : Type) [LinearOrderedField F] : Game F :=
  Game.sample (Sprite.sample 100 100 0 654 0 true 0) Web.init false

/-- A click at window position `(530, 846)`. -/
def clickAmbient : Ambient := { now := 0, shift := false, mx := 530, my := 846, rand := 0 }

/-- The distance `d` of lines 657-659: from the attachment point to the clicked
world point, computed with `sqrt`. -/
def castDist (sqrt : F → F) (amb : Ambient) (g : Game F) : F :=
  let wa := g.player.webAnchorWorld
  let dx := ((worldPoint amb g).x : F) - wa.x
  let dy := ((worldPoint amb g).y : F) - wa.y
  sqrt (dx * dx + dy * dy)

/-- The vector `(txv, tyv)` of lines 773-776 of the release block. -/
def releaseTangent (sqrt : F → F) (player : Sprite F) (web : Web F) : F × F :=
  let wa := player.webAnchorWorld
  let rx := wa.x - web.ax
  let ry := wa.y - web.ay
  let dist := max 1.0 (sqrt (rx * rx + ry * ry))
  (-ry / dist, rx / dist)

/-- The speed `vmag` of line 777 of the release block. -/
def playerSpeed (sqrt : F → F) (player : Sprite F) : F :=
  sqrt (player.velX * player.velX + player.velY * player.velY)

/-- C8 as stated: in a frame update that starts with the cast button not held
and the grapple Shooting or Latched, the grapple ends Idle and the frame lock is
cleared; the release changes the velocity only if the grapple is Latched, and
then adds `boost` times a unit vector perpendicular to the radial vector, with
`boost = min(2.2, 0.35 + 0.15 * speed / 10)` between `0.35` and `2.2`. -/
def ReleaseBoostsAlongTangent (cos : ℝ → ℝ) (pi : ℝ) (now : Nat) (dt : ℝ) (keys : Keys)
    (g : Game ℝ) : Prop :=
  g.web.rmbHeld = false → g.web.state ≠ WebState.None →
    ((frameUpdate Real.sqrt cos pi now dt keys g).web.state = WebState.None ∧
      (frameUpdate Real.sqrt cos pi now dt keys g).player.frameLock = false) ∧
    (g.web.state ≠ WebState.Latched →
      (releasePhase Real.sqrt g).player.velX = g.player.velX ∧
      (releasePhase Real.sqrt g).player.velY = g.player.velY) ∧
    (g.web.state = WebState.Latched →
      ∃ tx ty : ℝ, tx * tx + ty * ty = 1 ∧
        tx * (g.player.webAnchorWorld.x - g.web.ax)
          + ty * (g.player.webAnchorWorld.y - g.web.ay) = 0 ∧
        (releasePhase Real.sqrt g).player.velX
          = g.player.velX + releaseBoost (playerSpeed Real.sqrt g.player) * tx ∧
        (releasePhase Real.sqrt g).player.velY
          = g.player.velY + releaseBoost (playerSpeed Real.sqrt g.player) * ty) ∧
    (0.35 ≤ releaseBoost (playerSpeed Real.sqrt g.player) ∧
      releaseBoost (playerSpeed Real.sqrt g.player) ≤ 2.2)

/-- C10 as stated: from a state in which the grapple is Shooting or Latched, a
right-button-up event followed by the frame update leaves the grapple Idle. -/
def ReleaseCancels (sqrt cos : F → F) (pi : F) (amb : Ambient) (now : Nat) (dt : F)
    (keys : Keys) (g : Game F) : Prop :=
  g.web.state ≠ WebState.None →
    (frameUpdate sqrt cos pi now dt keys
      (handleEvent sqrt amb (Event.mouseButtonUp MouseButton.right) g)).web.state
      = WebState.None

/-- Rectangle `a` is a subset of rectangle `b`: every point that
`SDL_PointInRect` places in `a` it also places in `b`. -/
def SDL_Rect.Subset (a b : SDL_Rect) : Prop :=
  ∀ p : SDL_Point, SDL_PointInRect p a = true → SDL_PointInRect p b = true

/-- Rectangle `a` is strictly contained in rectangle `b`: each edge of `a` lies
strictly inside `b`. -/
def SDL_Rect.StrictlyInside (a b : SDL_Rect) : Prop :=
  b.x < a.x ∧ a.x + a.w < b.x + b.w ∧ b.y < a.y ∧ a.y + a.h < b.y + b.h

/-- C11 as stated: with positive render width and height the collision box and
the interaction box are both strictly contained in the render box. -/
def BoxContainment (s : Sprite F) : Prop :=
  0 < s.dst.w → 0 < s.dst.h →
    s.collisionRect.StrictlyInside s.worldRect ∧ s.interactionRect.StrictlyInside s.worldRect

/-- C12 as stated: the collision box is a subset of the interaction box and the
interaction box is a subset of the render box. -/
def BoxNesting (s : Sprite F) : Prop :=
  s.collisionRect.Subset s.interactionRect ∧ s.interactionRect.Subset s.worldRect

/-- A sprite of render size 120 by 120 at the origin. -/
def smallSprite : Sprite ℚ := Sprite.sample 40 40 0 0 0 true 0

/-- A sprite of render size 600 by 600 at the origin. -/
def largeSprite : Sprite ℚ := Sprite.sample 200 200 0 0 0 true 0

/-- The actor right after being placed at start-up (lines 496-498), for a sheet
of `imgW` by `imgH` pixels. -/
def spawnPlayer (imgW imgH : Int) : Sprite F :=
  (Game.initial imgW imgH none none false 0 : Game F).player

/-- C15 as stated: for a game played with a sheet of `imgW` by `imgH` pixels
(so the actor's frame height and scale are the constructor's), after
`resetGame()` the actor's position, velocity, grounded flag, jump count, flip
substate and frame lock are those of the actor placed at start-up. -/
def ResetsToSpawn (imgW imgH : Int) (now : Nat) (g : Game F) : Prop :=
  g.player.frameH = imgH / 3 → g.player.scale = 3.0 →
    (resetGame now g).player.x = (spawnPlayer imgW imgH : Sprite F).x ∧
    (resetGame now g).player.y = (spawnPlayer imgW imgH : Sprite F).y ∧
    (resetGame now g).player.velX = (spawnPlayer imgW imgH : Sprite F).velX ∧
    (resetGame now g).player.velY = (spawnPlayer imgW imgH : Sprite F).velY ∧
    (resetGame now g).player.onGround = (spawnPlayer imgW imgH : Sprite F).onGround ∧
    (resetGame now g).player.jumpCount = (spawnPlayer imgW imgH : Sprite F).jumpCount ∧
    (resetGame now g).player.flipping = (spawnPlayer imgW imgH : Sprite F).flipping ∧
    (resetGame now g).player.flipAngle = (spawnPlayer imgW imgH : Sprite F).flipAngle ∧
    (resetGame now g).player.flipType = (spawnPlayer imgW imgH : Sprite F).flipType ∧
    (resetGame now g).player.frameLock = (spawnPlayer imgW imgH : Sprite F).frameLock

/-- The keyboard state with only `D` down. -/
def keyD : Keys := { a := false, d := true }

/-- The game started with a player sheet of 800 by 300 pixels (frames of 100 by
100, render size 300 by 300), after one frame update at tick 16 with `D` held. -/
def walkedGame : Game ℚ :=
  frameUpdate (fun v => v) (fun v => v) 0 16 (1 / 60) keyD
    (Game.initial 800 300 none none false 0)

/-- Shots fired one after the other with no frame update in between: one
`spawnKnife(dir)` call per entry, at the tick and with the direction given. -/
def fire : Game F → List (Nat × Int) → Game F
  | g, [] => g
  | g, (t, d) :: rest => fire (spawnKnife t d g) rest

/-- C13 as stated: with unlimited mode off and a full clip, `KNIFE_CLIP` shots
leave `clipKnives = 0`, one more shot spawns no projectile, and the frame update
at tick `now` restores no ammo while less than `KNIFE_RECHARGE_MS` has elapsed
since the last of those shots (tick `tLast`) and restores exactly one unit once
it has. -/
def AmmoConservation (sqrt cos : F → F) (pi : F) (shots : List (Nat × Int)) (tLast : Nat)
    (extra : Nat × Int) (now : Nat) (dt : F) (keys : Keys) (g : Game F) : Prop :=
  g.KNIFE_UNLIMITED = false → g.gameOver = false → g.texKnife.isSome = true →
  g.clipKnives = KNIFE_CLIP → (shots.length : Int) = KNIFE_CLIP →
  (∀ s ∈ shots, s.1 ≤ tLast) → tLast ≤ now →
    (fire g shots).clipKnives = 0 ∧
    (spawnKnife extra.1 extra.2 (fire g shots)).knives = (fire g shots).knives ∧
    (now - tLast < KNIFE_RECHARGE_MS →
      (frameUpdate sqrt cos pi now dt keys (fire g shots)).clipKnives = 0) ∧
    (now - tLast ≥ KNIFE_RECHARGE_MS →
      (frameUpdate sqrt cos pi now dt keys (fire g shots)).clipKnives = 1)

/-- The game started at tick `0` with an 800 by 300 player sheet and a 10 by 10
knife texture. -/
def armedGame : Game ℚ := Game.initial 800 300 (some (10, 10)) none false 0

/-- Three shots at tick 5000. -/
def volley : List (Nat × Int) := [(5000, 1), (5000, 1), (5000, 1)]

/-- The bookkeeping of an enemy is consistent, as `spawnAvocado` creates it and
every frame keeps it: `counted` is set only on a split enemy, and an enemy that
is not split has positive hit points. -/
def Avocado.Sound (a : Avocado F) : Prop :=
  (a.counted = true → a.split = true) ∧ (a.split = false → 0 < a.hp)

/-- What can happen to one enemy `a` during the frame update, `b` being the same
enemy afterwards: its size is kept; once split it stays split with the same hit
points, `counted` flag and display deadline; it loses no more hit points than
it had; if it becomes split its hit points are zero or below and it is counted;
an enemy of size zero is not split by a hit; and consistent bookkeeping stays
consistent. -/
structure Avocado.Fate (a b : Avocado F) : Prop where
  w : b.w = a.w
  h : b.h = a.h
  stays : a.split = true →
    b.split = true ∧ b.hp = a.hp ∧ b.counted = a.counted ∧ b.splitUntilMS = a.splitUntilMS
  fresh : a.split = false → b.split = true → b.hp ≤ 0 ∧ b.counted = true
  hp : b.hp ≤ a.hp
  idle : (a.w = 0 ∨ a.h = 0) → b.split = a.split
  sound : a.Sound → b.Sound

/-- The number of split enemies in a list. -/
def splitCount (l : List (Avocado F)) : Int := (l.countP (fun a => a.split) : Nat)

/-- The number of enemies that are split in the second list and were not in the
first, the lists being matched position by position. -/
def newlySplit (old new : List (Avocado F)) : Int :=
  ((old.zip new).countP (fun p => !p.1.split && p.2.split) : Nat)

/-- The enemy is still in the list after a frame update at tick `now` of a game
that is not over: its split display has not expired and its size is not zero
(lines 786 and 819). -/
def keptAvocado (now : Nat) (a : Avocado F) : Bool :=
  !(a.split && decide (now ≥ a.splitUntilMS)) && !(decide (a.w = 0) || decide (a.h = 0))

/-- Two states of an enemy with the same size, hit points, split flag, display
deadline and `counted` flag. -/
def Avocado.SameBook (a b : Avocado F) : Prop :=
  b.w = a.w ∧ b.h = a.h ∧ b.hp = a.hp ∧ b.split = a.split ∧ b.counted = a.counted ∧
    b.splitUntilMS = a.splitUntilMS

/-- The test of the compacting pass (line 819): the enemy's size is not zero. -/
def Avocado.nonzero (a : Avocado F) : Bool := !(decide (a.w = 0) || decide (a.h = 0))

/-- An enemy as `spawnAvocado` creates it (two hit points, not split, not
counted), of size 40 by 40 at `(1200, 902)`. -/
def freshAvocado : Avocado ℚ :=
  { x := 1200, y := 902, vx := 0, vy := 0, w := 40, h := 40, hp := AVOCADO_HP, split := false
    splitUntilMS := 0, lastTouchDmgMS := 0, counted := false }

/-- A knife in flight, of size 39 by 39 at `(1190, 910)`, overlapping
`freshAvocado`. -/
def flyingKnife : Knife ℚ :=
  { x := 1190, y := 910, vx := 3, vy := 0, w := 39, h := 39, bornMS := 0, active := true
    angleDeg := 0, spinDPS := 720, dir := 1 }

/-- A game with one fresh enemy and three knives on top of it. -/
def sliceGame : Game ℚ :=
  { idleGame ℚ with
    knives := [flyingKnife, flyingKnife, flyingKnife]
    avocados := [freshAvocado] }

/-- The states the program can be in at the end of an iteration of its main
loop: the start-up state, and the state after one more iteration with any tick,
queued events and keyboard state. -/
inductive Reachable (sqrt cos : F → F) (pi : F) : Game F → Prop
  | start (imgW imgH : Int) (texKnife texAvo : Option (Int × Int)) (deathSnd : Bool) (now : Nat) :
      Reachable sqrt cos pi (Game.initial imgW imgH texKnife texAvo deathSnd now)
  | loop (nowTick : Nat) (events : List (Ambient × Event)) (keys : Keys) {g : Game F} :
      Reachable sqrt cos pi g →
      Reachable sqrt cos pi (loopIteration sqrt cos pi nowTick events keys g)

/-- The tangential velocity `vtan` of the Latched step as first computed (lines
735-737), before pump and reel scaling. -/
def latchedVtan (sqrt : F → F) (player : Sprite F) (web : Web F) : F :=
  let rn := latchedRadial sqrt player web
  let txv := -rn.2
  let tyv := rn.1
  player.velX * txv + player.velY * tyv

/-- The amount the pump adds to `vtan` (lines 750-752). -/
def pumpIncrement (sqrt : F → F) (moon : Bool) (dt : F) (player : Sprite F) (web : Web F) : F :=
  let rn := latchedRadial sqrt player web
  let g := gravity F moon
  let bias := 1.0 - |rn.2|
  web.pumpGain * g * dt * (0.5 + 0.5 * bias)

/-- The factor by which lines 755-760 multiply `vtan`, for the value `lastL` of
the function-local static on entry and the rope length `L` of this frame: the
clamped ratio when the `if` of line 757 is taken, `1` when it is not. -/
def reelScale (lastL L : F) : F :=
  let lastL := if lastL < 0.0 then L else lastL
  if L < lastL * 0.999 then max 0.5 (min 2.0 (lastL / L)) else 1

/-- The game `g` with the pump flag of the grapple set to `b` (what pressing and
releasing a shift key does, lines 605 and 623). -/
def withPump (b : Bool) (g : Game F) : Game F := { g with web := { g.web with pump := b } }

/-- C18 as stated (the comparison of speeds): in a Latched held frame, the speed
the step leaves on the actor with pump held is at least the speed the same step
leaves without pump. -/
def PumpAddsSpeed (dt : ℝ) (g : Game ℝ) : Prop :=
  g.web.state = WebState.Latched → g.web.rmbHeld = true →
    playerSpeed Real.sqrt (latchedPhase Real.sqrt dt (withPump false g)).player
      ≤ playerSpeed Real.sqrt (latchedPhase Real.sqrt dt (withPump true g)).player

/-- The player of render size 300 by 300 at `(0, 654)`, whose grapple attachment
point is `(234, 753)`, moving with velocity `(10, 0)`; the grapple Latched and
held on the anchor `(234, 653)` straight above it at rope length `100`, with
the given damping coefficient and pump flag and no reel input; `lastL` is the
value the function-local static holds on entry to the frame. -/
def swingGame (F : Type) [LinearOrderedField F] (lastL damping : F) (pump : Bool) : Game F :=
  { grappleGame F 234 653 100 true false with
    player := { (grappleGame F 234 653 100 true false).player with velX := 10 }
    web := { (grappleGame F 234 653 100 true false).web with damping := damping, pump := pump }
    lastL := lastL }

/-- Consecutive iterations of the main loop with no input event queued; one
entry per iteration: the tick and the keyboard state. -/
def runQuiet (sqrt cos : F → F) (pi : F) : Game F → List (Nat × Keys) → Game F
  | g, [] => g
  | g, (t, k) :: rest => runQuiet sqrt cos pi (loopIteration sqrt cos pi t [] k g) rest

/-- The player of render size 300 by 300 at `(0, 654)` right after a cast on the
point `(234, 453)` of a platform, 300 above the attachment point: the grapple
Shooting and held, `curLen = 0`, `targetLen = 300`. -/
def shootingGame (F : Type) [LinearOrderedField F] : Game F :=
  { grappleGame F 234 453 300 true false with
    web := { (grappleGame F 234 453 300 true false).web with
      state := WebState.Shooting, curLen := 0.0 } }

/-- Tile `t` passes the tests of lines 274-276 of the call
`s.handleInput moon now cos pi keys tiles inputEnabled`, the step cap of line
277 left out: it overlaps the collision box horizontally, `velY >= 0` after
gravity is added, and its top lies between the box's bottom before the step
(`+ EPS`) and after the step (`- EPS`). -/
def Sprite.bracketed (s : Sprite F) (moon : Bool) (now : Nat) (keys : Keys)
    (inputEnabled : Bool) (t : Tile) : Prop :=
  let s1 := Sprite.moveAndAnimate s now keys inputEnabled
  let cPrev := Sprite.collisionRect s1
  let s3 := Sprite.integrate s1 (gravity F moon)
  let cNow := Sprite.collisionRect s3
  (cNow.x + cNow.w > t.rect.x ∧ cNow.x < t.rect.x + t.rect.w) ∧ s3.velY ≥ 0.0 ∧
  (((cPrev.y + cPrev.h : Int) : F) ≤ (t.rect.y : F) + EPS F ∧
    ((cNow.y + cNow.h : Int) : F) ≥ (t.rect.y : F) - EPS F)

/-- The vertical travel `nowBottom - prevBottom` of the collision box in the call
`s.handleInput moon now cos pi keys tiles inputEnabled`. -/
def Sprite.travel (s : Sprite F) (moon : Bool) (now : Nat) (keys : Keys)
    (inputEnabled : Bool) : F :=
  let s1 := Sprite.moveAndAnimate s now keys inputEnabled
  let cPrev := Sprite.collisionRect s1
  let s3 := Sprite.integrate s1 (gravity F moon)
  let cNow := Sprite.collisionRect s3
  ((cNow.y + cNow.h : Int) : F) - ((cPrev.y + cPrev.h : Int) : F)

/-- The vertical velocity after gravity is added in the call
`s.handleInput moon now cos pi keys tiles inputEnabled`. -/
def Sprite.fallSpeed (s : Sprite F) (moon : Bool) (now : Nat) (keys : Keys)
    (inputEnabled : Bool) : F :=
  (Sprite.integrate (Sprite.moveAndAnimate s now keys inputEnabled) (gravity F moon)).velY

/-- A sprite of render size 402 by 102 at `y = 0` falling at `velY = 1000`: its
collision-box bottom goes from `98` to `1098` in one step. -/
def plungingSprite : Sprite ℚ := Sprite.sample 134 34 0 0 1000 false 0

/-- The part of the grapple hold invariant that holds after every event handler
and every phase of the frame update, not only at the end of a frame: a recorded
hold implies a grapple that is not Idle, and the actor's frame lock is set
exactly while the hold is recorded. -/
def Game.HoldLinked (g : Game F) : Prop :=
  (g.web.rmbHeld = true → g.web.state ≠ WebState.None) ∧ g.player.frameLock = g.web.rmbHeld

/-- A click at window position `(530, 857)` at tick 16. -/
def groundClick : Ambient := { now := 16, shift := false, mx := 530, my := 857, rand := 0 }

/-- The start-up state for a player sheet of 800 by 300 pixels (render size 300
by 300) with no knife or enemy texture, entered at tick 0. -/
def startGame (F : Type) [LinearOrderedField F] [FloorRing F] : Game F :=
  Game.initial 800 300 none none false 0

/-- The state after the first iteration of the main loop from `startGame`, at
tick 16, in which a right click at `groundClick` was queued. -/
def castGame (F : Type) [LinearOrderedField F] [FloorRing F] (sqrt cos : F → F) (pi : F) :
    Game F :=
  loopIteration sqrt cos pi 16 [(groundClick, Event.mouseButtonDown MouseButton.right)] noKeys
    (startGame F)

/-- Rounding of a rational to the nearest integer, a tie going to the even one. -/
def roundEven (q : ℚ) : Int :=
  let f := Int.floor q
  let r := q - (f : ℚ)
  if r < 1 / 2 then f
  else if 1 / 2 < r then f + 1
  else if f % 2 = 0 then f else f + 1

/-- The exponent `e` of the binade of `x` in binary32: `2 ^ e ≤ |x| < 2 ^ (e + 1)`,
and `-126` in the subnormal range. -/
def binade (x : ℚ) : Int := if x = 0 then -126 else max (-126) (Int.log 2 |x|)

/-- The spacing of the binary32 values in the binade of `x` (24-bit significand). -/
def ulp32 (x : ℚ) : ℚ := (2 : ℚ) ^ (binade x - 23)

/-- IEEE 754 binary32 rounding to nearest, ties to even, of a rational (the
value a `float` operation stores for the exact result `x`).  Overflow to
infinity is not modelled. -/
def fl32 (x : ℚ) : ℚ := (roundEven (x / ulp32 x) : ℚ) * ulp32 x

/-- What the theorems on `float` arithmetic use of the rounding `fl` that a
`float` operation applies to its exact result: the rounded results are `float`
values, rounding is monotone, the integers of magnitude up to `2 ^ 24` and the
half-integers of magnitude below `2 ^ 23` are `float` values, and the relative
error in the normal range is at most `2 ^ (-24)`.  Binary32 rounding `fl32` has
these properties, and so has exact arithmetic (`fl` the identity). -/
structure Float32Like (fl : F → F) : Prop where
  idem : ∀ x, fl (fl x) = fl x
  mono : ∀ x y, x ≤ y → fl x ≤ fl y
  int_fixed : ∀ n : Int, |n| ≤ 16777216 → fl (n : F) = (n : F)
  half_fixed : ∀ n : Int, -8388608 ≤ n → n < 8388608 → fl ((n : F) + 1 / 2) = (n : F) + 1 / 2
  rel_err : ∀ x : F, 1 / 2 ^ 126 ≤ x → (1 - 1 / 16777216) * x ≤ fl x

/-- The gravity constant as a `float`: `GRAVITY_MOON = 0.18f` is the binary32
value nearest to `0.18`. -/
def gravityFl (fl : F → F) (moon : Bool) : F := fl (gravity F moon)

/-- Line 251 of `Sprite::handleInput` in `float` arithmetic: every `float`
result is rounded by `fl`. -/
def Sprite.moveFl (fl : F → F) (s : Sprite F) (dx : F) : Sprite F :=
  { s with
    x := fl (s.x + fl (dx * s.speed))
    facing := if dx < 0 then SDL_RendererFlip.SDL_FLIP_HORIZONTAL
              else if dx > 0 then SDL_RendererFlip.SDL_FLIP_NONE else s.facing }

/-- Lines 249-260 of `Sprite::handleInput` in `float` arithmetic. -/
def Sprite.moveAndAnimateFl (fl : F → F) (s : Sprite F) (now : Nat) (keys : Keys)
    (inputEnabled : Bool) : Sprite F :=
  Sprite.animate (Sprite.moveFl fl s (Sprite.inputDx keys inputEnabled)) now
    (Sprite.inputDx keys inputEnabled)

/-- Line 266 of `Sprite::handleInput` in `float` arithmetic:
`velY += g; y += velY; onGround = false;`. -/
def Sprite.integrateFl (fl : F → F) (s : Sprite F) (g : F) : Sprite F :=
  { s with velY := fl (s.velY + g), y := fl (s.y + fl (s.velY + g)), onGround := false }

/-- One iteration of the tile loop of `Sprite::handleInput` (lines 273-281) in
`float` arithmetic: `t.rect.y` is converted to `float` before `EPS` is added or
subtracted, and both sides of the step-cap comparison are rounded. -/
def Sprite.landBodyFl (fl : F → F) (velY prevBottom nowBottom : F) (cNow : SDL_Rect)
    (acc : Sprite.Landing) (i : Nat) (t : Tile) : Sprite.Landing :=
  if !(decide (cNow.x + cNow.w > t.rect.x) && decide (cNow.x < t.rect.x + t.rect.w)) then acc
  else if velY ≥ 0.0 then
    if prevBottom ≤ fl (fl (t.rect.y : F) + EPS F) ∧ nowBottom ≥ fl (fl (t.rect.y : F) - EPS F) then
      if fl (nowBottom - prevBottom) ≤ fl (MAX_STEP F + max 0.0 velY) then
        if t.rect.y > acc.bestTop then
          { landed := true, bestTop := t.rect.y, landedIndex := (i : Int) }
        else acc
      else acc
    else acc
  else acc

/-- The tile loop of `Sprite::handleInput` (line 272) in `float` arithmetic, run
over the tiles from index `i` on. -/
def Sprite.landLoopFl (fl : F → F) (velY prevBottom nowBottom : F) (cNow : SDL_Rect) :
    List Tile → Nat → Sprite.Landing → Sprite.Landing
  | [], _, acc => acc
  | t :: ts, i, acc =>
      Sprite.landLoopFl fl velY prevBottom nowBottom cNow ts (i + 1)
        (Sprite.landBodyFl fl velY prevBottom nowBottom cNow acc i t)

/-- Line 283 of `Sprite::handleInput` in `float` arithmetic: the landing snap
`y = (float)bestTop - (float)(collisionRect().h + HITBOX_SHRINK_Y)`. -/
def Sprite.snapFl (fl : F → F) (s : Sprite F) (r : Sprite.Landing) : Sprite F :=
  if r.landed then
    { s with
      y := fl (fl (r.bestTop : F) - fl (((Sprite.collisionRect s).h + HITBOX_SHRINK_Y : Int) : F))
      velY := 0.0, onGround := true, jumpCount := 0, flipping := false, flipAngle := 0.0 }
  else s

/-- Method `Sprite::handleInput` in `float` arithmetic: every `float` result
(sums, differences, products and the conversions of `int` values, lines 249-283)
is rounded by `fl`.  The literals `0.0f`, `0.5f`, `24.0f` are `float` values.
`updateFlip` computes in `double`; its test `t >= 1.0` on a tick difference
divided by `600.0` comes out the same with and without rounding, and it writes
only the flip fields.  With `fl` the identity this is `Sprite.handleInput`. -/
def Sprite.handleInputFl (fl : F → F) (s : Sprite F) (moon : Bool) (now : Nat) (cos : F → F)
    (pi : F) (keys : Keys) (tiles : List Tile) (inputEnabled : Bool) : Sprite F × Int :=
  let s1 := Sprite.moveAndAnimateFl fl s now keys inputEnabled
  let g : F := gravityFl fl moon
  let cPrev := Sprite.collisionRect s1
  let prevBottom : F := fl ((cPrev.y + cPrev.h : Int) : F)
  let s3 := Sprite.integrateFl fl s1 g
  let cNow := Sprite.collisionRect s3
  let nowBottom : F := fl ((cNow.y + cNow.h : Int) : F)
  let r := Sprite.landLoopFl fl s3.velY prevBottom nowBottom cNow tiles 0
    { landed := false, bestTop := INT_MIN, landedIndex := -1 }
  (Sprite.updateFlip (Sprite.snapFl fl s3 r) now cos pi, r.landedIndex)

/-- The conjunction of the tests a tile must pass in the loop body of
`Sprite::handleInput` in `float` arithmetic (lines 274-277) before its top is
compared with `bestTop`. -/
def Sprite.qualifiesFl (fl : F → F) (velY prevBottom nowBottom : F) (cNow : SDL_Rect)
    (t : Tile) : Prop :=
  (cNow.x + cNow.w > t.rect.x ∧ cNow.x < t.rect.x + t.rect.w) ∧ velY ≥ 0.0 ∧
  (prevBottom ≤ fl (fl (t.rect.y : F) + EPS F) ∧ nowBottom ≥ fl (fl (t.rect.y : F) - EPS F)) ∧
  fl (nowBottom - prevBottom) ≤ fl (MAX_STEP F + max 0.0 velY)

/-- Tile `t` is a landing candidate of the call
`s.handleInputFl fl moon now cos pi keys tiles inputEnabled`. -/
def Sprite.landingCandidateFl (fl : F → F) (s : Sprite F) (moon : Bool) (now : Nat)
    (keys : Keys) (inputEnabled : Bool) (t : Tile) : Prop :=
  let s1 := Sprite.moveAndAnimateFl fl s now keys inputEnabled
  let cPrev := Sprite.collisionRect s1
  let s3 := Sprite.integrateFl fl s1 (gravityFl fl moon)
  let cNow := Sprite.collisionRect s3
  Sprite.qualifiesFl fl s3.velY (fl ((cPrev.y + cPrev.h : Int) : F))
    (fl ((cNow.y + cNow.h : Int) : F)) cNow t

/-- C5 as stated, in `float` arithmetic with rounding `fl`: whenever
`Sprite::handleInput` returns an index `>= 0`, that index names a tile of the
list, the bottom edge of the collision box after the call equals that tile's
top, and `velY = 0`, `onGround = true`, `jumpCount = 0`, `flipping = false`,
`flipAngle = 0`. -/
def LandingPostcondition (fl : F → F) (s : Sprite F) (moon : Bool) (now : Nat) (cos : F → F)
    (pi : F) (keys : Keys) (tiles : List Tile) (inputEnabled : Bool) : Prop :=
  0 ≤ (Sprite.handleInputFl fl s moon now cos pi keys tiles inputEnabled).2 →
  ∃ t : Tile,
    tiles[((Sprite.handleInputFl fl s moon now cos pi keys tiles inputEnabled).2).toNat]?
      = some t ∧
    ((Sprite.handleInputFl fl s moon now cos pi keys tiles inputEnabled).1.collisionRect.y
      + (Sprite.handleInputFl fl s moon now cos pi keys tiles inputEnabled).1.collisionRect.h
        = t.rect.y) ∧
    (Sprite.handleInputFl fl s moon now cos pi keys tiles inputEnabled).1.velY = 0 ∧
    (Sprite.handleInputFl fl s moon now cos pi keys tiles inputEnabled).1.onGround = true ∧
    (Sprite.handleInputFl fl s moon now cos pi keys tiles inputEnabled).1.jumpCount = 0 ∧
    (Sprite.handleInputFl fl s moon now cos pi keys tiles inputEnabled).1.flipping = false ∧
    (Sprite.handleInputFl fl s moon now cos pi keys tiles inputEnabled).1.flipAngle = 0

/-- A sprite of render size 402 by 102 far below the ground, at `y = 16777000`,
falling at `velY = 300`. -/
def deepSprite : Sprite ℚ := Sprite.sample 134 34 0 16777000 300 false 0

/-- A platform under `deepSprite` whose top `16777217 = 2 ^ 24 + 1` is not a
binary32 value. -/
def deepTile : Tile :=
  { rect := ⟨0, 16777217, 400, 24⟩, isDynamic := true, glowUntilMS := 0 }

/-- C6 as stated, in `float` arithmetic with rounding `fl`: one more
`handleInput` step with zero horizontal input, from an actor at rest on a tile
`t` of the list, leaves `y` unchanged and keeps `onGround = true`,
`jumpCount = 0`. -/
def LandingIdempotentFl (fl : F → F) (s : Sprite F) (t : Tile) (moon : Bool) (now : Nat)
    (cos : F → F) (pi : F) (keys : Keys) (tiles : List Tile) (inputEnabled : Bool) : Prop :=
  t ∈ tiles → s.AtRestOn t → (inputEnabled = false ∨ (keys.a = false ∧ keys.d = false)) →
    (Sprite.handleInputFl fl s moon now cos pi keys tiles inputEnabled).1.y = s.y ∧
    (Sprite.handleInputFl fl s moon now cos pi keys tiles inputEnabled).1.onGround = true ∧
    (Sprite.handleInputFl fl s moon now cos pi keys tiles inputEnabled).1.jumpCount = 0

/-- An enemy of size 40 by 40 over the seam of the step of `stairTiles`, falling
at `vy = 10` with its bottom edge at `98`. -/
def stairAvocado : Avocado ℚ :=
  { x := 180, y := 58, vx := 0, vy := 10, w := 40, h := 40, hp := AVOCADO_HP, split := false
    splitUntilMS := 0, lastTouchDmgMS := 0, counted := false }

/-- The tile loop of the lambda `avocadoAI` (lines 557-565) in `float`
arithmetic: every `float` result is rounded by `fl`. -/
def avocadoTilesFl (fl : F → F) (prevY : F) :
    List Tile → Avocado F × SDL_Rect × Bool → Avocado F × SDL_Rect × Bool
  | [], acc => acc
  | t :: ts, (a, aRect, grounded) =>
    if !overlapX aRect t.rect then avocadoTilesFl fl prevY ts (a, aRect, grounded)
    else
      let prevBottom : F := fl (prevY + fl (a.h : F))
      let nowBottom : F := fl (a.y + fl (a.h : F))
      if a.vy ≥ 0.0 ∧ prevBottom ≤ fl (fl (t.rect.y : F) + EPS F)
          ∧ nowBottom ≥ fl (fl (t.rect.y : F) - EPS F) then
        if fl (nowBottom - prevBottom) ≤ fl (MAX_STEP F + max 0.0 a.vy) then
          let a1 := { a with y := fl ((t.rect.y - a.h : Int) : F), vy := 0.0 }
          avocadoTilesFl fl prevY ts (a1, { aRect with y := toInt a1.y }, true)
        else avocadoTilesFl fl prevY ts (a, aRect, grounded)
      else avocadoTilesFl fl prevY ts (a, aRect, grounded)

/-- The lambda `avocadoAI` (lines 549-567) in `float` arithmetic. -/
def avocadoAIFl (fl : F → F) (moon : Bool) (player : Sprite F) (a : Avocado F)
    (allTiles : List Tile) : Avocado F :=
  let a1 := { a with vy := fl (a.vy + gravityFl fl moon) }
  let playerCenterX := fl (player.x + fl (fl (player.dst.w : F) * 0.5))
  let aCenterX : F := fl (a1.x + fl (fl (a1.w : F) * 0.5))
  let dir : F := if playerCenterX > aCenterX then 1.0 else -1.0
  let targetVX : F := fl (fl (AVOCADO_WALK_SPEED F) * dir)
  let prevY := a1.y
  let a2 := { a1 with y := fl (a1.y + a1.vy) }
  let aRect : SDL_Rect := { x := toInt a2.x, y := toInt a2.y, w := a2.w, h := a2.h }
  let r := avocadoTilesFl fl prevY allTiles (a2, aRect, false)
  let a3 := r.1
  let grounded := r.2.2
  let a4 := if grounded && !a3.split then { a3 with vx := targetVX }
            else { a3 with vx := fl (a3.vx * fl 0.97) }
  { a4 with x := fl (a4.x + a4.vx) }

/-- The tiles of `stairTiles` with the two platforms in the other order. -/
def stairTilesRev : List Tile := [groundTile, platformAt 264 116, platformAt 136 112]

/-- The tests of lines 794-796: the knife rectangle `kr` registers a hit on the
enemy `a` (its size is not zero and the rectangles intersect). -/
def registers (kr : SDL_Rect) (a : Avocado F) : Bool :=
  !(decide (a.w = 0) || decide (a.h = 0)) &&
    SDL_HasIntersection kr { x := toInt a.x, y := toInt a.y, w := a.w, h := a.h }

/-- The rectangle `kr` of a knife (line 792). -/
def Knife.rect (k : Knife F) : SDL_Rect := { x := toInt k.x, y := toInt k.y, w := k.w, h := k.h }

/-- The enemies and the score after the body of the knife loop (lines 791-803)
has run for the knife `k`: an inactive knife is skipped, an active one runs the
enemy loop once. -/
def knifeHit (now : Nat) (st : List (Avocado F) × Int) (k : Knife F) : List (Avocado F) × Int :=
  if k.active then
    ((hitAvocados now k.rect st.1).1, st.2 + (hitAvocados now k.rect st.1).2.2)
  else st

/-- The state in which the frame update enters the hit detection of line 790:
the phases of lines 678-788 have run. -/
def hitLoopEntry (sqrt cos : F → F) (pi : F) (now : Nat) (dt : F) (keys : Keys) (g : Game F) :
    Game F :=
  avocadoPhase now g.allTiles (releasePhase sqrt (latchedPhase sqrt dt (shootingPhase dt
    (knifePhase now (rechargePhase now (playerPhase now cos pi keys g))))))

/-- Lines 708-714, the Shooting step, in `float` arithmetic: the product and the
sum of line 709 are each rounded by `fl`. -/
def shootingStepFl (fl : F → F) (dt : F) (w : Web F) : Web F :=
  if w.state = WebState.Shooting then
    let w1 := { w with curLen := fl (w.curLen + fl (w.shootSpeed * dt)) }
    if w1.curLen ≥ w1.targetLen then
      { w1 with curLen := w1.targetLen, state := WebState.Latched }
    else w1
  else w

/-- Lines 708-714 in `float` arithmetic on the whole game state. -/
def shootingPhaseFl (fl : F → F) (dt : F) (g : Game F) : Game F :=
  { g with web := shootingStepFl fl dt g.web }

/-- One frame update (lines 678-821) with the Shooting step in `float`
arithmetic.  The other phases are those of `frameUpdate`: they do not assign
`curLen`, and what they do to the grapple's state depends on the state and on
`rmbHeld` only, not on any `float` value. -/
def frameUpdateFl (fl : F → F) (sqrt cos : F → F) (pi : F) (now : Nat) (dt : F) (keys : Keys)
    (g : Game F) : Game F :=
  let allTiles := g.allTiles
  let g := playerPhase now cos pi keys g
  let g := rechargePhase now g
  let g := knifePhase now g
  let g := shootingPhaseFl fl dt g
  let g := latchedPhase sqrt dt g
  let g := releasePhase sqrt g
  let g := avocadoPhase now allTiles g
  let g := hitPhase now g
  let g := contactPhase now g
  let g := prunePhase g
  gameOverPhase g

/-- The frame time of line 577 in `float` arithmetic: the constants `1.0f/240.0f`
and `1.0f/30.0f`, the conversion of the tick difference and its quotient by
`1000.0f` are each rounded by `fl`. -/
def frameDtFl (fl : F → F) (nowTick prevTick : Nat) : F :=
  max (fl (1.0 / 240.0))
    (min (fl (1.0 / 30.0)) (fl (fl ((u32sub nowTick prevTick : Nat) : F) / 1000.0)))

/-- One iteration of the main loop (lines 576-821) with the frame time and the
Shooting step in `float` arithmetic. -/
def loopIterationFl (fl : F → F) (sqrt cos : F → F) (pi : F) (nowTick : Nat)
    (events : List (Ambient × Event)) (keys : Keys) (g : Game F) : Game F :=
  let dt : F := frameDtFl fl nowTick g.prevTick
  let g := { g with dt := dt, prevTick := nowTick }
  let g := events.foldl (fun acc ev => handleEvent sqrt ev.1 ev.2 acc) g
  frameUpdateFl fl sqrt cos pi nowTick g.dt keys g

/-- Consecutive iterations of the main loop; one entry per iteration: the tick,
the queued events and the keyboard state. -/
def runFl (fl : F → F) (sqrt cos : F → F) (pi : F) :
    Game F → List (Nat × List (Ambient × Event) × Keys) → Game F
  | g, [] => g
  | g, (t, evs, k) :: rest =>
    runFl fl sqrt cos pi (loopIterationFl fl sqrt cos pi t evs k g) rest

/-- The event leaves a cast in flight alone: it is not the reset key `r`, nor a
press or release of the right mouse button. -/
def Event.keepsCast : Event → Bool
  | Event.keyDown Keycode.r => false
  | Event.mouseButtonDown MouseButton.right => false
  | Event.mouseButtonUp MouseButton.right => false
  | _ => true

/-- The grapple `b` carries the cast of `a`: same state, `rmbHeld` and
`shootSpeed`, and while Shooting the same `curLen` and `targetLen`. -/
def Web.SameCast (a b : Web F) : Prop :=
  b.state = a.state ∧ b.rmbHeld = a.rmbHeld ∧ b.shootSpeed = a.shootSpeed ∧
  (a.state = WebState.Shooting → b.curLen = a.curLen ∧ b.targetLen = a.targetLen)

/-- The bound of C19 as stated, in `float` arithmetic with rounding `fl`: a held
cast (`0 <= curLen`, positive `shootSpeed` and `targetLen`) is Latched after any
run of `ceil(targetLen * 240 / shootSpeed)` or more iterations of the main loop
whose events leave the cast alone. -/
def LatchesWithinBound (fl : F → F) (sqrt cos : F → F) (pi : F) (g : Game F)
    (frames : List (Nat × List (Ambient × Event) × Keys)) : Prop :=
  g.web.state = WebState.Shooting → g.web.rmbHeld = true → 0 ≤ g.web.curLen →
  0 < g.web.shootSpeed → 0 < g.web.targetLen →
  (∀ f ∈ frames, ∀ ev ∈ f.2.1, ev.2.keepsCast = true) →
  Nat.ceil (g.web.targetLen * 240 / g.web.shootSpeed) ≤ frames.length →
  (runFl fl sqrt cos pi g frames).web.state = WebState.Latched

/-- The player of render size 300 by 300 at `(0, 654)` right after a cast on the
point `(234, 578)` of a platform, 175 above the attachment point: the grapple
Shooting and held, `curLen = 0`, `targetLen = 175`. -/
def shortCastGame (F : Type) [LinearOrderedField F] : Game F :=
  { grappleGame F 234 578 175 true false with
    web := { (grappleGame F 234 578 175 true false).web with
      state := WebState.Shooting, curLen := 0.0 } }

/-- A sprite of render size 402 by 102 standing at `y = 8388609 = 2 ^ 23 + 1`:
its collision box has its bottom at `8388707`. -/
def farSprite : Sprite ℚ := Sprite.sample 134 34 0 8388609 0 true 0

/-- Two adjacent platforms far below the ground, with tops `8388707` and
`8388708`. -/
def farTiles : List Tile :=
  [{ rect := ⟨100, 8388707, 128, 24⟩, isDynamic := true, glowUntilMS := 0 },
   { rect := ⟨200, 8388708, 128, 24⟩, isDynamic := true, glowUntilMS := 0 }]

end Model

/-! ## Auxiliary lemmas -/

section Lemmas

variable {F : Type} [LinearOrderedField F] [FloorRing F]

lemma toInt_intCast (n : Int) : toInt ((n : F)) = n := by
  unfold toInt
  split <;> simp

lemma toInt_of_floor {v : F} {n : Int} (h0 : 0 ≤ v) (h1 : (n : F) ≤ v) (h2 : v < (n : F) + 1) :
    toInt v = n := by
  unfold toInt
  rw [if_pos h0, Int.floor_eq_iff]
  exact ⟨h1, h2⟩

lemma toInt_of_ceil {v : F} {n : Int} (h0 : v < 0) (h1 : (n : F) - 1 < v) (h2 : v ≤ (n : F)) :
    toInt v = n := by
  unfold toInt
  rw [if_neg (not_le.mpr h0), Int.ceil_eq_iff]
  exact ⟨h1, h2⟩

namespace Sprite

omit [FloorRing F] in
lemma landBody_pos (velY pb nb : F) (cNow : SDL_Rect) (acc : Landing) (i : Nat) (t : Tile)
    (h : qualifies velY pb nb cNow t ∧ t.rect.y > acc.bestTop) :
    landBody velY pb nb cNow acc i t =
      { landed := true, bestTop := t.rect.y, landedIndex := (i : Int) } := by
  obtain ⟨⟨h1, h2, h3, h4⟩, h5⟩ := h
  unfold landBody
  split_ifs with g1
  · exfalso
    simp only [Bool.not_eq_true, Bool.not_eq_eq_eq_not, Bool.not_true, Bool.and_eq_false_imp,
      decide_eq_true_eq, decide_eq_false_iff_not] at g1
    exact g1 h1.1 h1.2
  · rfl

omit [FloorRing F] in
lemma landBody_neg (velY pb nb : F) (cNow : SDL_Rect) (acc : Landing) (i : Nat) (t : Tile)
    (h : ¬ (qualifies velY pb nb cNow t ∧ t.rect.y > acc.bestTop)) :
    landBody velY pb nb cNow acc i t = acc := by
  unfold landBody
  split_ifs with h1 h2 h3 h4 h5
  · rfl
  · exfalso
    apply h
    simp only [Bool.not_eq_true, Bool.not_eq_eq_eq_not, Bool.not_true, Bool.and_eq_false_imp,
      decide_eq_true_eq, decide_eq_false_iff_not, not_forall, not_not, exists_prop] at h1
    exact ⟨⟨h1, h2, h3, h4⟩, h5⟩
  all_goals rfl

omit [FloorRing F] in
/-- Specification of the tile loop: either nothing was selected and no
qualifying tile lies above the incoming `bestTop`, or the selected tile is the
first qualifying tile of largest top. -/
lemma landLoop_spec (velY pb nb : F) (cNow : SDL_Rect) :
    ∀ (ts : List Tile) (i : Nat) (acc : Landing),
      (landLoop velY pb nb cNow ts i acc = acc ∧
        ∀ t ∈ ts, qualifies velY pb nb cNow t → t.rect.y ≤ acc.bestTop) ∨
      (∃ k t, ts[k]? = some t ∧ qualifies velY pb nb cNow t ∧
        landLoop velY pb nb cNow ts i acc =
          { landed := true, bestTop := t.rect.y, landedIndex := ((i + k : Nat) : Int) } ∧
        acc.bestTop < t.rect.y ∧
        ∀ j u, ts[j]? = some u → qualifies velY pb nb cNow u →
          u.rect.y ≤ t.rect.y ∧ (j < k → u.rect.y < t.rect.y)) := by
  intro ts
  induction ts with
  | nil => intro i acc; left; simp [landLoop]
  | cons t ts ih =>
    intro i acc
    simp only [landLoop]
    by_cases hq : qualifies velY pb nb cNow t ∧ t.rect.y > acc.bestTop
    · rw [landBody_pos velY pb nb cNow acc i t hq]
      right
      rcases ih (i + 1) { landed := true, bestTop := t.rect.y, landedIndex := (i : Int) } with
        ⟨hr, hall⟩ | ⟨k, u, hk, hu, hr, hlt, hmax⟩
      · refine ⟨0, t, by simp, hq.1, by simpa using hr, hq.2, ?_⟩
        intro j u hj hu
        cases j with
        | zero =>
          simp at hj
          subst hj
          exact ⟨le_refl _, fun h => absurd h (lt_irrefl _)⟩
        | succ j =>
          simp at hj
          exact ⟨hall u (List.getElem?_mem hj) hu, fun h => absurd h (Nat.not_lt_zero _)⟩
      · refine ⟨k + 1, u, by simpa using hk, hu, ?_, lt_trans hq.2 hlt, ?_⟩
        · rw [hr]
          simp [Nat.add_assoc, Nat.add_comm 1 k]
        · intro j v hj hv
          cases j with
          | zero =>
            simp at hj
            subst hj
            exact ⟨le_of_lt hlt, fun _ => hlt⟩
          | succ j =>
            simp at hj
            exact ⟨(hmax j v hj hv).1, fun h => (hmax j v hj hv).2 (Nat.lt_of_succ_lt_succ h)⟩
    · rw [landBody_neg velY pb nb cNow acc i t hq]
      rcases ih (i + 1) acc with ⟨hr, hall⟩ | ⟨k, u, hk, hu, hr, hlt, hmax⟩
      · left
        refine ⟨hr, ?_⟩
        intro v hv hvq
        rcases List.mem_cons.mp hv with h | h
        · subst h
          by_contra hc
          exact hq ⟨hvq, lt_of_not_ge hc⟩
        · exact hall v h hvq
      · right
        refine ⟨k + 1, u, by simpa using hk, hu, ?_, hlt, ?_⟩
        · rw [hr]
          simp [Nat.add_assoc, Nat.add_comm 1 k]
        · intro j v hj hv
          cases j with
          | zero =>
            simp at hj
            subst hj
            have : t.rect.y ≤ acc.bestTop := by
              by_contra hc
              exact hq ⟨hv, lt_of_not_ge hc⟩
            exact ⟨le_of_lt (lt_of_le_of_lt this hlt), fun _ => lt_of_le_of_lt this hlt⟩
          | succ j =>
            simp at hj
            exact ⟨(hmax j v hj hv).1, fun h => (hmax j v hj hv).2 (Nat.lt_of_succ_lt_succ h)⟩

end Sprite

end Lemmas

/-! ## The collision resolver `Sprite::handleInput` -/

section Kinematics

variable {F : Type} [LinearOrderedField F] [FloorRing F]

lemma toInt_mono {a b : F} (h : a ≤ b) : toInt a ≤ toInt b := by
  unfold toInt
  split_ifs with ha hb hb
  · exact Int.floor_mono h
  · exact absurd (le_trans ha h) hb
  · have h1 : Int.ceil a ≤ 0 := Int.ceil_le.mpr (by exact_mod_cast le_of_lt (not_le.mp ha))
    have h2 : (0 : Int) ≤ Int.floor b := Int.floor_nonneg.mpr hb
    exact le_trans h1 h2
  · exact Int.ceil_mono h

lemma toInt_add_le {y g : F} (h0 : 0 ≤ g) (h1 : g ≤ 1) : toInt (y + g) ≤ toInt y + 1 := by
  unfold toInt
  split_ifs with ha hb hb
  · calc Int.floor (y + g) ≤ Int.floor (y + 1) := Int.floor_mono (by linarith)
      _ = Int.floor y + 1 := Int.floor_add_one y
  · have hy : y < 0 := not_le.mp hb
    have h2 : Int.floor (y + g) ≤ 0 := by
      have : Int.floor (y + g) < 1 := Int.floor_lt.mpr (by push_cast; linarith)
      omega
    have h3 : (-1 : Int) ≤ Int.ceil y := by
      have : ((-1 : Int) : F) ≤ y := by push_cast; linarith
      exact Int.cast_le.mp (le_trans this (Int.le_ceil y))
    omega
  · exact absurd (le_trans hb (by linarith)) ha
  · calc Int.ceil (y + g) ≤ Int.ceil (y + 1) := Int.ceil_mono (by linarith)
      _ = Int.ceil y + 1 := Int.ceil_add_one y

lemma toInt_add_of_whole {y g : F} (hy : y = ((toInt y : Int) : F)) (hy0 : 0 ≤ y) (h0 : 0 ≤ g)
    (h1 : g < 1) : toInt (y + g) = toInt y := by
  apply toInt_of_floor (by linarith)
  · rw [← hy]
    linarith
  · rw [← hy]
    linarith

omit [FloorRing F] in
lemma gravity_pos (moon : Bool) : 0 < gravity F moon := by
  unfold gravity GRAVITY_MOON GRAVITY_NORMAL
  split_ifs <;> norm_num

omit [FloorRing F] in
lemma gravity_lt_one (moon : Bool) : gravity F moon < 1 := by
  unfold gravity GRAVITY_MOON GRAVITY_NORMAL
  split_ifs <;> norm_num

namespace Sprite

omit [LinearOrderedField F] [FloorRing F] in
lemma SameKin.refl (a : Sprite F) : SameKin a a :=
  ⟨rfl, rfl, rfl, rfl, rfl, rfl, rfl, rfl, rfl, rfl, rfl, rfl⟩

omit [LinearOrderedField F] [FloorRing F] in
lemma SameKin.trans {a b c : Sprite F} (h1 : SameKin a b) (h2 : SameKin b c) : SameKin a c :=
  ⟨h1.x.trans h2.x, h1.y.trans h2.y, h1.velX.trans h2.velX, h1.velY.trans h2.velY,
   h1.onGround.trans h2.onGround, h1.jumpCount.trans h2.jumpCount,
   h1.flipping.trans h2.flipping, h1.flipAngle.trans h2.flipAngle,
   h1.frameLock.trans h2.frameLock, h1.frameW.trans h2.frameW, h1.frameH.trans h2.frameH,
   h1.scale.trans h2.scale⟩

lemma updateCrop_sameKin (s : Sprite F) : SameKin (updateCrop s) s :=
  ⟨rfl, rfl, rfl, rfl, rfl, rfl, rfl, rfl, rfl, rfl, rfl, rfl⟩

lemma playAnim_sameKin (s : Sprite F) (now : Nat) (f l r : Int) (speedMS : F) :
    SameKin (playAnim s now f l r speedMS) s ∧ DstStep (playAnim s now f l r speedMS) s := by
  unfold playAnim
  dsimp only
  split_ifs <;>
    first
    | exact ⟨SameKin.refl s, Or.inl rfl⟩
    | exact ⟨⟨rfl, rfl, rfl, rfl, rfl, rfl, rfl, rfl, rfl, rfl, rfl, rfl⟩, Or.inr ⟨rfl, rfl⟩⟩
    | exact ⟨⟨rfl, rfl, rfl, rfl, rfl, rfl, rfl, rfl, rfl, rfl, rfl, rfl⟩, Or.inl rfl⟩

lemma idle_sameKin (s : Sprite F) (now : Nat) (speedMS : F) :
    SameKin (idle s now speedMS) s ∧ DstStep (idle s now speedMS) s := by
  unfold idle
  dsimp only
  split_ifs <;>
    first
    | exact ⟨SameKin.refl s, Or.inl rfl⟩
    | exact ⟨⟨rfl, rfl, rfl, rfl, rfl, rfl, rfl, rfl, rfl, rfl, rfl, rfl⟩, Or.inr ⟨rfl, rfl⟩⟩

lemma animate_sameKin (s : Sprite F) (now : Nat) (dx : F) :
    SameKin (animate s now dx) s ∧ DstStep (animate s now dx) s := by
  unfold animate
  split_ifs
  · exact ⟨⟨rfl, rfl, rfl, rfl, rfl, rfl, rfl, rfl, rfl, rfl, rfl, rfl⟩, Or.inr ⟨rfl, rfl⟩⟩
  · exact ⟨⟨rfl, rfl, rfl, rfl, rfl, rfl, rfl, rfl, rfl, rfl, rfl, rfl⟩, Or.inr ⟨rfl, rfl⟩⟩
  · have h := playAnim_sameKin ({ s with throwPoseUntilMS := 0 }) now 0 7 2 100
    exact ⟨h.1.trans ⟨rfl, rfl, rfl, rfl, rfl, rfl, rfl, rfl, rfl, rfl, rfl, rfl⟩, h.2⟩
  · have h := idle_sameKin ({ s with throwPoseUntilMS := 0 }) now 120
    exact ⟨h.1.trans ⟨rfl, rfl, rfl, rfl, rfl, rfl, rfl, rfl, rfl, rfl, rfl, rfl⟩, h.2⟩


lemma collisionRect_h (s : Sprite F) :
    (collisionRect s).h = if s.dst.h - HITBOX_SHRINK_Y * 2 < 4 then 4 else s.dst.h - HITBOX_SHRINK_Y * 2 :=
  rfl

lemma collisionRect_y (s : Sprite F) : (collisionRect s).y = toInt s.y + HITBOX_SHRINK_Y := rfl

lemma collisionRect_x (s : Sprite F) : (collisionRect s).x = toInt s.x + HITBOX_SHRINK_X := rfl

lemma collisionRect_w (s : Sprite F) :
    (collisionRect s).w = if s.dst.w - HITBOX_SHRINK_X * 2 < 4 then 4 else s.dst.w - HITBOX_SHRINK_X * 2 :=
  rfl

omit [FloorRing F] in
lemma updateFlip_fields (s : Sprite F) (now : Nat) (cos : F → F) (pi : F) :
    (updateFlip s now cos pi).x = s.x ∧ (updateFlip s now cos pi).y = s.y ∧
    (updateFlip s now cos pi).velX = s.velX ∧ (updateFlip s now cos pi).velY = s.velY ∧
    (updateFlip s now cos pi).onGround = s.onGround ∧
    (updateFlip s now cos pi).jumpCount = s.jumpCount ∧
    (updateFlip s now cos pi).frameLock = s.frameLock ∧
    (updateFlip s now cos pi).dst = s.dst := by
  unfold updateFlip
  dsimp only
  split_ifs <;> exact ⟨rfl, rfl, rfl, rfl, rfl, rfl, rfl, rfl⟩

omit [FloorRing F] in
lemma updateFlip_of_not_flipping (s : Sprite F) (now : Nat) (cos : F → F) (pi : F)
    (h : s.flipping = false) : updateFlip s now cos pi = s := by
  unfold updateFlip
  simp [h]


lemma snap_not_landed (s : Sprite F) (r : Landing) (h : r.landed = false) : snap s r = s := by
  unfold snap
  simp [h]

/-- What `handleInput` returns, by cases on whether a tile was selected. -/
lemma handleInput_cases (s : Sprite F) (moon : Bool) (now : Nat) (cos : F → F) (pi : F)
    (keys : Keys) (tiles : List Tile) (inputEnabled : Bool) :
    ((handleInput s moon now cos pi keys tiles inputEnabled).1.x
        = (moveAndAnimate s now keys inputEnabled).x ∧
      (handleInput s moon now cos pi keys tiles inputEnabled).1.dst
        = (moveAndAnimate s now keys inputEnabled).dst ∧
      (handleInput s moon now cos pi keys tiles inputEnabled).1.frameLock
        = (moveAndAnimate s now keys inputEnabled).frameLock ∧
      (handleInput s moon now cos pi keys tiles inputEnabled).1.velX
        = (moveAndAnimate s now keys inputEnabled).velX) ∧
    (((handleInput s moon now cos pi keys tiles inputEnabled).2 = -1 ∧
      (handleInput s moon now cos pi keys tiles inputEnabled).1.onGround = false ∧
      (handleInput s moon now cos pi keys tiles inputEnabled).1.jumpCount
        = (moveAndAnimate s now keys inputEnabled).jumpCount ∧
      (handleInput s moon now cos pi keys tiles inputEnabled).1.velY
        = (moveAndAnimate s now keys inputEnabled).velY + gravity F moon ∧
      (handleInput s moon now cos pi keys tiles inputEnabled).1.y
        = (moveAndAnimate s now keys inputEnabled).y
          + ((moveAndAnimate s now keys inputEnabled).velY + gravity F moon) ∧
      ∀ t ∈ tiles, landingCandidate s moon now keys inputEnabled t → t.rect.y ≤ INT_MIN) ∨
     (∃ (k : Nat) (t : Tile), tiles[k]? = some t ∧
      landingCandidate s moon now keys inputEnabled t ∧
      (handleInput s moon now cos pi keys tiles inputEnabled).2 = (k : Int) ∧
      INT_MIN < t.rect.y ∧
      (∀ (j : Nat) (u : Tile), tiles[j]? = some u →
        landingCandidate s moon now keys inputEnabled u →
        u.rect.y ≤ t.rect.y ∧ (j < k → u.rect.y < t.rect.y)) ∧
      (handleInput s moon now cos pi keys tiles inputEnabled).1.y
        = (t.rect.y : F)
          - (((collisionRect (moveAndAnimate s now keys inputEnabled)).h + HITBOX_SHRINK_Y : Int) : F) ∧
      (handleInput s moon now cos pi keys tiles inputEnabled).1.velY = 0 ∧
      (handleInput s moon now cos pi keys tiles inputEnabled).1.onGround = true ∧
      (handleInput s moon now cos pi keys tiles inputEnabled).1.jumpCount = 0 ∧
      (handleInput s moon now cos pi keys tiles inputEnabled).1.flipping = false ∧
      (handleInput s moon now cos pi keys tiles inputEnabled).1.flipAngle = 0)) := by
  unfold handleInput landingCandidate
  dsimp only
  generalize moveAndAnimate s now keys inputEnabled = s1
  have hspec := landLoop_spec (integrate s1 (gravity F moon)).velY
    (((collisionRect s1).y + (collisionRect s1).h : Int) : F)
    (((collisionRect (integrate s1 (gravity F moon))).y
      + (collisionRect (integrate s1 (gravity F moon))).h : Int) : F)
    (collisionRect (integrate s1 (gravity F moon))) tiles 0
    { landed := false, bestTop := INT_MIN, landedIndex := -1 }
  rcases hspec with ⟨hr, hall⟩ | ⟨k, t, hk, hq, hr, hlt, hmax⟩
  · rw [hr, snap_not_landed _ _ rfl]
    obtain ⟨h1, h2, h3, h4, h5, h6, h7, h8⟩ :=
      updateFlip_fields (integrate s1 (gravity F moon)) now cos pi
    refine ⟨⟨h1.trans rfl, h8.trans rfl, h7.trans rfl, h3.trans rfl⟩, Or.inl ?_⟩
    exact ⟨rfl, h5.trans rfl, h6.trans rfl, h4.trans rfl, h2.trans rfl, hall⟩
  · rw [hr]
    have hsnap : (snap (integrate s1 (gravity F moon))
        { landed := true, bestTop := t.rect.y, landedIndex := ((0 + k : Nat) : Int) }).flipping
        = false := rfl
    rw [updateFlip_of_not_flipping _ now cos pi hsnap]
    refine ⟨⟨rfl, rfl, rfl, rfl⟩, Or.inr ⟨k, t, hk, hq, by simp, hlt, hmax, ?_⟩⟩
    refine ⟨rfl, ?_, rfl, rfl, rfl, ?_⟩
    · show (0.0 : F) = 0
      norm_num
    · show (0.0 : F) = 0
      norm_num


lemma sizeOk_sample (frameW frameH : Int) (x y velY : F) (onGround : Bool) (jumpCount : Int) :
    SizeOk (sample frameW frameH x y velY onGround jumpCount) := by
  have h : ∀ n : Int, toInt ((n : F) * 3.0) = 3 * n := by
    intro n
    have : (n : F) * 3.0 = ((3 * n : Int) : F) := by
      push_cast
      norm_num
      ring
    rw [this, toInt_intCast]
  exact ⟨(h frameW).symm, (h frameH).symm⟩

omit [FloorRing F] in
lemma inputDx_zero (keys : Keys) (inputEnabled : Bool)
    (hz : inputEnabled = false ∨ (keys.a = false ∧ keys.d = false)) :
    inputDx (F := F) keys inputEnabled = 0 := by
  unfold inputDx
  rcases hz with h | ⟨h1, h2⟩
  · simp only [h, Bool.false_and, Bool.false_eq_true, if_false]
    norm_num
  · simp only [h1, h2, Bool.and_false, Bool.false_eq_true, if_false]
    norm_num

/-- The fields of the sprite after lines 249-260, for a sprite whose render size
is consistent. -/
lemma moveAndAnimate_fields (s : Sprite F) (now : Nat) (keys : Keys) (inputEnabled : Bool) :
    (moveAndAnimate s now keys inputEnabled).x = s.x + inputDx keys inputEnabled * s.speed ∧
    (moveAndAnimate s now keys inputEnabled).y = s.y ∧
    (moveAndAnimate s now keys inputEnabled).velX = s.velX ∧
    (moveAndAnimate s now keys inputEnabled).velY = s.velY ∧
    (moveAndAnimate s now keys inputEnabled).onGround = s.onGround ∧
    (moveAndAnimate s now keys inputEnabled).jumpCount = s.jumpCount ∧
    (moveAndAnimate s now keys inputEnabled).frameLock = s.frameLock ∧
    (SizeOk s → (moveAndAnimate s now keys inputEnabled).dst.w = s.dst.w ∧
      (moveAndAnimate s now keys inputEnabled).dst.h = s.dst.h) := by
  unfold moveAndAnimate
  obtain ⟨hk, hd⟩ := animate_sameKin (move s (inputDx keys inputEnabled)) now
    (inputDx keys inputEnabled)
  refine ⟨hk.x.trans rfl, hk.y.trans rfl, hk.velX.trans rfl, hk.velY.trans rfl,
    hk.onGround.trans rfl, hk.jumpCount.trans rfl, hk.frameLock.trans rfl, ?_⟩
  intro hwf
  rcases hd with h | ⟨h1, h2⟩
  · rw [h]
    exact ⟨rfl, rfl⟩
  · exact ⟨h1.trans hwf.1.symm, h2.trans hwf.2.symm⟩

/-- The landing test written on the fields of the incoming sprite. -/
lemma landingCandidate_iff (s : Sprite F) (moon : Bool) (now : Nat) (keys : Keys)
    (inputEnabled : Bool) (t : Tile) (hwf : SizeOk s) :
    landingCandidate s moon now keys inputEnabled t ↔
      qualifies (s.velY + gravity F moon)
        (((collisionRect s).y + (collisionRect s).h : Int) : F)
        ((toInt (s.y + (s.velY + gravity F moon)) + HITBOX_SHRINK_Y + (collisionRect s).h : Int) : F)
        { x := toInt (s.x + inputDx keys inputEnabled * s.speed) + HITBOX_SHRINK_X
          y := toInt (s.y + (s.velY + gravity F moon)) + HITBOX_SHRINK_Y
          w := (collisionRect s).w
          h := (collisionRect s).h } t := by
  obtain ⟨hx, hy, -, hv, -, -, -, hd⟩ := moveAndAnimate_fields s now keys inputEnabled
  obtain ⟨hw, hh⟩ := hd hwf
  unfold landingCandidate
  dsimp only
  have e1 : collisionRect (moveAndAnimate s now keys inputEnabled)
      = { collisionRect s with x := toInt (s.x + inputDx keys inputEnabled * s.speed)
            + HITBOX_SHRINK_X } := by
    unfold collisionRect
    rw [hx, hy, hw, hh]
  have e2 : collisionRect (integrate (moveAndAnimate s now keys inputEnabled) (gravity F moon))
      = { x := toInt (s.x + inputDx keys inputEnabled * s.speed) + HITBOX_SHRINK_X
          y := toInt (s.y + (s.velY + gravity F moon)) + HITBOX_SHRINK_Y
          w := (collisionRect s).w
          h := (collisionRect s).h } := by
    unfold collisionRect integrate
    dsimp only
    rw [hx, hy, hw, hh, hv]
  have e3 : (integrate (moveAndAnimate s now keys inputEnabled) (gravity F moon)).velY
      = s.velY + gravity F moon := by
    unfold integrate
    dsimp only
    rw [hv]
  rw [e1, e2, e3]

/-- The player's collision box rests on `t.rect.y` after a landing on `t`. -/
lemma bottom_after_snap (a s1 : Sprite F) (top : Int) (hd : a.dst = s1.dst)
    (hy : a.y = (top : F) - (((collisionRect s1).h + HITBOX_SHRINK_Y : Int) : F)) :
    (collisionRect a).y + (collisionRect a).h = top := by
  have hh : (collisionRect a).h = (collisionRect s1).h := by
    rw [collisionRect_h, collisionRect_h, hd]
  rw [hh, collisionRect_y, hy]
  have : ((top : F) - (((collisionRect s1).h + HITBOX_SHRINK_Y : Int) : F))
      = (((top - ((collisionRect s1).h + HITBOX_SHRINK_Y) : Int)) : F) := by
    push_cast
    ring
  rw [this, toInt_intCast]
  ring

end Sprite

/-- Landing postcondition over exact arithmetic: whenever `Sprite::handleInput` returns an index
`>= 0`, that index names a tile of the list, the bottom edge of the collision
box after the call equals that tile's top, and `velY = 0`, `onGround = true`,
`jumpCount = 0`, `flipping = false`, `flipAngle = 0`; for every render size,
every tile list and every input. -/
theorem handleInput_landing_exact (s : Sprite F) (moon : Bool) (now : Nat)
    (cos : F → F) (pi : F) (keys : Keys) (tiles : List Tile) (inputEnabled : Bool)
    (h : 0 ≤ (s.handleInput moon now cos pi keys tiles inputEnabled).2) :
    ∃ t : Tile,
      tiles[((s.handleInput moon now cos pi keys tiles inputEnabled).2).toNat]? = some t ∧
      ((s.handleInput moon now cos pi keys tiles inputEnabled).1.collisionRect.y
        + (s.handleInput moon now cos pi keys tiles inputEnabled).1.collisionRect.h = t.rect.y) ∧
      (s.handleInput moon now cos pi keys tiles inputEnabled).1.velY = 0 ∧
      (s.handleInput moon now cos pi keys tiles inputEnabled).1.onGround = true ∧
      (s.handleInput moon now cos pi keys tiles inputEnabled).1.jumpCount = 0 ∧
      (s.handleInput moon now cos pi keys tiles inputEnabled).1.flipping = false ∧
      (s.handleInput moon now cos pi keys tiles inputEnabled).1.flipAngle = 0 := by
  obtain ⟨⟨-, hdst, -, -⟩, hcase⟩ :=
    Sprite.handleInput_cases s moon now cos pi keys tiles inputEnabled
  rcases hcase with ⟨hneg, -⟩ | ⟨k, t, hk, -, hidx, -, -, hy, hv, hg, hj, hf, ha⟩
  · rw [hneg] at h
    exact absurd h (by decide)
  · refine ⟨t, ?_, Sprite.bottom_after_snap _ _ _ hdst hy, hv, hg, hj, hf, ha⟩
    rw [hidx]
    simpa using hk

/-- Landing selection over exact arithmetic: whenever some tile of the list is a
landing candidate with its top above `INT_MIN`, `Sprite::handleInput` lands on a
candidate whose top `y` is numerically largest (the lowest one on screen), the
first such tile in list order; it returns that tile's index and snaps the
collision-box bottom to that tile's top. -/
theorem handleInput_lands_on_lowest_candidate (s : Sprite F) (moon : Bool) (now : Nat)
    (cos : F → F) (pi : F) (keys : Keys) (tiles : List Tile) (inputEnabled : Bool)
    (i : Nat) (ti : Tile) (hi : tiles[i]? = some ti)
    (hc : s.landingCandidate moon now keys inputEnabled ti) (hmin : INT_MIN < ti.rect.y) :
    ∃ (k : Nat) (t : Tile), tiles[k]? = some t ∧
      s.landingCandidate moon now keys inputEnabled t ∧
      (s.handleInput moon now cos pi keys tiles inputEnabled).2 = (k : Int) ∧
      (∀ (j : Nat) (u : Tile), tiles[j]? = some u →
        s.landingCandidate moon now keys inputEnabled u →
        u.rect.y ≤ t.rect.y ∧ (j < k → u.rect.y < t.rect.y)) ∧
      ((s.handleInput moon now cos pi keys tiles inputEnabled).1.collisionRect.y
        + (s.handleInput moon now cos pi keys tiles inputEnabled).1.collisionRect.h
          = t.rect.y) := by
  obtain ⟨⟨-, hdst, -, -⟩, hcase⟩ :=
    Sprite.handleInput_cases s moon now cos pi keys tiles inputEnabled
  rcases hcase with ⟨-, -, -, -, -, hall⟩ | ⟨k, t, hk, hq, hidx, -, hmax, hy, -⟩
  · exact absurd (hall ti (List.getElem?_mem hi) hc) (not_le.mpr hmin)
  · exact ⟨k, t, hk, hq, hidx, hmax, Sprite.bottom_after_snap _ _ _ hdst hy⟩


/-- Landing at rest over exact arithmetic.  From an actor at rest on a tile `t` of the list (top above
`INT_MIN`), one more `handleInput` step with zero horizontal input, in either
gravity mode and whatever the other tiles, keeps `onGround = true` and
`jumpCount = 0`; it leaves `y` unchanged when `y` is a whole number and, in case
`y < 0`, no tile of the list that horizontally overlaps the collision box has
its top exactly one unit below `t`'s top. -/
theorem handleInput_at_rest_exact (s : Sprite F) (t : Tile) (moon : Bool) (now : Nat) (cos : F → F)
    (pi : F) (keys : Keys) (tiles : List Tile) (inputEnabled : Bool)
    (ht : t ∈ tiles) (hrest : s.AtRestOn t)
    (hz : inputEnabled = false ∨ (keys.a = false ∧ keys.d = false))
    (hwf : s.SizeOk) (hmin : INT_MIN < t.rect.y) :
    (s.handleInput moon now cos pi keys tiles inputEnabled).1.onGround = true ∧
    (s.handleInput moon now cos pi keys tiles inputEnabled).1.jumpCount = 0 ∧
    (s.y = ((toInt s.y : Int) : F) →
      (0 ≤ s.y ∨ ∀ u ∈ tiles,
        (s.collisionRect.x + s.collisionRect.w > u.rect.x ∧
          s.collisionRect.x < u.rect.x + u.rect.w) → u.rect.y ≠ t.rect.y + 1) →
      (s.handleInput moon now cos pi keys tiles inputEnabled).1.y = s.y) := by
  obtain ⟨hv, hg, hj, hb, hox⟩ := hrest
  have hdx := Sprite.inputDx_zero (F := F) keys inputEnabled hz
  have hgp := gravity_pos (F := F) moon
  have hg1 := gravity_lt_one (F := F) moon
  have hxx : toInt (s.x + Sprite.inputDx keys inputEnabled * s.speed) = toInt s.x := by
    rw [hdx]
    congr 1
    ring
  have hlo : toInt s.y ≤ toInt (s.y + (s.velY + gravity F moon)) :=
    toInt_mono (by rw [hv]; linarith)
  have hhi : toInt (s.y + (s.velY + gravity F moon)) ≤ toInt s.y + 1 := by
    rw [hv, zero_add]
    exact toInt_add_le (le_of_lt hgp) (le_of_lt hg1)
  have hby : s.collisionRect.y = toInt s.y + HITBOX_SHRINK_Y := rfl
  have hbx : s.collisionRect.x = toInt s.x + HITBOX_SHRINK_X := rfl
  have hE : EPS F = 1 / 2 := by
    unfold EPS
    norm_num
  have hM : MAX_STEP F = 24 := by
    unfold MAX_STEP
    norm_num
  -- the tile rested on is a candidate
  have hcand : s.landingCandidate moon now keys inputEnabled t := by
    rw [Sprite.landingCandidate_iff _ _ _ _ _ _ hwf, hxx]
    refine ⟨by rw [← hbx]; exact hox, ?_, ⟨?_, ?_⟩, ?_⟩
    · rw [hv, zero_add]
      have : (0.0 : F) = 0 := by norm_num
      rw [ge_iff_le, this]
      exact le_of_lt hgp
    · rw [hb, hE]
      linarith
    · have : (t.rect.y : F) ≤ ((toInt (s.y + (s.velY + gravity F moon)) + HITBOX_SHRINK_Y
          + s.collisionRect.h : Int) : F) := by
        rw [← hb, hby]
        exact_mod_cast (by omega)
      rw [hE]
      linarith
    · have h1 : ((toInt (s.y + (s.velY + gravity F moon)) + HITBOX_SHRINK_Y
          + s.collisionRect.h : Int) : F) - ((s.collisionRect.y + s.collisionRect.h : Int) : F)
          ≤ 1 := by
        rw [hby]
        have : toInt (s.y + (s.velY + gravity F moon)) + HITBOX_SHRINK_Y + s.collisionRect.h
            - (toInt s.y + HITBOX_SHRINK_Y + s.collisionRect.h) ≤ 1 := by omega
        exact_mod_cast this
      have h0 : (0 : F) ≤ max 0.0 (s.velY + gravity F moon) := le_max_of_le_left (by norm_num)
      rw [hM]
      linarith
  obtain ⟨⟨-, -, -, -⟩, hcase⟩ :=
    Sprite.handleInput_cases s moon now cos pi keys tiles inputEnabled
  obtain ⟨-, hmy, -, -, -, -, -, hmd⟩ := Sprite.moveAndAnimate_fields s now keys inputEnabled
  rcases hcase with ⟨-, -, -, -, -, hall⟩ | ⟨k, u, hk, hq, -, -, hmax, hy, -, hgr, hjc, -, -⟩
  · exact absurd (hall t ht hcand) (not_le.mpr hmin)
  · refine ⟨hgr, hjc, ?_⟩
    intro hwhole hno
    have hge : t.rect.y ≤ u.rect.y := by
      obtain ⟨i, hi⟩ := List.getElem?_of_mem ht
      exact (hmax i t hi hcand).1
    rw [Sprite.landingCandidate_iff _ _ _ _ _ _ hwf, hxx] at hq
    obtain ⟨hux, -, ⟨-, hnb⟩, -⟩ := hq
    rw [hE] at hnb
    have hle1 : u.rect.y ≤ t.rect.y + 1 := by
      have h1 : ((toInt (s.y + (s.velY + gravity F moon)) + HITBOX_SHRINK_Y
          + s.collisionRect.h : Int) : F) ≤ ((t.rect.y + 1 : Int) : F) := by
        rw [← hb, hby]
        exact_mod_cast (by omega)
      have h2 : (u.rect.y : F) < ((t.rect.y + 1 + 1 : Int) : F) := by
        push_cast at h1 hnb ⊢
        linarith
      have h3 : u.rect.y < t.rect.y + 1 + 1 := by exact_mod_cast h2
      omega
    have hueq : u.rect.y = t.rect.y := by
      rcases hno with h0 | hno
      · have e := toInt_add_of_whole hwhole h0 (le_of_lt hgp) hg1
        rw [hv, zero_add, e] at hnb
        have h1 : ((toInt s.y + HITBOX_SHRINK_Y + s.collisionRect.h : Int) : F)
            = (t.rect.y : F) := by
          rw [← hb, hby]
        rw [h1] at hnb
        have h2 : (u.rect.y : F) < ((t.rect.y + 1 : Int) : F) := by
          push_cast
          linarith
        have h3 : u.rect.y < t.rect.y + 1 := by exact_mod_cast h2
        omega
      · have hne := hno u (List.getElem?_mem hk) (by rw [hbx]; exact hux)
        omega
    have hch : (Sprite.collisionRect (Sprite.moveAndAnimate s now keys inputEnabled)).h
        = s.collisionRect.h := by
      rw [Sprite.collisionRect_h, Sprite.collisionRect_h, (hmd hwf).2]
    rw [hy, hch, hueq, ← hb, hby]
    push_cast
    rw [← hwhole]
    ring

end Kinematics

/-! ## Worked inputs for the collision resolver, and the jump budget -/

section KinematicsCases

variable {F : Type} [LinearOrderedField F] [FloorRing F]

lemma Sprite.handleInput_index_nonneg (s : Sprite F) (moon : Bool) (now : Nat) (cos : F → F)
    (pi : F) (keys : Keys) (tiles : List Tile) (inputEnabled : Bool) (t : Tile) (ht : t ∈ tiles)
    (hc : s.landingCandidate moon now keys inputEnabled t) (hmin : INT_MIN < t.rect.y) :
    0 ≤ (s.handleInput moon now cos pi keys tiles inputEnabled).2 := by
  obtain ⟨-, hcase⟩ := Sprite.handleInput_cases s moon now cos pi keys tiles inputEnabled
  rcases hcase with ⟨-, -, -, -, -, hall⟩ | ⟨k, u, -, -, hidx, -⟩
  · exact absurd (hall t ht hc) (not_le.mpr hmin)
  · rw [hidx]
    exact Int.natCast_nonneg k

lemma toInt_zero : toInt (0 : F) = 0 := by
  have : (0 : F) = ((0 : Int) : F) := by norm_num
  rw [this, toInt_intCast]

lemma fallingSprite_candidates :
    fallingSprite.landingCandidate false 0 noKeys true (platformAt 136 112) ∧
    fallingSprite.landingCandidate false 0 noKeys true (platformAt 264 116) := by
  have hwf := Sprite.sizeOk_sample 134 34 (0 : ℚ) 0 10 false 0
  have hdx : Sprite.inputDx (F := ℚ) noKeys true = 0 :=
    Sprite.inputDx_zero _ _ (Or.inr ⟨rfl, rfl⟩)
  have hx : toInt ((0 : ℚ) + 0 * 4.0) = 0 := by
    have : ((0 : ℚ) + 0 * 4.0) = ((0 : Int) : ℚ) := by norm_num
    rw [this, toInt_intCast]
  have hy2 : toInt ((21 : ℚ) / 2) = 10 :=
    toInt_of_floor (by norm_num) (by norm_num) (by norm_num)
  constructor
  · unfold fallingSprite
    rw [Sprite.landingCandidate_iff _ _ _ _ _ _ hwf, hdx]
    simp only [Sprite.sample, Sprite.collisionRect, Sprite.qualifies, platformAt, hx, toInt_zero,
      HITBOX_SHRINK_X, HITBOX_SHRINK_Y, EPS, MAX_STEP, gravity, GRAVITY_NORMAL]
    norm_num [hy2]
  · unfold fallingSprite
    rw [Sprite.landingCandidate_iff _ _ _ _ _ _ hwf, hdx]
    simp only [Sprite.sample, Sprite.collisionRect, Sprite.qualifies, platformAt, hx, toInt_zero,
      HITBOX_SHRINK_X, HITBOX_SHRINK_Y, EPS, MAX_STEP, gravity, GRAVITY_NORMAL]
    norm_num [hy2]

/-- The player's resolver does not land on the topmost candidate.  A sprite falling at `velY = 10` onto the seam of two
adjacent platforms with tops `100` and `104` (tiles 1 and 2 of the list): both
are landing candidates, and `handleInput` selects the one with top `104`, not
the topmost. -/
theorem landsOnTopmost_counterexample :
    ¬ LandsOnTopmost fallingSprite false 0 (fun v => v) 0 noKeys stairTiles true := by
  intro hclaim
  obtain ⟨candA, candB⟩ := fallingSprite_candidates
  obtain ⟨k, t, hk, -, hidx, hmin, -⟩ :=
    hclaim 1 2 _ _ (by decide) rfl rfl candA candB
  have h1 : t.rect.y ≤ 100 := hmin _ (by simp [stairTiles]) candA
  obtain ⟨-, hcase⟩ := Sprite.handleInput_cases fallingSprite
    false 0 (fun v => v) 0 noKeys stairTiles true
  rcases hcase with ⟨hneg, -⟩ | ⟨k2, t2, hk2, -, hidx2, -, hmax, -⟩
  · rw [hneg] at hidx
    omega
  · have hkk : k = k2 := by
      rw [hidx2] at hidx
      exact_mod_cast hidx.symm
    subst hkk
    rw [hk] at hk2
    cases hk2
    have h2 := (hmax 2 (platformAt 264 116) rfl candB).1
    have h3 : (104 : Int) ≤ t.rect.y := h2
    omega

/-- Witness for `handleInput_lands_on_lowest_candidate`: the falling sprite over
the step. -/
theorem handleInput_lands_on_lowest_candidate_witness :
    stairTiles[1]? = some (platformAt 136 112) ∧
    fallingSprite.landingCandidate false 0 noKeys true (platformAt 136 112) ∧
    INT_MIN < (100 : Int) ∧
    ∃ (k : Nat) (t : Tile), stairTiles[k]? = some t ∧
      fallingSprite.landingCandidate false 0 noKeys true t ∧
      (fallingSprite.handleInput false 0 (fun v => v) 0 noKeys stairTiles true).2 = (k : Int) ∧
      (∀ (j : Nat) (u : Tile), stairTiles[j]? = some u →
        fallingSprite.landingCandidate false 0 noKeys true u →
        u.rect.y ≤ t.rect.y ∧ (j < k → u.rect.y < t.rect.y)) ∧
      ((fallingSprite.handleInput false 0 (fun v => v) 0 noKeys stairTiles true).1.collisionRect.y
        + (fallingSprite.handleInput false 0 (fun v => v) 0 noKeys stairTiles true).1.collisionRect.h
          = t.rect.y) :=
  ⟨rfl, fallingSprite_candidates.1, by decide,
    handleInput_lands_on_lowest_candidate fallingSprite false 0 (fun v => v) 0 noKeys stairTiles
      true 1 (platformAt 136 112) rfl fallingSprite_candidates.1 (by decide)⟩

lemma fallingSprite_lands :
    0 ≤ (fallingSprite.handleInput false 0 (fun v => v) 0 noKeys stairTiles true).2 :=
  Sprite.handleInput_index_nonneg fallingSprite false 0 (fun v => v) 0 noKeys stairTiles true
    (platformAt 136 112) (by simp [stairTiles]) fallingSprite_candidates.1 (by decide)

/-- Witness for `handleInput_landing_exact`: the falling sprite lands on
the step. -/
theorem handleInput_landing_exact_witness :
    0 ≤ (fallingSprite.handleInput false 0 (fun v => v) 0 noKeys stairTiles true).2 ∧
    ∃ t : Tile,
      stairTiles[((fallingSprite.handleInput false 0 (fun v => v) 0 noKeys stairTiles
        true).2).toNat]? = some t ∧
      ((fallingSprite.handleInput false 0 (fun v => v) 0 noKeys stairTiles true).1.collisionRect.y
        + (fallingSprite.handleInput false 0 (fun v => v) 0 noKeys stairTiles true).1.collisionRect.h
          = t.rect.y) ∧
      (fallingSprite.handleInput false 0 (fun v => v) 0 noKeys stairTiles true).1.velY = 0 ∧
      (fallingSprite.handleInput false 0 (fun v => v) 0 noKeys stairTiles true).1.onGround = true ∧
      (fallingSprite.handleInput false 0 (fun v => v) 0 noKeys stairTiles true).1.jumpCount = 0 ∧
      (fallingSprite.handleInput false 0 (fun v => v) 0 noKeys stairTiles true).1.flipping = false ∧
      (fallingSprite.handleInput false 0 (fun v => v) 0 noKeys stairTiles true).1.flipAngle = 0 :=
  ⟨fallingSprite_lands,
    handleInput_landing_exact fallingSprite false 0 (fun v => v) 0 noKeys stairTiles true
      fallingSprite_lands⟩

lemma Sprite.handleInput_no_landing (s : Sprite F) (moon : Bool) (now : Nat) (cos : F → F)
    (pi : F) (keys : Keys) (tiles : List Tile) (inputEnabled : Bool)
    (h : ¬ 0 ≤ (s.handleInput moon now cos pi keys tiles inputEnabled).2) :
    (s.handleInput moon now cos pi keys tiles inputEnabled).1.onGround = false ∧
    (s.handleInput moon now cos pi keys tiles inputEnabled).1.jumpCount = s.jumpCount := by
  obtain ⟨-, hcase⟩ := Sprite.handleInput_cases s moon now cos pi keys tiles inputEnabled
  obtain ⟨-, -, -, -, -, hjc, -, -⟩ := Sprite.moveAndAnimate_fields s now keys inputEnabled
  rcases hcase with ⟨-, hg, hj, -⟩ | ⟨k, u, -, -, hidx, -⟩
  · exact ⟨hg, hj.trans hjc⟩
  · rw [hidx] at h
    exact absurd (Int.natCast_nonneg k) h

lemma Sprite.airFrames_airborne (cos : F → F) (pi : F) (fs : List FrameIn) :
    ∀ (s : Sprite F), s.onGround = false → (Sprite.airFrames cos pi s fs).2 = false →
      (Sprite.airFrames cos pi s fs).1.onGround = false ∧
      (Sprite.airFrames cos pi s fs).1.jumpCount = s.jumpCount := by
  induction fs with
  | nil => intro s hg _; exact ⟨hg, rfl⟩
  | cons f fs ih =>
    intro s _ h
    simp only [Sprite.airFrames, Bool.or_eq_false_iff, decide_eq_false_iff_not] at h ⊢
    obtain ⟨hg1, hj1⟩ := Sprite.handleInput_no_landing s _ _ cos pi _ _ _ h.1
    obtain ⟨hg2, hj2⟩ := ih _ hg1 h.2
    exact ⟨hg2, hj2.trans hj1⟩

omit [FloorRing F] in
lemma Sprite.jump_allowed (s : Sprite F) (moon : Bool)
    (h : s.onGround = true ∨ s.jumpCount < 2) :
    s.jump moon true
      = { s with velY := jumpImpulse F moon, onGround := false, jumpCount := s.jumpCount + 1 } := by
  unfold Sprite.jump
  rcases h with h | h <;> simp [h]

omit [FloorRing F] in
lemma Sprite.jump_spent (s : Sprite F) (moon inputEnabled : Bool) (hg : s.onGround = false)
    (hj : s.jumpCount = 2) : s.jump moon inputEnabled = s := by
  unfold Sprite.jump
  simp [hg, hj]

lemma Sprite.airOps_spent (cos : F → F) (pi : F) (ops : List AirOp) :
    ∀ (s : Sprite F), s.onGround = false → s.jumpCount = 2 →
      (Sprite.airOps cos pi s ops).2 = false →
      (Sprite.airOps cos pi s ops).1.onGround = false ∧
      (Sprite.airOps cos pi s ops).1.jumpCount = 2 := by
  induction ops with
  | nil => intro s hg hj _; exact ⟨hg, hj⟩
  | cons op ops ih =>
    intro s hg hj h
    cases op with
    | frame f =>
      simp only [Sprite.airOps, Bool.or_eq_false_iff, decide_eq_false_iff_not] at h ⊢
      obtain ⟨hg1, hj1⟩ := Sprite.handleInput_no_landing s _ _ cos pi _ _ _ h.1
      exact ih _ hg1 (hj1.trans hj) h.2
    | jump moon en =>
      simp only [Sprite.airOps] at h ⊢
      rw [Sprite.jump_spent s moon en hg hj] at h ⊢
      exact ih s hg hj h

/-- C7. Double-jump budget: from a grounded actor with `jumpCount = 0`, the
first `jump()` sets `velY` to the jump impulse (`-12.0` in normal mode),
`onGround = false`, `jumpCount = 1`; after any `handleInput` steps without a
landing the second `jump()` sets `velY` to the impulse again and `jumpCount = 2`;
after any further `handleInput` steps without a landing and any further `jump()`
calls, one more `jump()` leaves `velY`, `onGround` and `jumpCount` unchanged. -/
theorem double_jump_budget (s : Sprite F) (cos : F → F) (pi : F) (m1 m2 m3 en : Bool)
    (fs : List FrameIn) (ops : List AirOp)
    (hg : s.onGround = true) (hj : s.jumpCount = 0)
    (h1 : (Sprite.airFrames cos pi (s.jump m1 true) fs).2 = false)
    (h2 : (Sprite.airOps cos pi
      ((Sprite.airFrames cos pi (s.jump m1 true) fs).1.jump m2 true) ops).2 = false) :
    ((s.jump m1 true).velY = jumpImpulse F m1 ∧ (s.jump m1 true).onGround = false ∧
      (s.jump m1 true).jumpCount = 1) ∧
    (((Sprite.airFrames cos pi (s.jump m1 true) fs).1.jump m2 true).velY = jumpImpulse F m2 ∧
      ((Sprite.airFrames cos pi (s.jump m1 true) fs).1.jump m2 true).onGround = false ∧
      ((Sprite.airFrames cos pi (s.jump m1 true) fs).1.jump m2 true).jumpCount = 2) ∧
    (((Sprite.airOps cos pi
        ((Sprite.airFrames cos pi (s.jump m1 true) fs).1.jump m2 true) ops).1.jump m3 en).velY
        = (Sprite.airOps cos pi
            ((Sprite.airFrames cos pi (s.jump m1 true) fs).1.jump m2 true) ops).1.velY ∧
      ((Sprite.airOps cos pi
        ((Sprite.airFrames cos pi (s.jump m1 true) fs).1.jump m2 true) ops).1.jump m3 en).onGround
        = (Sprite.airOps cos pi
            ((Sprite.airFrames cos pi (s.jump m1 true) fs).1.jump m2 true) ops).1.onGround ∧
      ((Sprite.airOps cos pi
        ((Sprite.airFrames cos pi (s.jump m1 true) fs).1.jump m2 true) ops).1.jump m3 en).jumpCount
        = (Sprite.airOps cos pi
            ((Sprite.airFrames cos pi (s.jump m1 true) fs).1.jump m2 true) ops).1.jumpCount) ∧
    jumpImpulse F false = -12 := by
  have e1 : s.jump m1 true
      = { s with velY := jumpImpulse F m1, onGround := false, jumpCount := s.jumpCount + 1 } :=
    Sprite.jump_allowed s m1 (Or.inl hg)
  have a1 : (s.jump m1 true).velY = jumpImpulse F m1 ∧ (s.jump m1 true).onGround = false ∧
      (s.jump m1 true).jumpCount = 1 := by
    rw [e1]
    exact ⟨rfl, rfl, by show s.jumpCount + 1 = 1; rw [hj]; rfl⟩
  obtain ⟨hg1, hj1⟩ := Sprite.airFrames_airborne cos pi fs _ a1.2.1 h1
  rw [a1.2.2] at hj1
  have e2 : (Sprite.airFrames cos pi (s.jump m1 true) fs).1.jump m2 true
      = { (Sprite.airFrames cos pi (s.jump m1 true) fs).1 with
          velY := jumpImpulse F m2, onGround := false,
          jumpCount := (Sprite.airFrames cos pi (s.jump m1 true) fs).1.jumpCount + 1 } :=
    Sprite.jump_allowed _ m2 (Or.inr (by rw [hj1]; decide))
  have a2 : ((Sprite.airFrames cos pi (s.jump m1 true) fs).1.jump m2 true).velY
        = jumpImpulse F m2 ∧
      ((Sprite.airFrames cos pi (s.jump m1 true) fs).1.jump m2 true).onGround = false ∧
      ((Sprite.airFrames cos pi (s.jump m1 true) fs).1.jump m2 true).jumpCount = 2 := by
    rw [e2]
    exact ⟨rfl, rfl, by
      show (Sprite.airFrames cos pi (s.jump m1 true) fs).1.jumpCount + 1 = 2
      rw [hj1]; rfl⟩
  obtain ⟨hg2, hj2⟩ := Sprite.airOps_spent cos pi ops _ a2.2.1 a2.2.2 h2
  refine ⟨a1, a2, ?_, ?_⟩
  · rw [Sprite.jump_spent _ m3 en hg2 hj2]
    exact ⟨rfl, rfl, rfl⟩
  · unfold jumpImpulse JUMP_IMP_NORMAL
    norm_num

/-- Witness for `double_jump_budget`: the standing sprite, three jumps in a row. -/
theorem double_jump_budget_witness :
    standingSprite.onGround = true ∧ standingSprite.jumpCount = 0 ∧
    (Sprite.airFrames (fun v => v) 0 (standingSprite.jump false true) []).2 = false ∧
    (Sprite.airOps (fun v => v) 0
      ((Sprite.airFrames (fun v => v) 0 (standingSprite.jump false true) []).1.jump false true)
      []).2 = false ∧
    (((standingSprite.jump false true).velY = jumpImpulse ℚ false ∧
      (standingSprite.jump false true).onGround = false ∧
      (standingSprite.jump false true).jumpCount = 1) ∧
    (((Sprite.airFrames (fun v => v) 0 (standingSprite.jump false true) []).1.jump false
        true).velY = jumpImpulse ℚ false ∧
      ((Sprite.airFrames (fun v => v) 0 (standingSprite.jump false true) []).1.jump false
        true).onGround = false ∧
      ((Sprite.airFrames (fun v => v) 0 (standingSprite.jump false true) []).1.jump false
        true).jumpCount = 2) ∧
    (((Sprite.airOps (fun v => v) 0
        ((Sprite.airFrames (fun v => v) 0 (standingSprite.jump false true) []).1.jump false true)
        []).1.jump false true).velY
        = (Sprite.airOps (fun v => v) 0
            ((Sprite.airFrames (fun v => v) 0 (standingSprite.jump false true) []).1.jump false
              true) []).1.velY ∧
      ((Sprite.airOps (fun v => v) 0
        ((Sprite.airFrames (fun v => v) 0 (standingSprite.jump false true) []).1.jump false true)
        []).1.jump false true).onGround
        = (Sprite.airOps (fun v => v) 0
            ((Sprite.airFrames (fun v => v) 0 (standingSprite.jump false true) []).1.jump false
              true) []).1.onGround ∧
      ((Sprite.airOps (fun v => v) 0
        ((Sprite.airFrames (fun v => v) 0 (standingSprite.jump false true) []).1.jump false true)
        []).1.jump false true).jumpCount
        = (Sprite.airOps (fun v => v) 0
            ((Sprite.airFrames (fun v => v) 0 (standingSprite.jump false true) []).1.jump false
              true) []).1.jumpCount) ∧
    jumpImpulse ℚ false = -12) :=
  ⟨rfl, rfl, rfl, rfl,
    double_jump_budget standingSprite (fun v => v) 0 false false false true [] [] rfl rfl rfl rfl⟩

lemma restingSprite_facts :
    restingSprite.AtRestOn (platformAt 136 100) ∧
    restingSprite.landingCandidate false 0 noKeys true (platformAt 264 101) ∧
    restingSprite.collisionRect.h = 94 := by
  have hwf := Sprite.sizeOk_sample 134 34 (0 : ℚ) (-10) 0 true 0
  have hdx : Sprite.inputDx (F := ℚ) noKeys true = 0 :=
    Sprite.inputDx_zero _ _ (Or.inr ⟨rfl, rfl⟩)
  have hx : toInt ((0 : ℚ) + 0 * 4.0) = 0 := by
    have : ((0 : ℚ) + 0 * 4.0) = ((0 : Int) : ℚ) := by norm_num
    rw [this, toInt_intCast]
  have hy1 : toInt (-10 : ℚ) = -10 := by
    have : (-10 : ℚ) = ((-10 : Int) : ℚ) := by norm_num
    rw [this, toInt_intCast]
  have hy2 : toInt (-((19 : ℚ) / 2)) = -9 :=
    toInt_of_ceil (by norm_num) (by norm_num) (by norm_num)
  refine ⟨⟨rfl, rfl, rfl, ?_, ?_⟩, ?_, ?_⟩
  · simp only [restingSprite, Sprite.sample, Sprite.collisionRect, platformAt, hy1,
      HITBOX_SHRINK_Y]
    norm_num
  · simp only [restingSprite, Sprite.sample, Sprite.collisionRect, platformAt, toInt_zero,
      HITBOX_SHRINK_X]
    norm_num
  · unfold restingSprite
    rw [Sprite.landingCandidate_iff _ _ _ _ _ _ hwf, hdx]
    simp only [Sprite.sample, Sprite.collisionRect, Sprite.qualifies, platformAt, hx, hy1,
      HITBOX_SHRINK_X, HITBOX_SHRINK_Y, EPS, MAX_STEP, gravity, GRAVITY_NORMAL]
    norm_num [hy2]
  · simp only [restingSprite, Sprite.sample, Sprite.collisionRect, HITBOX_SHRINK_Y]
    norm_num

/-- Landing is not idempotent, over exact arithmetic.  A sprite at rest at `y = -10` on a platform with top
`88`, next to a platform with top `89`: the step truncates `y + g = -9.5` to
`-9`, both platforms pass the landing test, the lower one is selected and `y`
becomes `-9`. -/
theorem landingIdempotent_exact_counterexample :
    ¬ LandingIdempotent restingSprite (platformAt 136 100) false 0 (fun v => v) 0
        noKeys sillTiles true := by
  intro hclaim
  obtain ⟨hrest, candB, hh⟩ := restingSprite_facts
  obtain ⟨hy, -, -⟩ := hclaim (by simp [sillTiles]) hrest (Or.inr ⟨rfl, rfl⟩)
  have hwf : restingSprite.SizeOk := Sprite.sizeOk_sample 134 34 (0 : ℚ) (-10) 0 true 0
  obtain ⟨-, hcase⟩ := Sprite.handleInput_cases restingSprite false 0 (fun v => v) 0 noKeys
    sillTiles true
  obtain ⟨-, -, -, -, -, -, -, hmd⟩ := Sprite.moveAndAnimate_fields restingSprite 0 noKeys true
  have hch : (Sprite.collisionRect (Sprite.moveAndAnimate restingSprite 0 noKeys true)).h = 94 := by
    rw [Sprite.collisionRect_h, (hmd hwf).2, ← Sprite.collisionRect_h, hh]
  rcases hcase with ⟨-, -, -, -, -, hall⟩ | ⟨k, u, -, -, -, -, hmax, hy2, -⟩
  · have := hall _ (by simp [sillTiles]) candB
    exact absurd this (by decide)
  · have h1 : (89 : Int) ≤ u.rect.y := (hmax 2 (platformAt 264 101) rfl candB).1
    rw [hy2, hch] at hy
    have h2 : restingSprite.y = -10 := rfl
    rw [h2] at hy
    have h3 : ((89 : Int) : ℚ) ≤ (u.rect.y : ℚ) := by exact_mod_cast h1
    simp only [HITBOX_SHRINK_Y] at hy
    push_cast at hy h3
    linarith

lemma standingSprite_rest : standingSprite.AtRestOn (platformAt 164 110) := by
  refine ⟨rfl, rfl, rfl, ?_, ?_⟩
  · simp only [standingSprite, Sprite.sample, Sprite.collisionRect, platformAt, toInt_zero,
      HITBOX_SHRINK_Y]
    norm_num
  · simp only [standingSprite, Sprite.sample, Sprite.collisionRect, platformAt, toInt_zero,
      HITBOX_SHRINK_X]
    norm_num

lemma standingSprite_whole : standingSprite.y = ((toInt standingSprite.y : Int) : ℚ) := by
  have : standingSprite.y = 0 := rfl
  rw [this, toInt_zero]
  norm_num

/-- Witness for `handleInput_at_rest_exact`: the sprite standing at `y = 0` on a
platform with top `98`. -/
theorem handleInput_at_rest_exact_witness :
    platformAt 164 110 ∈ floorTiles ∧
    standingSprite.AtRestOn (platformAt 164 110) ∧
    ((true = false) ∨ (noKeys.a = false ∧ noKeys.d = false)) ∧
    standingSprite.SizeOk ∧ INT_MIN < (98 : Int) ∧
    standingSprite.y = ((toInt standingSprite.y : Int) : ℚ) ∧ (0 : ℚ) ≤ standingSprite.y ∧
    (standingSprite.handleInput false 0 (fun v => v) 0 noKeys floorTiles true).1.onGround = true ∧
    (standingSprite.handleInput false 0 (fun v => v) 0 noKeys floorTiles true).1.jumpCount = 0 ∧
    (standingSprite.handleInput false 0 (fun v => v) 0 noKeys floorTiles true).1.y
      = standingSprite.y :=
  have h := handleInput_at_rest_exact standingSprite (platformAt 164 110) false 0
    (fun v => v) 0 noKeys floorTiles true (by simp [floorTiles]) standingSprite_rest
    (Or.inr ⟨rfl, rfl⟩) (Sprite.sizeOk_sample 134 34 (0 : ℚ) 0 0 true 0) (by decide)
  ⟨by simp [floorTiles], standingSprite_rest, Or.inr ⟨rfl, rfl⟩,
    Sprite.sizeOk_sample 134 34 (0 : ℚ) 0 0 true 0, by decide, standingSprite_whole,
    le_of_eq rfl, h.1, h.2.1, h.2.2 standingSprite_whole (Or.inl (le_of_eq rfl))⟩

end KinematicsCases

/-! ## The frame update and the event handlers -/

section FrameLemmas

variable {F : Type} [LinearOrderedField F] [FloorRing F]

lemma playerPhase_web (now : Nat) (cos : F → F) (pi : F) (keys : Keys) (g : Game F) :
    (playerPhase now cos pi keys g).web = g.web ∧
    (playerPhase now cos pi keys g).gameOver = g.gameOver ∧
    (playerPhase now cos pi keys g).lastL = g.lastL ∧
    (playerPhase now cos pi keys g).MOON_MODE = g.MOON_MODE ∧
    (playerPhase now cos pi keys g).player
      = (g.player.handleInput g.MOON_MODE now cos pi keys g.allTiles (!g.gameOver)).1 := by
  unfold playerPhase
  dsimp only
  split_ifs <;> exact ⟨rfl, rfl, rfl, rfl, rfl⟩

omit [LinearOrderedField F] [FloorRing F] in
lemma rechargePhase_web (now : Nat) (g : Game F) :
    (rechargePhase now g).web = g.web ∧ (rechargePhase now g).player = g.player ∧
    (rechargePhase now g).gameOver = g.gameOver ∧ (rechargePhase now g).lastL = g.lastL ∧
    (rechargePhase now g).MOON_MODE = g.MOON_MODE := by
  unfold rechargePhase
  split_ifs <;> exact ⟨rfl, rfl, rfl, rfl, rfl⟩

lemma avocadoPhase_web (now : Nat) (allTiles : List Tile) (g : Game F) :
    (avocadoPhase now allTiles g).web = g.web ∧ (avocadoPhase now allTiles g).player = g.player := by
  unfold avocadoPhase
  split_ifs <;> exact ⟨rfl, rfl⟩

lemma hitPhase_web (now : Nat) (g : Game F) :
    (hitPhase now g).web = g.web ∧ (hitPhase now g).player = g.player := by
  unfold hitPhase
  split_ifs <;> exact ⟨rfl, rfl⟩

lemma contactPhase_web (now : Nat) (g : Game F) :
    (contactPhase now g).web = g.web ∧ (contactPhase now g).player = g.player := by
  unfold contactPhase
  split_ifs <;> exact ⟨rfl, rfl⟩

omit [LinearOrderedField F] [FloorRing F] in
lemma gameOverPhase_web (g : Game F) :
    (gameOverPhase g).web = g.web ∧ (gameOverPhase g).player = g.player := by
  unfold gameOverPhase
  split_ifs <;> exact ⟨rfl, rfl⟩

/-- The phases after the release block leave the grapple and the player alone. -/
lemma tailPhases_web (now : Nat) (allTiles : List Tile) (g : Game F) :
    (gameOverPhase (prunePhase (contactPhase now (hitPhase now
      (avocadoPhase now allTiles g))))).web = g.web ∧
    (gameOverPhase (prunePhase (contactPhase now (hitPhase now
      (avocadoPhase now allTiles g))))).player = g.player := by
  obtain ⟨a1, a2⟩ := avocadoPhase_web now allTiles g
  obtain ⟨b1, b2⟩ := hitPhase_web now (avocadoPhase now allTiles g)
  obtain ⟨c1, c2⟩ := contactPhase_web now (hitPhase now (avocadoPhase now allTiles g))
  obtain ⟨d1, d2⟩ := gameOverPhase_web
    (prunePhase (contactPhase now (hitPhase now (avocadoPhase now allTiles g))))
  have e1 : (prunePhase (contactPhase now (hitPhase now (avocadoPhase now allTiles g)))).web
      = (contactPhase now (hitPhase now (avocadoPhase now allTiles g))).web := rfl
  have e2 : (prunePhase (contactPhase now (hitPhase now (avocadoPhase now allTiles g)))).player
      = (contactPhase now (hitPhase now (avocadoPhase now allTiles g))).player := rfl
  exact ⟨d1.trans (e1.trans (c1.trans (b1.trans a1))), d2.trans (e2.trans (c2.trans (b2.trans a2)))⟩

omit [FloorRing F] in
lemma shootingStep_fields (dt : F) (w : Web F) :
    (shootingStep dt w).rmbHeld = w.rmbHeld ∧
    ((shootingStep dt w).state = WebState.None ↔ w.state = WebState.None) := by
  unfold shootingStep
  dsimp only
  split_ifs with h1 h2
  · refine ⟨rfl, ?_⟩
    constructor
    · intro h
      cases h
    · intro h
      rw [h] at h1
      cases h1
  · refine ⟨rfl, ?_⟩
    exact Iff.rfl
  · exact ⟨rfl, Iff.rfl⟩

omit [FloorRing F] in
lemma latchedPhase_not_held (sqrt : F → F) (dt : F) (g : Game F) (h : g.web.rmbHeld = false) :
    latchedPhase sqrt dt g = g := by
  unfold latchedPhase
  rw [if_neg]
  rintro ⟨-, h2⟩
  rw [h] at h2
  cases h2

lemma releasePhase_fires (sqrt : F → F) (g : Game F) (hh : g.web.rmbHeld = false)
    (hs : g.web.state ≠ WebState.None) :
    (releasePhase sqrt g).web.state = WebState.None ∧
    (releasePhase sqrt g).player.frameLock = false := by
  unfold releasePhase
  have hc : (!g.web.rmbHeld && decide (g.web.state ≠ WebState.None)) = true := by
    simp [hh, hs]
  rw [if_pos hc]
  exact ⟨rfl, rfl⟩

/-- A frame update that starts with the cast button not held and the grapple
active ends with the grapple Idle and the frame lock cleared. -/
lemma frameUpdate_releases (sqrt cos : F → F) (pi : F) (now : Nat) (dt : F) (keys : Keys)
    (g : Game F) (hh : g.web.rmbHeld = false) (hs : g.web.state ≠ WebState.None) :
    (frameUpdate sqrt cos pi now dt keys g).web.state = WebState.None ∧
    (frameUpdate sqrt cos pi now dt keys g).player.frameLock = false := by
  unfold frameUpdate
  dsimp only
  obtain ⟨p1, -⟩ := playerPhase_web now cos pi keys g
  obtain ⟨r1, -⟩ := rechargePhase_web now (playerPhase now cos pi keys g)
  have k1 : (knifePhase now (rechargePhase now (playerPhase now cos pi keys g))).web = g.web :=
    (r1.trans p1)
  obtain ⟨s1, s2⟩ := shootingStep_fields dt g.web
  have w4 : (shootingPhase dt (knifePhase now (rechargePhase now
      (playerPhase now cos pi keys g)))).web = shootingStep dt g.web := by
    show shootingStep dt _ = _
    rw [k1]
  have h4 : (shootingPhase dt (knifePhase now (rechargePhase now
      (playerPhase now cos pi keys g)))).web.rmbHeld = false := by
    rw [w4, s1, hh]
  have n4 : (shootingPhase dt (knifePhase now (rechargePhase now
      (playerPhase now cos pi keys g)))).web.state ≠ WebState.None := by
    rw [w4]
    exact fun h => hs (s2.mp h)
  rw [latchedPhase_not_held sqrt dt _ h4]
  obtain ⟨t1, t2⟩ := tailPhases_web now g.allTiles (releasePhase sqrt (shootingPhase dt
    (knifePhase now (rechargePhase now (playerPhase now cos pi keys g)))))
  obtain ⟨f1, f2⟩ := releasePhase_fires sqrt _ h4 n4
  rw [t1, t2]
  exact ⟨f1, f2⟩

lemma handleEvent_rightUp_alive (sqrt : F → F) (amb : Ambient) (g : Game F)
    (h : g.gameOver = false) :
    handleEvent sqrt amb (Event.mouseButtonUp MouseButton.right) g = onRightButtonUp g := by
  unfold handleEvent
  simp [h]

lemma handleEvent_rightUp_over (sqrt : F → F) (amb : Ambient) (g : Game F)
    (h : g.gameOver = true) :
    handleEvent sqrt amb (Event.mouseButtonUp MouseButton.right) g = g := by
  unfold handleEvent
  simp [h]

lemma handleEvent_rightDown_alive (sqrt : F → F) (amb : Ambient) (g : Game F)
    (h : g.gameOver = false) (hn : g.nHeld = false) :
    handleEvent sqrt amb (Event.mouseButtonDown MouseButton.right) g = castWeb sqrt amb g := by
  unfold handleEvent
  simp [h, hn, onMouseButtonDown]

lemma handleEvent_wheel (sqrt : F → F) (amb : Ambient) (g : Game F) (y : Int) :
    (handleEvent sqrt amb (Event.mouseWheel y) g).web = (onMouseWheel y g).web := by
  unfold handleEvent
  simp

end FrameLemmas

/-! ## The Latched step: reel bounds, radial velocity, rigidity -/

section LatchedStep

variable {F : Type} [LinearOrderedField F] [FloorRing F]

omit [FloorRing F] in
lemma clampf_bounds (v a b : F) (h : a ≤ b) : a ≤ clampf v a b ∧ clampf v a b ≤ b := by
  unfold clampf
  exact ⟨le_max_left _ _, max_le h (min_le_left _ _)⟩

omit [FloorRing F] in
lemma clampf_of_mem (v a b : F) (h1 : a ≤ v) (h2 : v ≤ b) : clampf v a b = v := by
  unfold clampf
  rw [min_eq_right h2, max_eq_right h1]

omit [FloorRing F] in
lemma latchedBody_web (sqrt : F → F) (moon : Bool) (dt : F) (p : Sprite F) (w : Web F) (l : F) :
    (latchedBody sqrt moon dt p w l).2.1.targetLen = latchedLen w dt ∧
    (latchedBody sqrt moon dt p w l).2.1.minLen = w.minLen ∧
    (latchedBody sqrt moon dt p w l).2.1.maxLen = w.maxLen ∧
    (latchedBody sqrt moon dt p w l).2.1.state = w.state ∧
    (latchedBody sqrt moon dt p w l).2.1.rmbHeld = w.rmbHeld ∧
    (latchedBody sqrt moon dt p w l).2.1.ax = w.ax ∧
    (latchedBody sqrt moon dt p w l).2.1.ay = w.ay ∧
    (latchedBody sqrt moon dt p w l).2.1.reelRate = w.reelRate :=
  ⟨rfl, rfl, rfl, rfl, rfl, rfl, rfl, rfl⟩

omit [FloorRing F] in
lemma latchedBody_anchor (sqrt : F → F) (moon : Bool) (dt : F) (p : Sprite F) (w : Web F)
    (l : F) :
    (latchedBody sqrt moon dt p w l).1.webAnchorWorld.x
      = w.ax + (latchedRadial sqrt p w).1 * latchedLen w dt ∧
    (latchedBody sqrt moon dt p w l).1.webAnchorWorld.y
      = w.ay + (latchedRadial sqrt p w).2 * latchedLen w dt := by
  unfold latchedBody latchedRadial latchedLen Sprite.webAnchorWorld Sprite.setVel
    Sprite.addVelocity
  dsimp only
  constructor <;> ring

omit [FloorRing F] in
lemma latchedBody_vel (sqrt : F → F) (moon : Bool) (dt : F) (p : Sprite F) (w : Web F) (l : F) :
    ∃ vtan : F,
      (latchedBody sqrt moon dt p w l).1.velX = -(latchedRadial sqrt p w).2 * vtan ∧
      (latchedBody sqrt moon dt p w l).1.velY = (latchedRadial sqrt p w).1 * vtan :=
  ⟨_, rfl, rfl⟩

omit [FloorRing F] in
lemma latchedPhase_held (sqrt : F → F) (dt : F) (g : Game F)
    (hs : g.web.state = WebState.Latched) (hh : g.web.rmbHeld = true) :
    latchedPhase sqrt dt g =
      { g with player := (latchedBody sqrt g.MOON_MODE dt g.player g.web g.lastL).1
               web := (latchedBody sqrt g.MOON_MODE dt g.player g.web g.lastL).2.1
               lastL := (latchedBody sqrt g.MOON_MODE dt g.player g.web g.lastL).2.2 } := by
  unfold latchedPhase
  rw [if_pos ⟨hs, hh⟩]

/-- C9. No radial velocity survives a Latched frame: after the Latched, held
step the actor's velocity has zero component along the radial direction
`(rnx, rny)` that the step computed, for every prior velocity, position and
reel / pump input. -/
theorem latched_no_radial_velocity (sqrt : F → F) (dt : F) (g : Game F)
    (hs : g.web.state = WebState.Latched) (hh : g.web.rmbHeld = true) :
    (latchedPhase sqrt dt g).player.velX * (latchedRadial sqrt g.player g.web).1
      + (latchedPhase sqrt dt g).player.velY * (latchedRadial sqrt g.player g.web).2 = 0 := by
  rw [latchedPhase_held sqrt dt g hs hh]
  obtain ⟨vtan, hx, hy⟩ := latchedBody_vel sqrt g.MOON_MODE dt g.player g.web g.lastL
  show (latchedBody sqrt g.MOON_MODE dt g.player g.web g.lastL).1.velX * _
    + (latchedBody sqrt g.MOON_MODE dt g.player g.web g.lastL).1.velY * _ = 0
  rw [hx, hy]
  ring

lemma latchedPhase_web_held (sqrt : F → F) (dt : F) (g : Game F)
    (hs : g.web.state = WebState.Latched) (hh : g.web.rmbHeld = true) :
    (latchedPhase sqrt dt g).web.targetLen = latchedLen g.web dt ∧
    (latchedPhase sqrt dt g).web.minLen = g.web.minLen ∧
    (latchedPhase sqrt dt g).web.maxLen = g.web.maxLen ∧
    (latchedPhase sqrt dt g).web.state = g.web.state ∧
    (latchedPhase sqrt dt g).web.rmbHeld = g.web.rmbHeld ∧
    (latchedPhase sqrt dt g).web.ax = g.web.ax ∧
    (latchedPhase sqrt dt g).web.ay = g.web.ay ∧
    (latchedPhase sqrt dt g).web.reelRate = g.web.reelRate := by
  rw [latchedPhase_held sqrt dt g hs hh]
  exact latchedBody_web sqrt g.MOON_MODE dt g.player g.web g.lastL

omit [FloorRing F] in
lemma latchedLen_bounds (w : Web F) (dt : F) (hm : w.minLen ≤ w.maxLen) :
    w.minLen ≤ latchedLen w dt ∧ latchedLen w dt ≤ w.maxLen := by
  unfold latchedLen
  exact clampf_bounds _ _ _ hm

omit [FloorRing F] in
lemma latchedLen_at_min (w : Web F) (dt : F) (hm : w.minLen ≤ w.maxLen)
    (hin : w.reelIn = true) (ht : w.targetLen = w.minLen) (hr : 0 ≤ w.reelRate) (hdt : 0 ≤ dt) :
    latchedLen w dt = w.minLen := by
  unfold latchedLen clampf
  dsimp only
  have hrd : 0 ≤ w.reelRate * dt := mul_nonneg hr hdt
  rw [if_pos hin, ht]
  split_ifs
  · have : w.minLen - w.reelRate * dt + w.reelRate * dt = w.minLen := by ring
    rw [this, min_eq_right hm, max_self]
  · apply max_eq_left
    exact le_trans (min_le_right _ _) (by linarith)

lemma reelFrames_bounds (sqrt : F → F) (inputs : List (Bool × Bool × F)) :
    ∀ g : Game F, g.web.state = WebState.Latched → g.web.rmbHeld = true →
      g.web.minLen ≤ g.web.maxLen → inputs ≠ [] →
      (reelFrames sqrt g inputs).web.minLen = g.web.minLen ∧
      (reelFrames sqrt g inputs).web.maxLen = g.web.maxLen ∧
      g.web.minLen ≤ (reelFrames sqrt g inputs).web.targetLen ∧
      (reelFrames sqrt g inputs).web.targetLen ≤ g.web.maxLen := by
  induction inputs with
  | nil => intro g _ _ _ h; exact absurd rfl h
  | cons x rest ih =>
    intro g hs hh hm _
    obtain ⟨rin, rout, dt⟩ := x
    simp only [reelFrames]
    obtain ⟨h1, h2, h3, h4, h5, -⟩ := latchedPhase_web_held sqrt dt
      { g with web := { g.web with reelIn := rin, reelOut := rout } } hs hh
    have h2' : (latchedPhase sqrt dt
        { g with web := { g.web with reelIn := rin, reelOut := rout } }).web.minLen
          = g.web.minLen := h2
    have h3' : (latchedPhase sqrt dt
        { g with web := { g.web with reelIn := rin, reelOut := rout } }).web.maxLen
          = g.web.maxLen := h3
    by_cases hr : rest = []
    · subst hr
      simp only [reelFrames]
      refine ⟨h2', h3', ?_, ?_⟩
      · rw [h1]
        exact (latchedLen_bounds { g.web with reelIn := rin, reelOut := rout } dt hm).1
      · rw [h1]
        exact (latchedLen_bounds { g.web with reelIn := rin, reelOut := rout } dt hm).2
    · have := ih _ (h4.trans hs) (h5.trans hh) (by rw [h2', h3']; exact hm) hr
      rw [h2', h3'] at this
      exact this

/-- C2. Reel bounds: with `minLen <= maxLen`, after every Latched held step, after
every accepted wheel adjustment, and after every non-empty sequence of Latched
held steps with arbitrary reel-in / reel-out inputs and frame times,
`minLen <= targetLen <= maxLen`; and a reel-in step that starts at
`targetLen = minLen` leaves `targetLen = minLen`. -/
theorem reel_bounds (sqrt : F → F) (amb : Ambient) (dt : F) (wheelY : Int) (g : Game F)
    (inputs : List (Bool × Bool × F))
    (hs : g.web.state = WebState.Latched) (hm : g.web.minLen ≤ g.web.maxLen) :
    (g.web.rmbHeld = true →
      g.web.minLen ≤ (latchedPhase sqrt dt g).web.targetLen ∧
      (latchedPhase sqrt dt g).web.targetLen ≤ g.web.maxLen) ∧
    (g.web.minLen ≤ (handleEvent sqrt amb (Event.mouseWheel wheelY) g).web.targetLen ∧
      (handleEvent sqrt amb (Event.mouseWheel wheelY) g).web.targetLen ≤ g.web.maxLen) ∧
    (g.web.rmbHeld = true → inputs ≠ [] →
      g.web.minLen ≤ (reelFrames sqrt g inputs).web.targetLen ∧
      (reelFrames sqrt g inputs).web.targetLen ≤ g.web.maxLen) ∧
    (g.web.rmbHeld = true → g.web.reelIn = true → g.web.targetLen = g.web.minLen →
      0 ≤ g.web.reelRate → 0 ≤ dt →
      (latchedPhase sqrt dt g).web.targetLen = g.web.minLen) := by
  refine ⟨?_, ?_, ?_, ?_⟩
  · intro hh
    rw [(latchedPhase_web_held sqrt dt g hs hh).1]
    exact latchedLen_bounds _ dt hm
  · rw [handleEvent_wheel]
    unfold onMouseWheel
    rw [if_pos hs]
    exact clampf_bounds _ _ _ hm
  · intro hh hne
    exact (reelFrames_bounds sqrt inputs g hs hh hm hne).2.2
  · intro hh hin ht hr hdt
    rw [(latchedPhase_web_held sqrt dt g hs hh).1]
    exact latchedLen_at_min _ dt hm hin ht hr hdt

omit [FloorRing F] in
lemma latchedLen_idle (w : Web F) (dt : F) (hin : w.reelIn = false) (hout : w.reelOut = false)
    (hl : w.LenOk) : latchedLen w dt = w.targetLen := by
  unfold latchedLen
  dsimp only
  rw [hin, hout]
  simp only [Bool.false_eq_true, if_false]
  exact clampf_of_mem _ _ _ hl.1 hl.2

/-- The post-step distance from the anchor, in exact real arithmetic: the rope
length scaled by `d / max 1 d`, where `d` is the pre-step distance. -/
lemma latchedPhase_anchorDist (dt : ℝ) (g : Game ℝ)
    (hs : g.web.state = WebState.Latched) (hh : g.web.rmbHeld = true)
    (hL : 0 ≤ latchedLen g.web dt) :
    anchorDist Real.sqrt (latchedPhase Real.sqrt dt g).player (latchedPhase Real.sqrt dt g).web
      = latchedLen g.web dt
        * (anchorDist Real.sqrt g.player g.web / max 1 (anchorDist Real.sqrt g.player g.web)) := by
  obtain ⟨-, -, -, -, -, hax, hay, -⟩ := latchedPhase_web_held Real.sqrt dt g hs hh
  have hp : (latchedPhase Real.sqrt dt g).player
      = (latchedBody Real.sqrt g.MOON_MODE dt g.player g.web g.lastL).1 := by
    rw [latchedPhase_held Real.sqrt dt g hs hh]
  obtain ⟨hx, hy⟩ := latchedBody_anchor Real.sqrt g.MOON_MODE dt g.player g.web g.lastL
  unfold anchorDist
  rw [hax, hay, hp, hx, hy]
  unfold latchedRadial
  dsimp only
  set rx := g.player.webAnchorWorld.x - g.web.ax with hrx
  set ry := g.player.webAnchorWorld.y - g.web.ay with hry
  set d := Real.sqrt (rx * rx + ry * ry) with hd
  set L := latchedLen g.web dt with hLdef
  have hd0 : 0 ≤ d := Real.sqrt_nonneg _
  have hone : (1.0 : ℝ) = 1 := by norm_num
  rw [hone]
  have hm : 0 < max 1 d := lt_of_lt_of_le one_pos (le_max_left _ _)
  have hsq : rx * rx + ry * ry = d * d := by
    rw [hd]
    exact (Real.mul_self_sqrt (add_nonneg (mul_self_nonneg rx) (mul_self_nonneg ry))).symm
  have key : (g.web.ax + rx * (1 / max 1 d) * L - g.web.ax)
      * (g.web.ax + rx * (1 / max 1 d) * L - g.web.ax)
      + (g.web.ay + ry * (1 / max 1 d) * L - g.web.ay)
      * (g.web.ay + ry * (1 / max 1 d) * L - g.web.ay)
      = (L * (d / max 1 d)) * (L * (d / max 1 d)) := by
    have : (g.web.ax + rx * (1 / max 1 d) * L - g.web.ax)
        * (g.web.ax + rx * (1 / max 1 d) * L - g.web.ax)
        + (g.web.ay + ry * (1 / max 1 d) * L - g.web.ay)
        * (g.web.ay + ry * (1 / max 1 d) * L - g.web.ay)
        = (rx * rx + ry * ry) * (L * L) / (max 1 d * max 1 d) := by
      field_simp
      ring
    rw [this, hsq]
    field_simp
    ring
  rw [key]
  exact Real.sqrt_mul_self (mul_nonneg hL (div_nonneg hd0 (le_of_lt hm)))

/-- C1 (as amended). Grapple rigidity: for a Latched, held step with no reel-in,
reel-out or pump input and a rope length within its bounds (`0 <= minLen`), the
rope length is unchanged by the step and the post-step distance
from the anchor to the attachment point is `targetLen * d / max 1 d`, where `d`
is the pre-step distance; it equals `targetLen` whenever `d >= 1`. -/
theorem latched_rigid (dt : ℝ) (g : Game ℝ)
    (hs : g.web.state = WebState.Latched) (hh : g.web.rmbHeld = true)
    (hin : g.web.reelIn = false) (hout : g.web.reelOut = false) (_hp : g.web.pump = false)
    (h0 : 0 ≤ g.web.minLen) (hl : g.web.LenOk) :
    (latchedPhase Real.sqrt dt g).web.targetLen = g.web.targetLen ∧
    anchorDist Real.sqrt (latchedPhase Real.sqrt dt g).player (latchedPhase Real.sqrt dt g).web
      = g.web.targetLen
        * (anchorDist Real.sqrt g.player g.web / max 1 (anchorDist Real.sqrt g.player g.web)) ∧
    (1 ≤ anchorDist Real.sqrt g.player g.web →
      anchorDist Real.sqrt (latchedPhase Real.sqrt dt g).player (latchedPhase Real.sqrt dt g).web
        = (latchedPhase Real.sqrt dt g).web.targetLen) := by
  have hlen : latchedLen g.web dt = g.web.targetLen := latchedLen_idle g.web dt hin hout hl
  have ht : (latchedPhase Real.sqrt dt g).web.targetLen = g.web.targetLen :=
    (latchedPhase_web_held Real.sqrt dt g hs hh).1.trans hlen
  have hL0 : 0 ≤ latchedLen g.web dt := by
    rw [hlen]
    exact le_trans h0 hl.1
  have hd := latchedPhase_anchorDist dt g hs hh hL0
  rw [hlen] at hd
  refine ⟨ht, hd, ?_⟩
  intro h1
  rw [hd, ht, max_eq_right h1, div_self (by linarith), mul_one]

lemma grappleGame_anchor (ax ay : Int) (len : ℝ) (held over : Bool) :
    (grappleGame ℝ ax ay len held over).player.webAnchorWorld.x = 234 ∧
    (grappleGame ℝ ax ay len held over).player.webAnchorWorld.y = 753 := by
  have hf : (decide (SDL_RendererFlip.SDL_FLIP_NONE = SDL_RendererFlip.SDL_FLIP_HORIZONTAL))
      = false := by decide
  simp only [grappleGame, Game.sample, Sprite.sample, Sprite.webAnchorWorld, WEB_ANCHOR_U,
    WEB_ANCHOR_V, WEB_ANCHOR_MIRROR, hf, Bool.and_false, Bool.false_eq_true, if_false]
  constructor <;> norm_num

lemma grappleGame_web (ax ay : Int) (len : ℝ) (held over : Bool) :
    (grappleGame ℝ ax ay len held over).web.ax = (ax : ℝ) ∧
    (grappleGame ℝ ax ay len held over).web.ay = (ay : ℝ) ∧
    (grappleGame ℝ ax ay len held over).web.targetLen = len ∧
    (grappleGame ℝ ax ay len held over).web.minLen = 70 ∧
    (grappleGame ℝ ax ay len held over).web.maxLen = 1800 := by
  refine ⟨rfl, rfl, rfl, ?_, ?_⟩
  · show (70.0 : ℝ) = 70
    norm_num
  · show (1800.0 : ℝ) = 1800
    norm_num

lemma grappleGame_at_anchor (len : ℝ) (held over : Bool) :
    anchorDist Real.sqrt (grappleGame ℝ 234 753 len held over).player
      (grappleGame ℝ 234 753 len held over).web = 0 := by
  obtain ⟨hx, hy⟩ := grappleGame_anchor 234 753 len held over
  obtain ⟨e1, e2, -⟩ := grappleGame_web 234 753 len held over
  unfold anchorDist
  rw [hx, hy, e1, e2]
  norm_num

lemma grappleGame_lenOk (ax ay : Int) (held over : Bool) :
    (0 : ℝ) ≤ (grappleGame ℝ ax ay 70 held over).web.minLen ∧
    (grappleGame ℝ ax ay 70 held over).web.LenOk := by
  obtain ⟨-, -, e3, e1, e2⟩ := grappleGame_web ax ay 70 held over
  unfold Web.LenOk
  rw [e1, e2, e3]
  norm_num

/-- C1 (counterexample). The grapple is Latched and held on an anchor that
coincides with the attachment point `(234, 753)`, rope length `70` (what a cast
on the attachment point gives): the step leaves the attachment point on the
anchor, at distance `0`, not `70`. -/
theorem grappleRigid_counterexample : ¬ GrappleRigid (1 / 60) (grappleGame ℝ 234 753 70 true false) := by
  intro hclaim
  obtain ⟨h1, h2⟩ := hclaim rfl rfl rfl rfl rfl
  obtain ⟨h0, hl⟩ := grappleGame_lenOk 234 753 true false
  have hlen : latchedLen (grappleGame ℝ 234 753 70 true false).web (1 / 60) = 70 :=
    latchedLen_idle _ _ rfl rfl hl
  have hd := latchedPhase_anchorDist (1 / 60) (grappleGame ℝ 234 753 70 true false) rfl rfl
    (by rw [hlen]; norm_num)
  rw [grappleGame_at_anchor, h1, h2] at hd
  have e3 : (grappleGame ℝ 234 753 70 true false).web.targetLen = 70 := rfl
  rw [e3, hlen] at hd
  norm_num at hd

/-- Witness for `latched_rigid`: the anchor coincides with the attachment
point. -/
theorem latched_rigid_witness :
    (grappleGame ℝ 234 753 70 true false).web.state = WebState.Latched ∧
    (grappleGame ℝ 234 753 70 true false).web.rmbHeld = true ∧
    (grappleGame ℝ 234 753 70 true false).web.reelIn = false ∧
    (grappleGame ℝ 234 753 70 true false).web.reelOut = false ∧
    (grappleGame ℝ 234 753 70 true false).web.pump = false ∧
    (0 : ℝ) ≤ (grappleGame ℝ 234 753 70 true false).web.minLen ∧
    (grappleGame ℝ 234 753 70 true false).web.LenOk ∧
    ((latchedPhase Real.sqrt (1 / 60) (grappleGame ℝ 234 753 70 true false)).web.targetLen
      = (grappleGame ℝ 234 753 70 true false).web.targetLen ∧
    anchorDist Real.sqrt (latchedPhase Real.sqrt (1 / 60) (grappleGame ℝ 234 753 70 true false)).player
        (latchedPhase Real.sqrt (1 / 60) (grappleGame ℝ 234 753 70 true false)).web
      = (grappleGame ℝ 234 753 70 true false).web.targetLen
        * (anchorDist Real.sqrt (grappleGame ℝ 234 753 70 true false).player
            (grappleGame ℝ 234 753 70 true false).web
          / max 1 (anchorDist Real.sqrt (grappleGame ℝ 234 753 70 true false).player
            (grappleGame ℝ 234 753 70 true false).web)) ∧
    (1 ≤ anchorDist Real.sqrt (grappleGame ℝ 234 753 70 true false).player
        (grappleGame ℝ 234 753 70 true false).web →
      anchorDist Real.sqrt
          (latchedPhase Real.sqrt (1 / 60) (grappleGame ℝ 234 753 70 true false)).player
          (latchedPhase Real.sqrt (1 / 60) (grappleGame ℝ 234 753 70 true false)).web
        = (latchedPhase Real.sqrt (1 / 60) (grappleGame ℝ 234 753 70 true false)).web.targetLen)) :=
  ⟨rfl, rfl, rfl, rfl, rfl, (grappleGame_lenOk 234 753 true false).1,
    (grappleGame_lenOk 234 753 true false).2,
    latched_rigid (1 / 60) (grappleGame ℝ 234 753 70 true false) rfl rfl rfl rfl rfl
      (grappleGame_lenOk 234 753 true false).1 (grappleGame_lenOk 234 753 true false).2⟩

end LatchedStep

/-! ## Cast, release and cancellation -/

section CastRelease

variable {F : Type} [LinearOrderedField F] [FloorRing F]

omit [FloorRing F] in
lemma hitIndexFrom_hit (p : SDL_Point) (ts : List Tile) :
    ∀ i : Nat, (∃ t ∈ ts, SDL_PointInRect p t.rect = true) → 0 ≤ hitIndexFrom p ts i := by
  induction ts with
  | nil => intro i h; obtain ⟨t, ht, -⟩ := h; cases ht
  | cons t ts ih =>
    intro i h
    unfold hitIndexFrom
    split_ifs with hc
    · exact Int.natCast_nonneg i
    · apply ih
      obtain ⟨u, hu, hp⟩ := h
      rcases List.mem_cons.mp hu with h1 | h1
      · subst h1
        exact absurd hp hc
      · exact ⟨u, h1, hp⟩

omit [FloorRing F] in
lemma hitIndexFrom_miss (p : SDL_Point) (ts : List Tile) :
    ∀ i : Nat, (¬ ∃ t ∈ ts, SDL_PointInRect p t.rect = true) → hitIndexFrom p ts i = -1 := by
  induction ts with
  | nil => intro i _; rfl
  | cons t ts ih =>
    intro i h
    unfold hitIndexFrom
    split_ifs with hc
    · exact absurd ⟨t, List.mem_cons_self _ _, hc⟩ h
    · apply ih
      rintro ⟨u, hu, hp⟩
      exact h ⟨u, List.mem_cons_of_mem _ hu, hp⟩

lemma castWeb_hit (sqrt : F → F) (amb : Ambient) (g : Game F)
    (h : ∃ t ∈ g.allTiles, SDL_PointInRect (worldPoint amb g) t.rect = true) :
    (castWeb sqrt amb g).web.state = WebState.Shooting ∧
    (castWeb sqrt amb g).web.ax = ((worldPoint amb g).x : F) ∧
    (castWeb sqrt amb g).web.ay = ((worldPoint amb g).y : F) ∧
    (castWeb sqrt amb g).web.targetLen
      = clampf (castDist sqrt amb g) g.web.minLen g.web.maxLen ∧
    (castWeb sqrt amb g).web.curLen = 0 ∧
    (castWeb sqrt amb g).web.rmbHeld = true ∧
    (castWeb sqrt amb g).player.frameLock = true := by
  have h0 := hitIndexFrom_hit (worldPoint amb g) g.allTiles 0 h
  have hne : hitIndexFrom (worldPoint amb g) g.allTiles 0 ≠ -1 := by
    intro he
    rw [he] at h0
    exact absurd h0 (by decide)
  unfold castWeb
  dsimp only
  rw [if_pos hne]
  refine ⟨rfl, rfl, rfl, rfl, ?_, rfl, rfl⟩
  show (0.0 : F) = 0
  norm_num

lemma castWeb_miss (sqrt : F → F) (amb : Ambient) (g : Game F)
    (h : ¬ ∃ t ∈ g.allTiles, SDL_PointInRect (worldPoint amb g) t.rect = true) :
    castWeb sqrt amb g = g := by
  have h0 := hitIndexFrom_miss (worldPoint amb g) g.allTiles 0 h
  unfold castWeb
  dsimp only
  rw [if_neg (not_not.mpr h0)]

/-- C3. Cast: a right click without the place-platform modifier, while the game
is not over, at world point `p`.  If some tile rectangle contains `p`, the
grapple gets anchor `p`, `targetLen = clampf(d, minLen, maxLen)` with `d` the
distance from the attachment point to `p`, `curLen = 0` and state Shooting (with
`minLen = 70`, `maxLen = 1800`: `d = 500` gives `500`, `d = 2000` gives `1800`);
if no tile contains `p`, the game state, hence the grapple and the frame lock,
is unchanged. -/
theorem cast_grapple (amb : Ambient) (g : Game ℝ) (hgo : g.gameOver = false)
    (hn : g.nHeld = false) :
    ((∃ t ∈ g.allTiles, SDL_PointInRect (worldPoint amb g) t.rect = true) →
      (handleEvent Real.sqrt amb (Event.mouseButtonDown MouseButton.right) g).web.ax
        = ((worldPoint amb g).x : ℝ) ∧
      (handleEvent Real.sqrt amb (Event.mouseButtonDown MouseButton.right) g).web.ay
        = ((worldPoint amb g).y : ℝ) ∧
      (handleEvent Real.sqrt amb (Event.mouseButtonDown MouseButton.right) g).web.targetLen
        = clampf (castDist Real.sqrt amb g) g.web.minLen g.web.maxLen ∧
      (handleEvent Real.sqrt amb (Event.mouseButtonDown MouseButton.right) g).web.curLen = 0 ∧
      (handleEvent Real.sqrt amb (Event.mouseButtonDown MouseButton.right) g).web.state
        = WebState.Shooting ∧
      (g.web.minLen = 70 → g.web.maxLen = 1800 →
        (castDist Real.sqrt amb g = 500 →
          (handleEvent Real.sqrt amb (Event.mouseButtonDown MouseButton.right) g).web.targetLen
            = 500) ∧
        (castDist Real.sqrt amb g = 2000 →
          (handleEvent Real.sqrt amb (Event.mouseButtonDown MouseButton.right) g).web.targetLen
            = 1800))) ∧
    ((¬ ∃ t ∈ g.allTiles, SDL_PointInRect (worldPoint amb g) t.rect = true) →
      handleEvent Real.sqrt amb (Event.mouseButtonDown MouseButton.right) g = g) := by
  rw [handleEvent_rightDown_alive Real.sqrt amb g hgo hn]
  refine ⟨?_, castWeb_miss Real.sqrt amb g⟩
  intro h
  obtain ⟨h1, h2, h3, h4, h5, -, -⟩ := castWeb_hit Real.sqrt amb g h
  refine ⟨h2, h3, h4, h5, h1, ?_⟩
  intro hmin hmax
  rw [h4, hmin, hmax]
  constructor
  · intro hd
    rw [hd]
    unfold clampf
    norm_num
  · intro hd
    rw [hd]
    unfold clampf
    norm_num

lemma releasePhase_vel_latched (sqrt : F → F) (g : Game F) (hh : g.web.rmbHeld = false)
    (hs : g.web.state = WebState.Latched) :
    (releasePhase sqrt g).player.velX
      = g.player.velX + (releaseTangent sqrt g.player g.web).1
          * releaseBoost (playerSpeed sqrt g.player) ∧
    (releasePhase sqrt g).player.velY
      = g.player.velY + (releaseTangent sqrt g.player g.web).2
          * releaseBoost (playerSpeed sqrt g.player) := by
  unfold releasePhase
  have hc : (!g.web.rmbHeld && decide (g.web.state ≠ WebState.None)) = true := by
    simp [hh, hs]
  rw [if_pos hc]
  dsimp only
  rw [if_pos hs]
  exact ⟨rfl, rfl⟩

lemma releasePhase_vel_other (sqrt : F → F) (g : Game F)
    (hs : g.web.state ≠ WebState.Latched) :
    (releasePhase sqrt g).player.velX = g.player.velX ∧
    (releasePhase sqrt g).player.velY = g.player.velY := by
  unfold releasePhase
  split_ifs <;> exact ⟨rfl, rfl⟩

omit [FloorRing F] in
lemma releaseBoost_bounds (v : F) (hv : 0 ≤ v) : 0.35 ≤ releaseBoost v ∧ releaseBoost v ≤ 2.2 := by
  unfold releaseBoost
  constructor
  · apply le_min
    · norm_num
    · have : (0 : F) ≤ 0.15 * (v / 10.0) := by
        apply mul_nonneg (by norm_num)
        apply div_nonneg hv (by norm_num)
      linarith
  · exact min_le_left _ _

lemma releasePhase_held (sqrt : F → F) (g : Game F) (hh : g.web.rmbHeld = true) :
    releasePhase sqrt g = g := by
  unfold releasePhase
  rw [if_neg]
  simp [hh]

/-- A frame update that starts with the cast button held and the grapple active
ends with the grapple still active. -/
lemma frameUpdate_keeps_held (sqrt cos : F → F) (pi : F) (now : Nat) (dt : F) (keys : Keys)
    (g : Game F) (hh : g.web.rmbHeld = true) (hs : g.web.state ≠ WebState.None) :
    (frameUpdate sqrt cos pi now dt keys g).web.state ≠ WebState.None := by
  unfold frameUpdate
  dsimp only
  obtain ⟨p1, -⟩ := playerPhase_web now cos pi keys g
  obtain ⟨r1, -⟩ := rechargePhase_web now (playerPhase now cos pi keys g)
  have k1 : (knifePhase now (rechargePhase now (playerPhase now cos pi keys g))).web = g.web :=
    (r1.trans p1)
  obtain ⟨s1, s2⟩ := shootingStep_fields dt g.web
  have w4 : (shootingPhase dt (knifePhase now (rechargePhase now
      (playerPhase now cos pi keys g)))).web = shootingStep dt g.web := by
    show shootingStep dt _ = _
    rw [k1]
  have h4 : (shootingPhase dt (knifePhase now (rechargePhase now
      (playerPhase now cos pi keys g)))).web.rmbHeld = true := by
    rw [w4, s1, hh]
  have n4 : (shootingPhase dt (knifePhase now (rechargePhase now
      (playerPhase now cos pi keys g)))).web.state ≠ WebState.None := by
    rw [w4]
    exact fun h => hs (s2.mp h)
  have h5 : (latchedPhase sqrt dt (shootingPhase dt (knifePhase now (rechargePhase now
      (playerPhase now cos pi keys g))))).web.rmbHeld = true ∧
      (latchedPhase sqrt dt (shootingPhase dt (knifePhase now (rechargePhase now
      (playerPhase now cos pi keys g))))).web.state ≠ WebState.None := by
    by_cases hl : (shootingPhase dt (knifePhase now (rechargePhase now
        (playerPhase now cos pi keys g)))).web.state = WebState.Latched
    · obtain ⟨-, -, -, e4, e5, -⟩ := latchedPhase_web_held sqrt dt _ hl h4
      exact ⟨e5.trans h4, by rw [e4]; exact n4⟩
    · have : latchedPhase sqrt dt (shootingPhase dt (knifePhase now (rechargePhase now
          (playerPhase now cos pi keys g))))
          = shootingPhase dt (knifePhase now (rechargePhase now
          (playerPhase now cos pi keys g))) := by
        unfold latchedPhase
        rw [if_neg]
        exact fun h => hl h.1
      rw [this]
      exact ⟨h4, n4⟩
  rw [releasePhase_held sqrt _ h5.1]
  obtain ⟨t1, -⟩ := tailPhases_web now g.allTiles (latchedPhase sqrt dt (shootingPhase dt
    (knifePhase now (rechargePhase now (playerPhase now cos pi keys g)))))
  rw [t1]
  exact h5.2

/-- C10 (as amended). Cancellation: from every state that is not game over in
which the grapple is Shooting or Latched, a right-button-up event followed by
that frame's update leaves the grapple Idle. -/
theorem release_cancels_when_alive (sqrt cos : F → F) (pi : F) (amb : Ambient) (now : Nat)
    (dt : F) (keys : Keys) (g : Game F) (hgo : g.gameOver = false)
    (hs : g.web.state ≠ WebState.None) :
    (frameUpdate sqrt cos pi now dt keys
      (handleEvent sqrt amb (Event.mouseButtonUp MouseButton.right) g)).web.state
      = WebState.None := by
  rw [handleEvent_rightUp_alive sqrt amb g hgo]
  exact (frameUpdate_releases sqrt cos pi now dt keys (onRightButtonUp g) rfl hs).1

/-- C10 (counterexample). Game over with the grapple Latched and the button
still recorded as held: the right-button-up event is ignored and the grapple is
still active after the frame update. -/
theorem releaseCancels_counterexample :
    ¬ ReleaseCancels Real.sqrt Real.cos Real.pi { now := 0, shift := false, mx := 0, my := 0, rand := 0 }
        0 (1 / 60) noKeys (grappleGame ℝ 234 453 300 true true) := by
  intro hclaim
  have h1 := hclaim (by decide)
  rw [handleEvent_rightUp_over Real.sqrt _ _ rfl] at h1
  exact frameUpdate_keeps_held Real.sqrt Real.cos Real.pi 0 (1 / 60) noKeys
    (grappleGame ℝ 234 453 300 true true) rfl (by decide) h1

/-- Witness for `release_cancels_when_alive`: the same grapple while the game is
not over. -/
theorem release_cancels_when_alive_witness :
    (grappleGame ℝ 234 453 300 true false).gameOver = false ∧
    (grappleGame ℝ 234 453 300 true false).web.state ≠ WebState.None ∧
    (frameUpdate Real.sqrt Real.cos Real.pi 0 (1 / 60) noKeys
      (handleEvent Real.sqrt { now := 0, shift := false, mx := 0, my := 0, rand := 0 }
        (Event.mouseButtonUp MouseButton.right)
        (grappleGame ℝ 234 453 300 true false))).web.state = WebState.None :=
  ⟨rfl, by decide,
    release_cancels_when_alive Real.sqrt Real.cos Real.pi
      { now := 0, shift := false, mx := 0, my := 0, rand := 0 } 0 (1 / 60) noKeys
      (grappleGame ℝ 234 453 300 true false) rfl (by decide)⟩

lemma releaseTangent_unit (player : Sprite ℝ) (web : Web ℝ)
    (h : 1 ≤ anchorDist Real.sqrt player web) :
    (releaseTangent Real.sqrt player web).1 * (releaseTangent Real.sqrt player web).1
      + (releaseTangent Real.sqrt player web).2 * (releaseTangent Real.sqrt player web).2 = 1 := by
  unfold releaseTangent
  unfold anchorDist at h
  dsimp only
  set rx := player.webAnchorWorld.x - web.ax
  set ry := player.webAnchorWorld.y - web.ay
  set d := Real.sqrt (rx * rx + ry * ry) with hd
  have hone : (1.0 : ℝ) = 1 := by norm_num
  rw [hone, max_eq_right h]
  have hsq : rx * rx + ry * ry = d * d := by
    rw [hd]
    exact (Real.mul_self_sqrt (add_nonneg (mul_self_nonneg rx) (mul_self_nonneg ry))).symm
  have hd0 : d ≠ 0 := by linarith
  field_simp
  nlinarith [hsq]

lemma releaseTangent_perp (player : Sprite ℝ) (web : Web ℝ) :
    (releaseTangent Real.sqrt player web).1 * (player.webAnchorWorld.x - web.ax)
      + (releaseTangent Real.sqrt player web).2 * (player.webAnchorWorld.y - web.ay) = 0 := by
  unfold releaseTangent
  dsimp only
  ring

/-- C8 (as amended). Release: in a frame update that starts with the cast button
not held and the grapple Shooting or Latched, the grapple ends Idle and the
frame lock is cleared; the release block changes the velocity only if the
grapple is Latched, and then adds `boost * (-ry, rx) / max(1, d)`, where
`(rx, ry)` is the vector from the anchor to the attachment point, `d` its length
and `boost = min(2.2, 0.35 + 0.15 * speed / 10)`, so `0.35 <= boost <= 2.2`; that
vector is perpendicular to `(rx, ry)`, and it is a unit vector whenever
`d >= 1`. -/
theorem release_boost (cos : ℝ → ℝ) (pi : ℝ) (now : Nat) (dt : ℝ) (keys : Keys) (g : Game ℝ)
    (hh : g.web.rmbHeld = false) (hs : g.web.state ≠ WebState.None) :
    ((frameUpdate Real.sqrt cos pi now dt keys g).web.state = WebState.None ∧
      (frameUpdate Real.sqrt cos pi now dt keys g).player.frameLock = false) ∧
    (g.web.state ≠ WebState.Latched →
      (releasePhase Real.sqrt g).player.velX = g.player.velX ∧
      (releasePhase Real.sqrt g).player.velY = g.player.velY) ∧
    (g.web.state = WebState.Latched →
      (releasePhase Real.sqrt g).player.velX
        = g.player.velX + releaseBoost (playerSpeed Real.sqrt g.player)
            * (releaseTangent Real.sqrt g.player g.web).1 ∧
      (releasePhase Real.sqrt g).player.velY
        = g.player.velY + releaseBoost (playerSpeed Real.sqrt g.player)
            * (releaseTangent Real.sqrt g.player g.web).2 ∧
      (releaseTangent Real.sqrt g.player g.web).1 * (g.player.webAnchorWorld.x - g.web.ax)
        + (releaseTangent Real.sqrt g.player g.web).2 * (g.player.webAnchorWorld.y - g.web.ay)
          = 0 ∧
      (1 ≤ anchorDist Real.sqrt g.player g.web →
        (releaseTangent Real.sqrt g.player g.web).1 * (releaseTangent Real.sqrt g.player g.web).1
          + (releaseTangent Real.sqrt g.player g.web).2
            * (releaseTangent Real.sqrt g.player g.web).2 = 1)) ∧
    (0.35 ≤ releaseBoost (playerSpeed Real.sqrt g.player) ∧
      releaseBoost (playerSpeed Real.sqrt g.player) ≤ 2.2) := by
  refine ⟨frameUpdate_releases Real.sqrt cos pi now dt keys g hh hs,
    releasePhase_vel_other Real.sqrt g, ?_, releaseBoost_bounds _ (Real.sqrt_nonneg _)⟩
  intro hl
  obtain ⟨hx, hy⟩ := releasePhase_vel_latched Real.sqrt g hh hl
  refine ⟨by rw [hx]; ring, by rw [hy]; ring, releaseTangent_perp g.player g.web,
    releaseTangent_unit g.player g.web⟩

/-- C8 (counterexample). The grapple is Latched, the button released, and the
anchor coincides with the attachment point `(234, 753)`: the release block adds
the zero vector, which is not `boost` times a unit vector. -/
theorem releaseBoostsAlongTangent_counterexample :
    ¬ ReleaseBoostsAlongTangent Real.cos Real.pi 0 (1 / 60) noKeys
        (grappleGame ℝ 234 753 70 false false) := by
  intro hclaim
  obtain ⟨-, -, h3, h4, -⟩ := hclaim rfl (by decide)
  obtain ⟨tx, ty, hu, -, hx, hy⟩ := h3 rfl
  obtain ⟨hx2, hy2⟩ := releasePhase_vel_latched Real.sqrt (grappleGame ℝ 234 753 70 false false)
    rfl rfl
  obtain ⟨ax, ay⟩ := grappleGame_anchor 234 753 70 false false
  obtain ⟨e1, e2, -⟩ := grappleGame_web 234 753 70 false false
  have t1 : (releaseTangent Real.sqrt (grappleGame ℝ 234 753 70 false false).player
      (grappleGame ℝ 234 753 70 false false).web).1 = 0 := by
    unfold releaseTangent
    dsimp only
    rw [ax, ay, e1, e2]
    norm_num
  have t2 : (releaseTangent Real.sqrt (grappleGame ℝ 234 753 70 false false).player
      (grappleGame ℝ 234 753 70 false false).web).2 = 0 := by
    unfold releaseTangent
    dsimp only
    rw [ax, ay, e1, e2]
    norm_num
  rw [hx2, t1] at hx
  rw [hy2, t2] at hy
  have hb : (0 : ℝ) < releaseBoost (playerSpeed Real.sqrt
      (grappleGame ℝ 234 753 70 false false).player) := lt_of_lt_of_le (by norm_num) h4
  have htx : tx = 0 := by
    have : releaseBoost (playerSpeed Real.sqrt (grappleGame ℝ 234 753 70 false false).player)
        * tx = 0 := by linarith
    rcases mul_eq_zero.mp this with h | h
    · exact absurd h (ne_of_gt hb)
    · exact h
  have hty : ty = 0 := by
    have : releaseBoost (playerSpeed Real.sqrt (grappleGame ℝ 234 753 70 false false).player)
        * ty = 0 := by linarith
    rcases mul_eq_zero.mp this with h | h
    · exact absurd h (ne_of_gt hb)
    · exact h
  rw [htx, hty] at hu
  norm_num at hu

lemma idleGame_worldPoint : worldPoint clickAmbient (idleGame ℝ) = { x := 0, y := 953 } := by
  have hx : Int.floor ((idleGame ℝ).player.centerX - (SCREEN_WIDTH : ℝ) * 0.5) = -530 := by
    rw [Int.floor_eq_iff]
    simp only [idleGame, Game.sample, Sprite.sample, Sprite.centerX, SCREEN_WIDTH]
    constructor <;> norm_num
  have hy : Int.floor ((idleGame ℝ).player.centerY
      - (SCREEN_HEIGHT : ℝ) * (idleGame ℝ).CAM_Y_ANCHOR + ((idleGame ℝ).CAM_Y_PIXELS : ℝ))
      = 107 := by
    rw [Int.floor_eq_iff]
    simp only [idleGame, Game.sample, Sprite.sample, Sprite.centerY, SCREEN_HEIGHT]
    constructor <;> norm_num
  unfold worldPoint camera
  rw [hx, hy]
  rfl

lemma idleGame_hit :
    ∃ t ∈ (idleGame ℝ).allTiles, SDL_PointInRect (worldPoint clickAmbient (idleGame ℝ)) t.rect
      = true := by
  rw [idleGame_worldPoint]
  exact ⟨groundTile, by simp [idleGame, Game.sample, Game.allTiles], by decide⟩

/-- Witness for `cast_grapple`: a click on the ground tile at world point
`(0, 953)`. -/
theorem cast_grapple_witness :
    (idleGame ℝ).gameOver = false ∧ (idleGame ℝ).nHeld = false ∧
    (∃ t ∈ (idleGame ℝ).allTiles,
      SDL_PointInRect (worldPoint clickAmbient (idleGame ℝ)) t.rect = true) ∧
    (handleEvent Real.sqrt clickAmbient (Event.mouseButtonDown MouseButton.right)
      (idleGame ℝ)).web.ax = ((worldPoint clickAmbient (idleGame ℝ)).x : ℝ) ∧
    (handleEvent Real.sqrt clickAmbient (Event.mouseButtonDown MouseButton.right)
      (idleGame ℝ)).web.ay = ((worldPoint clickAmbient (idleGame ℝ)).y : ℝ) ∧
    (handleEvent Real.sqrt clickAmbient (Event.mouseButtonDown MouseButton.right)
      (idleGame ℝ)).web.targetLen
      = clampf (castDist Real.sqrt clickAmbient (idleGame ℝ)) (idleGame ℝ).web.minLen
          (idleGame ℝ).web.maxLen ∧
    (handleEvent Real.sqrt clickAmbient (Event.mouseButtonDown MouseButton.right)
      (idleGame ℝ)).web.curLen = 0 ∧
    (handleEvent Real.sqrt clickAmbient (Event.mouseButtonDown MouseButton.right)
      (idleGame ℝ)).web.state = WebState.Shooting :=
  have h := (cast_grapple clickAmbient (idleGame ℝ) rfl rfl).1 idleGame_hit
  ⟨rfl, rfl, idleGame_hit, h.1, h.2.1, h.2.2.1, h.2.2.2.1, h.2.2.2.2.1⟩

/-- Witness for `release_boost`: the button released with the grapple Latched on
an anchor 300 units above the attachment point. -/
theorem release_boost_witness :
    (grappleGame ℝ 234 453 300 false false).web.rmbHeld = false ∧
    (grappleGame ℝ 234 453 300 false false).web.state ≠ WebState.None ∧
    ((frameUpdate Real.sqrt Real.cos Real.pi 0 (1 / 60) noKeys
        (grappleGame ℝ 234 453 300 false false)).web.state = WebState.None ∧
      (frameUpdate Real.sqrt Real.cos Real.pi 0 (1 / 60) noKeys
        (grappleGame ℝ 234 453 300 false false)).player.frameLock = false) ∧
    (0.35 ≤ releaseBoost (playerSpeed Real.sqrt (grappleGame ℝ 234 453 300 false false).player) ∧
      releaseBoost (playerSpeed Real.sqrt (grappleGame ℝ 234 453 300 false false).player)
        ≤ 2.2) :=
  have h := release_boost Real.cos Real.pi 0 (1 / 60) noKeys
    (grappleGame ℝ 234 453 300 false false) rfl (by decide)
  ⟨rfl, by decide, h.1, h.2.2.2⟩

/-- Witness for `reel_bounds`: the grapple Latched at rope length 300. -/
theorem reel_bounds_witness :
    (grappleGame ℚ 234 453 300 true false).web.state = WebState.Latched ∧
    (grappleGame ℚ 234 453 300 true false).web.minLen
      ≤ (grappleGame ℚ 234 453 300 true false).web.maxLen ∧
    ((grappleGame ℚ 234 453 300 true false).web.rmbHeld = true →
      (grappleGame ℚ 234 453 300 true false).web.minLen
        ≤ (latchedPhase (fun v => v) (1 / 60)
            (grappleGame ℚ 234 453 300 true false)).web.targetLen ∧
      (latchedPhase (fun v => v) (1 / 60)
          (grappleGame ℚ 234 453 300 true false)).web.targetLen
        ≤ (grappleGame ℚ 234 453 300 true false).web.maxLen) ∧
    ((grappleGame ℚ 234 453 300 true false).web.minLen
        ≤ (handleEvent (fun v => v) clickAmbient (Event.mouseWheel 1)
            (grappleGame ℚ 234 453 300 true false)).web.targetLen ∧
      (handleEvent (fun v => v) clickAmbient (Event.mouseWheel 1)
          (grappleGame ℚ 234 453 300 true false)).web.targetLen
        ≤ (grappleGame ℚ 234 453 300 true false).web.maxLen) :=
  have hm : (grappleGame ℚ 234 453 300 true false).web.minLen
      ≤ (grappleGame ℚ 234 453 300 true false).web.maxLen := by
    show (70.0 : ℚ) ≤ 1800.0
    norm_num
  have h := reel_bounds (fun v => v) clickAmbient (1 / 60) 1
    (grappleGame ℚ 234 453 300 true false) [(true, false, 1 / 60)] rfl hm
  ⟨rfl, hm, h.1, h.2.1⟩

/-- Witness for `latched_no_radial_velocity`: the grapple Latched and held. -/
theorem latched_no_radial_velocity_witness :
    (grappleGame ℝ 234 453 300 true false).web.state = WebState.Latched ∧
    (grappleGame ℝ 234 453 300 true false).web.rmbHeld = true ∧
    (latchedPhase Real.sqrt (1 / 60) (grappleGame ℝ 234 453 300 true false)).player.velX
        * (latchedRadial Real.sqrt (grappleGame ℝ 234 453 300 true false).player
            (grappleGame ℝ 234 453 300 true false).web).1
      + (latchedPhase Real.sqrt (1 / 60) (grappleGame ℝ 234 453 300 true false)).player.velY
        * (latchedRadial Real.sqrt (grappleGame ℝ 234 453 300 true false).player
            (grappleGame ℝ 234 453 300 true false).web).2 = 0 :=
  ⟨rfl, rfl,
    latched_no_radial_velocity Real.sqrt (1 / 60) (grappleGame ℝ 234 453 300 true false)
      rfl rfl⟩

/-- Every assignment to `web.targetLen` leaves it within its bounds: the cast,
the wheel adjustment and the Latched step. -/
lemma lenOk_established (sqrt : F → F) (amb : Ambient) (dt : F) (wheelY : Int) (g : Game F)
    (hm : g.web.minLen ≤ g.web.maxLen) :
    ((∃ t ∈ g.allTiles, SDL_PointInRect (worldPoint amb g) t.rect = true) →
      (castWeb sqrt amb g).web.LenOk) ∧
    (g.web.state = WebState.Latched → (onMouseWheel wheelY g).web.LenOk) ∧
    (g.web.state = WebState.Latched → g.web.rmbHeld = true →
      (latchedPhase sqrt dt g).web.LenOk) := by
  refine ⟨?_, ?_, ?_⟩
  · intro h
    have hne : hitIndexFrom (worldPoint amb g) g.allTiles 0 ≠ -1 := by
      intro he
      have h0 := hitIndexFrom_hit (worldPoint amb g) g.allTiles 0 h
      rw [he] at h0
      exact absurd h0 (by decide)
    unfold castWeb
    dsimp only
    rw [if_pos hne]
    exact clampf_bounds _ _ _ hm
  · intro hs
    unfold onMouseWheel
    rw [if_pos hs]
    exact clampf_bounds _ _ _ hm
  · intro hs hh
    obtain ⟨h1, h2, h3, -⟩ := latchedPhase_web_held sqrt dt g hs hh
    unfold Web.LenOk
    rw [h1, h2, h3]
    exact latchedLen_bounds _ dt hm

end CastRelease

/-! ## Worked inputs -/

section WorkedInputs

variable {F : Type} [LinearOrderedField F] [FloorRing F]

lemma fallingSprite_ground :
    ¬ fallingSprite.landingCandidate false 0 noKeys true groundTile := by
  have hwf := Sprite.sizeOk_sample 134 34 (0 : ℚ) 0 10 false 0
  have hdx : Sprite.inputDx (F := ℚ) noKeys true = 0 :=
    Sprite.inputDx_zero _ _ (Or.inr ⟨rfl, rfl⟩)
  have hx : toInt ((0 : ℚ) + 0 * 4.0) = 0 := by
    have : ((0 : ℚ) + 0 * 4.0) = ((0 : Int) : ℚ) := by norm_num
    rw [this, toInt_intCast]
  have hy2 : toInt ((21 : ℚ) / 2) = 10 :=
    toInt_of_floor (by norm_num) (by norm_num) (by norm_num)
  unfold fallingSprite
  rw [Sprite.landingCandidate_iff _ _ _ _ _ _ hwf, hdx]
  simp only [Sprite.sample, Sprite.collisionRect, Sprite.qualifies, groundTile, hx, toInt_zero,
    HITBOX_SHRINK_X, HITBOX_SHRINK_Y, EPS, MAX_STEP, gravity, GRAVITY_NORMAL, WORLD_GROUND_TOP]
  norm_num [hy2]

/-- The falling sprite lands on tile 2 of `stairTiles` (top `104`), and its
collision-box bottom ends on `104`. -/
lemma fallingSprite_result :
    (fallingSprite.handleInput false 0 (fun v => v) 0 noKeys stairTiles true).2 = 2 ∧
    (fallingSprite.handleInput false 0 (fun v => v) 0 noKeys stairTiles true).1.collisionRect.y
      + (fallingSprite.handleInput false 0 (fun v => v) 0 noKeys stairTiles true).1.collisionRect.h
        = 104 := by
  obtain ⟨candA, candB⟩ := fallingSprite_candidates
  obtain ⟨⟨-, hdst, -, -⟩, hcase⟩ := Sprite.handleInput_cases fallingSprite
    false 0 (fun v => v) 0 noKeys stairTiles true
  rcases hcase with ⟨-, -, -, -, -, hall⟩ | ⟨k, t, hk, hq, hidx, -, hmax, hy, -⟩
  · exact absurd (hall _ (by simp [stairTiles]) candA) (by decide)
  · have h2 : (104 : Int) ≤ t.rect.y := (hmax 2 (platformAt 264 116) rfl candB).1
    have hb := Sprite.bottom_after_snap _ _ _ hdst hy
    have hk3 : k < 3 := by
      by_contra hc
      have : stairTiles[k]? = none := by
        apply List.getElem?_eq_none
        simp only [stairTiles, List.length_cons, List.length_nil]
        omega
      rw [this] at hk
      cases hk
    have hkk : k = 2 := by
      interval_cases k
      · simp only [stairTiles, List.getElem?_cons_zero, Option.some.injEq] at hk
        subst hk
        exact absurd hq fallingSprite_ground
      · simp only [stairTiles, List.getElem?_cons_succ, List.getElem?_cons_zero,
          Option.some.injEq] at hk
        subst hk
        exact absurd h2 (by decide)
      · rfl
    subst hkk
    simp only [stairTiles, List.getElem?_cons_succ, List.getElem?_cons_zero,
      Option.some.injEq] at hk
    subst hk
    exact ⟨hidx, hb⟩

lemma restingSprite_ground :
    ¬ restingSprite.landingCandidate false 0 noKeys true groundTile := by
  have hwf := Sprite.sizeOk_sample 134 34 (0 : ℚ) (-10) 0 true 0
  have hdx : Sprite.inputDx (F := ℚ) noKeys true = 0 :=
    Sprite.inputDx_zero _ _ (Or.inr ⟨rfl, rfl⟩)
  have hx : toInt ((0 : ℚ) + 0 * 4.0) = 0 := by
    have : ((0 : ℚ) + 0 * 4.0) = ((0 : Int) : ℚ) := by norm_num
    rw [this, toInt_intCast]
  have hy1 : toInt (-10 : ℚ) = -10 := by
    have : (-10 : ℚ) = ((-10 : Int) : ℚ) := by norm_num
    rw [this, toInt_intCast]
  have hy2 : toInt (-((19 : ℚ) / 2)) = -9 :=
    toInt_of_ceil (by norm_num) (by norm_num) (by norm_num)
  unfold restingSprite
  rw [Sprite.landingCandidate_iff _ _ _ _ _ _ hwf, hdx]
  simp only [Sprite.sample, Sprite.collisionRect, Sprite.qualifies, groundTile, hx, hy1,
    HITBOX_SHRINK_X, HITBOX_SHRINK_Y, EPS, MAX_STEP, gravity, GRAVITY_NORMAL, WORLD_GROUND_TOP]
  norm_num [hy2]

/-- The resting sprite (`y = -10`, on the platform with top `88`) is snapped to
tile 2 of `sillTiles` (top `89`): `handleInput` returns index `2` and
`y = -9`. -/
lemma restingSprite_result :
    (restingSprite.handleInput false 0 (fun v => v) 0 noKeys sillTiles true).2 = 2 ∧
    (restingSprite.handleInput false 0 (fun v => v) 0 noKeys sillTiles true).1.y = -9 := by
  obtain ⟨-, candB, hh⟩ := restingSprite_facts
  have hwf : restingSprite.SizeOk := Sprite.sizeOk_sample 134 34 (0 : ℚ) (-10) 0 true 0
  obtain ⟨-, hcase⟩ := Sprite.handleInput_cases restingSprite false 0 (fun v => v) 0 noKeys
    sillTiles true
  obtain ⟨-, -, -, -, -, -, -, hmd⟩ := Sprite.moveAndAnimate_fields restingSprite 0 noKeys true
  have hch : (Sprite.collisionRect (Sprite.moveAndAnimate restingSprite 0 noKeys true)).h = 94 := by
    rw [Sprite.collisionRect_h, (hmd hwf).2, ← Sprite.collisionRect_h, hh]
  rcases hcase with ⟨-, -, -, -, -, hall⟩ | ⟨k, t, hk, hq, hidx, -, hmax, hy, -⟩
  · exact absurd (hall _ (by simp [sillTiles]) candB) (by decide)
  · have h2 : (89 : Int) ≤ t.rect.y := (hmax 2 (platformAt 264 101) rfl candB).1
    have hk3 : k < 3 := by
      by_contra hc
      have : sillTiles[k]? = none := by
        apply List.getElem?_eq_none
        simp only [sillTiles, List.length_cons, List.length_nil]
        omega
      rw [this] at hk
      cases hk
    have hkk : k = 2 := by
      interval_cases k
      · simp only [sillTiles, List.getElem?_cons_zero, Option.some.injEq] at hk
        subst hk
        exact absurd hq restingSprite_ground
      · simp only [sillTiles, List.getElem?_cons_succ, List.getElem?_cons_zero,
          Option.some.injEq] at hk
        subst hk
        exact absurd h2 (by decide)
      · rfl
    subst hkk
    simp only [sillTiles, List.getElem?_cons_succ, List.getElem?_cons_zero,
      Option.some.injEq] at hk
    subst hk
    refine ⟨hidx, ?_⟩
    rw [hy, hch]
    simp only [platformAt, HITBOX_SHRINK_Y]
    norm_num

/-- The Latched, held grapple whose anchor is the attachment point `(234, 753)`
with rope length `70`: after the step the rope length is still `70` and the
attachment point is at distance `0` from the anchor. -/
lemma grappleGame_step_result :
    (latchedPhase Real.sqrt (1 / 60) (grappleGame ℝ 234 753 70 true false)).web.targetLen = 70 ∧
    anchorDist Real.sqrt
        (latchedPhase Real.sqrt (1 / 60) (grappleGame ℝ 234 753 70 true false)).player
        (latchedPhase Real.sqrt (1 / 60) (grappleGame ℝ 234 753 70 true false)).web = 0 := by
  obtain ⟨-, hl⟩ := grappleGame_lenOk 234 753 true false
  have hlen : latchedLen (grappleGame ℝ 234 753 70 true false).web (1 / 60) = 70 :=
    latchedLen_idle _ _ rfl rfl hl
  have hd := latchedPhase_anchorDist (1 / 60) (grappleGame ℝ 234 753 70 true false) rfl rfl
    (by rw [hlen]; norm_num)
  obtain ⟨ht, -⟩ := latchedPhase_web_held Real.sqrt (1 / 60)
    (grappleGame ℝ 234 753 70 true false) rfl rfl
  rw [grappleGame_at_anchor] at hd
  refine ⟨by rw [ht, hlen], ?_⟩
  rw [hd]
  norm_num

/-- Releasing the Latched grapple whose anchor is the attachment point
`(234, 753)`: the release block leaves the velocity unchanged and cancels the
grapple. -/
lemma grappleGame_release_result :
    (releasePhase Real.sqrt (grappleGame ℝ 234 753 70 false false)).player.velX
      = (grappleGame ℝ 234 753 70 false false).player.velX ∧
    (releasePhase Real.sqrt (grappleGame ℝ 234 753 70 false false)).player.velY
      = (grappleGame ℝ 234 753 70 false false).player.velY := by
  obtain ⟨hx2, hy2⟩ := releasePhase_vel_latched Real.sqrt (grappleGame ℝ 234 753 70 false false)
    rfl rfl
  obtain ⟨ax, ay⟩ := grappleGame_anchor 234 753 70 false false
  obtain ⟨e1, e2, -⟩ := grappleGame_web 234 753 70 false false
  have t1 : (releaseTangent Real.sqrt (grappleGame ℝ 234 753 70 false false).player
      (grappleGame ℝ 234 753 70 false false).web).1 = 0 := by
    unfold releaseTangent
    dsimp only
    rw [ax, ay, e1, e2]
    norm_num
  have t2 : (releaseTangent Real.sqrt (grappleGame ℝ 234 753 70 false false).player
      (grappleGame ℝ 234 753 70 false false).web).2 = 0 := by
    unfold releaseTangent
    dsimp only
    rw [ax, ay, e1, e2]
    norm_num
  rw [hx2, hy2, t1, t2]
  constructor <;> ring

/-- A frame update with the button held keeps a Latched grapple Latched. -/
lemma frameUpdate_stays_latched (sqrt cos : F → F) (pi : F) (now : Nat) (dt : F) (keys : Keys)
    (g : Game F) (hh : g.web.rmbHeld = true) (hs : g.web.state = WebState.Latched) :
    (frameUpdate sqrt cos pi now dt keys g).web.state = WebState.Latched := by
  unfold frameUpdate
  dsimp only
  obtain ⟨p1, -⟩ := playerPhase_web now cos pi keys g
  obtain ⟨r1, -⟩ := rechargePhase_web now (playerPhase now cos pi keys g)
  have k1 : (knifePhase now (rechargePhase now (playerPhase now cos pi keys g))).web = g.web :=
    (r1.trans p1)
  have s0 : shootingStep dt g.web = g.web := by
    unfold shootingStep
    rw [if_neg]
    rw [hs]
    decide
  have w4 : (shootingPhase dt (knifePhase now (rechargePhase now
      (playerPhase now cos pi keys g)))).web = g.web := by
    show shootingStep dt _ = _
    rw [k1, s0]
  have h4 : (shootingPhase dt (knifePhase now (rechargePhase now
      (playerPhase now cos pi keys g)))).web.rmbHeld = true := by
    rw [w4, hh]
  have n4 : (shootingPhase dt (knifePhase now (rechargePhase now
      (playerPhase now cos pi keys g)))).web.state = WebState.Latched := by
    rw [w4, hs]
  obtain ⟨-, -, -, e4, e5, -⟩ := latchedPhase_web_held sqrt dt _ n4 h4
  rw [releasePhase_held sqrt _ (e5.trans h4)]
  obtain ⟨t1, -⟩ := tailPhases_web now g.allTiles (latchedPhase sqrt dt (shootingPhase dt
    (knifePhase now (rechargePhase now (playerPhase now cos pi keys g)))))
  rw [t1, e4]
  exact n4

/-- Game over, grapple Latched and held: after the right-button-up event and a
frame update the grapple is still Latched. -/
lemma grappleGame_over_result :
    (frameUpdate Real.sqrt Real.cos Real.pi 0 (1 / 60) noKeys
      (handleEvent Real.sqrt { now := 0, shift := false, mx := 0, my := 0, rand := 0 }
        (Event.mouseButtonUp MouseButton.right)
        (grappleGame ℝ 234 453 300 true true))).web.state = WebState.Latched := by
  rw [handleEvent_rightUp_over Real.sqrt _ _ rfl]
  exact frameUpdate_stays_latched Real.sqrt Real.cos Real.pi 0 (1 / 60) noKeys
    (grappleGame ℝ 234 453 300 true true) rfl rfl

end WorkedInputs

/-! ## The actor's boxes: containment and nesting -/

section Boxes

variable {F : Type} [LinearOrderedField F] [FloorRing F]

lemma SDL_PointInRect_iff (p : SDL_Point) (r : SDL_Rect) :
    SDL_PointInRect p r = true ↔ r.x ≤ p.x ∧ p.x < r.x + r.w ∧ r.y ≤ p.y ∧ p.y < r.y + r.h := by
  unfold SDL_PointInRect
  simp only [Bool.and_eq_true, decide_eq_true_eq, ge_iff_le]
  tauto

/-- For a rectangle with positive width and height, being a subset is a
comparison of edges. -/
lemma SDL_Rect.subset_iff (a b : SDL_Rect) (hw : 0 < a.w) (hh : 0 < a.h) :
    a.Subset b ↔ b.x ≤ a.x ∧ a.x + a.w ≤ b.x + b.w ∧ b.y ≤ a.y ∧ a.y + a.h ≤ b.y + b.h := by
  constructor
  · intro h
    have h1 := (SDL_PointInRect_iff _ _).mp
      (h ⟨a.x, a.y⟩ ((SDL_PointInRect_iff _ _).mpr ⟨le_refl _, by show a.x < a.x + a.w; omega,
        le_refl _, by show a.y < a.y + a.h; omega⟩))
    have h2 := (SDL_PointInRect_iff _ _).mp
      (h ⟨a.x + a.w - 1, a.y + a.h - 1⟩
        ((SDL_PointInRect_iff _ _).mpr ⟨by show a.x ≤ a.x + a.w - 1; omega,
          by show a.x + a.w - 1 < a.x + a.w; omega, by show a.y ≤ a.y + a.h - 1; omega,
          by show a.y + a.h - 1 < a.y + a.h; omega⟩))
    obtain ⟨e1, -, e3, -⟩ := h1
    obtain ⟨-, f2, -, f4⟩ := h2
    have e1 : b.x ≤ a.x := e1
    have e3 : b.y ≤ a.y := e3
    have f2 : a.x + a.w - 1 < b.x + b.w := f2
    have f4 : a.y + a.h - 1 < b.y + b.h := f4
    omega
  · rintro ⟨h1, h2, h3, h4⟩ p hp
    obtain ⟨p1, p2, p3, p4⟩ := (SDL_PointInRect_iff _ _).mp hp
    exact (SDL_PointInRect_iff _ _).mpr ⟨by omega, by omega, by omega, by omega⟩

lemma Sprite.collisionRect_size (s : Sprite F) :
    0 < s.collisionRect.w ∧ 0 < s.collisionRect.h := by
  unfold Sprite.collisionRect
  dsimp only
  constructor <;> split_ifs <;> omega

lemma Sprite.interactionRect_size (s : Sprite F) :
    0 < s.interactionRect.w ∧ 0 < s.interactionRect.h := by
  unfold Sprite.interactionRect
  dsimp only
  constructor <;> split_ifs <;> omega

/-- C11 (as amended). Box containment: the collision box is strictly contained
in the render box exactly when the render size is at least 155 by 9, and the
interaction box exactly when it is at least 205 by 105, at every position. -/
theorem box_containment (s : Sprite F) :
    (s.collisionRect.StrictlyInside s.worldRect ↔ 155 ≤ s.dst.w ∧ 9 ≤ s.dst.h) ∧
    (s.interactionRect.StrictlyInside s.worldRect ↔ 205 ≤ s.dst.w ∧ 105 ≤ s.dst.h) := by
  unfold SDL_Rect.StrictlyInside Sprite.collisionRect Sprite.interactionRect Sprite.worldRect
  simp only [HITBOX_SHRINK_X, HITBOX_SHRINK_Y, OUTER_SHRINK_X, OUTER_SHRINK_Y]
  constructor <;> constructor
  · rintro ⟨-, h2, -, h4⟩
    split_ifs at h2 h4 <;> omega
  · rintro ⟨h1, h2⟩
    refine ⟨by omega, ?_, by omega, ?_⟩ <;> split_ifs <;> omega
  · rintro ⟨-, h2, -, h4⟩
    split_ifs at h2 h4 <;> omega
  · rintro ⟨h1, h2⟩
    refine ⟨by omega, ?_, by omega, ?_⟩ <;> split_ifs <;> omega

/-- The boxes of `smallSprite`: the collision box starts 150 to the right of a
render box that is only 120 wide. -/
lemma smallSprite_boxes :
    smallSprite.worldRect = ⟨0, 0, 120, 120⟩ ∧
    smallSprite.collisionRect = ⟨150, 4, 4, 112⟩ ∧
    smallSprite.interactionRect = ⟨200, 100, 4, 4⟩ := by
  simp only [smallSprite, Sprite.sample, Sprite.worldRect, Sprite.collisionRect,
    Sprite.interactionRect, toInt_zero, HITBOX_SHRINK_X, HITBOX_SHRINK_Y, OUTER_SHRINK_X,
    OUTER_SHRINK_Y]
  decide

/-- C11 (counterexample). A sprite of render size 120 by 120 at the origin: its
collision box is `(150, 4, 4, 112)`, to the right of the render box
`(0, 0, 120, 120)`. -/
theorem boxContainment_counterexample : ¬ BoxContainment smallSprite := by
  intro hclaim
  obtain ⟨hw, hc, -⟩ := smallSprite_boxes
  have h := (hclaim (by decide) (by decide)).1
  rw [hw, hc] at h
  exact absurd h.2.1 (by decide)

/-- C12 (as amended). Box nesting: at every position the interaction box is a
subset of the collision box and the collision box a subset of the render box
exactly when the render size is at least 354 by 108; the collision box is
never a subset of the interaction box. -/
theorem box_nesting (s : Sprite F) :
    ((s.interactionRect.Subset s.collisionRect ∧ s.collisionRect.Subset s.worldRect)
      ↔ 354 ≤ s.dst.w ∧ 108 ≤ s.dst.h) ∧
    ¬ s.collisionRect.Subset s.interactionRect := by
  obtain ⟨cw, ch⟩ := s.collisionRect_size
  obtain ⟨iw, ih⟩ := s.interactionRect_size
  rw [SDL_Rect.subset_iff _ _ iw ih, SDL_Rect.subset_iff _ _ cw ch,
    SDL_Rect.subset_iff _ _ cw ch]
  unfold Sprite.collisionRect Sprite.interactionRect Sprite.worldRect
  simp only [HITBOX_SHRINK_X, HITBOX_SHRINK_Y, OUTER_SHRINK_X, OUTER_SHRINK_Y]
  refine ⟨⟨?_, ?_⟩, ?_⟩
  · rintro ⟨⟨-, h2, -, h4⟩, -, k2, -, k4⟩
    split_ifs at h2 h4 k2 k4 <;> omega
  · rintro ⟨h1, h2⟩
    refine ⟨⟨by omega, ?_, by omega, ?_⟩, by omega, ?_, by omega, ?_⟩ <;> split_ifs <;> omega
  · rintro ⟨h1, -⟩
    omega

/-- The boxes of `largeSprite`: the interaction box lies inside the collision
box. -/
lemma largeSprite_boxes :
    largeSprite.worldRect = ⟨0, 0, 600, 600⟩ ∧
    largeSprite.collisionRect = ⟨150, 4, 300, 592⟩ ∧
    largeSprite.interactionRect = ⟨200, 100, 200, 400⟩ := by
  simp only [largeSprite, Sprite.sample, Sprite.worldRect, Sprite.collisionRect,
    Sprite.interactionRect, toInt_zero, HITBOX_SHRINK_X, HITBOX_SHRINK_Y, OUTER_SHRINK_X,
    OUTER_SHRINK_Y]
  decide

/-- C12 (counterexample). A sprite of render size 600 by 600 at the origin: the
point `(150, 4)` lies in the collision box `(150, 4, 300, 592)` and not in the
interaction box `(200, 100, 200, 400)`. -/
theorem boxNesting_counterexample : ¬ BoxNesting largeSprite := by
  intro hclaim
  obtain ⟨-, hc, hi⟩ := largeSprite_boxes
  have h := hclaim.1 ⟨150, 4⟩
  rw [hc, hi] at h
  exact absurd (h (by decide)) (by decide)

end Boxes

/-! ## Reset to the spawn state -/

section Reset

variable {F : Type} [LinearOrderedField F] [FloorRing F]

lemma Sprite.hardResetPosition_fields (s : Sprite F) (tileTop : Int) :
    (s.hardResetPosition tileTop).x = s.x ∧
    (s.hardResetPosition tileTop).y
      = (tileTop : F) - ((toInt ((s.frameH : F) * s.scale) : Int) : F) ∧
    (s.hardResetPosition tileTop).velX = 0.0 ∧
    (s.hardResetPosition tileTop).velY = 0.0 ∧
    (s.hardResetPosition tileTop).onGround = false ∧
    (s.hardResetPosition tileTop).jumpCount = 0 ∧
    (s.hardResetPosition tileTop).flipping = false ∧
    (s.hardResetPosition tileTop).flipAngle = 0.0 ∧
    (s.hardResetPosition tileTop).flipType = FlipType.None ∧
    (s.hardResetPosition tileTop).frameLock = false ∧
    (s.hardResetPosition tileTop).throwPoseUntilMS = 0 ∧
    (s.hardResetPosition tileTop).facing = s.facing ∧
    (s.hardResetPosition tileTop).flipSign = s.flipSign ∧
    (s.hardResetPosition tileTop).flipStartMS = s.flipStartMS :=
  ⟨rfl, rfl, rfl, rfl, rfl, rfl, rfl, rfl, rfl, rfl, rfl, rfl, rfl, rfl⟩

lemma spawnPlayer_fields (imgW imgH : Int) :
    (spawnPlayer imgW imgH : Sprite F).x = 0.0 ∧
    (spawnPlayer imgW imgH : Sprite F).y
      = (WORLD_GROUND_TOP : F) - ((toInt (((imgH / 3 : Int) : F) * 3.0) : Int) : F) ∧
    (spawnPlayer imgW imgH : Sprite F).velX = 0.0 ∧
    (spawnPlayer imgW imgH : Sprite F).velY = 0.0 ∧
    (spawnPlayer imgW imgH : Sprite F).onGround = false ∧
    (spawnPlayer imgW imgH : Sprite F).jumpCount = 0 ∧
    (spawnPlayer imgW imgH : Sprite F).flipping = false ∧
    (spawnPlayer imgW imgH : Sprite F).flipAngle = 0.0 ∧
    (spawnPlayer imgW imgH : Sprite F).flipType = FlipType.None ∧
    (spawnPlayer imgW imgH : Sprite F).frameLock = false ∧
    (spawnPlayer imgW imgH : Sprite F).frameH = imgH / 3 ∧
    (spawnPlayer imgW imgH : Sprite F).scale = 3.0 :=
  ⟨rfl, rfl, rfl, rfl, rfl, rfl, rfl, rfl, rfl, rfl, rfl, rfl⟩

/-- Method `handleInput` never changes the frame size or the scale. -/
lemma Sprite.handleInput_frame (s : Sprite F) (moon : Bool) (now : Nat) (cos : F → F) (pi : F)
    (keys : Keys) (tiles : List Tile) (inputEnabled : Bool) :
    (s.handleInput moon now cos pi keys tiles inputEnabled).1.frameH = s.frameH ∧
    (s.handleInput moon now cos pi keys tiles inputEnabled).1.scale = s.scale := by
  have hk := (Sprite.animate_sameKin (Sprite.move s (Sprite.inputDx (F := F) keys inputEnabled))
    now (Sprite.inputDx (F := F) keys inputEnabled)).1
  have h1 : (Sprite.moveAndAnimate s now keys inputEnabled).frameH = s.frameH := hk.frameH
  have h2 : (Sprite.moveAndAnimate s now keys inputEnabled).scale = s.scale := hk.scale
  unfold Sprite.handleInput
  dsimp only
  have h3 : ∀ (q : Sprite F) (r : Sprite.Landing),
      (Sprite.snap q r).frameH = q.frameH ∧ (Sprite.snap q r).scale = q.scale := by
    intro q r
    unfold Sprite.snap
    split_ifs <;> exact ⟨rfl, rfl⟩
  have h4 : ∀ q : Sprite F, (Sprite.updateFlip q now cos pi).frameH = q.frameH ∧
      (Sprite.updateFlip q now cos pi).scale = q.scale := by
    intro q
    unfold Sprite.updateFlip
    dsimp only
    split_ifs <;> exact ⟨rfl, rfl⟩
  constructor
  · rw [(h4 _).1, (h3 _ _).1]
    exact h1
  · rw [(h4 _).2, (h3 _ _).2]
    exact h2

/-- With the grapple Idle, the player a frame update leaves is the one
`handleInput` returns. -/
lemma frameUpdate_player_idle (sqrt cos : F → F) (pi : F) (now : Nat) (dt : F) (keys : Keys)
    (g : Game F) (hs : g.web.state = WebState.None) :
    (frameUpdate sqrt cos pi now dt keys g).player
      = (g.player.handleInput g.MOON_MODE now cos pi keys g.allTiles (!g.gameOver)).1 := by
  unfold frameUpdate
  dsimp only
  obtain ⟨p1, -, -, -, p5⟩ := playerPhase_web now cos pi keys g
  obtain ⟨r1, r2, -⟩ := rechargePhase_web now (playerPhase now cos pi keys g)
  have k1 : (knifePhase now (rechargePhase now (playerPhase now cos pi keys g))).web = g.web :=
    (r1.trans p1)
  have s0 : shootingStep dt g.web = g.web := by
    unfold shootingStep
    rw [if_neg]
    rw [hs]
    decide
  have w4 : (shootingPhase dt (knifePhase now (rechargePhase now
      (playerPhase now cos pi keys g)))).web = g.web := by
    show shootingStep dt _ = _
    rw [k1, s0]
  have e5 : latchedPhase sqrt dt (shootingPhase dt (knifePhase now (rechargePhase now
      (playerPhase now cos pi keys g))))
      = shootingPhase dt (knifePhase now (rechargePhase now (playerPhase now cos pi keys g))) := by
    unfold latchedPhase
    rw [if_neg]
    rw [w4, hs]
    rintro ⟨h, -⟩
    cases h
  have e6 : releasePhase sqrt (shootingPhase dt (knifePhase now (rechargePhase now
      (playerPhase now cos pi keys g))))
      = shootingPhase dt (knifePhase now (rechargePhase now (playerPhase now cos pi keys g))) := by
    unfold releasePhase
    rw [if_neg]
    rw [w4, hs]
    simp
  rw [e5, e6]
  obtain ⟨-, t2⟩ := tailPhases_web now g.allTiles (shootingPhase dt
    (knifePhase now (rechargePhase now (playerPhase now cos pi keys g))))
  rw [t2]
  show (rechargePhase now (playerPhase now cos pi keys g)).player = _
  rw [r2, p5]

/-- C15 (as amended). Reset: after `resetGame()`, from every game state whose
actor has the frame height and scale of start-up, the actor's `y`, velocity,
grounded flag, jump count, flipping flag, flip angle, flip type and frame lock
equal those of the actor placed at start-up; `x`, the facing, the flip sign and
the flip start time are left as they were. -/
theorem reset_player (imgW imgH : Int) (now : Nat) (g : Game F)
    (hH : g.player.frameH = imgH / 3) (hS : g.player.scale = 3.0) :
    ((resetGame now g).player.y = (spawnPlayer imgW imgH : Sprite F).y ∧
      (resetGame now g).player.velX = (spawnPlayer imgW imgH : Sprite F).velX ∧
      (resetGame now g).player.velY = (spawnPlayer imgW imgH : Sprite F).velY ∧
      (resetGame now g).player.onGround = (spawnPlayer imgW imgH : Sprite F).onGround ∧
      (resetGame now g).player.jumpCount = (spawnPlayer imgW imgH : Sprite F).jumpCount ∧
      (resetGame now g).player.flipping = (spawnPlayer imgW imgH : Sprite F).flipping ∧
      (resetGame now g).player.flipAngle = (spawnPlayer imgW imgH : Sprite F).flipAngle ∧
      (resetGame now g).player.flipType = (spawnPlayer imgW imgH : Sprite F).flipType ∧
      (resetGame now g).player.frameLock = (spawnPlayer imgW imgH : Sprite F).frameLock) ∧
    ((resetGame now g).player.x = g.player.x ∧
      (resetGame now g).player.facing = g.player.facing ∧
      (resetGame now g).player.flipSign = g.player.flipSign ∧
      (resetGame now g).player.flipStartMS = g.player.flipStartMS) := by
  have hp : (resetGame now g).player = g.player.hardResetPosition WORLD_GROUND_TOP := rfl
  obtain ⟨a1, a2, a3, a4, a5, a6, a7, a8, a9, a10, -, a12, a13, a14⟩ :=
    Sprite.hardResetPosition_fields g.player WORLD_GROUND_TOP
  obtain ⟨-, b2, b3, b4, b5, b6, b7, b8, b9, b10, -, -⟩ := spawnPlayer_fields (F := F) imgW imgH
  rw [hp]
  refine ⟨⟨?_, a3.trans b3.symm, a4.trans b4.symm, a5.trans b5.symm, a6.trans b6.symm,
    a7.trans b7.symm, a8.trans b8.symm, a9.trans b9.symm, a10.trans b10.symm⟩,
    a1, a12, a13, a14⟩
  rw [a2, b2, hH, hS]

/-- The player of `walkedGame`: one step of 4 to the right of the spawn point,
with the frame size and scale of start-up. -/
lemma walkedGame_player :
    walkedGame.player.x = 4 ∧ walkedGame.player.frameH = 300 / 3 ∧
    walkedGame.player.scale = 3.0 := by
  have hp : walkedGame.player
      = ((spawnPlayer 800 300 : Sprite ℚ).handleInput false 16 (fun v => v) 0 keyD
          (Game.allTiles (Game.initial 800 300 none none false 0 : Game ℚ)) true).1 :=
    frameUpdate_player_idle (fun v => v) (fun v => v) 0 16 (1 / 60) keyD
      (Game.initial 800 300 none none false 0) rfl
  obtain ⟨⟨hx, -⟩, -⟩ := Sprite.handleInput_cases (spawnPlayer 800 300 : Sprite ℚ) false 16
    (fun v => v) 0 keyD (Game.allTiles (Game.initial 800 300 none none false 0 : Game ℚ)) true
  obtain ⟨mx, -⟩ := Sprite.moveAndAnimate_fields (spawnPlayer 800 300 : Sprite ℚ) 16 keyD true
  obtain ⟨fh, fs⟩ := Sprite.handleInput_frame (spawnPlayer 800 300 : Sprite ℚ) false 16
    (fun v => v) 0 keyD (Game.allTiles (Game.initial 800 300 none none false 0 : Game ℚ)) true
  rw [hp]
  refine ⟨?_, fh, fs⟩
  rw [hx, mx]
  have h1 : (spawnPlayer 800 300 : Sprite ℚ).x = 0.0 := rfl
  have h2 : (spawnPlayer 800 300 : Sprite ℚ).speed = 4.0 := rfl
  have h3 : Sprite.inputDx (F := ℚ) keyD true = 1.0 := by
    simp [Sprite.inputDx, keyD]
  rw [h1, h2, h3]
  norm_num

/-- C15 (counterexample). The game started with an 800 by 300 sheet, one frame
walked to the right (`x = 4`), then reset: the actor keeps `x = 4`, while the
actor placed at start-up has `x = 0`. -/
theorem resetsToSpawn_counterexample : ¬ ResetsToSpawn 800 300 1000 walkedGame := by
  intro hclaim
  obtain ⟨wx, wh, ws⟩ := walkedGame_player
  obtain ⟨hx, -⟩ := hclaim wh ws
  have h1 : (resetGame 1000 walkedGame).player.x = walkedGame.player.x := rfl
  have h2 : (spawnPlayer 800 300 : Sprite ℚ).x = 0.0 := rfl
  rw [h1, wx, h2] at hx
  norm_num at hx

/-- Witness for `reset_player`: the reset of `walkedGame`. -/
theorem reset_player_witness :
    walkedGame.player.frameH = 300 / 3 ∧ walkedGame.player.scale = 3.0 ∧
    (((resetGame 1000 walkedGame).player.y = (spawnPlayer 800 300 : Sprite ℚ).y ∧
      (resetGame 1000 walkedGame).player.velX = (spawnPlayer 800 300 : Sprite ℚ).velX ∧
      (resetGame 1000 walkedGame).player.velY = (spawnPlayer 800 300 : Sprite ℚ).velY ∧
      (resetGame 1000 walkedGame).player.onGround = (spawnPlayer 800 300 : Sprite ℚ).onGround ∧
      (resetGame 1000 walkedGame).player.jumpCount = (spawnPlayer 800 300 : Sprite ℚ).jumpCount ∧
      (resetGame 1000 walkedGame).player.flipping = (spawnPlayer 800 300 : Sprite ℚ).flipping ∧
      (resetGame 1000 walkedGame).player.flipAngle = (spawnPlayer 800 300 : Sprite ℚ).flipAngle ∧
      (resetGame 1000 walkedGame).player.flipType = (spawnPlayer 800 300 : Sprite ℚ).flipType ∧
      (resetGame 1000 walkedGame).player.frameLock
        = (spawnPlayer 800 300 : Sprite ℚ).frameLock) ∧
    ((resetGame 1000 walkedGame).player.x = walkedGame.player.x ∧
      (resetGame 1000 walkedGame).player.facing = walkedGame.player.facing ∧
      (resetGame 1000 walkedGame).player.flipSign = walkedGame.player.flipSign ∧
      (resetGame 1000 walkedGame).player.flipStartMS = walkedGame.player.flipStartMS)) :=
  ⟨walkedGame_player.2.1, walkedGame_player.2.2,
    reset_player 800 300 1000 walkedGame walkedGame_player.2.1 walkedGame_player.2.2⟩

end Reset

/-! ## Ammo: clip and recharge -/

section Ammo

variable {F : Type} [LinearOrderedField F] [FloorRing F]

/-- A shot that is not blocked: one projectile more, one unit of ammo less. -/
lemma spawnKnife_fires (now : Nat) (dir : Int) (g : Game F) (htex : g.texKnife.isSome = true)
    (hgo : g.gameOver = false) (hu : g.KNIFE_UNLIMITED = false) (hc : 0 < g.clipKnives) :
    (spawnKnife now dir g).clipKnives = g.clipKnives - 1 ∧
    (spawnKnife now dir g).knives.length = g.knives.length + 1 ∧
    (spawnKnife now dir g).lastRecharge = g.lastRecharge ∧
    (spawnKnife now dir g).gameOver = g.gameOver ∧
    (spawnKnife now dir g).KNIFE_UNLIMITED = g.KNIFE_UNLIMITED ∧
    (spawnKnife now dir g).texKnife = g.texKnife := by
  unfold spawnKnife
  cases htk : g.texKnife with
  | none => rw [htk] at htex; cases htex
  | some tk =>
    obtain ⟨kw, kh⟩ := tk
    dsimp only
    have h1 : ¬ g.gameOver = true := by simp [hgo]
    have h2 : ¬ (!g.KNIFE_UNLIMITED && decide (g.clipKnives ≤ 0)) = true := by
      simp [hu, hc]
    rw [if_neg h1, if_neg h2]
    refine ⟨?_, ?_, rfl, rfl, rfl, rfl⟩
    · show (if (!g.KNIFE_UNLIMITED) = true then g.clipKnives - 1 else g.clipKnives) = _
      rw [if_pos (by simp [hu])]
    · show (g.knives ++ [_]).length = _
      rw [List.length_append, List.length_singleton]

/-- A shot with an empty clip (unlimited mode off) changes nothing. -/
lemma spawnKnife_blocked (now : Nat) (dir : Int) (g : Game F)
    (hu : g.KNIFE_UNLIMITED = false) (hc : g.clipKnives ≤ 0) : spawnKnife now dir g = g := by
  unfold spawnKnife
  cases g.texKnife with
  | none => rfl
  | some tk =>
    obtain ⟨kw, kh⟩ := tk
    dsimp only
    have h2 : (!g.KNIFE_UNLIMITED && decide (g.clipKnives ≤ 0)) = true := by
      simp [hu, hc]
    rw [if_pos h2]
    exact ite_self g

/-- What the recharge step does to the ammo counter and the recharge tick. -/
lemma rechargePhase_ammo (now : Nat) (g : Game F) :
    (rechargePhase now g).clipKnives
      = (if g.gameOver = false ∧ g.KNIFE_UNLIMITED = false ∧ g.clipKnives < KNIFE_CLIP ∧
            u32sub now g.lastRecharge ≥ KNIFE_RECHARGE_MS
          then g.clipKnives + 1 else g.clipKnives) ∧
    (rechargePhase now g).lastRecharge
      = (if g.gameOver = false ∧ g.KNIFE_UNLIMITED = false ∧ g.clipKnives < KNIFE_CLIP ∧
            u32sub now g.lastRecharge ≥ KNIFE_RECHARGE_MS
          then now else g.lastRecharge) := by
  unfold rechargePhase
  by_cases h1 : g.gameOver = false
  · by_cases h2 : g.KNIFE_UNLIMITED = false
    · by_cases h3 : g.clipKnives < KNIFE_CLIP ∧ u32sub now g.lastRecharge ≥ KNIFE_RECHARGE_MS
      · rw [if_pos (by simp [h1, h2]), if_pos h3, if_pos ⟨h1, h2, h3⟩, if_pos ⟨h1, h2, h3⟩]
        exact ⟨rfl, rfl⟩
      · rw [if_pos (by simp [h1, h2]), if_neg h3, if_neg (fun h => h3 h.2.2),
          if_neg (fun h => h3 h.2.2)]
        exact ⟨rfl, rfl⟩
    · rw [if_neg (by simp [h1, h2]), if_neg (fun h => h2 h.2.1), if_neg (fun h => h2 h.2.1)]
      exact ⟨rfl, rfl⟩
  · rw [if_neg (by simp [h1]), if_neg (fun h => h1 h.1), if_neg (fun h => h1 h.1)]
    exact ⟨rfl, rfl⟩

lemma playerPhase_ammo (now : Nat) (cos : F → F) (pi : F) (keys : Keys) (g : Game F) :
    (playerPhase now cos pi keys g).clipKnives = g.clipKnives ∧
    (playerPhase now cos pi keys g).lastRecharge = g.lastRecharge ∧
    (playerPhase now cos pi keys g).KNIFE_UNLIMITED = g.KNIFE_UNLIMITED ∧
    (playerPhase now cos pi keys g).gameOver = g.gameOver := by
  unfold playerPhase
  dsimp only
  split_ifs <;> exact ⟨rfl, rfl, rfl, rfl⟩

/-- The phases after the recharge step leave the ammo counter and the recharge
tick alone. -/
lemma laterPhases_ammo (sqrt : F → F) (now : Nat) (dt : F) (allTiles : List Tile) (g : Game F) :
    (gameOverPhase (prunePhase (contactPhase now (hitPhase now (avocadoPhase now allTiles
      (releasePhase sqrt (latchedPhase sqrt dt (shootingPhase dt
        (knifePhase now g))))))))).clipKnives = g.clipKnives ∧
    (gameOverPhase (prunePhase (contactPhase now (hitPhase now (avocadoPhase now allTiles
      (releasePhase sqrt (latchedPhase sqrt dt (shootingPhase dt
        (knifePhase now g))))))))).lastRecharge = g.lastRecharge := by
  have h1 : ∀ x : Game F, (gameOverPhase x).clipKnives = x.clipKnives ∧
      (gameOverPhase x).lastRecharge = x.lastRecharge := by
    intro x
    unfold gameOverPhase
    split_ifs <;> exact ⟨rfl, rfl⟩
  have h3 : ∀ x : Game F, (contactPhase now x).clipKnives = x.clipKnives ∧
      (contactPhase now x).lastRecharge = x.lastRecharge := by
    intro x
    unfold contactPhase
    split_ifs <;> exact ⟨rfl, rfl⟩
  have h4 : ∀ x : Game F, (hitPhase now x).clipKnives = x.clipKnives ∧
      (hitPhase now x).lastRecharge = x.lastRecharge := by
    intro x
    unfold hitPhase
    split_ifs <;> exact ⟨rfl, rfl⟩
  have h5 : ∀ x : Game F, (avocadoPhase now allTiles x).clipKnives = x.clipKnives ∧
      (avocadoPhase now allTiles x).lastRecharge = x.lastRecharge := by
    intro x
    unfold avocadoPhase
    split_ifs <;> exact ⟨rfl, rfl⟩
  have h6 : ∀ x : Game F, (releasePhase sqrt x).clipKnives = x.clipKnives ∧
      (releasePhase sqrt x).lastRecharge = x.lastRecharge := by
    intro x
    unfold releasePhase
    split_ifs <;> exact ⟨rfl, rfl⟩
  have h7 : ∀ x : Game F, (latchedPhase sqrt dt x).clipKnives = x.clipKnives ∧
      (latchedPhase sqrt dt x).lastRecharge = x.lastRecharge := by
    intro x
    unfold latchedPhase
    split_ifs <;> exact ⟨rfl, rfl⟩
  constructor
  · rw [(h1 _).1]
    show (contactPhase now _).clipKnives = _
    rw [(h3 _).1, (h4 _).1, (h5 _).1, (h6 _).1, (h7 _).1]
    rfl
  · rw [(h1 _).2]
    show (contactPhase now _).lastRecharge = _
    rw [(h3 _).2, (h4 _).2, (h5 _).2, (h6 _).2, (h7 _).2]
    rfl

/-- The ammo counter and recharge tick after a frame update are those the
recharge step computes from the state the frame starts in. -/
lemma frameUpdate_ammo (sqrt cos : F → F) (pi : F) (now : Nat) (dt : F) (keys : Keys)
    (g : Game F) :
    (frameUpdate sqrt cos pi now dt keys g).clipKnives = (rechargePhase now g).clipKnives ∧
    (frameUpdate sqrt cos pi now dt keys g).lastRecharge = (rechargePhase now g).lastRecharge := by
  unfold frameUpdate
  dsimp only
  obtain ⟨l1, l2⟩ := laterPhases_ammo sqrt now dt g.allTiles
    (rechargePhase now (playerPhase now cos pi keys g))
  obtain ⟨p1, p2, p3, p4⟩ := playerPhase_ammo now cos pi keys g
  obtain ⟨a1, a2⟩ := rechargePhase_ammo now (playerPhase now cos pi keys g)
  obtain ⟨b1, b2⟩ := rechargePhase_ammo now g
  rw [l1, l2, a1, a2, b1, b2, p1, p2, p3, p4]
  exact ⟨rfl, rfl⟩

/-- Shots fired while the clip holds at least as many units: each takes one
unit and adds one projectile; the recharge tick is untouched. -/
lemma fire_spec (shots : List (Nat × Int)) (g : Game F) (htex : g.texKnife.isSome = true)
    (hgo : g.gameOver = false) (hu : g.KNIFE_UNLIMITED = false)
    (hc : (shots.length : Int) ≤ g.clipKnives) :
    (fire g shots).clipKnives = g.clipKnives - (shots.length : Int) ∧
    (fire g shots).knives.length = g.knives.length + shots.length ∧
    (fire g shots).lastRecharge = g.lastRecharge ∧
    (fire g shots).gameOver = false ∧
    (fire g shots).KNIFE_UNLIMITED = false := by
  induction shots generalizing g with
  | nil =>
    refine ⟨?_, rfl, rfl, hgo, hu⟩
    show g.clipKnives = g.clipKnives - ((0 : Nat) : Int)
    simp
  | cons sh rest ih =>
    obtain ⟨t, d⟩ := sh
    have hlen : ((((t, d) :: rest).length : Nat) : Int) = (rest.length : Int) + 1 := by
      rw [List.length_cons]
      push_cast
      rfl
    rw [hlen] at hc
    obtain ⟨f1, f2, f3, f4, f5, f6⟩ := spawnKnife_fires t d g htex hgo hu (by omega)
    obtain ⟨i1, i2, i3, i4, i5⟩ := ih (spawnKnife t d g) (by rw [f6]; exact htex)
      (by rw [f4]; exact hgo) (by rw [f5]; exact hu) (by rw [f1]; omega)
    show (fire (spawnKnife t d g) rest).clipKnives = _ ∧
      (fire (spawnKnife t d g) rest).knives.length = _ ∧
      (fire (spawnKnife t d g) rest).lastRecharge = _ ∧
      (fire (spawnKnife t d g) rest).gameOver = _ ∧
      (fire (spawnKnife t d g) rest).KNIFE_UNLIMITED = _
    refine ⟨?_, ?_, i3.trans f3, i4, i5⟩
    · rw [i1, f1, hlen]
      omega
    · rw [i2, f2, List.length_cons]
      omega

/-- The ammo after a full clip has been fired and one frame update has run at
tick `now`: one unit if `KNIFE_RECHARGE_MS` has elapsed since the recharge tick
the shots started from, none otherwise. -/
lemma fire_frame_ammo (sqrt cos : F → F) (pi : F) (shots : List (Nat × Int)) (now : Nat)
    (dt : F) (keys : Keys) (g : Game F) (hu : g.KNIFE_UNLIMITED = false)
    (hgo : g.gameOver = false) (htex : g.texKnife.isSome = true)
    (hfull : g.clipKnives = KNIFE_CLIP) (hlen : (shots.length : Int) = KNIFE_CLIP) :
    (frameUpdate sqrt cos pi now dt keys (fire g shots)).clipKnives
      = (if u32sub now g.lastRecharge ≥ KNIFE_RECHARGE_MS then 1 else 0) ∧
    (frameUpdate sqrt cos pi now dt keys (fire g shots)).lastRecharge
      = (if u32sub now g.lastRecharge ≥ KNIFE_RECHARGE_MS then now else g.lastRecharge) := by
  obtain ⟨f1, -, f3, f4, f5⟩ := fire_spec shots g htex hgo hu (by rw [hlen, hfull])
  obtain ⟨a1, a2⟩ := frameUpdate_ammo sqrt cos pi now dt keys (fire g shots)
  obtain ⟨b1, b2⟩ := rechargePhase_ammo now (fire g shots)
  have h0 : (fire g shots).clipKnives = 0 := by
    rw [f1, hlen, hfull]
    exact sub_self _
  rw [a1, a2, b1, b2, f3, f4, f5, h0]
  have hk : (0 : Int) < KNIFE_CLIP := by decide
  by_cases h : u32sub now g.lastRecharge ≥ KNIFE_RECHARGE_MS
  · simp [h, hk]
  · simp [h]

/-- C13 (as amended). Ammo: with unlimited mode off, a knife texture loaded and
the game not over, `KNIFE_CLIP` shots fired from a full clip leave
`clipKnives = 0` and add `KNIFE_CLIP` projectiles; one more shot changes
nothing; the frame update at tick `now` then restores exactly one unit if
`KNIFE_RECHARGE_MS` has elapsed since the last recharge tick (the last recharge,
reset or start-up, not the shots) and restores none otherwise. -/
theorem ammo_clip (sqrt cos : F → F) (pi : F) (shots : List (Nat × Int)) (extra : Nat × Int)
    (now : Nat) (dt : F) (keys : Keys) (g : Game F) (hu : g.KNIFE_UNLIMITED = false)
    (hgo : g.gameOver = false) (htex : g.texKnife.isSome = true)
    (hfull : g.clipKnives = KNIFE_CLIP) (hlen : (shots.length : Int) = KNIFE_CLIP) :
    (fire g shots).clipKnives = 0 ∧
    (fire g shots).knives.length = g.knives.length + shots.length ∧
    spawnKnife extra.1 extra.2 (fire g shots) = fire g shots ∧
    (frameUpdate sqrt cos pi now dt keys (fire g shots)).clipKnives
      = (if u32sub now g.lastRecharge ≥ KNIFE_RECHARGE_MS then 1 else 0) ∧
    (frameUpdate sqrt cos pi now dt keys (fire g shots)).lastRecharge
      = (if u32sub now g.lastRecharge ≥ KNIFE_RECHARGE_MS then now else g.lastRecharge) := by
  obtain ⟨f1, f2, -, -, f5⟩ := fire_spec shots g htex hgo hu (by rw [hlen, hfull])
  have h0 : (fire g shots).clipKnives = 0 := by
    rw [f1, hlen, hfull]
    exact sub_self _
  obtain ⟨r1, r2⟩ := fire_frame_ammo sqrt cos pi shots now dt keys g hu hgo htex hfull hlen
  exact ⟨h0, f2, spawnKnife_blocked _ _ _ f5 (le_of_eq h0), r1, r2⟩

/-- C13 (counterexample). The game started at tick 0 with a full clip; three
shots at tick 5000 empty it; the frame update at tick 5016, 16 ms after the
shots, restores one unit (the recharge tick is still 0, so 5016 ms count as
elapsed). -/
theorem ammoConservation_counterexample :
    ¬ AmmoConservation (fun v => v) (fun v => v) 0 volley 5000 (5000, 1) 5016 (1 / 60) noKeys
        armedGame := by
  intro hclaim
  obtain ⟨-, -, h3, -⟩ := hclaim rfl rfl rfl rfl (by decide) (by decide) (by decide)
  have h := h3 (by decide)
  obtain ⟨r1, -⟩ := fire_frame_ammo (fun v => v) (fun v => v) (0 : ℚ) volley 5016 (1 / 60) noKeys
    armedGame rfl rfl rfl rfl (by decide)
  rw [r1] at h
  have e : armedGame.lastRecharge = 0 := rfl
  rw [e] at h
  exact absurd h (by decide)

/-- Witness for `ammo_clip`: the volley fired in `armedGame` and the frame
update at tick 5016. -/
theorem ammo_clip_witness :
    armedGame.KNIFE_UNLIMITED = false ∧ armedGame.gameOver = false ∧
    armedGame.texKnife.isSome = true ∧ armedGame.clipKnives = KNIFE_CLIP ∧
    (volley.length : Int) = KNIFE_CLIP ∧
    ((fire armedGame volley).clipKnives = 0 ∧
    (fire armedGame volley).knives.length = armedGame.knives.length + volley.length ∧
    spawnKnife 5000 1 (fire armedGame volley) = fire armedGame volley ∧
    (frameUpdate (fun v => v) (fun v => v) 0 5016 (1 / 60) noKeys
        (fire armedGame volley)).clipKnives
      = (if u32sub 5016 armedGame.lastRecharge ≥ KNIFE_RECHARGE_MS then 1 else 0) ∧
    (frameUpdate (fun v => v) (fun v => v) 0 5016 (1 / 60) noKeys
        (fire armedGame volley)).lastRecharge
      = (if u32sub 5016 armedGame.lastRecharge ≥ KNIFE_RECHARGE_MS then 5016
          else armedGame.lastRecharge)) :=
  ⟨rfl, rfl, rfl, rfl, by decide,
    ammo_clip (fun v => v) (fun v => v) 0 volley (5000, 1) 5016 (1 / 60) noKeys armedGame
      rfl rfl rfl rfl (by decide)⟩

end Ammo

/-! ## Enemy scoring -/

section EnemyScoring

variable {F : Type} [LinearOrderedField F] [FloorRing F]

lemma Avocado.fate_self (a : Avocado F) : Avocado.Fate a a :=
  { w := rfl
    h := rfl
    stays := fun h => ⟨h, rfl, rfl, rfl⟩
    fresh := fun h1 h2 => absurd (h1.symm.trans h2) (by decide)
    hp := le_refl _
    idle := fun _ => rfl
    sound := fun h => h }

lemma Avocado.fate_chain {a b c : Avocado F} (h1 : Avocado.Fate a b) (h2 : Avocado.Fate b c) :
    Avocado.Fate a c := by
  refine ⟨h2.w.trans h1.w, h2.h.trans h1.h, ?_, ?_, le_trans h2.hp h1.hp, ?_,
    fun h => h2.sound (h1.sound h)⟩
  · intro ha
    obtain ⟨b1, b2, b3, b4⟩ := h1.stays ha
    obtain ⟨c1, c2, c3, c4⟩ := h2.stays b1
    exact ⟨c1, c2.trans b2, c3.trans b3, c4.trans b4⟩
  · intro ha hc
    cases hb : b.split with
    | false => exact h2.fresh hb hc
    | true =>
      obtain ⟨b1, b2⟩ := h1.fresh ha hb
      obtain ⟨-, c2, c3, -⟩ := h2.stays hb
      exact ⟨by rw [c2]; exact b1, by rw [c3]; exact b2⟩
  · intro ha
    have hb : b.w = 0 ∨ b.h = 0 := by
      rw [h1.w, h1.h]
      exact ha
    exact (h2.idle hb).trans (h1.idle ha)

lemma fate_refl_list (l : List (Avocado F)) : List.Forall₂ Avocado.Fate l l := by
  induction l with
  | nil => exact List.Forall₂.nil
  | cons a rest ih => exact List.Forall₂.cons (Avocado.fate_self a) ih

lemma fate_trans_list {l1 l2 l3 : List (Avocado F)} (h1 : List.Forall₂ Avocado.Fate l1 l2)
    (h2 : List.Forall₂ Avocado.Fate l2 l3) : List.Forall₂ Avocado.Fate l1 l3 := by
  induction h1 generalizing l3 with
  | nil => cases h2; exact List.Forall₂.nil
  | cons hab _ ih =>
    cases h2 with
    | cons hbc hrest => exact List.Forall₂.cons (Avocado.fate_chain hab hbc) (ih hrest)

lemma fate_sound_list {l1 l2 : List (Avocado F)} (h : List.Forall₂ Avocado.Fate l1 l2)
    (hs : ∀ a ∈ l1, a.Sound) : ∀ b ∈ l2, b.Sound := by
  induction h with
  | nil => intro b hb; cases hb
  | cons hab _ ih =>
    intro b hb
    rcases List.mem_cons.mp hb with e | e
    · rw [e]
      exact hab.sound (hs _ (List.mem_cons_self _ _))
    · exact ih (fun a ha => hs a (List.mem_cons_of_mem _ ha)) b e

lemma splitCount_cons (a : Avocado F) (l : List (Avocado F)) :
    splitCount (a :: l) = splitCount l + (if a.split = true then 1 else 0) := by
  unfold splitCount
  rw [List.countP_cons]
  push_cast
  rfl

/-- For matched lists, the enemies newly split are the difference of the two
counts of split enemies. -/
lemma newlySplit_eq {l1 l2 : List (Avocado F)} (h : List.Forall₂ Avocado.Fate l1 l2) :
    newlySplit l1 l2 = splitCount l2 - splitCount l1 := by
  induction h with
  | nil => rfl
  | @cons a b r1 r2 hab _ ih =>
    have hz : newlySplit (a :: r1) (b :: r2)
        = newlySplit r1 r2 + (if (!a.split && b.split) = true then 1 else 0) := by
      unfold newlySplit
      rw [List.zip_cons_cons, List.countP_cons]
      push_cast
      rfl
    rw [hz, splitCount_cons, splitCount_cons, ih]
    cases ha : a.split with
    | true =>
      rw [(hab.stays ha).1]
      simp
    | false =>
      cases hb : b.split
      · simp
      · simp
        ring

/-- The inner hit loop for one knife: every enemy meets its `Fate`, and the
score increment is the number of enemies newly split. -/
lemma hitAvocados_spec (now : Nat) (kr : SDL_Rect) (avs : List (Avocado F))
    (hs : ∀ a ∈ avs, a.Sound) :
    List.Forall₂ Avocado.Fate avs (hitAvocados now kr avs).1 ∧
    (hitAvocados now kr avs).2.2 = splitCount (hitAvocados now kr avs).1 - splitCount avs := by
  induction avs with
  | nil => exact ⟨List.Forall₂.nil, rfl⟩
  | cons a rest ih =>
    have hrest := ih (fun b hb => hs b (List.mem_cons_of_mem _ hb))
    have ha : a.Sound := hs a (List.mem_cons_self _ _)
    rw [hitAvocados]
    dsimp only
    split_ifs with h1 h2 h3 h4 h5
    · refine ⟨List.Forall₂.cons (Avocado.fate_self a) hrest.1, ?_⟩
      show (hitAvocados now kr rest).2.2 = _
      rw [splitCount_cons, splitCount_cons, hrest.2]
      ring
    · have hsp : a.split = false := by simpa using h3
      refine ⟨List.Forall₂.cons ?_ (fate_refl_list rest), ?_⟩
      · exact
          { w := rfl
            h := rfl
            stays := fun h => absurd (hsp.symm.trans h) (by decide)
            fresh := fun _ _ => ⟨h4, rfl⟩
            hp := by
              show a.hp - KNIFE_DMG ≤ a.hp
              unfold KNIFE_DMG
              omega
            idle := fun h => absurd h h1
            sound := fun _ => ⟨fun _ => rfl, fun h => by cases h⟩ }
      · show (1 : Int) = _
        rw [splitCount_cons, splitCount_cons, hsp]
        simp
    · have hsp : a.split = false := by simpa using h3
      have hc : a.counted = true := by simpa using h5
      exact absurd (hsp.symm.trans (ha.1 hc)) (by decide)
    · have hsp : a.split = false := by simpa using h3
      refine ⟨List.Forall₂.cons ?_ (fate_refl_list rest), ?_⟩
      · exact
          { w := rfl
            h := rfl
            stays := fun h => absurd (hsp.symm.trans h) (by decide)
            fresh := fun _ h => absurd (hsp.symm.trans h) (by decide)
            hp := by
              show a.hp - KNIFE_DMG ≤ a.hp
              unfold KNIFE_DMG
              omega
            idle := fun _ => rfl
            sound := fun hh => ⟨hh.1, fun _ => not_le.mp h4⟩ }
      · show (0 : Int) = _
        rw [splitCount_cons, splitCount_cons]
        show (0 : Int) = splitCount rest + (if a.split = true then 1 else 0)
          - (splitCount rest + (if a.split = true then 1 else 0))
        ring
    · refine ⟨List.Forall₂.cons (Avocado.fate_self a) (fate_refl_list rest), ?_⟩
      show (0 : Int) = _
      ring
    · refine ⟨List.Forall₂.cons (Avocado.fate_self a) hrest.1, ?_⟩
      show (hitAvocados now kr rest).2.2 = _
      rw [splitCount_cons, splitCount_cons, hrest.2]
      ring

/-- The hit loop over all knives: every enemy meets its `Fate`, and the score
grows by the growth of the number of split enemies. -/
lemma hitKnives_spec (now : Nat) (ks : List (Knife F)) (avs : List (Avocado F)) (score : Int)
    (hs : ∀ a ∈ avs, a.Sound) :
    List.Forall₂ Avocado.Fate avs (hitKnives now ks avs score).2.1 ∧
    (hitKnives now ks avs score).2.2
      = score + (splitCount (hitKnives now ks avs score).2.1 - splitCount avs) := by
  induction ks generalizing avs score with
  | nil =>
    refine ⟨fate_refl_list avs, ?_⟩
    show score = score + (splitCount avs - splitCount avs)
    ring
  | cons k ks ih =>
    rw [hitKnives]
    dsimp only
    obtain ⟨a1, a2⟩ := hitAvocados_spec now ⟨toInt k.x, toInt k.y, k.w, k.h⟩ avs hs
    obtain ⟨b1, b2⟩ := ih (hitAvocados now ⟨toInt k.x, toInt k.y, k.w, k.h⟩ avs).1
      (score + (hitAvocados now ⟨toInt k.x, toInt k.y, k.w, k.h⟩ avs).2.2)
      (fate_sound_list a1 hs)
    have key : List.Forall₂ Avocado.Fate avs
        (hitKnives now ks (hitAvocados now ⟨toInt k.x, toInt k.y, k.w, k.h⟩ avs).1
          (score + (hitAvocados now ⟨toInt k.x, toInt k.y, k.w, k.h⟩ avs).2.2)).2.1 ∧
        (hitKnives now ks (hitAvocados now ⟨toInt k.x, toInt k.y, k.w, k.h⟩ avs).1
          (score + (hitAvocados now ⟨toInt k.x, toInt k.y, k.w, k.h⟩ avs).2.2)).2.2
          = score + (splitCount (hitKnives now ks
              (hitAvocados now ⟨toInt k.x, toInt k.y, k.w, k.h⟩ avs).1
              (score + (hitAvocados now ⟨toInt k.x, toInt k.y, k.w, k.h⟩ avs).2.2)).2.1
            - splitCount avs) := by
      refine ⟨fate_trans_list a1 b1, ?_⟩
      rw [b2, a2]
      ring
    split_ifs with h1 h2
    · exact ih avs score hs
    · exact key
    · exact key

lemma Avocado.SameBook.fate {a b : Avocado F} (h : Avocado.SameBook a b) : Avocado.Fate a b := by
  obtain ⟨h1, h2, h3, h4, h5, h6⟩ := h
  exact
    { w := h1
      h := h2
      stays := fun hs => ⟨h4.trans hs, h3, h5, h6⟩
      fresh := fun hs hb => absurd ((h4.symm.trans hb).symm.trans hs) (by decide)
      hp := le_of_eq h3
      idle := fun _ => h4
      sound := fun hh => ⟨fun hc => h4.trans (hh.1 (h5.symm.trans hc)),
        fun hb => by rw [h3]; exact hh.2 (h4.symm.trans hb)⟩ }

/-- The tile loop of `avocadoAI` changes only the position and velocity. -/
lemma avocadoTiles_book (prevY : F) (tiles : List Tile) (a : Avocado F) (aRect : SDL_Rect)
    (grounded : Bool) :
    Avocado.SameBook a (avocadoTiles prevY tiles (a, aRect, grounded)).1 := by
  induction tiles generalizing a aRect grounded with
  | nil => exact ⟨rfl, rfl, rfl, rfl, rfl, rfl⟩
  | cons t ts ih =>
    rw [avocadoTiles]
    dsimp only
    split_ifs
    · exact ih a aRect grounded
    · obtain ⟨h1, h2, h3, h4, h5, h6⟩ := ih { a with y := ((t.rect.y - a.h : Int) : F), vy := 0.0 }
        { aRect with y := toInt ((t.rect.y - a.h : Int) : F) } true
      exact ⟨h1, h2, h3, h4, h5, h6⟩
    · exact ih a aRect grounded
    · exact ih a aRect grounded

/-- The lambda `avocadoAI` changes only the position and velocity. -/
lemma avocadoAI_book (moon : Bool) (player : Sprite F) (a : Avocado F) (allTiles : List Tile) :
    Avocado.SameBook a (avocadoAI moon player a allTiles) := by
  unfold avocadoAI
  dsimp only
  obtain ⟨h1, h2, h3, h4, h5, h6⟩ := avocadoTiles_book (a.y)
    allTiles { a with vy := a.vy + gravity F moon, y := a.y + (a.vy + gravity F moon) }
    ⟨toInt a.x, toInt (a.y + (a.vy + gravity F moon)), a.w, a.h⟩ false
  split_ifs <;> exact ⟨h1, h2, h3, h4, h5, h6⟩

lemma prunePhase_avocados (g : Game F) :
    (prunePhase g).avocados = g.avocados.filter Avocado.nonzero := rfl

/-- The enemy step keeps the hit points, the split flag and the `counted` flag. -/
lemma stepAvocado_flags (now : Nat) (moon : Bool) (player : Sprite F) (allTiles : List Tile)
    (a : Avocado F) :
    (stepAvocado now moon player allTiles a).hp = a.hp ∧
    (stepAvocado now moon player allTiles a).split = a.split ∧
    (stepAvocado now moon player allTiles a).counted = a.counted := by
  unfold stepAvocado
  split_ifs
  · exact ⟨rfl, rfl, rfl⟩
  · obtain ⟨-, -, h3, h4, h5, -⟩ := avocadoAI_book moon player a allTiles
    exact ⟨h3, h4, h5⟩

/-- An enemy that the frame keeps is moved by `avocadoAI` and nothing else. -/
lemma stepAvocado_kept (now : Nat) (moon : Bool) (player : Sprite F) (allTiles : List Tile)
    (a : Avocado F) (hk : keptAvocado now a = true) :
    Avocado.Fate a (stepAvocado now moon player allTiles a) := by
  unfold keptAvocado at hk
  rw [Bool.and_eq_true] at hk
  have h1 : ¬ (a.split && decide (now ≥ a.splitUntilMS)) = true := by
    intro h
    rw [h] at hk
    exact absurd hk.1 (by decide)
  unfold stepAvocado
  rw [if_neg h1]
  exact (avocadoAI_book moon player a allTiles).fate

/-- After the enemy step, the enemies of non-zero size are those the frame
keeps. -/
lemma stepAvocado_nonzero (now : Nat) (moon : Bool) (player : Sprite F) (allTiles : List Tile)
    (a : Avocado F) :
    (stepAvocado now moon player allTiles a).nonzero = keptAvocado now a := by
  unfold stepAvocado keptAvocado Avocado.nonzero
  by_cases h1 : (a.split && decide (now ≥ a.splitUntilMS)) = true
  · rw [if_pos h1, h1]
    simp
  · rw [if_neg h1]
    obtain ⟨e1, e2, -⟩ := avocadoAI_book moon player a allTiles
    rw [e1, e2]
    have : (a.split && decide (now ≥ a.splitUntilMS)) = false := by simpa using h1
    rw [this]
    simp

/-- The contact-damage loop changes only the damage tick of an enemy. -/
lemma contactLoop_book (now : Nat) (pRect : SDL_Rect) (avs : List (Avocado F)) (hp : Int) :
    List.Forall₂ Avocado.SameBook avs (contactLoop now pRect avs hp).1 := by
  induction avs generalizing hp with
  | nil => exact List.Forall₂.nil
  | cons a rest ih =>
    rw [contactLoop]
    dsimp only
    split_ifs
    · exact List.Forall₂.cons ⟨rfl, rfl, rfl, rfl, rfl, rfl⟩ (ih hp)
    · exact List.Forall₂.cons ⟨rfl, rfl, rfl, rfl, rfl, rfl⟩ (ih _)
    · exact List.Forall₂.cons ⟨rfl, rfl, rfl, rfl, rfl, rfl⟩ (ih hp)

lemma fate_of_book_list {l1 l2 : List (Avocado F)} (h : List.Forall₂ Avocado.SameBook l1 l2) :
    List.Forall₂ Avocado.Fate l1 l2 := by
  induction h with
  | nil => exact List.Forall₂.nil
  | cons hab _ ih => exact List.Forall₂.cons hab.fate ih

lemma splitCount_of_book_list {l1 l2 : List (Avocado F)}
    (h : List.Forall₂ Avocado.SameBook l1 l2) : splitCount l2 = splitCount l1 := by
  induction h with
  | nil => rfl
  | cons hab _ ih =>
    rw [splitCount_cons, splitCount_cons, ih, hab.2.2.2.1]

lemma fate_filter {l1 l2 : List (Avocado F)} (h : List.Forall₂ Avocado.Fate l1 l2) :
    List.Forall₂ Avocado.Fate (l1.filter Avocado.nonzero) (l2.filter Avocado.nonzero) := by
  induction h with
  | nil => exact List.Forall₂.nil
  | @cons a b r1 r2 hab _ ih =>
    have hn : b.nonzero = a.nonzero := by
      unfold Avocado.nonzero
      rw [hab.w, hab.h]
    rw [List.filter_cons, List.filter_cons, hn]
    split_ifs
    · exact List.Forall₂.cons hab ih
    · exact ih

/-- Dropping the enemies of size zero from both lists does not change the growth
of the number of split enemies. -/
lemma splitCount_filter {l1 l2 : List (Avocado F)} (h : List.Forall₂ Avocado.Fate l1 l2) :
    splitCount (l2.filter Avocado.nonzero) - splitCount (l1.filter Avocado.nonzero)
      = splitCount l2 - splitCount l1 := by
  induction h with
  | nil => rfl
  | @cons a b r1 r2 hab _ ih =>
    have hn : b.nonzero = a.nonzero := by
      unfold Avocado.nonzero
      rw [hab.w, hab.h]
    rw [List.filter_cons, List.filter_cons, hn, splitCount_cons, splitCount_cons]
    by_cases hz : a.nonzero = true
    · rw [if_pos hz, if_pos hz, splitCount_cons, splitCount_cons]
      linarith
    · rw [if_neg hz, if_neg hz]
      have hi : b.split = a.split := by
        apply hab.idle
        unfold Avocado.nonzero at hz
        simp only [Bool.not_eq_true', Bool.not_eq_false, Bool.or_eq_true, decide_eq_true_eq] at hz
        exact hz
      rw [hi]
      linarith

/-- The phases before the enemy step leave the enemies, the score and the
game-over flag alone. -/
lemma earlyPhases_avocados (sqrt cos : F → F) (pi : F) (now : Nat) (dt : F) (keys : Keys)
    (g : Game F) :
    (releasePhase sqrt (latchedPhase sqrt dt (shootingPhase dt (knifePhase now
      (rechargePhase now (playerPhase now cos pi keys g)))))).avocados = g.avocados ∧
    (releasePhase sqrt (latchedPhase sqrt dt (shootingPhase dt (knifePhase now
      (rechargePhase now (playerPhase now cos pi keys g)))))).avocadosCollected
        = g.avocadosCollected ∧
    (releasePhase sqrt (latchedPhase sqrt dt (shootingPhase dt (knifePhase now
      (rechargePhase now (playerPhase now cos pi keys g)))))).gameOver = g.gameOver := by
  have h1 : ∀ x : Game F, (releasePhase sqrt x).avocados = x.avocados ∧
      (releasePhase sqrt x).avocadosCollected = x.avocadosCollected ∧
      (releasePhase sqrt x).gameOver = x.gameOver := by
    intro x
    unfold releasePhase
    split_ifs <;> exact ⟨rfl, rfl, rfl⟩
  have h2 : ∀ x : Game F, (latchedPhase sqrt dt x).avocados = x.avocados ∧
      (latchedPhase sqrt dt x).avocadosCollected = x.avocadosCollected ∧
      (latchedPhase sqrt dt x).gameOver = x.gameOver := by
    intro x
    unfold latchedPhase
    split_ifs <;> exact ⟨rfl, rfl, rfl⟩
  have h3 : ∀ x : Game F, (rechargePhase now x).avocados = x.avocados ∧
      (rechargePhase now x).avocadosCollected = x.avocadosCollected ∧
      (rechargePhase now x).gameOver = x.gameOver := by
    intro x
    unfold rechargePhase
    split_ifs <;> exact ⟨rfl, rfl, rfl⟩
  have h4 : (playerPhase now cos pi keys g).avocados = g.avocados ∧
      (playerPhase now cos pi keys g).avocadosCollected = g.avocadosCollected ∧
      (playerPhase now cos pi keys g).gameOver = g.gameOver := by
    unfold playerPhase
    dsimp only
    split_ifs <;> exact ⟨rfl, rfl, rfl⟩
  refine ⟨?_, ?_, ?_⟩
  · rw [(h1 _).1, (h2 _).1]
    show (rechargePhase now _).avocados = _
    rw [(h3 _).1, h4.1]
  · rw [(h1 _).2.1, (h2 _).2.1]
    show (rechargePhase now _).avocadosCollected = _
    rw [(h3 _).2.1, h4.2.1]
  · rw [(h1 _).2.2, (h2 _).2.2]
    show (rechargePhase now _).gameOver = _
    rw [(h3 _).2.2, h4.2.2]

/-- The enemy phases of a frame of a game that is not over (lines 785-821). -/
lemma enemyPhases_spec (now : Nat) (allTiles : List Tile) (x : Game F)
    (hgo : x.gameOver = false) (hs : ∀ a ∈ x.avocados, a.Sound) :
    List.Forall₂ Avocado.Fate (x.avocados.filter (keptAvocado now))
      (gameOverPhase (prunePhase (contactPhase now (hitPhase now
        (avocadoPhase now allTiles x))))).avocados ∧
    (gameOverPhase (prunePhase (contactPhase now (hitPhase now
        (avocadoPhase now allTiles x))))).avocadosCollected
      = x.avocadosCollected
        + (splitCount (gameOverPhase (prunePhase (contactPhase now (hitPhase now
            (avocadoPhase now allTiles x))))).avocados
          - splitCount (x.avocados.filter (keptAvocado now))) := by
  have hng : (!x.gameOver) = true := by rw [hgo]; rfl
  -- the enemy step
  have e1 : avocadoPhase now allTiles x
      = { x with avocados := x.avocados.map (stepAvocado now x.MOON_MODE x.player allTiles) } := by
    unfold avocadoPhase
    rw [if_pos hng]
  have s1 : ∀ b ∈ x.avocados.map (stepAvocado now x.MOON_MODE x.player allTiles), b.Sound := by
    intro b hb
    obtain ⟨a, ha, rfl⟩ := List.mem_map.mp hb
    obtain ⟨f1, f2, f3⟩ := stepAvocado_flags now x.MOON_MODE x.player allTiles a
    obtain ⟨g1, g2⟩ := hs a ha
    exact ⟨fun hc => f2.trans (g1 (f3.symm.trans hc)), fun hb => by
      rw [f1]
      exact g2 (f2.symm.trans hb)⟩
  -- the hit loops
  obtain ⟨k1, k2⟩ := hitKnives_spec now x.knives
    (x.avocados.map (stepAvocado now x.MOON_MODE x.player allTiles)) x.avocadosCollected s1
  have e2 : hitPhase now (avocadoPhase now allTiles x)
      = { avocadoPhase now allTiles x with
          knives := (hitKnives now x.knives
            (x.avocados.map (stepAvocado now x.MOON_MODE x.player allTiles))
            x.avocadosCollected).1
          avocados := (hitKnives now x.knives
            (x.avocados.map (stepAvocado now x.MOON_MODE x.player allTiles))
            x.avocadosCollected).2.1
          avocadosCollected := (hitKnives now x.knives
            (x.avocados.map (stepAvocado now x.MOON_MODE x.player allTiles))
            x.avocadosCollected).2.2 } := by
    unfold hitPhase
    rw [e1, if_pos hng]
  -- contact damage
  have e3 : (contactPhase now (hitPhase now (avocadoPhase now allTiles x))).avocados
      = (contactLoop now x.player.worldRect (hitKnives now x.knives
            (x.avocados.map (stepAvocado now x.MOON_MODE x.player allTiles))
            x.avocadosCollected).2.1 x.playerHP).1 ∧
      (contactPhase now (hitPhase now (avocadoPhase now allTiles x))).avocadosCollected
      = (hitKnives now x.knives
            (x.avocados.map (stepAvocado now x.MOON_MODE x.player allTiles))
            x.avocadosCollected).2.2 := by
    unfold contactPhase
    rw [e2, e1, if_pos hng]
    exact ⟨rfl, rfl⟩
  have c1 := contactLoop_book now x.player.worldRect (hitKnives now x.knives
    (x.avocados.map (stepAvocado now x.MOON_MODE x.player allTiles))
    x.avocadosCollected).2.1 x.playerHP
  -- the compacting pass and the game-over test
  have e5 : ∀ y : Game F, (gameOverPhase y).avocados = y.avocados ∧
      (gameOverPhase y).avocadosCollected = y.avocadosCollected := by
    intro y
    unfold gameOverPhase
    split_ifs <;> exact ⟨rfl, rfl⟩
  have e4 : (prunePhase
      (contactPhase now (hitPhase now (avocadoPhase now allTiles x)))).avocadosCollected
      = (contactPhase now (hitPhase now (avocadoPhase now allTiles x))).avocadosCollected := rfl
  rw [(e5 _).1, (e5 _).2, prunePhase_avocados, e4, e3.1, e3.2]
  have hall : List.Forall₂ Avocado.Fate
      (x.avocados.map (stepAvocado now x.MOON_MODE x.player allTiles))
      (contactLoop now x.player.worldRect (hitKnives now x.knives
        (x.avocados.map (stepAvocado now x.MOON_MODE x.player allTiles))
        x.avocadosCollected).2.1 x.playerHP).1 :=
    fate_trans_list k1 (fate_of_book_list c1)
  -- the kept enemies before and after the enemy step
  have hf : (x.avocados.map (stepAvocado now x.MOON_MODE x.player allTiles)).filter
      Avocado.nonzero
      = (x.avocados.filter (keptAvocado now)).map
          (stepAvocado now x.MOON_MODE x.player allTiles) := by
    rw [List.filter_map]
    congr 1
    apply List.filter_congr
    intro a _
    exact stepAvocado_nonzero now x.MOON_MODE x.player allTiles a
  have hstep : List.Forall₂ Avocado.Fate (x.avocados.filter (keptAvocado now))
      ((x.avocados.filter (keptAvocado now)).map
        (stepAvocado now x.MOON_MODE x.player allTiles)) := by
    have : ∀ l : List (Avocado F), (∀ a ∈ l, keptAvocado now a = true) →
        List.Forall₂ Avocado.Fate l (l.map (stepAvocado now x.MOON_MODE x.player allTiles)) := by
      intro l
      induction l with
      | nil => intro _; exact List.Forall₂.nil
      | cons a rest ih =>
        intro hl
        exact List.Forall₂.cons
          (stepAvocado_kept now x.MOON_MODE x.player allTiles a (hl a (List.mem_cons_self _ _)))
          (ih (fun b hb => hl b (List.mem_cons_of_mem _ hb)))
    exact this _ (fun a ha => (List.mem_filter.mp ha).2)
  have hcount : splitCount ((x.avocados.filter (keptAvocado now)).map
      (stepAvocado now x.MOON_MODE x.player allTiles))
      = splitCount (x.avocados.filter (keptAvocado now)) := by
    generalize x.avocados.filter (keptAvocado now) = l
    induction l with
    | nil => rfl
    | cons a rest ih =>
      rw [List.map_cons, splitCount_cons, splitCount_cons, ih,
        (stepAvocado_flags now x.MOON_MODE x.player allTiles a).2.1]
  have hfil := fate_filter hall
  have hdiff := splitCount_filter hall
  rw [hf] at hfil hdiff
  refine ⟨fate_trans_list hstep hfil, ?_⟩
  rw [k2, ← hcount, hdiff, splitCount_of_book_list c1]

/-- The enemy phases of a frame of a game that is over: only the compacting pass
runs. -/
lemma enemyPhases_over (now : Nat) (allTiles : List Tile) (x : Game F)
    (hgo : x.gameOver = true) :
    (gameOverPhase (prunePhase (contactPhase now (hitPhase now
        (avocadoPhase now allTiles x))))).avocados = x.avocados.filter Avocado.nonzero ∧
    (gameOverPhase (prunePhase (contactPhase now (hitPhase now
        (avocadoPhase now allTiles x))))).avocadosCollected = x.avocadosCollected := by
  have hng : ¬ (!x.gameOver) = true := by rw [hgo]; decide
  have e1 : avocadoPhase now allTiles x = x := by
    unfold avocadoPhase
    rw [if_neg hng]
  have e2 : hitPhase now x = x := by
    unfold hitPhase
    rw [if_neg hng]
  have e3 : contactPhase now x = x := by
    unfold contactPhase
    rw [if_neg hng]
  have e5 : gameOverPhase (prunePhase x) = prunePhase x := by
    unfold gameOverPhase
    rw [if_neg]
    show ¬ (!x.gameOver && decide ((prunePhase x).playerHP ≤ 0)) = true
    rw [hgo]
    simp
  rw [e1, e2, e3, e5]
  exact ⟨rfl, rfl⟩

/-- Enemy scoring, the relation between the enemies before and after one frame update from a state whose enemies have
consistent bookkeeping (as spawned, and as every frame leaves them).  While the
game is not over, each enemy the frame keeps meets its `Fate`: once split, its
hit points, split flag and `counted` flag no longer change whatever hits
register, and an enemy becomes split only with hit points zero or below; the
score grows by exactly the number of enemies that became split in this frame.
While the game is over the score does not change.  The bookkeeping stays
consistent, so the same holds for the next frame. -/
theorem enemy_scoring_frame (sqrt cos : F → F) (pi : F) (now : Nat) (dt : F) (keys : Keys)
    (g : Game F) (hs : ∀ a ∈ g.avocados, a.Sound) :
    (g.gameOver = false →
      List.Forall₂ Avocado.Fate (g.avocados.filter (keptAvocado now))
        (frameUpdate sqrt cos pi now dt keys g).avocados ∧
      (frameUpdate sqrt cos pi now dt keys g).avocadosCollected
        = g.avocadosCollected
          + newlySplit (g.avocados.filter (keptAvocado now))
              (frameUpdate sqrt cos pi now dt keys g).avocados) ∧
    (g.gameOver = true →
      (frameUpdate sqrt cos pi now dt keys g).avocados = g.avocados.filter Avocado.nonzero ∧
      (frameUpdate sqrt cos pi now dt keys g).avocadosCollected = g.avocadosCollected) ∧
    (∀ b ∈ (frameUpdate sqrt cos pi now dt keys g).avocados, b.Sound) := by
  obtain ⟨p1, p2, p3⟩ := earlyPhases_avocados sqrt cos pi now dt keys g
  have hfu : frameUpdate sqrt cos pi now dt keys g
      = gameOverPhase (prunePhase (contactPhase now (hitPhase now (avocadoPhase now g.allTiles
          (releasePhase sqrt (latchedPhase sqrt dt (shootingPhase dt (knifePhase now
            (rechargePhase now (playerPhase now cos pi keys g)))))))))) := rfl
  have hA : g.gameOver = false →
      List.Forall₂ Avocado.Fate (g.avocados.filter (keptAvocado now))
        (frameUpdate sqrt cos pi now dt keys g).avocados ∧
      (frameUpdate sqrt cos pi now dt keys g).avocadosCollected
        = g.avocadosCollected
          + newlySplit (g.avocados.filter (keptAvocado now))
              (frameUpdate sqrt cos pi now dt keys g).avocados := by
    intro hgo
    obtain ⟨q1, q2⟩ := enemyPhases_spec now g.allTiles _ (p3.trans hgo)
      (by rw [p1]; exact hs)
    rw [p1, p2] at q2
    rw [p1] at q1
    rw [hfu]
    refine ⟨q1, ?_⟩
    rw [newlySplit_eq q1]
    exact q2
  have hB : g.gameOver = true →
      (frameUpdate sqrt cos pi now dt keys g).avocados = g.avocados.filter Avocado.nonzero ∧
      (frameUpdate sqrt cos pi now dt keys g).avocadosCollected = g.avocadosCollected := by
    intro hgo
    obtain ⟨q1, q2⟩ := enemyPhases_over now g.allTiles _ (p3.trans hgo)
    rw [p1] at q1
    rw [p2] at q2
    rw [hfu]
    exact ⟨q1, q2⟩
  refine ⟨hA, hB, ?_⟩
  cases hgo : g.gameOver with
  | false =>
    exact fate_sound_list (hA hgo).1 (fun a ha => hs a (List.mem_of_mem_filter ha))
  | true =>
    intro b hb
    rw [(hB hgo).1] at hb
    exact hs b (List.mem_of_mem_filter hb)

/-- The hit detection of one frame on `sliceGame`: the first two knives take
the enemy's two hit points, the second one splits it and scores; the third knife
registers on the split enemy, is used up, and changes neither the hit points nor
the score. -/
lemma sliceGame_hits :
    (hitPhase 100 sliceGame).avocadosCollected = 1 ∧
    (hitPhase 100 sliceGame).avocados.map (fun a => (a.hp, a.split, a.counted))
      = [(0, true, true)] ∧
    (hitPhase 100 sliceGame).knives.map (fun k => k.active) = [false, false, false] := by
  have h1 : toInt (1190 : ℚ) = 1190 := by
    have : (1190 : ℚ) = ((1190 : Int) : ℚ) := by norm_num
    rw [this, toInt_intCast]
  have h2 : toInt (910 : ℚ) = 910 := by
    have : (910 : ℚ) = ((910 : Int) : ℚ) := by norm_num
    rw [this, toInt_intCast]
  have h3 : toInt (1200 : ℚ) = 1200 := by
    have : (1200 : ℚ) = ((1200 : Int) : ℚ) := by norm_num
    rw [this, toInt_intCast]
  have h4 : toInt (902 : ℚ) = 902 := by
    have : (902 : ℚ) = ((902 : Int) : ℚ) := by norm_num
    rw [this, toInt_intCast]
  simp [hitPhase, sliceGame, idleGame, Game.sample, hitKnives, hitAvocados, flyingKnife,
    freshAvocado, SDL_HasIntersection, h1, h2, h3, h4, AVOCADO_HP, KNIFE_DMG, u32add,
    AVOCADO_SPLIT_SHOWMS]

/-- An enemy as `spawnAvocado` creates it has consistent bookkeeping. -/
lemma spawnAvocado_sound (fromX fromY : F) (g : Game F) (hs : ∀ a ∈ g.avocados, a.Sound) :
    ∀ a ∈ (spawnAvocado fromX fromY g).avocados, a.Sound := by
  unfold spawnAvocado
  cases g.texAvo with
  | none => exact hs
  | some tk =>
    obtain ⟨aw, ah⟩ := tk
    dsimp only
    split_ifs
    · exact hs
    · intro a ha
      rcases List.mem_append.mp ha with h | h
      · exact hs a h
      · rw [List.mem_singleton.mp h]
        exact ⟨fun hc => (by cases hc), fun _ => (by show (0 : Int) < AVOCADO_HP; decide)⟩

/-- The key-down handler keeps the enemies, clears them (reset) or spawns one. -/
lemma onKeyDown_avocados (amb : Ambient) (sym : Keycode) (g : Game F) :
    (onKeyDown amb sym g).avocados = g.avocados ∨ (onKeyDown amb sym g).avocados = [] ∨
    ∃ x y : F, (onKeyDown amb sym g).avocados = (spawnAvocado x y g).avocados := by
  unfold onKeyDown
  dsimp only
  by_cases hr : sym = Keycode.r
  · subst hr
    right
    left
    rw [if_pos rfl]
    have h1 : (!(resetGame amb.now g).gameOver) = true := rfl
    rw [if_pos h1]
    rfl
  · rw [if_neg hr]
    split_ifs with h1 h2
    · unfold keyDownAlive
      cases sym <;> first
        | exact Or.inl rfl
        | exact Or.inr (Or.inr ⟨_, _, rfl⟩)
        | (dsimp only; split_ifs <;> exact Or.inl rfl)
    · exact Or.inl rfl
    · exact Or.inl rfl

/-- A property of the game state that every handler of the event loop keeps is
kept by `handleEvent`. -/
lemma handleEvent_induct (Q : Game F → Prop) (sqrt : F → F) (amb : Ambient) (e : Event)
    (g : Game F) (hq : Q g)
    (hrun : ∀ x, Q x → Q { x with running := false })
    (hkd : ∀ sym x, Q x → Q (onKeyDown amb sym x))
    (hku : ∀ sym x, Q x → Q (onKeyUp sym x))
    (hwh : ∀ y x, Q x → Q (onMouseWheel y x))
    (hn : ∀ b x, Q x → Q { x with nHeld := b })
    (hmd : ∀ b x, Q x → Q (onMouseButtonDown sqrt amb b x))
    (hmu : ∀ x, Q x → Q (onRightButtonUp x)) :
    Q (handleEvent sqrt amb e g) := by
  unfold handleEvent
  lift_lets
  extract_lets g1 g2 g3 g4 g5
  have q1 : Q g1 := by
    show Q (if e = Event.quit then { g with running := false } else g)
    split_ifs
    · exact hrun g hq
    · exact hq
  clear_value g1
  have q2 : Q g2 := by
    show Q (match e with
      | Event.keyDown sym => onKeyDown amb sym g1
      | _ => g1)
    cases e <;> first | exact q1 | exact hkd _ _ q1
  clear_value g2
  have q3 : Q g3 := by
    show Q (match e with
      | Event.keyUp sym => onKeyUp sym g2
      | _ => g2)
    cases e <;> first | exact q2 | exact hku _ _ q2
  clear_value g3
  have q4 : Q g4 := by
    show Q (match e with
      | Event.mouseWheel y => onMouseWheel y g3
      | _ => g3)
    cases e <;> first | exact q3 | exact hwh _ _ q3
  clear_value g4
  have q5 : Q g5 := by
    show Q (match e with
      | Event.keyDown Keycode.n => { g4 with nHeld := true }
      | Event.keyUp Keycode.n => { g4 with nHeld := false }
      | _ => g4)
    cases e with
    | keyDown sym => cases sym <;> first | exact q4 | exact hn _ _ q4
    | keyUp sym => cases sym <;> first | exact q4 | exact hn _ _ q4
    | _ => exact q4
  clear_value g5
  split_ifs
  · cases e with
    | mouseButtonDown b => exact hmd _ _ q5
    | mouseButtonUp b => cases b <;> first | exact q5 | exact hmu _ q5
    | _ => exact q5
  · exact q5

lemma spawnKnife_avocados (now : Nat) (dir : Int) (g : Game F) :
    (spawnKnife now dir g).avocados = g.avocados := by
  unfold spawnKnife
  cases g.texKnife with
  | none => rfl
  | some tk =>
    obtain ⟨kw, kh⟩ := tk
    dsimp only
    split_ifs <;> rfl

/-- Every event handler leaves the enemies' bookkeeping consistent. -/
lemma handleEvent_sound (sqrt : F → F) (amb : Ambient) (e : Event) (g : Game F)
    (hs : ∀ a ∈ g.avocados, a.Sound) : ∀ a ∈ (handleEvent sqrt amb e g).avocados, a.Sound := by
  apply handleEvent_induct (fun x => ∀ a ∈ x.avocados, a.Sound) sqrt amb e g hs
  · intro x hx
    exact hx
  · intro sym x hx
    rcases onKeyDown_avocados amb sym x with h | h | ⟨fx, fy, h⟩
    · rw [h]
      exact hx
    · rw [h]
      intro a ha
      cases ha
    · rw [h]
      exact spawnAvocado_sound fx fy x hx
  · intro sym x hx
    have : (onKeyUp sym x).avocados = x.avocados := by
      unfold onKeyUp
      cases sym <;> rfl
    rw [this]
    exact hx
  · intro y x hx
    have : (onMouseWheel y x).avocados = x.avocados := by
      unfold onMouseWheel
      split_ifs <;> rfl
    rw [this]
    exact hx
  · intro b x hx
    exact hx
  · intro b x hx
    have : (onMouseButtonDown sqrt amb b x).avocados = x.avocados := by
      unfold onMouseButtonDown
      cases b
      · exact spawnKnife_avocados _ _ _
      · dsimp only
        split_ifs
        · rfl
        · unfold castWeb
          dsimp only
          split_ifs <;> rfl
      · rfl
    rw [this]
    exact hx
  · intro x hx
    exact hx

/-- A frame update leaves the enemies' bookkeeping consistent. -/
lemma frameUpdate_sound (sqrt cos : F → F) (pi : F) (now : Nat) (dt : F) (keys : Keys)
    (g : Game F) (hs : ∀ a ∈ g.avocados, a.Sound) :
    ∀ b ∈ (frameUpdate sqrt cos pi now dt keys g).avocados, b.Sound := by
  obtain ⟨p1, -, p3⟩ := earlyPhases_avocados sqrt cos pi now dt keys g
  have hfu : frameUpdate sqrt cos pi now dt keys g
      = gameOverPhase (prunePhase (contactPhase now (hitPhase now (avocadoPhase now g.allTiles
          (releasePhase sqrt (latchedPhase sqrt dt (shootingPhase dt (knifePhase now
            (rechargePhase now (playerPhase now cos pi keys g)))))))))) := rfl
  rw [hfu]
  cases hgo : g.gameOver with
  | false =>
    obtain ⟨q1, -⟩ := enemyPhases_spec now g.allTiles _ (p3.trans hgo) (by rw [p1]; exact hs)
    rw [p1] at q1
    exact fate_sound_list q1 (fun a ha => hs a (List.mem_of_mem_filter ha))
  | true =>
    obtain ⟨q1, -⟩ := enemyPhases_over now g.allTiles _ (p3.trans hgo)
    rw [q1, p1]
    intro b hb
    exact hs b (List.mem_of_mem_filter hb)

/-- In every reachable state the enemies' bookkeeping is consistent. -/
lemma reachable_sound (sqrt cos : F → F) (pi : F) (g : Game F) (hr : Reachable sqrt cos pi g) :
    ∀ a ∈ g.avocados, a.Sound := by
  induction hr with
  | start imgW imgH texKnife texAvo deathSnd now =>
    intro a ha
    cases ha
  | @loop nowTick events keys g _ ih =>
    unfold loopIteration
    dsimp only
    apply frameUpdate_sound
    have : ∀ (evs : List (Ambient × Event)) (x : Game F), (∀ a ∈ x.avocados, a.Sound) →
        ∀ a ∈ (evs.foldl (fun acc ev => handleEvent sqrt ev.1 ev.2 acc) x).avocados, a.Sound := by
      intro evs
      induction evs with
      | nil => intro x hx; exact hx
      | cons ev rest ihr =>
        intro x hx
        rw [List.foldl_cons]
        exact ihr _ (handleEvent_sound sqrt ev.1 ev.2 x hx)
    exact this events _ ih

lemma sliceGame_sound : ∀ a ∈ sliceGame.avocados, a.Sound := by
  intro a ha
  have h : a = freshAvocado := List.mem_singleton.mp ha
  rw [h]
  exact ⟨fun hc => (by cases hc), fun _ => (by decide)⟩

/-- Witness for `enemy_scoring_frame`: a frame update of `sliceGame`. -/
theorem enemy_scoring_frame_witness :
    (∀ a ∈ sliceGame.avocados, a.Sound) ∧
    ((sliceGame.gameOver = false →
      List.Forall₂ Avocado.Fate (sliceGame.avocados.filter (keptAvocado 100))
        (frameUpdate (fun v => v) (fun v => v) 0 100 (1 / 60) noKeys sliceGame).avocados ∧
      (frameUpdate (fun v => v) (fun v => v) 0 100 (1 / 60) noKeys sliceGame).avocadosCollected
        = sliceGame.avocadosCollected
          + newlySplit (sliceGame.avocados.filter (keptAvocado 100))
              (frameUpdate (fun v => v) (fun v => v) 0 100 (1 / 60) noKeys sliceGame).avocados) ∧
    (sliceGame.gameOver = true →
      (frameUpdate (fun v => v) (fun v => v) 0 100 (1 / 60) noKeys sliceGame).avocados
        = sliceGame.avocados.filter Avocado.nonzero ∧
      (frameUpdate (fun v => v) (fun v => v) 0 100 (1 / 60) noKeys sliceGame).avocadosCollected
        = sliceGame.avocadosCollected) ∧
    (∀ b ∈ (frameUpdate (fun v => v) (fun v => v) 0 100 (1 / 60) noKeys sliceGame).avocados,
      b.Sound)) :=
  ⟨sliceGame_sound,
    enemy_scoring_frame (fun v => v) (fun v => v) 0 100 (1 / 60) noKeys sliceGame sliceGame_sound⟩

end EnemyScoring

/-! ## The tangential velocity of the Latched step: reel factor, damping, pump -/

section Tangential

variable {F : Type} [LinearOrderedField F] [FloorRing F]

/-- The velocity the Latched step leaves on the actor, and the value it leaves
in the static `lastL`. -/
lemma latchedBody_velocity (sqrt : F → F) (moon : Bool) (dt : F) (p : Sprite F) (w : Web F)
    (l : F) :
    (latchedBody sqrt moon dt p w l).1.velX
      = -(latchedRadial sqrt p w).2
        * ((latchedVtan sqrt p w + (if w.pump then pumpIncrement sqrt moon dt p w else 0))
            * reelScale l (latchedLen w dt)) ∧
    (latchedBody sqrt moon dt p w l).1.velY
      = (latchedRadial sqrt p w).1
        * ((latchedVtan sqrt p w + (if w.pump then pumpIncrement sqrt moon dt p w else 0))
            * reelScale l (latchedLen w dt)) ∧
    (latchedBody sqrt moon dt p w l).2.2 = latchedLen w dt := by
  unfold latchedBody latchedVtan pumpIncrement reelScale latchedRadial latchedLen Sprite.setVel
    Sprite.addVelocity
  dsimp only
  refine ⟨?_, ?_, rfl⟩ <;> split_ifs <;> ring

/-- In the first Latched frame of the process (`lastL` still negative) the
factor is `1`. -/
lemma reelScale_first (l L : F) (hl : l < 0) (hL : 0 ≤ L) : reelScale l L = 1 := by
  unfold reelScale
  dsimp only
  have h0 : (0.0 : F) = 0 := by norm_num
  rw [h0, if_pos hl, if_neg]
  have : L * 0.999 ≤ L := by
    have h9 : (0.999 : F) ≤ 1 := by norm_num
    calc L * 0.999 ≤ L * 1 := mul_le_mul_of_nonneg_left h9 hL
      _ = L := mul_one L
  exact not_lt.mpr this

/-- With `lastL` set by an earlier Latched frame, the factor is `1` unless the
rope length is below `0.999` times `lastL`, and then it is `min(2, lastL / L)`,
which is more than `1`. -/
lemma reelScale_later (l L : F) (hl : 0 ≤ l) (hL : 0 < L) :
    (l * 0.999 ≤ L → reelScale l L = 1) ∧
    (L < l * 0.999 → reelScale l L = min 2 (l / L) ∧ 1 < reelScale l L) := by
  unfold reelScale
  dsimp only
  have h0 : (0.0 : F) = 0 := by norm_num
  have h2 : (2.0 : F) = 2 := by norm_num
  rw [h0, if_neg (not_lt.mpr hl), h2]
  constructor
  · intro h
    rw [if_neg (not_lt.mpr h)]
  · intro h
    rw [if_pos h]
    have h9 : l * 0.999 ≤ l := by
      have h9 : (0.999 : F) ≤ 1 := by norm_num
      calc l * 0.999 ≤ l * 1 := mul_le_mul_of_nonneg_left h9 hl
        _ = l := mul_one l
    have hr : 1 < l / L := by
      rw [lt_div_iff₀ hL]
      linarith
    have hm : 1 < min 2 (l / L) := lt_min (by norm_num) hr
    have h5 : (0.5 : F) ≤ min 2 (l / L) := le_trans (by norm_num) (le_of_lt hm)
    rw [max_eq_right h5]
    exact ⟨rfl, hm⟩

/-- The radial unit vector in `swingGame`: straight down. -/
lemma swingGame_radial (lastL damping : ℝ) (pump : Bool) :
    latchedRadial Real.sqrt (swingGame ℝ lastL damping pump).player
      (swingGame ℝ lastL damping pump).web = (0, 1) := by
  have hx : (swingGame ℝ lastL damping pump).player.webAnchorWorld.x = 234 :=
    (grappleGame_anchor 234 653 100 true false).1
  have hy : (swingGame ℝ lastL damping pump).player.webAnchorWorld.y = 753 :=
    (grappleGame_anchor 234 653 100 true false).2
  have e1 : (swingGame ℝ lastL damping pump).web.ax = 234 := by
    show ((234 : Int) : ℝ) = 234
    norm_num
  have e2 : (swingGame ℝ lastL damping pump).web.ay = 653 := by
    show ((653 : Int) : ℝ) = 653
    norm_num
  unfold latchedRadial
  dsimp only
  rw [hx, hy, e1, e2]
  have hs : Real.sqrt ((234 - 234) * (234 - 234) + (753 - 653) * (753 - 653)) = 100 := by
    have : ((234 : ℝ) - 234) * (234 - 234) + (753 - 653) * (753 - 653) = 100 * 100 := by
      norm_num
    rw [this]
    exact Real.sqrt_mul_self (by norm_num)
  rw [hs]
  norm_num

/-- The rope length of the frame in `swingGame` is `100`, as before the frame. -/
lemma swingGame_len (lastL damping dt : ℝ) (pump : Bool) :
    latchedLen (swingGame ℝ lastL damping pump).web dt = 100 ∧
    (swingGame ℝ lastL damping pump).web.targetLen = 100 := by
  have hl : (swingGame ℝ lastL damping pump).web.LenOk := by
    unfold Web.LenOk
    show (70.0 : ℝ) ≤ 100 ∧ (100 : ℝ) ≤ 1800.0
    constructor <;> norm_num
  exact ⟨latchedLen_idle _ dt rfl rfl hl, rfl⟩

/-- The tangential velocity in `swingGame` as first computed: `-10`. -/
lemma swingGame_vtan (lastL damping : ℝ) (pump : Bool) :
    latchedVtan Real.sqrt (swingGame ℝ lastL damping pump).player
      (swingGame ℝ lastL damping pump).web = -10 := by
  unfold latchedVtan
  dsimp only
  rw [swingGame_radial]
  have h1 : (swingGame ℝ lastL damping pump).player.velX = 10 := rfl
  have h2 : (swingGame ℝ lastL damping pump).player.velY = 0 := rfl
  rw [h1, h2]
  norm_num

/-- The velocity the Latched step leaves in `swingGame`. -/
lemma swingGame_step (lastL damping dt : ℝ) (pump : Bool) :
    (latchedPhase Real.sqrt dt (swingGame ℝ lastL damping pump)).player.velX
      = -((-10 + (if pump then pumpIncrement Real.sqrt false dt
            (swingGame ℝ lastL damping pump).player (swingGame ℝ lastL damping pump).web else 0))
          * reelScale lastL 100) ∧
    (latchedPhase Real.sqrt dt (swingGame ℝ lastL damping pump)).player.velY = 0 ∧
    (latchedPhase Real.sqrt dt (swingGame ℝ lastL damping pump)).web.targetLen = 100 ∧
    (latchedPhase Real.sqrt dt (swingGame ℝ lastL damping pump)).lastL = 100 := by
  rw [latchedPhase_held Real.sqrt dt _ rfl rfl]
  obtain ⟨h1, h2, h3⟩ := latchedBody_velocity Real.sqrt false
    dt (swingGame ℝ lastL damping pump).player (swingGame ℝ lastL damping pump).web lastL
  obtain ⟨w1, -⟩ := latchedBody_web Real.sqrt false
    dt (swingGame ℝ lastL damping pump).player (swingGame ℝ lastL damping pump).web lastL
  have hp : (swingGame ℝ lastL damping pump).web.pump = pump := rfl
  rw [swingGame_radial, swingGame_vtan, (swingGame_len lastL damping dt pump).1, hp] at h1 h2
  rw [(swingGame_len lastL damping dt pump).1] at h3 w1
  refine ⟨h1.trans ?_, h2.trans ?_, w1, h3⟩
  · ring
  · ring

/-- No event handler assigns the static `lastL`. -/
lemma handleEvent_lastL (sqrt : F → F) (amb : Ambient) (e : Event) (g : Game F) :
    (handleEvent sqrt amb e g).lastL = g.lastL := by
  apply handleEvent_induct (fun x => x.lastL = g.lastL) sqrt amb e g rfl
  · intro x hx
    exact hx
  · intro sym x hx
    have : (onKeyDown amb sym x).lastL = x.lastL := by
      have hsp : ∀ (fx fy : F) (y : Game F), (spawnAvocado fx fy y).lastL = y.lastL := by
        intro fx fy y
        unfold spawnAvocado
        cases y.texAvo with
        | none => rfl
        | some tk =>
          obtain ⟨aw, ah⟩ := tk
          dsimp only
          split_ifs <;> rfl
      have hka : ∀ y : Game F, (keyDownAlive amb sym y).lastL = y.lastL := by
        intro y
        unfold keyDownAlive
        cases sym <;> first
          | rfl
          | exact hsp _ _ _
          | (dsimp only; split_ifs <;> rfl)
      unfold onKeyDown
      dsimp only
      split_ifs <;> first
        | rfl
        | exact hka _
    exact this.trans hx
  · intro sym x hx
    have : (onKeyUp sym x).lastL = x.lastL := by
      unfold onKeyUp
      cases sym <;> rfl
    exact this.trans hx
  · intro y x hx
    have : (onMouseWheel y x).lastL = x.lastL := by
      unfold onMouseWheel
      split_ifs <;> rfl
    exact this.trans hx
  · intro b x hx
    exact hx
  · intro b x hx
    have : (onMouseButtonDown sqrt amb b x).lastL = x.lastL := by
      unfold onMouseButtonDown
      cases b
      · dsimp only
        unfold spawnKnife
        cases x.texKnife with
        | none => rfl
        | some tk =>
          obtain ⟨kw, kh⟩ := tk
          dsimp only
          split_ifs <;> rfl
      · dsimp only
        split_ifs
        · rfl
        · unfold castWeb
          dsimp only
          split_ifs <;> rfl
      · rfl
    exact this.trans hx
  · intro x hx
    exact hx

/-- The reset does not assign the static `lastL`. -/
lemma resetGame_lastL (now : Nat) (g : Game F) : (resetGame now g).lastL = g.lastL := rfl

/-- The Latched, held step leaves the rope length of the frame in `lastL`. -/
lemma latchedPhase_lastL (sqrt : F → F) (dt : F) (x : Game F)
    (hs : x.web.state = WebState.Latched) (hh : x.web.rmbHeld = true) :
    (latchedPhase sqrt dt x).lastL = latchedLen x.web dt := by
  rw [latchedPhase_held sqrt dt x hs hh]
  exact (latchedBody_velocity sqrt x.MOON_MODE dt x.player x.web x.lastL).2.2

/-- A frame update changes the static `lastL` only in the Latched, held step,
which leaves the rope length of that frame in it. -/
lemma frameUpdate_lastL (sqrt cos : F → F) (pi : F) (now : Nat) (dt : F) (keys : Keys)
    (g : Game F) :
    (frameUpdate sqrt cos pi now dt keys g).lastL = g.lastL ∨
    ((shootingStep dt g.web).state = WebState.Latched ∧ g.web.rmbHeld = true ∧
      (frameUpdate sqrt cos pi now dt keys g).lastL = latchedLen (shootingStep dt g.web) dt) := by
  have hfu : frameUpdate sqrt cos pi now dt keys g
      = gameOverPhase (prunePhase (contactPhase now (hitPhase now (avocadoPhase now g.allTiles
          (releasePhase sqrt (latchedPhase sqrt dt (shootingPhase dt (knifePhase now
            (rechargePhase now (playerPhase now cos pi keys g)))))))))) := rfl
  have t1 : ∀ x : Game F, (gameOverPhase x).lastL = x.lastL := by
    intro x
    unfold gameOverPhase
    split_ifs <;> rfl
  have t3 : ∀ x : Game F, (contactPhase now x).lastL = x.lastL := by
    intro x
    unfold contactPhase
    split_ifs <;> rfl
  have t4 : ∀ x : Game F, (hitPhase now x).lastL = x.lastL := by
    intro x
    unfold hitPhase
    split_ifs <;> rfl
  have t5 : ∀ x : Game F, (avocadoPhase now g.allTiles x).lastL = x.lastL := by
    intro x
    unfold avocadoPhase
    split_ifs <;> rfl
  have t6 : ∀ x : Game F, (releasePhase sqrt x).lastL = x.lastL := by
    intro x
    unfold releasePhase
    split_ifs <;> rfl
  obtain ⟨p1, -, p3, -⟩ := playerPhase_web now cos pi keys g
  obtain ⟨r1, -, -, r4, -⟩ := rechargePhase_web now (playerPhase now cos pi keys g)
  have w4 : (shootingPhase dt (knifePhase now (rechargePhase now
      (playerPhase now cos pi keys g)))).web = shootingStep dt g.web := by
    show shootingStep dt (rechargePhase now (playerPhase now cos pi keys g)).web = _
    rw [r1, p1]
  have l4 : (shootingPhase dt (knifePhase now (rechargePhase now
      (playerPhase now cos pi keys g)))).lastL = g.lastL := by
    show (rechargePhase now (playerPhase now cos pi keys g)).lastL = _
    rw [r4, p3]
  have hfl : (frameUpdate sqrt cos pi now dt keys g).lastL
      = (latchedPhase sqrt dt (shootingPhase dt (knifePhase now (rechargePhase now
          (playerPhase now cos pi keys g))))).lastL := by
    rw [hfu, t1]
    show (contactPhase now _).lastL = _
    rw [t3, t4, t5, t6]
  rw [hfl]
  by_cases hc : (shootingStep dt g.web).state = WebState.Latched ∧
      (shootingStep dt g.web).rmbHeld = true
  · right
    have hh : g.web.rmbHeld = true := by
      rw [← (shootingStep_fields dt g.web).1]
      exact hc.2
    refine ⟨hc.1, hh, ?_⟩
    rw [latchedPhase_lastL sqrt dt _ (by rw [w4]; exact hc.1) (by rw [w4]; exact hc.2), w4]
  · left
    unfold latchedPhase
    rw [if_neg (by rw [w4]; exact hc)]
    exact l4

/-- A Latched frame at rope length 300 (the player hanging 300 below the anchor
`(234, 453)`) leaves `300` in the static `lastL`. -/
lemma previousCycle_lastL :
    (latchedPhase Real.sqrt (1 / 60) (grappleGame ℝ 234 453 300 true false)).lastL = 300 := by
  rw [latchedPhase_lastL Real.sqrt (1 / 60) _ rfl rfl]
  apply latchedLen_idle _ _ rfl rfl
  unfold Web.LenOk
  show (70.0 : ℝ) ≤ 300 ∧ (300 : ℝ) ≤ 1800.0
  constructor <;> norm_num

/-- C16 (the code at the failing input). The first Latched frame of a grapple
cycle at rope length 100, entered with the value 300 that the last Latched frame
of the previous cycle left in the static `lastL`, with no reel or pump input:
the rope length is 100 before and after the frame, and the step doubles the
tangential velocity, from `(10, 0)` to `(20, 0)`. -/
theorem reel_scale_stale :
    (swingGame ℝ 300 0.04 false).lastL
      = (latchedPhase Real.sqrt (1 / 60) (grappleGame ℝ 234 453 300 true false)).lastL ∧
    (swingGame ℝ 300 0.04 false).web.reelIn = false ∧
    (swingGame ℝ 300 0.04 false).web.targetLen = 100 ∧
    (latchedPhase Real.sqrt (1 / 60) (swingGame ℝ 300 0.04 false)).web.targetLen = 100 ∧
    (swingGame ℝ 300 0.04 false).player.velX = 10 ∧
    (swingGame ℝ 300 0.04 false).player.velY = 0 ∧
    (latchedPhase Real.sqrt (1 / 60) (swingGame ℝ 300 0.04 false)).player.velX = 20 ∧
    (latchedPhase Real.sqrt (1 / 60) (swingGame ℝ 300 0.04 false)).player.velY = 0 := by
  obtain ⟨h1, h2, h3, -⟩ := swingGame_step 300 0.04 (1 / 60) false
  have hs : reelScale (300 : ℝ) 100 = 2 := by
    obtain ⟨-, hb⟩ := reelScale_later (300 : ℝ) 100 (by norm_num) (by norm_num)
    rw [(hb (by norm_num)).1]
    norm_num
  refine ⟨previousCycle_lastL.symm, rfl, rfl, h3, rfl, rfl, ?_, h2⟩
  rw [h1, hs]
  norm_num

/-- The Latched step leaves the same player and the same `lastL` whatever the
damping coefficient: lines 739-740 assign `vx` and `vy`, and lines 763-764
assign them again before any use. -/
lemma latchedBody_damping (sqrt : F → F) (moon : Bool) (dt : F) (p : Sprite F) (w : Web F)
    (l c : F) :
    (latchedBody sqrt moon dt p { w with damping := c } l).1 = (latchedBody sqrt moon dt p w l).1 ∧
    (latchedBody sqrt moon dt p { w with damping := c } l).2.2
      = (latchedBody sqrt moon dt p w l).2.2 :=
  ⟨rfl, rfl⟩

/-- C17 (the code at the failing input). In every Latched frame the player the
step leaves is the same for every damping coefficient `c` as for `c = 0`; in
the frame of `swingGame` (velocity `(10, 0)`, tangential, `dt = 1/60`, no reel
or pump input) the speed after the step is `10` with `c = 0.04` and with
`c = 0`, not `(1 - 0.04 / 60) * 10`. -/
theorem damping_dead :
    (∀ (c dt : ℝ) (g : Game ℝ),
      (latchedPhase Real.sqrt dt { g with web := { g.web with damping := c } }).player
        = (latchedPhase Real.sqrt dt { g with web := { g.web with damping := 0 } }).player) ∧
    playerSpeed Real.sqrt (latchedPhase Real.sqrt (1 / 60) (swingGame ℝ 100 0.04 false)).player
      = 10 ∧
    playerSpeed Real.sqrt (latchedPhase Real.sqrt (1 / 60) (swingGame ℝ 100 0 false)).player
      = 10 ∧
    playerSpeed Real.sqrt (latchedPhase Real.sqrt (1 / 60) (swingGame ℝ 100 0.04 false)).player
      ≠ (1 - 0.04 * (1 / 60))
        * playerSpeed Real.sqrt
            (latchedPhase Real.sqrt (1 / 60) (swingGame ℝ 100 0 false)).player := by
  have hs : reelScale (100 : ℝ) 100 = 1 :=
    (reelScale_later (100 : ℝ) 100 (by norm_num) (by norm_num)).1 (by norm_num)
  have hv : ∀ c : ℝ, playerSpeed Real.sqrt
      (latchedPhase Real.sqrt (1 / 60) (swingGame ℝ 100 c false)).player = 10 := by
    intro c
    obtain ⟨h1, h2, -⟩ := swingGame_step 100 c (1 / 60) false
    unfold playerSpeed
    rw [h1, h2, hs]
    have : (-((-10 + if false = true then pumpIncrement Real.sqrt false (1 / 60)
        (swingGame ℝ 100 c false).player (swingGame ℝ 100 c false).web else 0) * 1)
        * -((-10 + if false = true then pumpIncrement Real.sqrt false (1 / 60)
        (swingGame ℝ 100 c false).player (swingGame ℝ 100 c false).web else 0) * 1)
        + 0 * 0 : ℝ) = 10 * 10 := by
      norm_num
    rw [this]
    exact Real.sqrt_mul_self (by norm_num)
  refine ⟨?_, hv _, hv _, ?_⟩
  · intro c dt g
    unfold latchedPhase
    by_cases h : g.web.state = WebState.Latched ∧ g.web.rmbHeld = true
    · rw [if_pos h, if_pos h]
      rfl
    · rw [if_neg h, if_neg h]
  · rw [hv, hv]
    norm_num

/-- The factor of lines 755-760 is never negative. -/
lemma reelScale_nonneg (l L : F) : 0 ≤ reelScale l L := by
  unfold reelScale
  dsimp only
  split_ifs
  · exact le_trans (by norm_num) (le_max_left _ _)
  · exact zero_le_one
  · exact le_trans (by norm_num) (le_max_left _ _)
  · exact zero_le_one

/-- The vertical component of the radial vector lies in `[-1, 1]`. -/
lemma latchedRadial_abs_le (p : Sprite ℝ) (w : Web ℝ) :
    |(latchedRadial Real.sqrt p w).2| ≤ 1 := by
  unfold latchedRadial
  dsimp only
  set rx := p.webAnchorWorld.x - w.ax
  set ry := p.webAnchorWorld.y - w.ay
  have hone : (1.0 : ℝ) = 1 := by norm_num
  rw [hone]
  have hm : 0 < max 1 (Real.sqrt (rx * rx + ry * ry)) :=
    lt_of_lt_of_le one_pos (le_max_left _ _)
  have hy : |ry| ≤ Real.sqrt (rx * rx + ry * ry) := by
    apply Real.abs_le_sqrt
    nlinarith [mul_self_nonneg rx]
  rw [abs_mul, abs_of_pos (one_div_pos.mpr hm), mul_one_div, div_le_one hm]
  exact le_trans hy (le_max_right _ _)

/-- The velocity the Latched, held step leaves, with the pump flag set to
`b`. -/
lemma latchedPhase_withPump (dt : ℝ) (g : Game ℝ) (b : Bool)
    (hs : g.web.state = WebState.Latched) (hh : g.web.rmbHeld = true) :
    (latchedPhase Real.sqrt dt (withPump b g)).player.velX
      = -(latchedRadial Real.sqrt g.player g.web).2
        * ((latchedVtan Real.sqrt g.player g.web
            + (if b then pumpIncrement Real.sqrt g.MOON_MODE dt g.player g.web else 0))
          * reelScale g.lastL (latchedLen g.web dt)) ∧
    (latchedPhase Real.sqrt dt (withPump b g)).player.velY
      = (latchedRadial Real.sqrt g.player g.web).1
        * ((latchedVtan Real.sqrt g.player g.web
            + (if b then pumpIncrement Real.sqrt g.MOON_MODE dt g.player g.web else 0))
          * reelScale g.lastL (latchedLen g.web dt)) := by
  rw [latchedPhase_held Real.sqrt dt (withPump b g) hs hh]
  obtain ⟨h1, h2, -⟩ := latchedBody_velocity Real.sqrt g.MOON_MODE dt g.player
    (withPump b g).web g.lastL
  exact ⟨h1, h2⟩

/-- C18 (as amended). Pump: in every Latched held frame (non-negative pump gain
and frame time), the velocity the step leaves with pump held is the velocity it
leaves without pump plus `inc * scale` along the tangent `(-rny, rnx)`, where
`inc = pumpGain * g * dt * (0.5 + 0.5 * bias) >= 0`, `bias = 1 - |rny|` lies in
`[0, 1]`, is `1` when the attachment point is level with the anchor and `0`
when it is straight above or below it at distance at least 1, and `scale` is
the reel factor of the frame; the speed with pump is at least the speed without
when the tangential velocity `vtan` before the pump is not negative, and at most
the speed without when `vtan <= -inc`. -/
theorem pump_increment (dt : ℝ) (g : Game ℝ)
    (hs : g.web.state = WebState.Latched) (hh : g.web.rmbHeld = true)
    (hg : 0 ≤ g.web.pumpGain) (hdt : 0 ≤ dt) :
    ((latchedPhase Real.sqrt dt (withPump true g)).player.velX
        = (latchedPhase Real.sqrt dt (withPump false g)).player.velX
          + -(latchedRadial Real.sqrt g.player g.web).2
            * (pumpIncrement Real.sqrt g.MOON_MODE dt g.player g.web
                * reelScale g.lastL (latchedLen g.web dt)) ∧
      (latchedPhase Real.sqrt dt (withPump true g)).player.velY
        = (latchedPhase Real.sqrt dt (withPump false g)).player.velY
          + (latchedRadial Real.sqrt g.player g.web).1
            * (pumpIncrement Real.sqrt g.MOON_MODE dt g.player g.web
                * reelScale g.lastL (latchedLen g.web dt))) ∧
    (pumpIncrement Real.sqrt g.MOON_MODE dt g.player g.web
        = g.web.pumpGain * gravity ℝ g.MOON_MODE * dt
          * (0.5 + 0.5 * (1 - |(latchedRadial Real.sqrt g.player g.web).2|)) ∧
      0 ≤ 1 - |(latchedRadial Real.sqrt g.player g.web).2| ∧
      1 - |(latchedRadial Real.sqrt g.player g.web).2| ≤ 1 ∧
      0 ≤ pumpIncrement Real.sqrt g.MOON_MODE dt g.player g.web) ∧
    ((g.player.webAnchorWorld.y = g.web.ay →
        1 - |(latchedRadial Real.sqrt g.player g.web).2| = 1) ∧
      (g.player.webAnchorWorld.x = g.web.ax → 1 ≤ anchorDist Real.sqrt g.player g.web →
        1 - |(latchedRadial Real.sqrt g.player g.web).2| = 0)) ∧
    ((0 ≤ latchedVtan Real.sqrt g.player g.web →
        playerSpeed Real.sqrt (latchedPhase Real.sqrt dt (withPump false g)).player
          ≤ playerSpeed Real.sqrt (latchedPhase Real.sqrt dt (withPump true g)).player) ∧
      (latchedVtan Real.sqrt g.player g.web
          ≤ -pumpIncrement Real.sqrt g.MOON_MODE dt g.player g.web →
        playerSpeed Real.sqrt (latchedPhase Real.sqrt dt (withPump true g)).player
          ≤ playerSpeed Real.sqrt (latchedPhase Real.sqrt dt (withPump false g)).player)) := by
  obtain ⟨p1, p2⟩ := latchedPhase_withPump dt g true hs hh
  obtain ⟨n1, n2⟩ := latchedPhase_withPump dt g false hs hh
  have hab := latchedRadial_abs_le g.player g.web
  have hbias : 0 ≤ 1 - |(latchedRadial Real.sqrt g.player g.web).2| := by linarith
  have hinc : pumpIncrement Real.sqrt g.MOON_MODE dt g.player g.web
      = g.web.pumpGain * gravity ℝ g.MOON_MODE * dt
        * (0.5 + 0.5 * (1 - |(latchedRadial Real.sqrt g.player g.web).2|)) := by
    unfold pumpIncrement
    dsimp only
    norm_num
  have hinc0 : 0 ≤ pumpIncrement Real.sqrt g.MOON_MODE dt g.player g.web := by
    rw [hinc]
    have hgr : 0 ≤ gravity ℝ g.MOON_MODE := le_of_lt (gravity_pos g.MOON_MODE)
    have h5 : (0 : ℝ) ≤ 0.5 + 0.5 * (1 - |(latchedRadial Real.sqrt g.player g.web).2|) := by
      have : (0 : ℝ) ≤ 0.5 * (1 - |(latchedRadial Real.sqrt g.player g.web).2|) :=
        mul_nonneg (by norm_num) hbias
      linarith [show (0 : ℝ) ≤ 0.5 by norm_num]
    exact mul_nonneg (mul_nonneg (mul_nonneg hg hgr) hdt) h5
  have hsc := reelScale_nonneg g.lastL (latchedLen g.web dt)
  set rn := latchedRadial Real.sqrt g.player g.web with hrn
  set inc := pumpIncrement Real.sqrt g.MOON_MODE dt g.player g.web with hincdef
  set sc := reelScale g.lastL (latchedLen g.web dt) with hscdef
  set vt := latchedVtan Real.sqrt g.player g.web with hvt
  refine ⟨⟨?_, ?_⟩, ⟨hinc, hbias, by linarith [abs_nonneg rn.2], hinc0⟩, ⟨?_, ?_⟩, ⟨?_, ?_⟩⟩
  · rw [p1, n1]
    simp only [if_true, Bool.false_eq_true, if_false]
    ring
  · rw [p2, n2]
    simp only [if_true, Bool.false_eq_true, if_false]
    ring
  · intro hy
    have : rn.2 = 0 := by
      rw [hrn]
      unfold latchedRadial
      dsimp only
      rw [hy]
      ring
    rw [this]
    norm_num
  · intro hx hd
    have hone : (1.0 : ℝ) = 1 := by norm_num
    have hry : |rn.2| = 1 := by
      rw [hrn]
      unfold latchedRadial
      unfold anchorDist at hd
      dsimp only
      rw [hx] at hd ⊢
      have hsq : Real.sqrt ((g.web.ax - g.web.ax) * (g.web.ax - g.web.ax)
          + (g.player.webAnchorWorld.y - g.web.ay) * (g.player.webAnchorWorld.y - g.web.ay))
          = |g.player.webAnchorWorld.y - g.web.ay| := by
        have : (g.web.ax - g.web.ax) * (g.web.ax - g.web.ax)
            + (g.player.webAnchorWorld.y - g.web.ay) * (g.player.webAnchorWorld.y - g.web.ay)
            = (g.player.webAnchorWorld.y - g.web.ay) * (g.player.webAnchorWorld.y - g.web.ay) := by
          ring
        rw [this]
        exact Real.sqrt_mul_self_eq_abs _
      rw [hsq] at hd ⊢
      rw [hone, max_eq_right hd, abs_mul, abs_of_pos (one_div_pos.mpr (lt_of_lt_of_le one_pos hd)),
        mul_one_div, div_self (ne_of_gt (lt_of_lt_of_le one_pos hd))]
    rw [hry]
    ring
  · intro hv
    unfold playerSpeed
    apply Real.sqrt_le_sqrt
    rw [p1, p2, n1, n2]
    simp only [if_true, Bool.false_eq_true, if_false]
    have h1 : 0 ≤ vt * sc := mul_nonneg hv hsc
    have h2 : vt * sc ≤ (vt + inc) * sc := mul_le_mul_of_nonneg_right (by linarith) hsc
    have h3 : (vt * sc) * (vt * sc) ≤ ((vt + inc) * sc) * ((vt + inc) * sc) :=
      mul_le_mul h2 h2 h1 (le_trans h1 h2)
    have e1 : -rn.2 * ((vt + 0) * sc) * (-rn.2 * ((vt + 0) * sc))
        + rn.1 * ((vt + 0) * sc) * (rn.1 * ((vt + 0) * sc))
        = (rn.1 * rn.1 + rn.2 * rn.2) * ((vt * sc) * (vt * sc)) := by ring
    have e2 : -rn.2 * ((vt + inc) * sc) * (-rn.2 * ((vt + inc) * sc))
        + rn.1 * ((vt + inc) * sc) * (rn.1 * ((vt + inc) * sc))
        = (rn.1 * rn.1 + rn.2 * rn.2) * (((vt + inc) * sc) * ((vt + inc) * sc)) := by ring
    rw [e1, e2]
    exact mul_le_mul_of_nonneg_left h3
      (add_nonneg (mul_self_nonneg _) (mul_self_nonneg _))
  · intro hv
    unfold playerSpeed
    apply Real.sqrt_le_sqrt
    rw [p1, p2, n1, n2]
    simp only [if_true, Bool.false_eq_true, if_false]
    have h1 : (vt + inc) * sc ≤ 0 := mul_nonpos_of_nonpos_of_nonneg (by linarith) hsc
    have h2 : vt * sc ≤ (vt + inc) * sc := mul_le_mul_of_nonneg_right (by linarith) hsc
    have h3 : ((vt + inc) * sc) * ((vt + inc) * sc) ≤ (vt * sc) * (vt * sc) := by
      nlinarith
    have e1 : -rn.2 * ((vt + 0) * sc) * (-rn.2 * ((vt + 0) * sc))
        + rn.1 * ((vt + 0) * sc) * (rn.1 * ((vt + 0) * sc))
        = (rn.1 * rn.1 + rn.2 * rn.2) * ((vt * sc) * (vt * sc)) := by ring
    have e2 : -rn.2 * ((vt + inc) * sc) * (-rn.2 * ((vt + inc) * sc))
        + rn.1 * ((vt + inc) * sc) * (rn.1 * ((vt + inc) * sc))
        = (rn.1 * rn.1 + rn.2 * rn.2) * (((vt + inc) * sc) * ((vt + inc) * sc)) := by ring
    rw [e1, e2]
    exact mul_le_mul_of_nonneg_left h3
      (add_nonneg (mul_self_nonneg _) (mul_self_nonneg _))

/-- The speed the Latched step leaves in `swingGame` without pump and with
`lastL` equal to the rope length: `10`, whatever the damping coefficient. -/
lemma swingGame_speed (c : ℝ) :
    playerSpeed Real.sqrt (latchedPhase Real.sqrt (1 / 60) (swingGame ℝ 100 c false)).player
      = 10 := by
  have hs : reelScale (100 : ℝ) 100 = 1 :=
    (reelScale_later (100 : ℝ) 100 (by norm_num) (by norm_num)).1 (by norm_num)
  obtain ⟨h1, h2, -⟩ := swingGame_step 100 c (1 / 60) false
  unfold playerSpeed
  rw [h1, h2, hs]
  have : (-((-10 + if false = true then pumpIncrement Real.sqrt false (1 / 60)
      (swingGame ℝ 100 c false).player (swingGame ℝ 100 c false).web else 0) * 1)
      * -((-10 + if false = true then pumpIncrement Real.sqrt false (1 / 60)
      (swingGame ℝ 100 c false).player (swingGame ℝ 100 c false).web else 0) * 1)
      + 0 * 0 : ℝ) = 10 * 10 := by
    norm_num
  rw [this]
  exact Real.sqrt_mul_self (by norm_num)

lemma swingGame_pumpGain : 0 ≤ (swingGame ℝ 100 0.04 false).web.pumpGain := by
  show (0 : ℝ) ≤ 0.45
  norm_num

/-- The amount the pump adds in `swingGame` at `dt = 1/60`: `3/1600`. -/
lemma swingGame_pumpIncrement :
    pumpIncrement Real.sqrt false (1 / 60) (swingGame ℝ 100 0.04 true).player
      (swingGame ℝ 100 0.04 true).web = 3 / 1600 := by
  unfold pumpIncrement
  dsimp only
  rw [swingGame_radial]
  have h1 : (swingGame ℝ 100 0.04 true).web.pumpGain = 0.45 := rfl
  rw [h1]
  unfold gravity GRAVITY_NORMAL
  norm_num

/-- The speed the Latched step leaves in `swingGame` with pump held: less than
`10`. -/
lemma swingGame_pumped :
    playerSpeed Real.sqrt (latchedPhase Real.sqrt (1 / 60) (swingGame ℝ 100 0.04 true)).player
      = 10 - 3 / 1600 := by
  have hs : reelScale (100 : ℝ) 100 = 1 :=
    (reelScale_later (100 : ℝ) 100 (by norm_num) (by norm_num)).1 (by norm_num)
  obtain ⟨h1, h2, -⟩ := swingGame_step 100 0.04 (1 / 60) true
  unfold playerSpeed
  rw [h1, h2, hs, if_pos rfl, swingGame_pumpIncrement]
  have : (-((-10 + 3 / 1600) * 1) * -((-10 + 3 / 1600) * 1) + 0 * 0 : ℝ)
      = (10 - 3 / 1600) * (10 - 3 / 1600) := by
    norm_num
  rw [this]
  exact Real.sqrt_mul_self (by norm_num)

/-- C18 (counterexample). The frame of `swingGame`: the actor hangs straight
below the anchor moving with velocity `(10, 0)`, which is `vtan = -10` along the
tangent `(-1, 0)`; without pump the step leaves speed `10`, with pump it leaves
`10 - 3/1600`. -/
theorem pumpAddsSpeed_counterexample :
    ¬ PumpAddsSpeed (1 / 60) (swingGame ℝ 100 0.04 false) := by
  intro hclaim
  have h := hclaim rfl rfl
  have e1 : withPump false (swingGame ℝ 100 0.04 false) = swingGame ℝ 100 0.04 false := rfl
  have e2 : withPump true (swingGame ℝ 100 0.04 false) = swingGame ℝ 100 0.04 true := rfl
  rw [e1, e2, swingGame_speed, swingGame_pumped] at h
  norm_num at h

/-- Witness for `pump_increment`: the frame of `swingGame`. -/
theorem pump_increment_witness :
    (swingGame ℝ 100 0.04 false).web.state = WebState.Latched ∧
    (swingGame ℝ 100 0.04 false).web.rmbHeld = true ∧
    0 ≤ (swingGame ℝ 100 0.04 false).web.pumpGain ∧ (0 : ℝ) ≤ 1 / 60 ∧
    (((latchedPhase Real.sqrt (1 / 60) (withPump true (swingGame ℝ 100 0.04 false))).player.velX
        = (latchedPhase Real.sqrt (1 / 60) (withPump false (swingGame ℝ 100 0.04
            false))).player.velX
          + -(latchedRadial Real.sqrt (swingGame ℝ 100 0.04 false).player (swingGame ℝ 100 0.04
              false).web).2
            * (pumpIncrement Real.sqrt (swingGame ℝ 100 0.04 false).MOON_MODE (1 / 60) (swingGame ℝ
                100 0.04 false).player (swingGame ℝ 100 0.04 false).web
                * reelScale (swingGame ℝ 100 0.04 false).lastL (latchedLen (swingGame ℝ 100 0.04
                    false).web (1 / 60))) ∧
      (latchedPhase Real.sqrt (1 / 60) (withPump true (swingGame ℝ 100 0.04 false))).player.velY
        = (latchedPhase Real.sqrt (1 / 60) (withPump false (swingGame ℝ 100 0.04
            false))).player.velY
          + (latchedRadial Real.sqrt (swingGame ℝ 100 0.04 false).player (swingGame ℝ 100 0.04
              false).web).1
            * (pumpIncrement Real.sqrt (swingGame ℝ 100 0.04 false).MOON_MODE (1 / 60) (swingGame ℝ
                100 0.04 false).player (swingGame ℝ 100 0.04 false).web
                * reelScale (swingGame ℝ 100 0.04 false).lastL (latchedLen (swingGame ℝ 100 0.04
                    false).web (1 / 60)))) ∧
    (pumpIncrement Real.sqrt (swingGame ℝ 100 0.04 false).MOON_MODE (1 / 60) (swingGame ℝ 100 0.04
        false).player (swingGame ℝ 100 0.04 false).web
        = (swingGame ℝ 100 0.04 false).web.pumpGain * gravity ℝ (swingGame ℝ 100 0.04
            false).MOON_MODE * (1 / 60)
          * (0.5 + 0.5 * (1 - |(latchedRadial Real.sqrt (swingGame ℝ 100 0.04 false).player
              (swingGame ℝ 100 0.04 false).web).2|)) ∧
      0 ≤ 1 - |(latchedRadial Real.sqrt (swingGame ℝ 100 0.04 false).player (swingGame ℝ 100 0.04
          false).web).2| ∧
      1 - |(latchedRadial Real.sqrt (swingGame ℝ 100 0.04 false).player (swingGame ℝ 100 0.04
          false).web).2| ≤ 1 ∧
      0 ≤ pumpIncrement Real.sqrt (swingGame ℝ 100 0.04 false).MOON_MODE (1 / 60) (swingGame ℝ 100
          0.04 false).player (swingGame ℝ 100 0.04 false).web) ∧
    (((swingGame ℝ 100 0.04 false).player.webAnchorWorld.y = (swingGame ℝ 100 0.04 false).web.ay →
        1 - |(latchedRadial Real.sqrt (swingGame ℝ 100 0.04 false).player (swingGame ℝ 100 0.04
            false).web).2| = 1) ∧
      ((swingGame ℝ 100 0.04 false).player.webAnchorWorld.x = (swingGame ℝ 100 0.04 false).web.ax →
          1 ≤ anchorDist Real.sqrt (swingGame ℝ 100 0.04 false).player (swingGame ℝ 100 0.04
              false).web →
        1 - |(latchedRadial Real.sqrt (swingGame ℝ 100 0.04 false).player (swingGame ℝ 100 0.04
            false).web).2| = 0)) ∧
    ((0 ≤ latchedVtan Real.sqrt (swingGame ℝ 100 0.04 false).player (swingGame ℝ 100 0.04
        false).web →
        playerSpeed Real.sqrt (latchedPhase Real.sqrt (1 / 60) (withPump false (swingGame ℝ 100
            0.04 false))).player
          ≤ playerSpeed Real.sqrt (latchedPhase Real.sqrt (1 / 60) (withPump true (swingGame ℝ 100
              0.04 false))).player) ∧
      (latchedVtan Real.sqrt (swingGame ℝ 100 0.04 false).player (swingGame ℝ 100 0.04 false).web
          ≤ -pumpIncrement Real.sqrt (swingGame ℝ 100 0.04 false).MOON_MODE (1 / 60) (swingGame ℝ
              100 0.04 false).player (swingGame ℝ 100 0.04 false).web →
        playerSpeed Real.sqrt (latchedPhase Real.sqrt (1 / 60) (withPump true (swingGame ℝ 100 0.04
            false))).player
          ≤ playerSpeed Real.sqrt (latchedPhase Real.sqrt (1 / 60) (withPump false (swingGame ℝ 100
              0.04 false))).player))) :=
  ⟨rfl, rfl, swingGame_pumpGain, by norm_num,
    pump_increment (1 / 60) (swingGame ℝ 100 0.04 false) rfl rfl swingGame_pumpGain (by norm_num)⟩

end Tangential

/-! ## The Shooting phase -/

section Shooting

variable {F : Type} [LinearOrderedField F] [FloorRing F]

/-- The frame time is at least `1/240` (line 577). -/
lemma frameDt_ge (nowTick prevTick : Nat) : (1 / 240 : F) ≤ frameDt nowTick prevTick := by
  unfold frameDt
  have : (1.0 / 240.0 : F) = 1 / 240 := by norm_num
  rw [this]
  exact le_max_left _ _

/-- The Shooting step, for a grapple that is Shooting. -/
lemma shootingStep_shooting (dt : F) (w : Web F) (hs : w.state = WebState.Shooting) :
    (shootingStep dt w).curLen = min (w.curLen + w.shootSpeed * dt) w.targetLen ∧
    ((shootingStep dt w).state = WebState.Latched ↔ w.curLen + w.shootSpeed * dt ≥ w.targetLen) ∧
    ((shootingStep dt w).state = WebState.Shooting ↔ ¬ w.curLen + w.shootSpeed * dt ≥ w.targetLen) ∧
    (shootingStep dt w).curLen ≤ (shootingStep dt w).targetLen ∧
    (shootingStep dt w).targetLen = w.targetLen ∧
    (shootingStep dt w).shootSpeed = w.shootSpeed ∧
    (shootingStep dt w).rmbHeld = w.rmbHeld := by
  unfold shootingStep
  rw [if_pos hs]
  dsimp only
  by_cases h : w.curLen + w.shootSpeed * dt ≥ w.targetLen
  · rw [if_pos h]
    refine ⟨(min_eq_right h).symm, ⟨fun _ => h, fun _ => rfl⟩, ⟨fun hh => ?_, fun hh => absurd h hh⟩,
      le_refl _, rfl, rfl, rfl⟩
    cases hh
  · rw [if_neg h]
    have hlt : w.curLen + w.shootSpeed * dt < w.targetLen := not_le.mp h
    refine ⟨(min_eq_left (le_of_lt hlt)).symm, ⟨fun hh => ?_, fun hh => absurd hh h⟩,
      ⟨fun _ => h, fun _ => hs⟩, le_of_lt hlt, rfl, rfl, rfl⟩
    rw [hs] at hh
    cases hh

/-- The grapple after a frame update that starts with the cast button held: the
Shooting step, then the Latched step if the grapple is Latched by then. -/
lemma frameUpdate_web_held (sqrt cos : F → F) (pi : F) (now : Nat) (dt : F) (keys : Keys)
    (g : Game F) (hh : g.web.rmbHeld = true) :
    (frameUpdate sqrt cos pi now dt keys g).web.rmbHeld = true ∧
    (frameUpdate sqrt cos pi now dt keys g).web.state = (shootingStep dt g.web).state ∧
    ((shootingStep dt g.web).state ≠ WebState.Latched →
      (frameUpdate sqrt cos pi now dt keys g).web = shootingStep dt g.web) := by
  unfold frameUpdate
  dsimp only
  obtain ⟨p1, -⟩ := playerPhase_web now cos pi keys g
  obtain ⟨r1, -⟩ := rechargePhase_web now (playerPhase now cos pi keys g)
  have w4 : (shootingPhase dt (knifePhase now (rechargePhase now
      (playerPhase now cos pi keys g)))).web = shootingStep dt g.web := by
    show shootingStep dt (rechargePhase now (playerPhase now cos pi keys g)).web = _
    rw [r1, p1]
  have h4 : (shootingPhase dt (knifePhase now (rechargePhase now
      (playerPhase now cos pi keys g)))).web.rmbHeld = true := by
    rw [w4, (shootingStep_fields dt g.web).1, hh]
  have h5 : (latchedPhase sqrt dt (shootingPhase dt (knifePhase now (rechargePhase now
      (playerPhase now cos pi keys g))))).web.rmbHeld = true ∧
      (latchedPhase sqrt dt (shootingPhase dt (knifePhase now (rechargePhase now
      (playerPhase now cos pi keys g))))).web.state = (shootingStep dt g.web).state ∧
      ((shootingStep dt g.web).state ≠ WebState.Latched →
        (latchedPhase sqrt dt (shootingPhase dt (knifePhase now (rechargePhase now
        (playerPhase now cos pi keys g))))).web = shootingStep dt g.web) := by
    by_cases hl : (shootingPhase dt (knifePhase now (rechargePhase now
        (playerPhase now cos pi keys g)))).web.state = WebState.Latched
    · obtain ⟨-, -, -, e4, e5, -⟩ := latchedPhase_web_held sqrt dt _ hl h4
      refine ⟨e5.trans h4, ?_, ?_⟩
      · rw [e4, w4]
      · intro hne
        rw [w4] at hl
        exact absurd hl hne
    · have : latchedPhase sqrt dt (shootingPhase dt (knifePhase now (rechargePhase now
          (playerPhase now cos pi keys g))))
          = shootingPhase dt (knifePhase now (rechargePhase now
          (playerPhase now cos pi keys g))) := by
        unfold latchedPhase
        rw [if_neg]
        exact fun h => hl h.1
      rw [this]
      exact ⟨h4, by rw [w4], fun _ => w4⟩
  rw [releasePhase_held sqrt _ h5.1]
  obtain ⟨t1, -⟩ := tailPhases_web now g.allTiles (latchedPhase sqrt dt (shootingPhase dt
    (knifePhase now (rechargePhase now (playerPhase now cos pi keys g)))))
  rw [t1]
  exact h5

/-- One quiet iteration of the main loop, on the grapple: as
`frameUpdate_web_held`, with the frame time of line 577. -/
lemma loopIteration_web_held (sqrt cos : F → F) (pi : F) (t : Nat) (keys : Keys) (g : Game F)
    (hh : g.web.rmbHeld = true) :
    (loopIteration sqrt cos pi t [] keys g).web.rmbHeld = true ∧
    (loopIteration sqrt cos pi t [] keys g).web.state
      = (shootingStep (frameDt t g.prevTick) g.web).state ∧
    ((shootingStep (frameDt t g.prevTick) g.web).state ≠ WebState.Latched →
      (loopIteration sqrt cos pi t [] keys g).web = shootingStep (frameDt t g.prevTick) g.web) :=
  frameUpdate_web_held sqrt cos pi t (frameDt t g.prevTick) keys
    { g with dt := frameDt t g.prevTick, prevTick := t } hh

/-- Quiet iterations with the button held: a Latched grapple stays Latched, and
a Shooting grapple is Latched once the iterations, at `1/240` of a second or
more each, cover the remaining length. -/
lemma runQuiet_latches (sqrt cos : F → F) (pi : F) (frames : List (Nat × Keys)) (g : Game F)
    (hh : g.web.rmbHeld = true)
    (hst : g.web.state = WebState.Latched ∨
      (g.web.state = WebState.Shooting ∧ 0 < g.web.shootSpeed ∧ 1 ≤ frames.length ∧
        (g.web.targetLen - g.web.curLen) * 240 ≤ g.web.shootSpeed * (frames.length : F))) :
    (runQuiet sqrt cos pi g frames).web.state = WebState.Latched := by
  induction frames generalizing g with
  | nil =>
    rcases hst with h | ⟨-, -, h, -⟩
    · exact h
    · exact absurd h (by decide)
  | cons f rest ih =>
    obtain ⟨t, k⟩ := f
    obtain ⟨l1, l2, l3⟩ := loopIteration_web_held sqrt cos pi t k g hh
    show (runQuiet sqrt cos pi (loopIteration sqrt cos pi t [] k g) rest).web.state = _
    apply ih _ l1
    rcases hst with h | ⟨h1, h2, -, h4⟩
    · left
      rw [l2]
      unfold shootingStep
      rw [if_neg]
      · exact h
      · rw [h]
        decide
    · obtain ⟨s1, s2, s3, -, s5, s6, -⟩ := shootingStep_shooting (frameDt t g.prevTick) g.web h1
      by_cases hc : g.web.curLen + g.web.shootSpeed * frameDt t g.prevTick ≥ g.web.targetLen
      · left
        rw [l2]
        exact s2.mpr hc
      · right
        have hsh := s3.mpr hc
        have hw := l3 (by rw [hsh]; decide)
        have hdt : (1 / 240 : F) ≤ frameDt t g.prevTick := frameDt_ge t g.prevTick
        have hlt : g.web.curLen + g.web.shootSpeed * frameDt t g.prevTick < g.web.targetLen :=
          not_le.mp hc
        have hstep : g.web.shootSpeed * (1 / 240) ≤ g.web.shootSpeed * frameDt t g.prevTick :=
          mul_le_mul_of_nonneg_left hdt (le_of_lt h2)
        have hlen : (((t, k) :: rest).length : F) = (rest.length : F) + 1 := by
          rw [List.length_cons]
          push_cast
          rfl
        rw [hlen] at h4
        have hcur : (shootingStep (frameDt t g.prevTick) g.web).curLen
            = g.web.curLen + g.web.shootSpeed * frameDt t g.prevTick := by
          rw [s1]
          exact min_eq_left (le_of_lt hlt)
        rw [hw, hsh, s5, s6, hcur]
        refine ⟨rfl, h2, ?_, ?_⟩
        · by_contra hr
          have hr0 : rest.length = 0 := by omega
          rw [hr0] at h4
          simp only [Nat.cast_zero, zero_add, mul_one] at h4
          nlinarith
        · nlinarith

/-- Shooting phase over exact arithmetic: for every frame time the Shooting step sets `curLen` to
`min(curLen + shootSpeed * dt, targetLen)`, the state becomes Latched exactly
when `curLen + shootSpeed * dt >= targetLen` and stays Shooting otherwise, so
`curLen <= targetLen` afterwards, and the grapple state at the end of the frame
update is the one this step leaves; every frame time is at least `1/240`; and
a held cast (`0 <= curLen`, positive `shootSpeed` and `targetLen`) is Latched
after any run of `ceil(targetLen * 240 / shootSpeed)` or more iterations of the
main loop in which no event arrives. -/
theorem shooting_latches_exact (sqrt cos : F → F) (pi : F) (g : Game F) (frames : List (Nat × Keys))
    (hs : g.web.state = WebState.Shooting) (hh : g.web.rmbHeld = true)
    (hc : 0 ≤ g.web.curLen) (hsp : 0 < g.web.shootSpeed) (ht : 0 < g.web.targetLen)
    (hn : Nat.ceil (g.web.targetLen * 240 / g.web.shootSpeed) ≤ frames.length) :
    (∀ dt : F,
      (shootingStep dt g.web).curLen = min (g.web.curLen + g.web.shootSpeed * dt) g.web.targetLen ∧
      ((shootingStep dt g.web).state = WebState.Latched
        ↔ g.web.curLen + g.web.shootSpeed * dt ≥ g.web.targetLen) ∧
      ((shootingStep dt g.web).state = WebState.Shooting
        ↔ ¬ g.web.curLen + g.web.shootSpeed * dt ≥ g.web.targetLen) ∧
      (shootingStep dt g.web).curLen ≤ (shootingStep dt g.web).targetLen ∧
      (∀ (now : Nat) (keys : Keys),
        (frameUpdate sqrt cos pi now dt keys g).web.state = (shootingStep dt g.web).state)) ∧
    (∀ nowTick prevTick : Nat, (1 / 240 : F) ≤ frameDt nowTick prevTick) ∧
    (runQuiet sqrt cos pi g frames).web.state = WebState.Latched := by
  refine ⟨?_, frameDt_ge, ?_⟩
  · intro dt
    obtain ⟨s1, s2, s3, s4, -⟩ := shootingStep_shooting dt g.web hs
    exact ⟨s1, s2, s3, s4, fun now keys => (frameUpdate_web_held sqrt cos pi now dt keys g hh).2.1⟩
  · apply runQuiet_latches sqrt cos pi frames g hh
    right
    have h1 : g.web.targetLen * 240 / g.web.shootSpeed ≤ (frames.length : F) :=
      Nat.ceil_le.mp hn
    have h2 : g.web.targetLen * 240 ≤ g.web.shootSpeed * (frames.length : F) := by
      rw [div_le_iff₀ hsp] at h1
      linarith
    refine ⟨hs, hsp, ?_, by linarith⟩
    by_contra hz
    have h0 : frames.length = 0 := by omega
    rw [h0] at h2
    simp only [Nat.cast_zero, mul_zero] at h2
    linarith

/-- Witness for `shooting_latches_exact`: the cast of `shootingGame` (rope length 300
at 1400 per second) and 52 quiet iterations. -/
theorem shooting_latches_exact_witness :
    (shootingGame ℚ).web.state = WebState.Shooting ∧ (shootingGame ℚ).web.rmbHeld = true ∧
    0 ≤ (shootingGame ℚ).web.curLen ∧ 0 < (shootingGame ℚ).web.shootSpeed ∧
    0 < (shootingGame ℚ).web.targetLen ∧
    Nat.ceil ((shootingGame ℚ).web.targetLen * 240 / (shootingGame ℚ).web.shootSpeed)
      ≤ (List.replicate 52 ((0 : Nat), noKeys)).length ∧
    ((∀ dt : ℚ,
      (shootingStep dt (shootingGame ℚ).web).curLen
        = min ((shootingGame ℚ).web.curLen + (shootingGame ℚ).web.shootSpeed * dt)
            (shootingGame ℚ).web.targetLen ∧
      ((shootingStep dt (shootingGame ℚ).web).state = WebState.Latched
        ↔ (shootingGame ℚ).web.curLen + (shootingGame ℚ).web.shootSpeed * dt
            ≥ (shootingGame ℚ).web.targetLen) ∧
      ((shootingStep dt (shootingGame ℚ).web).state = WebState.Shooting
        ↔ ¬ (shootingGame ℚ).web.curLen + (shootingGame ℚ).web.shootSpeed * dt
            ≥ (shootingGame ℚ).web.targetLen) ∧
      (shootingStep dt (shootingGame ℚ).web).curLen
        ≤ (shootingStep dt (shootingGame ℚ).web).targetLen ∧
      (∀ (now : Nat) (keys : Keys),
        (frameUpdate (fun v => v) (fun v => v) 0 now dt keys (shootingGame ℚ)).web.state
          = (shootingStep dt (shootingGame ℚ).web).state)) ∧
    (∀ nowTick prevTick : Nat, (1 / 240 : ℚ) ≤ frameDt nowTick prevTick) ∧
    (runQuiet (fun v => v) (fun v => v) 0 (shootingGame ℚ)
      (List.replicate 52 ((0 : Nat), noKeys))).web.state = WebState.Latched) := by
  have h1 : (0 : ℚ) ≤ (shootingGame ℚ).web.curLen := by
    show (0 : ℚ) ≤ 0.0
    norm_num
  have h2 : (0 : ℚ) < (shootingGame ℚ).web.shootSpeed := by
    show (0 : ℚ) < 1400.0
    norm_num
  have h3 : (0 : ℚ) < (shootingGame ℚ).web.targetLen := by
    show (0 : ℚ) < 300
    norm_num
  have h4 : Nat.ceil ((shootingGame ℚ).web.targetLen * 240 / (shootingGame ℚ).web.shootSpeed)
      ≤ (List.replicate 52 ((0 : Nat), noKeys)).length := by
    rw [List.length_replicate]
    apply Nat.ceil_le.mpr
    show (300 : ℚ) * 240 / 1400.0 ≤ ((52 : Nat) : ℚ)
    norm_num
  exact ⟨rfl, rfl, h1, h2, h3, h4,
    shooting_latches_exact (fun v => v) (fun v => v) 0 (shootingGame ℚ)
      (List.replicate 52 ((0 : Nat), noKeys)) rfl rfl h1 h2 h3 h4⟩

end Shooting

/-! ## The step cap of the landing test -/

section StepCap

variable {F : Type} [LinearOrderedField F] [FloorRing F]

lemma toInt_lt_add_one (a : F) : ((toInt a : Int) : F) < a + 1 := by
  unfold toInt
  split_ifs
  · exact lt_of_le_of_lt (Int.floor_le a) (lt_add_one a)
  · exact Int.ceil_lt_add_one a

lemma sub_one_lt_toInt (a : F) : a - 1 < ((toInt a : Int) : F) := by
  unfold toInt
  split_ifs
  · exact Int.sub_one_lt_floor a
  · exact lt_of_lt_of_le (sub_one_lt a) (Int.le_ceil a)

/-- The vertical travel of the collision box in one step is the difference of
two truncations. -/
lemma Sprite.travel_eq (s : Sprite F) (moon : Bool) (now : Nat) (keys : Keys)
    (inputEnabled : Bool) :
    Sprite.travel s moon now keys inputEnabled
      = ((toInt (s.y + Sprite.fallSpeed s moon now keys inputEnabled) : Int) : F)
        - ((toInt s.y : Int) : F) ∧
    Sprite.fallSpeed s moon now keys inputEnabled = s.velY + gravity F moon := by
  obtain ⟨-, hy, -, hv, -⟩ := Sprite.moveAndAnimate_fields s now keys inputEnabled
  have hf : Sprite.fallSpeed s moon now keys inputEnabled = s.velY + gravity F moon := by
    unfold Sprite.fallSpeed Sprite.integrate
    dsimp only
    rw [hv]
  refine ⟨?_, hf⟩
  rw [hf]
  unfold Sprite.travel Sprite.integrate Sprite.collisionRect
  dsimp only
  rw [hy, hv]
  push_cast
  ring

/-- The travel of the collision box in one step is less than the fall speed
plus 2. -/
lemma Sprite.travel_lt (s : Sprite F) (moon : Bool) (now : Nat) (keys : Keys)
    (inputEnabled : Bool) :
    Sprite.travel s moon now keys inputEnabled
      < Sprite.fallSpeed s moon now keys inputEnabled + 2 := by
  rw [(Sprite.travel_eq s moon now keys inputEnabled).1]
  have h1 := toInt_lt_add_one (s.y + Sprite.fallSpeed s moon now keys inputEnabled)
  have h2 := sub_one_lt_toInt s.y
  linarith

lemma Sprite.bracketed_of_candidate (s : Sprite F) (moon : Bool) (now : Nat) (keys : Keys)
    (inputEnabled : Bool) (t : Tile) (h : s.landingCandidate moon now keys inputEnabled t) :
    s.bracketed moon now keys inputEnabled t :=
  ⟨h.1, h.2.1, h.2.2.1⟩

/-- C20. No tunnelling: in `Sprite::handleInput`, for every state with
`velY >= 0` after gravity is added, the travel `nowBottom - prevBottom` of the
collision box is less than `velY + 2`, so the test against
`MAX_STEP + max(0, velY)` always passes; every tile that overlaps the collision
box horizontally and whose top lies between the box's bottom before the step
(`+ EPS`) and after it (`- EPS`) is a landing candidate, and if such a tile is
in the list the call lands (returns an index `>= 0`, sets `onGround`, zeroes
`velY`), at any fall speed; `(int)y` is taken to be an `int`, at least
`INT_MIN`. -/
theorem step_cap_never_decides (s : Sprite F) (moon : Bool) (now : Nat) (cos : F → F) (pi : F)
    (keys : Keys) (tiles : List Tile) (inputEnabled : Bool)
    (hv : 0 ≤ Sprite.fallSpeed s moon now keys inputEnabled) :
    Sprite.travel s moon now keys inputEnabled
      ≤ MAX_STEP F + max 0.0 (Sprite.fallSpeed s moon now keys inputEnabled) ∧
    (∀ t : Tile, s.bracketed moon now keys inputEnabled t →
      s.landingCandidate moon now keys inputEnabled t) ∧
    (INT_MIN ≤ toInt s.y → ∀ t ∈ tiles, s.bracketed moon now keys inputEnabled t →
      0 ≤ (s.handleInput moon now cos pi keys tiles inputEnabled).2 ∧
      (s.handleInput moon now cos pi keys tiles inputEnabled).1.onGround = true ∧
      (s.handleInput moon now cos pi keys tiles inputEnabled).1.velY = 0) := by
  have h0 : (0.0 : F) = 0 := by norm_num
  have hM : MAX_STEP F = 24 := by
    unfold MAX_STEP
    norm_num
  have hcap : Sprite.travel s moon now keys inputEnabled
      ≤ MAX_STEP F + max 0.0 (Sprite.fallSpeed s moon now keys inputEnabled) := by
    have h1 := Sprite.travel_lt s moon now keys inputEnabled
    rw [h0, max_eq_right hv, hM]
    linarith
  have hcand : ∀ t : Tile, s.bracketed moon now keys inputEnabled t →
      s.landingCandidate moon now keys inputEnabled t :=
    fun t hb => ⟨hb.1, hb.2.1, hb.2.2, hcap⟩
  refine ⟨hcap, hcand, ?_⟩
  intro hy t ht hb
  obtain ⟨-, hcase⟩ := Sprite.handleInput_cases s moon now cos pi keys tiles inputEnabled
  rcases hcase with ⟨-, -, -, -, -, hall⟩ | ⟨k, u, -, -, hidx, -, -, -, hvel, hog, -⟩
  · exfalso
    have h1 : t.rect.y ≤ INT_MIN := hall t ht (hcand t hb)
    have h2 := hb.2.2.1
    obtain ⟨-, hy1, -⟩ := Sprite.moveAndAnimate_fields s now keys inputEnabled
    have h3 : (Sprite.collisionRect (Sprite.moveAndAnimate s now keys inputEnabled)).y
        = toInt s.y + HITBOX_SHRINK_Y := by
      rw [Sprite.collisionRect_y, hy1]
    have h4 : 4 ≤ (Sprite.collisionRect (Sprite.moveAndAnimate s now keys inputEnabled)).h := by
      rw [Sprite.collisionRect_h]
      split_ifs <;> omega
    have hE : EPS F = 1 / 2 := by
      unfold EPS
      norm_num
    have h5 : ((Sprite.collisionRect (Sprite.moveAndAnimate s now keys inputEnabled)).y
        + (Sprite.collisionRect (Sprite.moveAndAnimate s now keys inputEnabled)).h : Int)
        ≤ t.rect.y := by
      by_contra hc
      have hc2 : t.rect.y + 1 ≤ (Sprite.collisionRect (Sprite.moveAndAnimate s now keys
          inputEnabled)).y + (Sprite.collisionRect (Sprite.moveAndAnimate s now keys
          inputEnabled)).h := by omega
      have hc3 : ((t.rect.y + 1 : Int) : F) ≤ (((Sprite.collisionRect (Sprite.moveAndAnimate s
          now keys inputEnabled)).y + (Sprite.collisionRect (Sprite.moveAndAnimate s now keys
          inputEnabled)).h : Int) : F) := by exact_mod_cast hc2
      rw [hE] at h2
      push_cast at hc3 h2
      linarith
    rw [h3] at h5
    unfold HITBOX_SHRINK_Y at h5
    omega
  · refine ⟨?_, hog, hvel⟩
    rw [hidx]
    exact Int.natCast_nonneg k

/-- The plunging sprite passes the ground: the ground's top `950` lies between
the box's bottom before the step, `98`, and after it, `1098`. -/
lemma plungingSprite_bracketed :
    plungingSprite.bracketed false 0 noKeys true groundTile := by
  apply Sprite.bracketed_of_candidate
  have hwf := Sprite.sizeOk_sample 134 34 (0 : ℚ) 0 1000 false 0
  have hdx : Sprite.inputDx (F := ℚ) noKeys true = 0 :=
    Sprite.inputDx_zero _ _ (Or.inr ⟨rfl, rfl⟩)
  have hx : toInt ((0 : ℚ) + 0 * 4.0) = 0 := by
    have : ((0 : ℚ) + 0 * 4.0) = ((0 : Int) : ℚ) := by norm_num
    rw [this, toInt_intCast]
  have hy2 : toInt ((2001 : ℚ) / 2) = 1000 :=
    toInt_of_floor (by norm_num) (by norm_num) (by norm_num)
  unfold plungingSprite
  rw [Sprite.landingCandidate_iff _ _ _ _ _ _ hwf, hdx]
  simp only [Sprite.sample, Sprite.collisionRect, Sprite.qualifies, groundTile, hx, toInt_zero,
    HITBOX_SHRINK_X, HITBOX_SHRINK_Y, EPS, MAX_STEP, gravity, GRAVITY_NORMAL, WORLD_GROUND_TOP]
  norm_num [hy2]

lemma plungingSprite_fallSpeed : 0 ≤ Sprite.fallSpeed plungingSprite false 0 noKeys true := by
  rw [(Sprite.travel_eq plungingSprite false 0 noKeys true).2]
  show (0 : ℚ) ≤ 1000 + gravity ℚ false
  unfold gravity GRAVITY_NORMAL
  norm_num

/-- Witness for `step_cap_never_decides`: the sprite falling at `velY = 1000`
onto the ground. -/
theorem step_cap_never_decides_witness :
    0 ≤ Sprite.fallSpeed plungingSprite false 0 noKeys true ∧
    (Sprite.travel plungingSprite false 0 noKeys true
      ≤ MAX_STEP ℚ + max 0.0 (Sprite.fallSpeed plungingSprite false 0 noKeys true) ∧
    (∀ t : Tile, plungingSprite.bracketed false 0 noKeys true t →
      plungingSprite.landingCandidate false 0 noKeys true t) ∧
    (INT_MIN ≤ toInt plungingSprite.y → ∀ t ∈ [groundTile],
      plungingSprite.bracketed false 0 noKeys true t →
      0 ≤ (plungingSprite.handleInput false 0 (fun v => v) 0 noKeys [groundTile] true).2 ∧
      (plungingSprite.handleInput false 0 (fun v => v) 0 noKeys [groundTile] true).1.onGround
        = true ∧
      (plungingSprite.handleInput false 0 (fun v => v) 0 noKeys [groundTile] true).1.velY = 0)) :=
  ⟨plungingSprite_fallSpeed,
    step_cap_never_decides plungingSprite false 0 (fun v => v) 0 noKeys [groundTile] true
      plungingSprite_fallSpeed⟩

/-- The plunging sprite lands on the ground (tile `0`): after the call its
collision-box bottom is on the ground's top, `950`. -/
lemma plungingSprite_lands :
    (plungingSprite.handleInput false 0 (fun v => v) 0 noKeys [groundTile] true).2 = 0 ∧
    (plungingSprite.handleInput false 0 (fun v => v) 0 noKeys [groundTile] true).1.collisionRect.y
      + (plungingSprite.handleInput false 0 (fun v => v) 0 noKeys
          [groundTile] true).1.collisionRect.h = 950 := by
  have hb := plungingSprite_bracketed
  have hcand : plungingSprite.landingCandidate false 0 noKeys true groundTile := by
    refine ⟨hb.1, hb.2.1, hb.2.2, ?_⟩
    have h1 := Sprite.travel_lt plungingSprite false 0 noKeys true
    have h2 := plungingSprite_fallSpeed
    have h0 : (0.0 : ℚ) = 0 := by norm_num
    have hM : MAX_STEP ℚ = 24 := by
      unfold MAX_STEP
      norm_num
    show Sprite.travel plungingSprite false 0 noKeys true
      ≤ MAX_STEP ℚ + max 0.0 (Sprite.fallSpeed plungingSprite false 0 noKeys true)
    rw [h0, max_eq_right h2, hM]
    linarith
  obtain ⟨⟨-, hdst, -, -⟩, hcase⟩ := Sprite.handleInput_cases plungingSprite
    false 0 (fun v => v) 0 noKeys [groundTile] true
  rcases hcase with ⟨-, -, -, -, -, hall⟩ | ⟨k, t, hk, -, hidx, -, -, hy, -⟩
  · exact absurd (hall _ (List.mem_singleton.mpr rfl) hcand) (by decide)
  · have hk0 : k = 0 := by
      by_contra hc
      have : [groundTile][k]? = none := by
        apply List.getElem?_eq_none
        simp only [List.length_singleton]
        omega
      rw [this] at hk
      cases hk
    subst hk0
    simp only [List.getElem?_cons_zero, Option.some.injEq] at hk
    subst hk
    exact ⟨hidx, Sprite.bottom_after_snap _ _ _ hdst hy⟩

end StepCap

/-! ## The grapple hold invariant -/

section HoldInvariant

variable {F : Type} [LinearOrderedField F] [FloorRing F]

/-- A state that agrees with a linked state on the grapple's tag, the recorded
hold and the frame lock is linked. -/
lemma holdLinked_of_fields {g x : Game F} (hs : x.web.state = g.web.state)
    (hh : x.web.rmbHeld = g.web.rmbHeld) (hf : x.player.frameLock = g.player.frameLock)
    (hg : g.HoldLinked) : x.HoldLinked := by
  unfold Game.HoldLinked at hg ⊢
  rw [hs, hh, hf]
  exact hg

lemma resetGame_holdLinked (now : Nat) (g : Game F) : (resetGame now g).HoldLinked := by
  refine ⟨fun h => ?_, ?_⟩
  · have : (resetGame now g).web.rmbHeld = false := rfl
    rw [this] at h
    cases h
  · have h1 : (resetGame now g).web.rmbHeld = false := rfl
    have h2 : (resetGame now g).player = g.player.hardResetPosition WORLD_GROUND_TOP := rfl
    rw [h1, h2]
    exact (Sprite.hardResetPosition_fields g.player WORLD_GROUND_TOP).2.2.2.2.2.2.2.2.2.1

lemma spawnAvocado_hold (fx fy : F) (g : Game F) :
    (spawnAvocado fx fy g).web = g.web ∧ (spawnAvocado fx fy g).player = g.player := by
  unfold spawnAvocado
  cases g.texAvo with
  | none => exact ⟨rfl, rfl⟩
  | some tk =>
    obtain ⟨aw, ah⟩ := tk
    dsimp only
    split_ifs <;> exact ⟨rfl, rfl⟩

lemma Sprite.jump_frameLock (s : Sprite F) (moon inputEnabled : Bool) :
    (s.jump moon inputEnabled).frameLock = s.frameLock := by
  unfold Sprite.jump
  split_ifs <;> rfl

lemma Sprite.startFlip_frameLock (s : Sprite F) (now : Nat) (type : FlipType)
    (inputEnabled : Bool) : (s.startFlip now type inputEnabled).frameLock = s.frameLock := by
  unfold Sprite.startFlip
  dsimp only
  split_ifs <;> rfl

lemma Sprite.triggerThrowPose_frameLock (s : Sprite F) (now holdMS : Nat) :
    (s.triggerThrowPose now holdMS).frameLock = s.frameLock := by
  unfold Sprite.triggerThrowPose
  split_ifs
  · rfl
  · exact (Sprite.updateCrop_sameKin _).frameLock

lemma keyDownAlive_hold (amb : Ambient) (sym : Keycode) (g : Game F) :
    (keyDownAlive amb sym g).web.state = g.web.state ∧
    (keyDownAlive amb sym g).web.rmbHeld = g.web.rmbHeld ∧
    (keyDownAlive amb sym g).player.frameLock = g.player.frameLock := by
  unfold keyDownAlive
  cases sym <;> first
    | exact ⟨rfl, rfl, rfl⟩
    | exact ⟨rfl, rfl, Sprite.jump_frameLock _ _ _⟩
    | exact ⟨congrArg Web.state (spawnAvocado_hold _ _ _).1,
        congrArg Web.rmbHeld (spawnAvocado_hold _ _ _).1,
        congrArg Sprite.frameLock (spawnAvocado_hold _ _ _).2⟩
    | (dsimp only; split_ifs <;> first
        | exact ⟨rfl, rfl, rfl⟩
        | exact ⟨rfl, rfl, Sprite.startFlip_frameLock _ _ _ _⟩)

lemma onKeyDown_holdLinked (amb : Ambient) (sym : Keycode) (g : Game F) (hg : g.HoldLinked) :
    (onKeyDown amb sym g).HoldLinked := by
  have h1 : (if sym = Keycode.r then resetGame amb.now g else g).HoldLinked := by
    split_ifs
    · exact resetGame_holdLinked _ _
    · exact hg
  unfold onKeyDown
  lift_lets
  extract_lets g1 g2
  have q1 : g1.HoldLinked := h1
  clear_value g1
  have q2 : g2.HoldLinked := by
    show (if sym = Keycode.r then resetGame amb.now g1 else g1).HoldLinked
    split_ifs
    · exact resetGame_holdLinked _ _
    · exact q1
  clear_value g2
  split_ifs
  · obtain ⟨a, b, c⟩ := keyDownAlive_hold amb sym g1
    exact holdLinked_of_fields a b c q1
  · exact holdLinked_of_fields rfl rfl rfl q2
  · exact q2

lemma onKeyUp_hold (sym : Keycode) (g : Game F) :
    (onKeyUp sym g).web.state = g.web.state ∧ (onKeyUp sym g).web.rmbHeld = g.web.rmbHeld ∧
    (onKeyUp sym g).player.frameLock = g.player.frameLock := by
  unfold onKeyUp
  cases sym <;> exact ⟨rfl, rfl, rfl⟩

lemma onMouseWheel_hold (y : Int) (g : Game F) :
    (onMouseWheel y g).web.state = g.web.state ∧
    (onMouseWheel y g).web.rmbHeld = g.web.rmbHeld ∧
    (onMouseWheel y g).player.frameLock = g.player.frameLock := by
  unfold onMouseWheel
  split_ifs <;> exact ⟨rfl, rfl, rfl⟩

lemma spawnKnife_hold (now : Nat) (dir : Int) (g : Game F) :
    (spawnKnife now dir g).web = g.web ∧
    (spawnKnife now dir g).player.frameLock = g.player.frameLock := by
  unfold spawnKnife
  cases g.texKnife with
  | none => exact ⟨rfl, rfl⟩
  | some tk =>
    obtain ⟨kw, kh⟩ := tk
    dsimp only
    split_ifs <;> first
      | exact ⟨rfl, rfl⟩
      | exact ⟨rfl, Sprite.triggerThrowPose_frameLock _ _ _⟩

lemma castWeb_holdLinked (sqrt : F → F) (amb : Ambient) (g : Game F) (hg : g.HoldLinked) :
    (castWeb sqrt amb g).HoldLinked := by
  unfold castWeb
  dsimp only
  split_ifs
  · refine ⟨fun _ h => ?_, rfl⟩
    cases h
  · exact hg

lemma onMouseButtonDown_holdLinked (sqrt : F → F) (amb : Ambient) (b : MouseButton) (g : Game F)
    (hg : g.HoldLinked) : (onMouseButtonDown sqrt amb b g).HoldLinked := by
  unfold onMouseButtonDown
  cases b with
  | left =>
    dsimp only
    obtain ⟨a, c⟩ := spawnKnife_hold amb.now
      (if g.player.facing = SDL_RendererFlip.SDL_FLIP_HORIZONTAL then -1 else 1) g
    exact holdLinked_of_fields (congrArg Web.state a) (congrArg Web.rmbHeld a) c hg
  | right =>
    dsimp only
    split_ifs
    · exact holdLinked_of_fields rfl rfl rfl hg
    · exact castWeb_holdLinked sqrt amb g hg
  | middle => exact hg

lemma onRightButtonUp_holdLinked (g : Game F) : (onRightButtonUp g).HoldLinked := by
  refine ⟨fun h => ?_, rfl⟩
  have : (onRightButtonUp g).web.rmbHeld = false := rfl
  rw [this] at h
  cases h

/-- Every event handler keeps the link between the recorded hold, the grapple's
tag and the frame lock. -/
lemma handleEvent_holdLinked (sqrt : F → F) (amb : Ambient) (e : Event) (g : Game F)
    (hg : g.HoldLinked) : (handleEvent sqrt amb e g).HoldLinked := by
  apply handleEvent_induct (fun x => x.HoldLinked) sqrt amb e g hg
  · intro x hx
    exact holdLinked_of_fields rfl rfl rfl hx
  · intro sym x hx
    exact onKeyDown_holdLinked amb sym x hx
  · intro sym x hx
    obtain ⟨a, b, c⟩ := onKeyUp_hold sym x
    exact holdLinked_of_fields a b c hx
  · intro y x hx
    obtain ⟨a, b, c⟩ := onMouseWheel_hold y x
    exact holdLinked_of_fields a b c hx
  · intro b x hx
    exact holdLinked_of_fields rfl rfl rfl hx
  · intro b x hx
    exact onMouseButtonDown_holdLinked sqrt amb b x hx
  · intro x _
    exact onRightButtonUp_holdLinked x

lemma Sprite.handleInput_frameLock (s : Sprite F) (moon : Bool) (now : Nat) (cos : F → F)
    (pi : F) (keys : Keys) (tiles : List Tile) (inputEnabled : Bool) :
    (s.handleInput moon now cos pi keys tiles inputEnabled).1.frameLock = s.frameLock := by
  have h1 := (Sprite.handleInput_cases s moon now cos pi keys tiles inputEnabled).1.2.2.1
  have h2 : (Sprite.moveAndAnimate s now keys inputEnabled).frameLock = s.frameLock :=
    (Sprite.animate_sameKin (Sprite.move s (Sprite.inputDx (F := F) keys inputEnabled))
      now (Sprite.inputDx (F := F) keys inputEnabled)).1.frameLock
  exact h1.trans h2

omit [FloorRing F] in
lemma latchedPhase_hold (sqrt : F → F) (dt : F) (g : Game F) :
    (latchedPhase sqrt dt g).web.state = g.web.state ∧
    (latchedPhase sqrt dt g).web.rmbHeld = g.web.rmbHeld ∧
    (latchedPhase sqrt dt g).player.frameLock = g.player.frameLock := by
  unfold latchedPhase
  split_ifs <;> exact ⟨rfl, rfl, rfl⟩

/-- The release block keeps the link and leaves the grapple Idle unless the hold
is recorded. -/
lemma releasePhase_holdLinked (sqrt : F → F) (g : Game F) (hg : g.HoldLinked) :
    (releasePhase sqrt g).HoldLinked ∧
    ((releasePhase sqrt g).web.state ≠ WebState.None → (releasePhase sqrt g).web.rmbHeld = true) := by
  cases hh : g.web.rmbHeld with
  | true =>
    rw [releasePhase_held sqrt g hh]
    exact ⟨hg, fun _ => hh⟩
  | false =>
    by_cases hs : g.web.state = WebState.None
    · have he : releasePhase sqrt g = g := by
        unfold releasePhase
        rw [if_neg]
        simp [hs]
      rw [he]
      exact ⟨hg, fun h => absurd hs h⟩
    · obtain ⟨a, b⟩ := releasePhase_fires sqrt g hh hs
      have c : (releasePhase sqrt g).web.rmbHeld = false := by
        unfold releasePhase
        split_ifs <;> exact hh
      refine ⟨⟨fun h => ?_, b.trans c.symm⟩, fun h => absurd a h⟩
      rw [c] at h
      cases h

/-- The frame update keeps the link, and at its end the grapple is Idle unless
the hold is recorded. -/
lemma frameUpdate_holdLinked (sqrt cos : F → F) (pi : F) (now : Nat) (dt : F) (keys : Keys)
    (g : Game F) (hg : g.HoldLinked) :
    (frameUpdate sqrt cos pi now dt keys g).HoldLinked ∧
    ((frameUpdate sqrt cos pi now dt keys g).web.state ≠ WebState.None →
      (frameUpdate sqrt cos pi now dt keys g).web.rmbHeld = true) := by
  have hfu : frameUpdate sqrt cos pi now dt keys g
      = gameOverPhase (prunePhase (contactPhase now (hitPhase now (avocadoPhase now g.allTiles
          (releasePhase sqrt (latchedPhase sqrt dt (shootingPhase dt (knifePhase now
            (rechargePhase now (playerPhase now cos pi keys g)))))))))) := rfl
  obtain ⟨p1, -, -, -, p5⟩ := playerPhase_web now cos pi keys g
  obtain ⟨r1, r2, -⟩ := rechargePhase_web now (playerPhase now cos pi keys g)
  have w4 : (shootingPhase dt (knifePhase now (rechargePhase now
      (playerPhase now cos pi keys g)))).web = shootingStep dt g.web := by
    show shootingStep dt (rechargePhase now (playerPhase now cos pi keys g)).web = _
    rw [r1, p1]
  have f4 : (shootingPhase dt (knifePhase now (rechargePhase now
      (playerPhase now cos pi keys g)))).player.frameLock = g.player.frameLock := by
    show (rechargePhase now (playerPhase now cos pi keys g)).player.frameLock = _
    rw [r2, p5]
    exact Sprite.handleInput_frameLock _ _ _ _ _ _ _ _
  have q4 : (shootingPhase dt (knifePhase now (rechargePhase now
      (playerPhase now cos pi keys g)))).HoldLinked := by
    obtain ⟨s1, s2⟩ := shootingStep_fields dt g.web
    refine ⟨fun h => ?_, ?_⟩
    · rw [w4] at h ⊢
      rw [s1] at h
      exact fun hn => hg.1 h (s2.mp hn)
    · rw [f4, w4, s1]
      exact hg.2
  obtain ⟨l1, l2, l3⟩ := latchedPhase_hold sqrt dt (shootingPhase dt (knifePhase now
    (rechargePhase now (playerPhase now cos pi keys g))))
  have q5 := holdLinked_of_fields l1 l2 l3 q4
  obtain ⟨q6, e6⟩ := releasePhase_holdLinked sqrt _ q5
  obtain ⟨t1, t2⟩ := tailPhases_web now g.allTiles
    (releasePhase sqrt (latchedPhase sqrt dt (shootingPhase dt (knifePhase now
      (rechargePhase now (playerPhase now cos pi keys g))))))
  rw [hfu]
  refine ⟨holdLinked_of_fields (congrArg Web.state t1) (congrArg Web.rmbHeld t1)
    (congrArg Sprite.frameLock t2) q6, ?_⟩
  rw [t1]
  exact e6

lemma initial_holdLinked (imgW imgH : Int) (texKnife texAvo : Option (Int × Int))
    (deathSnd : Bool) (now : Nat) :
    (Game.initial imgW imgH texKnife texAvo deathSnd now : Game F).HoldLinked ∧
    (Game.initial imgW imgH texKnife texAvo deathSnd now : Game F).web.state = WebState.None :=
  ⟨⟨fun h => (by cases h), rfl⟩, rfl⟩

/-- One iteration of the main loop keeps the link, and at its end the grapple is
Idle unless the hold is recorded. -/
lemma loopIteration_holdLinked (sqrt cos : F → F) (pi : F) (nowTick : Nat)
    (events : List (Ambient × Event)) (keys : Keys) (g : Game F) (hg : g.HoldLinked) :
    (loopIteration sqrt cos pi nowTick events keys g).HoldLinked ∧
    ((loopIteration sqrt cos pi nowTick events keys g).web.state ≠ WebState.None →
      (loopIteration sqrt cos pi nowTick events keys g).web.rmbHeld = true) := by
  unfold loopIteration
  dsimp only
  apply frameUpdate_holdLinked
  have : ∀ (evs : List (Ambient × Event)) (x : Game F), x.HoldLinked →
      (evs.foldl (fun acc ev => handleEvent sqrt ev.1 ev.2 acc) x).HoldLinked := by
    intro evs
    induction evs with
    | nil => intro x hx; exact hx
    | cons ev rest ihr =>
      intro x hx
      rw [List.foldl_cons]
      exact ihr _ (handleEvent_holdLinked sqrt ev.1 ev.2 x hx)
  exact this events _ (holdLinked_of_fields rfl rfl rfl hg)

/-- In every reachable state the link holds, and the grapple is Idle unless the
hold is recorded. -/
lemma reachable_holdLinked (sqrt cos : F → F) (pi : F) (g : Game F)
    (hr : Reachable sqrt cos pi g) :
    g.HoldLinked ∧ (g.web.state ≠ WebState.None → g.web.rmbHeld = true) := by
  induction hr with
  | start imgW imgH texKnife texAvo deathSnd now =>
    obtain ⟨a, b⟩ := initial_holdLinked (F := F) imgW imgH texKnife texAvo deathSnd now
    exact ⟨a, fun h => absurd b h⟩
  | @loop nowTick events keys g _ ih =>
    exact loopIteration_holdLinked sqrt cos pi nowTick events keys g ih.1

/-- C21. Grapple hold invariant: in every state at the end of an iteration of
the main loop, reachable from the start-up state by any ticks, queued input
events (resets among them) and keyboard states, the grapple is not Idle exactly
when the cast button is recorded as held, and the actor's frame lock is set
only while the grapple is not Idle. -/
theorem grapple_hold_invariant (sqrt cos : F → F) (pi : F) (g : Game F)
    (hr : Reachable sqrt cos pi g) :
    (g.web.state ≠ WebState.None ↔ g.web.rmbHeld = true) ∧
    (g.player.frameLock = true → g.web.state ≠ WebState.None) := by
  obtain ⟨⟨h1, h2⟩, h3⟩ := reachable_holdLinked sqrt cos pi g hr
  refine ⟨⟨h3, h1⟩, fun hf => h1 ?_⟩
  rw [← h2]
  exact hf

lemma startGame_player :
    (startGame ℚ).player.x = 0 ∧ (startGame ℚ).player.y = 650 ∧
    (startGame ℚ).player.dst.w = 300 ∧ (startGame ℚ).player.dst.h = 300 := by
  have hc : ((800 / 8 : Int) : ℚ) * 3.0 = ((300 : Int) : ℚ) := by norm_num
  have hr : ((300 / 3 : Int) : ℚ) * 3.0 = ((300 : Int) : ℚ) := by norm_num
  have hw : (startGame ℚ).player.dst.w = 300 := by
    show toInt (((800 / 8 : Int) : ℚ) * 3.0) = 300
    rw [hc, toInt_intCast]
  have hh : (startGame ℚ).player.dst.h = 300 := by
    show toInt (((300 / 3 : Int) : ℚ) * 3.0) = 300
    rw [hr, toInt_intCast]
  refine ⟨?_, ?_, hw, hh⟩
  · show (0.0 : ℚ) = 0
    norm_num
  · show ((WORLD_GROUND_TOP : Int) : ℚ) - (((startGame ℚ).player.dst.h : Int) : ℚ) = 650
    rw [hh]
    norm_num [WORLD_GROUND_TOP]

/-- The click of `castGame` lands on the ground tile, at world point `(0, 960)`. -/
lemma startGame_worldPoint (dt : ℚ) (tick : Nat) :
    worldPoint groundClick { startGame ℚ with dt := dt, prevTick := tick }
      = { x := 0, y := 960 } := by
  obtain ⟨hx, hy, hw, hh⟩ := startGame_player
  have cx : Int.floor ((startGame ℚ).player.centerX - (SCREEN_WIDTH : ℚ) * 0.5) = -530 := by
    rw [Int.floor_eq_iff]
    unfold Sprite.centerX
    rw [hx, hw]
    simp only [SCREEN_WIDTH]
    constructor <;> norm_num
  have cy : Int.floor ((startGame ℚ).player.centerY
      - (SCREEN_HEIGHT : ℚ) * (0.68 : ℚ) + ((0 : Int) : ℚ)) = 103 := by
    rw [Int.floor_eq_iff]
    unfold Sprite.centerY
    rw [hy, hh]
    simp only [SCREEN_HEIGHT]
    constructor <;> norm_num
  show ({ x := groundClick.mx
            + Int.floor ((startGame ℚ).player.centerX - (SCREEN_WIDTH : ℚ) * 0.5)
          y := groundClick.my + Int.floor ((startGame ℚ).player.centerY
            - (SCREEN_HEIGHT : ℚ) * (0.68 : ℚ) + ((0 : Int) : ℚ)) } : SDL_Point) = _
  rw [cx, cy]
  rfl

lemma startGame_hit (d : ℚ) (n : Nat) :
    ∃ t ∈ Game.allTiles { startGame ℚ with dt := d, prevTick := n },
      SDL_PointInRect (worldPoint groundClick { startGame ℚ with dt := d, prevTick := n }) t.rect
        = true := by
  rw [startGame_worldPoint]
  exact ⟨groundTile, List.mem_singleton.mpr rfl, by decide⟩

lemma startGame_cast (sqrt : ℚ → ℚ) (d : ℚ) (n : Nat) :
    (handleEvent sqrt groundClick (Event.mouseButtonDown MouseButton.right)
      { startGame ℚ with dt := d, prevTick := n }).web.rmbHeld = true := by
  rw [handleEvent_rightDown_alive sqrt groundClick _ rfl rfl]
  exact (castWeb_hit sqrt groundClick _ (startGame_hit d n)).2.2.2.2.2.1

/-- In `castGame` the cast of the first iteration is still held at the end of
the frame. -/
lemma castGame_held (sqrt cos : ℚ → ℚ) (pi : ℚ) :
    (castGame ℚ sqrt cos pi).web.rmbHeld = true :=
  (frameUpdate_web_held sqrt cos pi 16 _ noKeys
    (handleEvent sqrt groundClick (Event.mouseButtonDown MouseButton.right)
      { startGame ℚ with dt := frameDt 16 (startGame ℚ).prevTick, prevTick := 16 })
    (startGame_cast sqrt _ _)).1

/-- Witness for `grapple_hold_invariant`: the state after a first iteration in
which the grapple was cast on the ground; the hold is recorded, so the grapple
is not Idle. -/
theorem grapple_hold_invariant_witness :
    Reachable (fun v : ℚ => v) (fun v => v) 0 (castGame ℚ (fun v => v) (fun v => v) 0) ∧
    (((castGame ℚ (fun v => v) (fun v => v) 0).web.state ≠ WebState.None
        ↔ (castGame ℚ (fun v => v) (fun v => v) 0).web.rmbHeld = true) ∧
      ((castGame ℚ (fun v => v) (fun v => v) 0).player.frameLock = true →
        (castGame ℚ (fun v => v) (fun v => v) 0).web.state ≠ WebState.None)) ∧
    (castGame ℚ (fun v => v) (fun v => v) 0).web.rmbHeld = true ∧
    (castGame ℚ (fun v => v) (fun v => v) 0).web.state ≠ WebState.None :=
  ⟨Reachable.loop 16 _ noKeys (Reachable.start 800 300 none none false 0),
    grapple_hold_invariant (fun v => v) (fun v => v) 0 _
      (Reachable.loop 16 _ noKeys (Reachable.start 800 300 none none false 0)),
    castGame_held _ _ _,
    (grapple_hold_invariant (fun v => v) (fun v => v) 0 _
      (Reachable.loop 16 _ noKeys (Reachable.start 800 300 none none false 0))).1.2
      (castGame_held _ _ _)⟩

end HoldInvariant

/-! ## Binary32 rounding -/

section Binary32

variable {F : Type} [LinearOrderedField F] [FloorRing F]

lemma roundEven_cases (q : ℚ) :
    roundEven q = Int.floor q ∨ roundEven q = Int.floor q + 1 := by
  unfold roundEven
  dsimp only
  split_ifs <;> simp

lemma abs_roundEven_sub_le (q : ℚ) : |(roundEven q : ℚ) - q| ≤ 1 / 2 := by
  have h1 := Int.floor_le q
  have h2 := Int.lt_floor_add_one q
  unfold roundEven
  dsimp only
  rw [abs_le]
  split_ifs with a b c
  · constructor <;> linarith
  · push_cast
    constructor <;> linarith
  · have : q - (Int.floor q : ℚ) = 1 / 2 := le_antisymm (not_lt.mp b) (not_lt.mp a)
    constructor <;> linarith
  · have : q - (Int.floor q : ℚ) = 1 / 2 := le_antisymm (not_lt.mp b) (not_lt.mp a)
    push_cast
    constructor <;> linarith

lemma roundEven_intCast (n : Int) : roundEven (n : ℚ) = n := by
  unfold roundEven
  dsimp only
  rw [Int.floor_intCast, sub_self, if_pos (by norm_num)]

/-- The integer nearest to `q` is `roundEven q` when `q` is within less than a
half of it. -/
lemma roundEven_of_abs_lt (q : ℚ) (m : Int) (h : |q - (m : ℚ)| < 1 / 2) : roundEven q = m := by
  have hle := abs_roundEven_sub_le q
  rw [abs_lt] at h
  rw [abs_le] at hle
  have h1 : ((roundEven q - m : Int) : ℚ) < 1 := by
    push_cast
    linarith [hle.1, hle.2, h.1, h.2]
  have h2 : (-1 : ℚ) < ((roundEven q - m : Int) : ℚ) := by
    push_cast
    linarith [hle.1, hle.2, h.1, h.2]
  have h3 : roundEven q - m < 1 := by exact_mod_cast h1
  have h4 : -1 < roundEven q - m := by exact_mod_cast h2
  omega

/-- A tie goes to the even neighbour. -/
lemma roundEven_tie (m : Int) (hm : m % 2 = 0) :
    roundEven ((m : ℚ) + 1 / 2) = m ∧ roundEven ((m : ℚ) - 1 / 2) = m := by
  constructor
  · have hf : Int.floor ((m : ℚ) + 1 / 2) = m := by
      rw [Int.floor_eq_iff]
      constructor <;> linarith
    unfold roundEven
    dsimp only
    rw [hf]
    have : (m : ℚ) + 1 / 2 - (m : ℚ) = 1 / 2 := by ring
    rw [this, if_neg (lt_irrefl _), if_neg (lt_irrefl _), if_pos hm]
  · have hf : Int.floor ((m : ℚ) - 1 / 2) = m - 1 := by
      rw [Int.floor_eq_iff]
      push_cast
      constructor <;> linarith
    unfold roundEven
    dsimp only
    rw [hf]
    have : (m : ℚ) - 1 / 2 - ((m - 1 : Int) : ℚ) = 1 / 2 := by
      push_cast
      ring
    rw [this, if_neg (lt_irrefl _), if_neg (lt_irrefl _), if_neg (by omega)]
    ring

lemma roundEven_mono {q r : ℚ} (h : q ≤ r) : roundEven q ≤ roundEven r := by
  by_contra hc
  have hlt : roundEven r + 1 ≤ roundEven q := by omega
  have h1 := abs_roundEven_sub_le q
  have h2 := abs_roundEven_sub_le r
  rw [abs_le] at h1 h2
  have h3 : ((roundEven r : ℚ) + 1) ≤ (roundEven q : ℚ) := by exact_mod_cast hlt
  -- both are ties: q = r = roundEven r + 1/2
  have hq : q = (roundEven r : ℚ) + 1 / 2 := by linarith [h1.1, h1.2, h2.1, h2.2]
  have hr : r = (roundEven r : ℚ) + 1 / 2 := by linarith [h1.1, h1.2, h2.1, h2.2]
  rw [hq] at hlt
  nth_rewrite 1 [hr] at hlt
  omega

lemma roundEven_neg (q : ℚ) : roundEven (-q) = -roundEven q := by
  rcases roundEven_cases q with h | h
  · -- roundEven q = floor q
    by_cases ht : q - (Int.floor q : ℚ) = 1 / 2
    · -- a tie, and the floor is even
      have hev : Int.floor q % 2 = 0 := by
        by_contra hodd
        have : roundEven q = Int.floor q + 1 := by
          unfold roundEven
          dsimp only
          rw [ht, if_neg (lt_irrefl _), if_neg (lt_irrefl _), if_neg hodd]
        omega
      have hq : -q = ((-Int.floor q : Int) : ℚ) - 1 / 2 := by
        push_cast
        linarith
      rw [hq, (roundEven_tie (-Int.floor q) (by omega)).2, h]
    · have hle := abs_roundEven_sub_le q
      rw [h, abs_le] at hle
      have hlt : q - (Int.floor q : ℚ) < 1 / 2 := lt_of_le_of_ne (by linarith [hle.1]) ht
      have h0 := Int.floor_le q
      rw [h]
      apply roundEven_of_abs_lt
      rw [abs_lt]
      push_cast
      constructor <;> linarith
  · by_cases ht : q - (Int.floor q : ℚ) = 1 / 2
    · have hodd : ¬ Int.floor q % 2 = 0 := by
        intro hev
        have : roundEven q = Int.floor q := by
          unfold roundEven
          dsimp only
          rw [ht, if_neg (lt_irrefl _), if_neg (lt_irrefl _), if_pos hev]
        omega
      have hq : -q = ((-(Int.floor q + 1) : Int) : ℚ) + 1 / 2 := by
        push_cast
        linarith
      rw [hq, (roundEven_tie (-(Int.floor q + 1)) (by omega)).1, h]
    · have hle := abs_roundEven_sub_le q
      rw [h, abs_le] at hle
      push_cast at hle
      have hlt : 1 / 2 < q - (Int.floor q : ℚ) :=
        lt_of_le_of_ne (by linarith [hle.2]) (Ne.symm ht)
      have h0 := Int.lt_floor_add_one q
      rw [h]
      apply roundEven_of_abs_lt
      rw [abs_lt]
      push_cast
      constructor <;> linarith

lemma roundEven_nonneg {q : ℚ} (h : 0 ≤ q) : 0 ≤ roundEven q := by
  have := roundEven_mono h
  rw [show ((0 : ℚ)) = ((0 : Int) : ℚ) by norm_num, roundEven_intCast] at this
  exact this

lemma binade_neg (x : ℚ) : binade (-x) = binade x := by
  unfold binade
  simp only [abs_neg, neg_eq_zero]

lemma ulp32_neg (x : ℚ) : ulp32 (-x) = ulp32 x := by
  unfold ulp32
  rw [binade_neg]

lemma ulp32_pos (x : ℚ) : 0 < ulp32 x := by
  unfold ulp32
  positivity

lemma fl32_neg (x : ℚ) : fl32 (-x) = -fl32 x := by
  unfold fl32
  rw [ulp32_neg, neg_div, roundEven_neg]
  push_cast
  ring

lemma binade_ge (x : ℚ) : -126 ≤ binade x := by
  unfold binade
  split_ifs
  · exact le_refl _
  · exact le_max_left _ _

/-- The binade of `x`, from bounds on `|x|`. -/
lemma binade_eq (x : ℚ) (e : Int) (he : -126 ≤ e) (hlo : (2 : ℚ) ^ e ≤ |x| ∨ e = -126)
    (hhi : |x| < (2 : ℚ) ^ (e + 1)) : binade x = e := by
  unfold binade
  by_cases hx : x = 0
  · rw [if_pos hx]
    rcases hlo with h | h
    · rw [hx, abs_zero] at h
      exact absurd h (not_le.mpr (by positivity))
    · exact h.symm
  rw [if_neg hx]
  have hpos : 0 < |x| := abs_pos.mpr hx
  have h1 : Int.log 2 |x| < e + 1 := (Int.lt_zpow_iff_log_lt (by norm_num) hpos).mp hhi
  rcases hlo with h | h
  · have h2 : e ≤ Int.log 2 |x| := (Int.zpow_le_iff_le_log (by norm_num) hpos).mp h
    have : Int.log 2 |x| = e := by omega
    rw [this]
    exact max_eq_right he
  · rw [h] at h1 ⊢
    exact max_eq_left (by omega)

/-- Bounds on `|x|` from its binade. -/
lemma binade_bounds (x : ℚ) :
    |x| < (2 : ℚ) ^ (binade x + 1) ∧ ((2 : ℚ) ^ binade x ≤ |x| ∨ binade x = -126) := by
  unfold binade
  by_cases hx : x = 0
  · rw [if_pos hx, hx, abs_zero]
    exact ⟨by positivity, Or.inr rfl⟩
  rw [if_neg hx]
  have hpos : 0 < |x| := abs_pos.mpr hx
  have h1 : |x| < (2 : ℚ) ^ (Int.log 2 |x| + 1) := Int.lt_zpow_succ_log_self (by norm_num) _
  have h2 : (2 : ℚ) ^ (Int.log 2 |x|) ≤ |x| := Int.zpow_log_le_self (by norm_num) hpos
  rcases le_total (-126) (Int.log 2 |x|) with h | h
  · rw [max_eq_right h]
    exact ⟨h1, Or.inl h2⟩
  · rw [max_eq_left h]
    refine ⟨lt_of_lt_of_le h1 ?_, Or.inr rfl⟩
    exact zpow_le_zpow_right₀ (by norm_num) (by omega)

/-- Evaluation of `fl32` from the binade and the rounded significand. -/
lemma fl32_eval (x : ℚ) (e m : Int) (he : -126 ≤ e) (hlo : (2 : ℚ) ^ e ≤ |x| ∨ e = -126)
    (hhi : |x| < (2 : ℚ) ^ (e + 1)) (hm : roundEven (x / (2 : ℚ) ^ (e - 23)) = m) :
    fl32 x = (m : ℚ) * (2 : ℚ) ^ (e - 23) := by
  unfold fl32 ulp32
  rw [binade_eq x e he hlo hhi, hm]

lemma fl32_zero : fl32 0 = 0 := by
  unfold fl32
  rw [zero_div, show ((0 : ℚ)) = ((0 : Int) : ℚ) by norm_num, roundEven_intCast]
  simp

/-- A value `k * 2 ^ t` with a significand `k` of fewer than 25 bits and an
exponent within range is a binary32 value. -/
lemma fl32_dyadic (k t : Int) (hk : |k| < 16777216) (ht : -149 ≤ t) :
    fl32 ((k : ℚ) * (2 : ℚ) ^ t) = (k : ℚ) * (2 : ℚ) ^ t := by
  have h2 : (0 : ℚ) < 2 := by norm_num
  have hb := binade_bounds ((k : ℚ) * (2 : ℚ) ^ t)
  have hle : binade ((k : ℚ) * (2 : ℚ) ^ t) ≤ t + 23 := by
    rcases hb.2 with h | h
    · have habs : |(k : ℚ) * (2 : ℚ) ^ t| < (2 : ℚ) ^ (t + 24) := by
        rw [abs_mul, abs_of_pos (zpow_pos h2 t), zpow_add₀ (ne_of_gt h2), mul_comm]
        apply mul_lt_mul_of_pos_left _ (zpow_pos h2 t)
        have : |(k : ℚ)| < 16777216 := by exact_mod_cast hk
        calc |(k : ℚ)| < 16777216 := this
          _ = (2 : ℚ) ^ (24 : Int) := by norm_num
      have := lt_of_le_of_lt h habs
      have := (zpow_lt_zpow_iff_right₀ (by norm_num : (1 : ℚ) < 2)).mp this
      omega
    · omega
  unfold fl32 ulp32
  generalize binade ((k : ℚ) * (2 : ℚ) ^ t) = e at hle
  obtain ⟨d, hd⟩ : ∃ d : Nat, (d : Int) = t - (e - 23) := ⟨(t - (e - 23)).toNat, by omega⟩
  have hq : (k : ℚ) * (2 : ℚ) ^ t / (2 : ℚ) ^ (e - 23) = ((k * 2 ^ d : Int) : ℚ) := by
    have ht' : t = (d : Int) + (e - 23) := by omega
    rw [ht', zpow_add₀ (ne_of_gt h2), zpow_natCast]
    push_cast
    field_simp
    ring
  rw [hq, roundEven_intCast, ← hq]
  field_simp

/-- Integers of magnitude up to `2 ^ 24` are binary32 values. -/
lemma fl32_intCast (n : Int) (h : |n| ≤ 16777216) : fl32 (n : ℚ) = (n : ℚ) := by
  by_cases hlt : |n| < 16777216
  · have := fl32_dyadic n 0 hlt (by norm_num)
    simpa using this
  · have hn : n = 16777216 ∨ n = -16777216 := by
      rcases abs_cases n with ⟨h1, _⟩ | ⟨h1, _⟩ <;> omega
    rcases hn with hn | hn
    · have := fl32_dyadic 8388608 1 (by norm_num) (by norm_num)
      rw [hn]
      norm_num at this ⊢
      exact this
    · have := fl32_dyadic (-8388608) 1 (by norm_num) (by norm_num)
      rw [hn]
      norm_num at this ⊢
      exact this

/-- Half-integers of magnitude below `2 ^ 23` are binary32 values. -/
lemma fl32_half (n : Int) (h1 : -8388608 ≤ n) (h2 : n < 8388608) :
    fl32 ((n : ℚ) + 1 / 2) = (n : ℚ) + 1 / 2 := by
  have := fl32_dyadic (2 * n + 1) (-1) (by rw [abs_lt]; constructor <;> omega) (by norm_num)
  have e : ((2 * n + 1 : Int) : ℚ) * (2 : ℚ) ^ (-1 : Int) = (n : ℚ) + 1 / 2 := by
    push_cast
    rw [zpow_neg_one]
    ring
  rw [e] at this
  exact this

lemma abs_roundEven_le (q : ℚ) (n : Int) (h : |q| ≤ (n : ℚ)) : |roundEven q| ≤ n := by
  rw [abs_le] at h ⊢
  have h1 := roundEven_mono h.2
  have h2 := roundEven_mono h.1
  rw [roundEven_intCast] at h1
  rw [show (-(n : ℚ)) = ((-n : Int) : ℚ) by push_cast; ring, roundEven_intCast] at h2
  exact ⟨h2, h1⟩

/-- The significand that `fl32` computes has at most 25 bits, the largest being
`2 ^ 24` (a value rounded up to the next binade). -/
lemma abs_significand_le (x : ℚ) : |roundEven (x / ulp32 x)| ≤ 16777216 := by
  apply abs_roundEven_le
  have hu := ulp32_pos x
  rw [abs_div, abs_of_pos hu, div_le_iff₀ hu]
  have hb := (binade_bounds x).1
  have : (2 : ℚ) ^ (binade x + 1) = ((16777216 : Int) : ℚ) * ulp32 x := by
    unfold ulp32
    rw [show binade x + 1 = 24 + (binade x - 23) by ring, zpow_add₀ (by norm_num)]
    norm_num
  rw [← this]
  exact le_of_lt hb

/-- The result of `fl32` is a binary32 value: rounding it again changes nothing. -/
lemma fl32_idem (x : ℚ) : fl32 (fl32 x) = fl32 x := by
  have hm := abs_significand_le x
  have he := binade_ge x
  have key : fl32 x = (roundEven (x / ulp32 x) : ℚ) * (2 : ℚ) ^ (binade x - 23) := rfl
  by_cases hlt : |roundEven (x / ulp32 x)| < 16777216
  · rw [key]
    exact fl32_dyadic _ _ hlt (by omega)
  · have hn : roundEven (x / ulp32 x) = 16777216 ∨ roundEven (x / ulp32 x) = -16777216 := by
      rcases abs_cases (roundEven (x / ulp32 x)) with ⟨h1, _⟩ | ⟨h1, _⟩ <;> omega
    have hp : (2 : ℚ) ^ (binade x - 22) = 2 * (2 : ℚ) ^ (binade x - 23) := by
      rw [show binade x - 22 = 1 + (binade x - 23) by ring, zpow_add₀ (by norm_num)]
      norm_num
    rcases hn with hn | hn
    · have e : fl32 x = ((8388608 : Int) : ℚ) * (2 : ℚ) ^ (binade x - 22) := by
        rw [key, hn, hp]
        push_cast
        ring
      rw [e]
      exact fl32_dyadic _ _ (by norm_num) (by omega)
    · have e : fl32 x = ((-8388608 : Int) : ℚ) * (2 : ℚ) ^ (binade x - 22) := by
        rw [key, hn, hp]
        push_cast
        ring
      rw [e]
      exact fl32_dyadic _ _ (by norm_num) (by omega)

lemma fl32_nonneg {x : ℚ} (h : 0 ≤ x) : 0 ≤ fl32 x := by
  unfold fl32
  have := roundEven_nonneg (div_nonneg h (le_of_lt (ulp32_pos x)))
  have hu := ulp32_pos x
  have : (0 : ℚ) ≤ (roundEven (x / ulp32 x) : ℚ) := by exact_mod_cast this
  positivity

lemma fl32_le_pow (x : ℚ) : fl32 x ≤ (2 : ℚ) ^ (binade x + 1) := by
  have hm := abs_significand_le x
  have hu := ulp32_pos x
  have h1 : (roundEven (x / ulp32 x) : ℚ) ≤ 16777216 := by
    have := (abs_le.mp hm).2
    exact_mod_cast this
  have : (2 : ℚ) ^ (binade x + 1) = 16777216 * ulp32 x := by
    unfold ulp32
    rw [show binade x + 1 = 24 + (binade x - 23) by ring, zpow_add₀ (by norm_num)]
    norm_num
  rw [this]
  unfold fl32
  exact mul_le_mul_of_nonneg_right h1 (le_of_lt hu)

lemma pow_le_fl32 {x : ℚ} (h : (2 : ℚ) ^ binade x ≤ x) : (2 : ℚ) ^ binade x ≤ fl32 x := by
  have hu := ulp32_pos x
  have e : (2 : ℚ) ^ binade x = ((8388608 : Int) : ℚ) * ulp32 x := by
    unfold ulp32
    rw [show binade x = 23 + (binade x - 23) by ring, zpow_add₀ (by norm_num)]
    norm_num
  have h1 : ((8388608 : Int) : ℚ) ≤ x / ulp32 x := by
    rw [le_div_iff₀ hu, ← e]
    exact h
  have h2 := roundEven_mono h1
  rw [roundEven_intCast] at h2
  have h3 : ((8388608 : Int) : ℚ) ≤ (roundEven (x / ulp32 x) : ℚ) := by exact_mod_cast h2
  rw [e]
  unfold fl32
  exact mul_le_mul_of_nonneg_right h3 (le_of_lt hu)

lemma binade_mono {x y : ℚ} (h : |x| ≤ |y|) : binade x ≤ binade y := by
  by_cases hx : x = 0
  · have : binade x = -126 := by unfold binade; rw [if_pos hx]
    rw [this]
    exact binade_ge y
  have hpos : 0 < |x| := abs_pos.mpr hx
  have hy : y ≠ 0 := by
    intro hy
    rw [hy, abs_zero] at h
    exact absurd (lt_of_lt_of_le hpos h) (lt_irrefl _)
  unfold binade
  rw [if_neg hx, if_neg hy]
  exact max_le_max (le_refl _) (Int.log_mono_right hpos h)

lemma fl32_mono_nonneg {x y : ℚ} (hx : 0 ≤ x) (h : x ≤ y) : fl32 x ≤ fl32 y := by
  have hy : 0 ≤ y := le_trans hx h
  have hb : binade x ≤ binade y := binade_mono (by rw [abs_of_nonneg hx, abs_of_nonneg hy]; exact h)
  rcases lt_or_eq_of_le hb with hlt | heq
  · have h1 := fl32_le_pow x
    have h2 : (2 : ℚ) ^ binade y ≤ y := by
      rcases (binade_bounds y).2 with h | h
      · rwa [abs_of_nonneg hy] at h
      · have := binade_ge x
        omega
    have h3 := pow_le_fl32 h2
    have h4 : (2 : ℚ) ^ (binade x + 1) ≤ (2 : ℚ) ^ binade y :=
      zpow_le_zpow_right₀ (by norm_num) (by omega)
    linarith
  · have hu : ulp32 x = ulp32 y := by unfold ulp32; rw [heq]
    unfold fl32
    rw [hu]
    have hpos := ulp32_pos y
    have := roundEven_mono (div_le_div_of_nonneg_right h (le_of_lt hpos))
    have : (roundEven (x / ulp32 y) : ℚ) ≤ (roundEven (y / ulp32 y) : ℚ) := by exact_mod_cast this
    exact mul_le_mul_of_nonneg_right this (le_of_lt hpos)

/-- Rounding to binary32 is monotone. -/
lemma fl32_mono {x y : ℚ} (h : x ≤ y) : fl32 x ≤ fl32 y := by
  rcases le_total 0 x with hx | hx
  · exact fl32_mono_nonneg hx h
  · rcases le_total 0 y with hy | hy
    · have h1 : fl32 x ≤ 0 := by
        have := fl32_nonneg (neg_nonneg.mpr hx)
        rw [fl32_neg] at this
        linarith
      exact le_trans h1 (fl32_nonneg hy)
    · have := fl32_mono_nonneg (neg_nonneg.mpr hy) (neg_le_neg h)
      rw [fl32_neg, fl32_neg] at this
      linarith

/-- The relative error of binary32 rounding in the normal range is at most
`2 ^ (-24)`. -/
lemma fl32_rel {x : ℚ} (hx : (2 : ℚ) ^ (-126 : Int) ≤ x) :
    (1 - 1 / 16777216) * x ≤ fl32 x ∧ fl32 x ≤ (1 + 1 / 16777216) * x := by
  have hpos : 0 < x := lt_of_lt_of_le (by positivity) hx
  have hu := ulp32_pos x
  have hlo : (2 : ℚ) ^ binade x ≤ x := by
    rcases (binade_bounds x).2 with h | h
    · rwa [abs_of_pos hpos] at h
    · rw [h]
      exact hx
  have e : (2 : ℚ) ^ binade x = 8388608 * ulp32 x := by
    unfold ulp32
    rw [show binade x = 23 + (binade x - 23) by ring, zpow_add₀ (by norm_num)]
    norm_num
  have herr := abs_roundEven_sub_le (x / ulp32 x)
  rw [abs_le] at herr
  have hq : x / ulp32 x * ulp32 x = x := div_mul_cancel₀ x (ne_of_gt hu)
  have h1 : (x / ulp32 x - 1 / 2) * ulp32 x ≤ fl32 x := by
    unfold fl32
    exact mul_le_mul_of_nonneg_right (by linarith [herr.1]) (le_of_lt hu)
  have h2 : fl32 x ≤ (x / ulp32 x + 1 / 2) * ulp32 x := by
    unfold fl32
    exact mul_le_mul_of_nonneg_right (by linarith [herr.2]) (le_of_lt hu)
  rw [sub_mul, hq] at h1
  rw [add_mul, hq] at h2
  rw [e] at hlo
  constructor <;> linarith

/-- Evaluation of `fl32` at a positive value that is not a tie. -/
lemma fl32_near (x v : ℚ) (e m : Int) (he : -126 ≤ e) (hlo : (2 : ℚ) ^ e ≤ x)
    (hhi : x < (2 : ℚ) ^ (e + 1)) (hm1 : x / (2 : ℚ) ^ (e - 23) - (m : ℚ) < 1 / 2)
    (hm2 : -(1 / 2) < x / (2 : ℚ) ^ (e - 23) - (m : ℚ))
    (hv : v = (m : ℚ) * (2 : ℚ) ^ (e - 23)) : fl32 x = v := by
  have hpos : 0 < x := lt_of_lt_of_le (by positivity) hlo
  rw [hv]
  exact fl32_eval x e m he (Or.inl (by rwa [abs_of_pos hpos])) (by rwa [abs_of_pos hpos])
    (roundEven_of_abs_lt _ _ (abs_lt.mpr ⟨hm2, hm1⟩))

/-- Evaluation of `fl32` at a positive tie: the even significand is chosen. -/
lemma fl32_tie (x v : ℚ) (e m : Int) (he : -126 ≤ e) (hlo : (2 : ℚ) ^ e ≤ x)
    (hhi : x < (2 : ℚ) ^ (e + 1)) (hm2 : m % 2 = 0)
    (hm : x / (2 : ℚ) ^ (e - 23) = (m : ℚ) + 1 / 2 ∨ x / (2 : ℚ) ^ (e - 23) = (m : ℚ) - 1 / 2)
    (hv : v = (m : ℚ) * (2 : ℚ) ^ (e - 23)) : fl32 x = v := by
  have hpos : 0 < x := lt_of_lt_of_le (by positivity) hlo
  rw [hv]
  apply fl32_eval x e m he (Or.inl (by rwa [abs_of_pos hpos])) (by rwa [abs_of_pos hpos])
  rcases hm with h | h
  · rw [h]
    exact (roundEven_tie m hm2).1
  · rw [h]
    exact (roundEven_tie m hm2).2

end Binary32

/-! ## The landing resolver in float arithmetic -/

section LandingFloat

variable {F : Type} [LinearOrderedField F] [FloorRing F]

/-- With exact arithmetic the `float` resolver is `Sprite.handleInput`. -/
lemma Sprite.handleInputFl_exact (s : Sprite F) (moon : Bool) (now : Nat) (cos : F → F)
    (pi : F) (keys : Keys) (tiles : List Tile) (inputEnabled : Bool) :
    Sprite.handleInputFl (fun v => v) s moon now cos pi keys tiles inputEnabled
      = Sprite.handleInput s moon now cos pi keys tiles inputEnabled := by
  have hb : ∀ (v pb nb : F) (c : SDL_Rect) (acc : Sprite.Landing) (i : Nat) (t : Tile),
      Sprite.landBodyFl (fun v => v) v pb nb c acc i t = Sprite.landBody v pb nb c acc i t :=
    fun _ _ _ _ _ _ _ => rfl
  have hl : ∀ (v pb nb : F) (c : SDL_Rect) (ts : List Tile) (i : Nat) (acc : Sprite.Landing),
      Sprite.landLoopFl (fun v => v) v pb nb c ts i acc = Sprite.landLoop v pb nb c ts i acc := by
    intro v pb nb c ts
    induction ts with
    | nil => intro i acc; rfl
    | cons t ts ih =>
      intro i acc
      show Sprite.landLoopFl (fun v => v) v pb nb c ts (i + 1)
        (Sprite.landBodyFl (fun v => v) v pb nb c acc i t) = _
      rw [ih, hb]
      rfl
  unfold Sprite.handleInputFl Sprite.handleInput
  dsimp only
  rw [hl]
  rfl

omit [FloorRing F] in
lemma Sprite.landBodyFl_pos (fl : F → F) (velY pb nb : F) (cNow : SDL_Rect) (acc : Sprite.Landing) (i : Nat) (t : Tile)
    (h : Sprite.qualifiesFl fl velY pb nb cNow t ∧ t.rect.y > acc.bestTop) :
    Sprite.landBodyFl fl velY pb nb cNow acc i t =
      { landed := true, bestTop := t.rect.y, landedIndex := (i : Int) } := by
  obtain ⟨⟨h1, h2, h3, h4⟩, h5⟩ := h
  unfold Sprite.landBodyFl
  split_ifs with g1
  · exfalso
    simp only [Bool.not_eq_true, Bool.not_eq_eq_eq_not, Bool.not_true, Bool.and_eq_false_imp,
      decide_eq_true_eq, decide_eq_false_iff_not] at g1
    exact g1 h1.1 h1.2
  · rfl

omit [FloorRing F] in
lemma Sprite.landBodyFl_neg (fl : F → F) (velY pb nb : F) (cNow : SDL_Rect) (acc : Sprite.Landing) (i : Nat) (t : Tile)
    (h : ¬ (Sprite.qualifiesFl fl velY pb nb cNow t ∧ t.rect.y > acc.bestTop)) :
    Sprite.landBodyFl fl velY pb nb cNow acc i t = acc := by
  unfold Sprite.landBodyFl
  split_ifs with h1 h2 h3 h4 h5
  · rfl
  · exfalso
    apply h
    simp only [Bool.not_eq_true, Bool.not_eq_eq_eq_not, Bool.not_true, Bool.and_eq_false_imp,
      decide_eq_true_eq, decide_eq_false_iff_not, not_forall, not_not, exists_prop] at h1
    exact ⟨⟨h1, h2, h3, h4⟩, h5⟩
  all_goals rfl

omit [FloorRing F] in
/-- Specification of the tile loop: either nothing was selected and no
qualifying tile lies above the incoming `bestTop`, or the selected tile is the
first qualifying tile of largest top. -/
lemma Sprite.landLoopFl_spec (fl : F → F) (velY pb nb : F) (cNow : SDL_Rect) :
    ∀ (ts : List Tile) (i : Nat) (acc : Sprite.Landing),
      (Sprite.landLoopFl fl velY pb nb cNow ts i acc = acc ∧
        ∀ t ∈ ts, Sprite.qualifiesFl fl velY pb nb cNow t → t.rect.y ≤ acc.bestTop) ∨
      (∃ k t, ts[k]? = some t ∧ Sprite.qualifiesFl fl velY pb nb cNow t ∧
        Sprite.landLoopFl fl velY pb nb cNow ts i acc =
          { landed := true, bestTop := t.rect.y, landedIndex := ((i + k : Nat) : Int) } ∧
        acc.bestTop < t.rect.y ∧
        ∀ j u, ts[j]? = some u → Sprite.qualifiesFl fl velY pb nb cNow u →
          u.rect.y ≤ t.rect.y ∧ (j < k → u.rect.y < t.rect.y)) := by
  intro ts
  induction ts with
  | nil => intro i acc; left; simp [Sprite.landLoopFl]
  | cons t ts ih =>
    intro i acc
    simp only [Sprite.landLoopFl]
    by_cases hq : Sprite.qualifiesFl fl velY pb nb cNow t ∧ t.rect.y > acc.bestTop
    · rw [Sprite.landBodyFl_pos fl velY pb nb cNow acc i t hq]
      right
      rcases ih (i + 1) { landed := true, bestTop := t.rect.y, landedIndex := (i : Int) } with
        ⟨hr, hall⟩ | ⟨k, u, hk, hu, hr, hlt, hmax⟩
      · refine ⟨0, t, by simp, hq.1, by simpa using hr, hq.2, ?_⟩
        intro j u hj hu
        cases j with
        | zero =>
          simp at hj
          subst hj
          exact ⟨le_refl _, fun h => absurd h (lt_irrefl _)⟩
        | succ j =>
          simp at hj
          exact ⟨hall u (List.getElem?_mem hj) hu, fun h => absurd h (Nat.not_lt_zero _)⟩
      · refine ⟨k + 1, u, by simpa using hk, hu, ?_, lt_trans hq.2 hlt, ?_⟩
        · rw [hr]
          simp [Nat.add_assoc, Nat.add_comm 1 k]
        · intro j v hj hv
          cases j with
          | zero =>
            simp at hj
            subst hj
            exact ⟨le_of_lt hlt, fun _ => hlt⟩
          | succ j =>
            simp at hj
            exact ⟨(hmax j v hj hv).1, fun h => (hmax j v hj hv).2 (Nat.lt_of_succ_lt_succ h)⟩
    · rw [Sprite.landBodyFl_neg fl velY pb nb cNow acc i t hq]
      rcases ih (i + 1) acc with ⟨hr, hall⟩ | ⟨k, u, hk, hu, hr, hlt, hmax⟩
      · left
        refine ⟨hr, ?_⟩
        intro v hv hvq
        rcases List.mem_cons.mp hv with h | h
        · subst h
          by_contra hc
          exact hq ⟨hvq, lt_of_not_ge hc⟩
        · exact hall v h hvq
      · right
        refine ⟨k + 1, u, by simpa using hk, hu, ?_, hlt, ?_⟩
        · rw [hr]
          simp [Nat.add_assoc, Nat.add_comm 1 k]
        · intro j v hj hv
          cases j with
          | zero =>
            simp at hj
            subst hj
            have : t.rect.y ≤ acc.bestTop := by
              by_contra hc
              exact hq ⟨hv, lt_of_not_ge hc⟩
            exact ⟨le_of_lt (lt_of_le_of_lt this hlt), fun _ => lt_of_le_of_lt this hlt⟩
          | succ j =>
            simp at hj
            exact ⟨(hmax j v hj hv).1, fun h => (hmax j v hj hv).2 (Nat.lt_of_succ_lt_succ h)⟩

lemma Sprite.snapFl_not_landed (fl : F → F) (s : Sprite F) (r : Sprite.Landing)
    (h : r.landed = false) : Sprite.snapFl fl s r = s := by
  unfold Sprite.snapFl
  simp [h]

/-- What `handleInputFl` returns, by cases on whether a tile was selected. -/
lemma Sprite.handleInputFl_cases (fl : F → F) (s : Sprite F) (moon : Bool) (now : Nat)
    (cos : F → F) (pi : F) (keys : Keys) (tiles : List Tile) (inputEnabled : Bool) :
    ((Sprite.handleInputFl fl s moon now cos pi keys tiles inputEnabled).1.x
        = (Sprite.moveAndAnimateFl fl s now keys inputEnabled).x ∧
      (Sprite.handleInputFl fl s moon now cos pi keys tiles inputEnabled).1.dst
        = (Sprite.moveAndAnimateFl fl s now keys inputEnabled).dst ∧
      (Sprite.handleInputFl fl s moon now cos pi keys tiles inputEnabled).1.frameLock
        = (Sprite.moveAndAnimateFl fl s now keys inputEnabled).frameLock ∧
      (Sprite.handleInputFl fl s moon now cos pi keys tiles inputEnabled).1.velX
        = (Sprite.moveAndAnimateFl fl s now keys inputEnabled).velX) ∧
    (((Sprite.handleInputFl fl s moon now cos pi keys tiles inputEnabled).2 = -1 ∧
      (Sprite.handleInputFl fl s moon now cos pi keys tiles inputEnabled).1.onGround = false ∧
      (Sprite.handleInputFl fl s moon now cos pi keys tiles inputEnabled).1.jumpCount
        = (Sprite.moveAndAnimateFl fl s now keys inputEnabled).jumpCount ∧
      (Sprite.handleInputFl fl s moon now cos pi keys tiles inputEnabled).1.velY
        = fl ((Sprite.moveAndAnimateFl fl s now keys inputEnabled).velY + gravityFl fl moon) ∧
      (Sprite.handleInputFl fl s moon now cos pi keys tiles inputEnabled).1.y
        = fl ((Sprite.moveAndAnimateFl fl s now keys inputEnabled).y
          + fl ((Sprite.moveAndAnimateFl fl s now keys inputEnabled).velY + gravityFl fl moon)) ∧
      ∀ t ∈ tiles, Sprite.landingCandidateFl fl s moon now keys inputEnabled t →
        t.rect.y ≤ INT_MIN) ∨
     (∃ (k : Nat) (t : Tile), tiles[k]? = some t ∧
      Sprite.landingCandidateFl fl s moon now keys inputEnabled t ∧
      (Sprite.handleInputFl fl s moon now cos pi keys tiles inputEnabled).2 = (k : Int) ∧
      INT_MIN < t.rect.y ∧
      (∀ (j : Nat) (u : Tile), tiles[j]? = some u →
        Sprite.landingCandidateFl fl s moon now keys inputEnabled u →
        u.rect.y ≤ t.rect.y ∧ (j < k → u.rect.y < t.rect.y)) ∧
      (Sprite.handleInputFl fl s moon now cos pi keys tiles inputEnabled).1.y
        = fl (fl (t.rect.y : F)
          - fl (((Sprite.collisionRect (Sprite.moveAndAnimateFl fl s now keys inputEnabled)).h
              + HITBOX_SHRINK_Y : Int) : F)) ∧
      (Sprite.handleInputFl fl s moon now cos pi keys tiles inputEnabled).1.velY = 0 ∧
      (Sprite.handleInputFl fl s moon now cos pi keys tiles inputEnabled).1.onGround = true ∧
      (Sprite.handleInputFl fl s moon now cos pi keys tiles inputEnabled).1.jumpCount = 0 ∧
      (Sprite.handleInputFl fl s moon now cos pi keys tiles inputEnabled).1.flipping = false ∧
      (Sprite.handleInputFl fl s moon now cos pi keys tiles inputEnabled).1.flipAngle = 0)) := by
  unfold Sprite.handleInputFl Sprite.landingCandidateFl
  dsimp only
  generalize Sprite.moveAndAnimateFl fl s now keys inputEnabled = s1
  have hspec := Sprite.landLoopFl_spec fl (Sprite.integrateFl fl s1 (gravityFl fl moon)).velY
    (fl (((Sprite.collisionRect s1).y + (Sprite.collisionRect s1).h : Int) : F))
    (fl (((Sprite.collisionRect (Sprite.integrateFl fl s1 (gravityFl fl moon))).y
      + (Sprite.collisionRect (Sprite.integrateFl fl s1 (gravityFl fl moon))).h : Int) : F))
    (Sprite.collisionRect (Sprite.integrateFl fl s1 (gravityFl fl moon))) tiles 0
    { landed := false, bestTop := INT_MIN, landedIndex := -1 }
  rcases hspec with ⟨hr, hall⟩ | ⟨k, t, hk, hq, hr, hlt, hmax⟩
  · rw [hr, Sprite.snapFl_not_landed _ _ _ rfl]
    obtain ⟨h1, h2, h3, h4, h5, h6, h7, h8⟩ :=
      Sprite.updateFlip_fields (Sprite.integrateFl fl s1 (gravityFl fl moon)) now cos pi
    refine ⟨⟨h1.trans rfl, h8.trans rfl, h7.trans rfl, h3.trans rfl⟩, Or.inl ?_⟩
    exact ⟨rfl, h5.trans rfl, h6.trans rfl, h4.trans rfl, h2.trans rfl, hall⟩
  · rw [hr]
    have hsnap : (Sprite.snapFl fl (Sprite.integrateFl fl s1 (gravityFl fl moon))
        { landed := true, bestTop := t.rect.y, landedIndex := ((0 + k : Nat) : Int) }).flipping
        = false := rfl
    rw [Sprite.updateFlip_of_not_flipping _ now cos pi hsnap]
    refine ⟨⟨rfl, rfl, rfl, rfl⟩, Or.inr ⟨k, t, hk, hq, by simp, hlt, hmax, ?_⟩⟩
    refine ⟨rfl, ?_, rfl, rfl, rfl, ?_⟩
    · show (0.0 : F) = 0
      norm_num
    · show (0.0 : F) = 0
      norm_num

/-- The fields of the sprite after lines 249-260 in `float` arithmetic. -/
lemma Sprite.moveAndAnimateFl_fields (fl : F → F) (s : Sprite F) (now : Nat) (keys : Keys)
    (inputEnabled : Bool) :
    (Sprite.moveAndAnimateFl fl s now keys inputEnabled).x
      = fl (s.x + fl (Sprite.inputDx keys inputEnabled * s.speed)) ∧
    (Sprite.moveAndAnimateFl fl s now keys inputEnabled).y = s.y ∧
    (Sprite.moveAndAnimateFl fl s now keys inputEnabled).velX = s.velX ∧
    (Sprite.moveAndAnimateFl fl s now keys inputEnabled).velY = s.velY ∧
    (Sprite.moveAndAnimateFl fl s now keys inputEnabled).onGround = s.onGround ∧
    (Sprite.moveAndAnimateFl fl s now keys inputEnabled).jumpCount = s.jumpCount ∧
    (Sprite.moveAndAnimateFl fl s now keys inputEnabled).frameLock = s.frameLock ∧
    (Sprite.SizeOk s → (Sprite.moveAndAnimateFl fl s now keys inputEnabled).dst.w = s.dst.w ∧
      (Sprite.moveAndAnimateFl fl s now keys inputEnabled).dst.h = s.dst.h) := by
  unfold Sprite.moveAndAnimateFl
  obtain ⟨hk, hd⟩ := Sprite.animate_sameKin (Sprite.moveFl fl s (Sprite.inputDx keys inputEnabled))
    now (Sprite.inputDx keys inputEnabled)
  refine ⟨hk.x.trans rfl, hk.y.trans rfl, hk.velX.trans rfl, hk.velY.trans rfl,
    hk.onGround.trans rfl, hk.jumpCount.trans rfl, hk.frameLock.trans rfl, ?_⟩
  intro hwf
  rcases hd with h | ⟨h1, h2⟩
  · rw [h]
    exact ⟨rfl, rfl⟩
  · exact ⟨h1.trans hwf.1.symm, h2.trans hwf.2.symm⟩

/-- The landing test in `float` arithmetic written on the fields of the incoming
sprite. -/
lemma Sprite.landingCandidateFl_iff (fl : F → F) (s : Sprite F) (moon : Bool) (now : Nat)
    (keys : Keys) (inputEnabled : Bool) (t : Tile) (hwf : Sprite.SizeOk s) :
    Sprite.landingCandidateFl fl s moon now keys inputEnabled t ↔
      Sprite.qualifiesFl fl (fl (s.velY + gravityFl fl moon))
        (fl (((Sprite.collisionRect s).y + (Sprite.collisionRect s).h : Int) : F))
        (fl ((toInt (fl (s.y + fl (s.velY + gravityFl fl moon))) + HITBOX_SHRINK_Y
          + (Sprite.collisionRect s).h : Int) : F))
        { x := toInt (fl (s.x + fl (Sprite.inputDx keys inputEnabled * s.speed)))
            + HITBOX_SHRINK_X
          y := toInt (fl (s.y + fl (s.velY + gravityFl fl moon))) + HITBOX_SHRINK_Y
          w := (Sprite.collisionRect s).w
          h := (Sprite.collisionRect s).h } t := by
  obtain ⟨hx, hy, -, hv, -, -, -, hd⟩ := Sprite.moveAndAnimateFl_fields fl s now keys inputEnabled
  obtain ⟨hw, hh⟩ := hd hwf
  unfold Sprite.landingCandidateFl
  dsimp only
  have e1 : Sprite.collisionRect (Sprite.moveAndAnimateFl fl s now keys inputEnabled)
      = { Sprite.collisionRect s with
          x := toInt (fl (s.x + fl (Sprite.inputDx keys inputEnabled * s.speed)))
            + HITBOX_SHRINK_X } := by
    unfold Sprite.collisionRect
    rw [hx, hy, hw, hh]
  have e2 : Sprite.collisionRect (Sprite.integrateFl fl
        (Sprite.moveAndAnimateFl fl s now keys inputEnabled) (gravityFl fl moon))
      = { x := toInt (fl (s.x + fl (Sprite.inputDx keys inputEnabled * s.speed)))
            + HITBOX_SHRINK_X
          y := toInt (fl (s.y + fl (s.velY + gravityFl fl moon))) + HITBOX_SHRINK_Y
          w := (Sprite.collisionRect s).w
          h := (Sprite.collisionRect s).h } := by
    unfold Sprite.collisionRect Sprite.integrateFl
    dsimp only
    rw [hx, hy, hw, hh, hv]
  have e3 : (Sprite.integrateFl fl (Sprite.moveAndAnimateFl fl s now keys inputEnabled)
      (gravityFl fl moon)).velY = fl (s.velY + gravityFl fl moon) := by
    unfold Sprite.integrateFl
    dsimp only
    rw [hv]
  rw [e1, e2, e3]

/-- The player's collision box rests on `top` after a landing snap whose `float`
arithmetic is exact. -/
lemma Sprite.bottom_after_snapFl (fl : F → F) (a s1 : Sprite F) (top : Int) (hd : a.dst = s1.dst)
    (hy : a.y = fl (fl (top : F)
      - fl (((Sprite.collisionRect s1).h + HITBOX_SHRINK_Y : Int) : F)))
    (h1 : fl (top : F) = (top : F))
    (h2 : fl (((Sprite.collisionRect s1).h + HITBOX_SHRINK_Y : Int) : F)
      = (((Sprite.collisionRect s1).h + HITBOX_SHRINK_Y : Int) : F))
    (h3 : fl (((top - ((Sprite.collisionRect s1).h + HITBOX_SHRINK_Y) : Int)) : F)
      = (((top - ((Sprite.collisionRect s1).h + HITBOX_SHRINK_Y) : Int)) : F)) :
    (Sprite.collisionRect a).y + (Sprite.collisionRect a).h = top := by
  have hh : (Sprite.collisionRect a).h = (Sprite.collisionRect s1).h := by
    rw [Sprite.collisionRect_h, Sprite.collisionRect_h, hd]
  rw [hh, Sprite.collisionRect_y, hy, h1, h2]
  have : ((top : F) - (((Sprite.collisionRect s1).h + HITBOX_SHRINK_Y : Int) : F))
      = (((top - ((Sprite.collisionRect s1).h + HITBOX_SHRINK_Y) : Int)) : F) := by
    push_cast
    ring
  rw [this, h3, toInt_intCast]
  ring

/-- C5 (as amended). Landing postcondition in `float` arithmetic: whenever
`Sprite::handleInput` returns an index `>= 0`, that index names a tile of the
list and after the call `velY = 0`, `onGround = true`, `jumpCount = 0`,
`flipping = false`, `flipAngle = 0`, and `y` is the rounded difference of the
rounded tile top and the rounded box offset `h + HITBOX_SHRINK_Y`; the bottom
edge of the collision box equals the tile's top whenever the tile top, the box
offset and their difference have magnitude at most `2 ^ 24`, so that the snap
is exact.  For every rounding `fl`, render size, tile list and input. -/
theorem handleInput_landing_postcondition (fl : F → F) (s : Sprite F) (moon : Bool) (now : Nat)
    (cos : F → F) (pi : F) (keys : Keys) (tiles : List Tile) (inputEnabled : Bool)
    (h : 0 ≤ (Sprite.handleInputFl fl s moon now cos pi keys tiles inputEnabled).2) :
    ∃ t : Tile,
      tiles[((Sprite.handleInputFl fl s moon now cos pi keys tiles inputEnabled).2).toNat]?
        = some t ∧
      (Sprite.handleInputFl fl s moon now cos pi keys tiles inputEnabled).1.velY = 0 ∧
      (Sprite.handleInputFl fl s moon now cos pi keys tiles inputEnabled).1.onGround = true ∧
      (Sprite.handleInputFl fl s moon now cos pi keys tiles inputEnabled).1.jumpCount = 0 ∧
      (Sprite.handleInputFl fl s moon now cos pi keys tiles inputEnabled).1.flipping = false ∧
      (Sprite.handleInputFl fl s moon now cos pi keys tiles inputEnabled).1.flipAngle = 0 ∧
      (Sprite.handleInputFl fl s moon now cos pi keys tiles inputEnabled).1.y
        = fl (fl (t.rect.y : F)
            - fl (((Sprite.handleInputFl fl s moon now cos pi keys tiles
                inputEnabled).1.collisionRect.h + HITBOX_SHRINK_Y : Int) : F)) ∧
      (Float32Like fl → |t.rect.y| ≤ 16777216 →
        (Sprite.handleInputFl fl s moon now cos pi keys tiles inputEnabled).1.collisionRect.h
          + HITBOX_SHRINK_Y ≤ 16777216 →
        |t.rect.y - ((Sprite.handleInputFl fl s moon now cos pi keys tiles
            inputEnabled).1.collisionRect.h + HITBOX_SHRINK_Y)| ≤ 16777216 →
        (Sprite.handleInputFl fl s moon now cos pi keys tiles inputEnabled).1.collisionRect.y
          + (Sprite.handleInputFl fl s moon now cos pi keys tiles inputEnabled).1.collisionRect.h
            = t.rect.y) := by
  obtain ⟨⟨-, hdst, -, -⟩, hcase⟩ :=
    Sprite.handleInputFl_cases fl s moon now cos pi keys tiles inputEnabled
  rcases hcase with ⟨hneg, -⟩ | ⟨k, t, hk, -, hidx, -, -, hy, hv, hg, hj, hf, ha⟩
  · rw [hneg] at h
    exact absurd h (by decide)
  · have hh : (Sprite.handleInputFl fl s moon now cos pi keys tiles inputEnabled).1.collisionRect.h
        = (Sprite.collisionRect (Sprite.moveAndAnimateFl fl s now keys inputEnabled)).h := by
      rw [Sprite.collisionRect_h, Sprite.collisionRect_h, hdst]
    have hpos : 0 ≤ (Sprite.collisionRect (Sprite.moveAndAnimateFl fl s now keys inputEnabled)).h
        + HITBOX_SHRINK_Y := by
      rw [Sprite.collisionRect_h]
      unfold HITBOX_SHRINK_Y
      split_ifs <;> omega
    refine ⟨t, ?_, hv, hg, hj, hf, ha, ?_, ?_⟩
    · rw [hidx]
      simpa using hk
    · rw [hh]
      exact hy
    · intro hfl h1 h2 h3
      rw [hh] at h2 h3
      exact Sprite.bottom_after_snapFl fl _ _ _ hdst hy (hfl.int_fixed _ h1)
        (hfl.int_fixed _ (by rw [abs_of_nonneg hpos]; exact h2)) (hfl.int_fixed _ h3)

/-- Exact arithmetic is a rounding in the sense of `Float32Like`. -/
lemma exact_float32Like : Float32Like (fun v : F => v) :=
  { idem := fun _ => rfl
    mono := fun _ _ h => h
    int_fixed := fun _ _ => rfl
    half_fixed := fun _ _ _ => rfl
    rel_err := fun x hx => by
      have h0 : (0 : F) ≤ x := le_trans (by positivity) hx
      have : (1 - 1 / 16777216) * x ≤ 1 * x :=
        mul_le_mul_of_nonneg_right (by norm_num) h0
      linarith }

/-- Binary32 rounding is a rounding in the sense of `Float32Like`. -/
lemma fl32_float32Like : Float32Like fl32 :=
  { idem := fl32_idem
    mono := fun _ _ h => fl32_mono h
    int_fixed := fl32_intCast
    half_fixed := fl32_half
    rel_err := fun x hx => by
      have : (2 : ℚ) ^ (-126 : Int) ≤ x := by
        rw [zpow_neg, ← one_div]
        exact_mod_cast hx
      exact (fl32_rel this).1 }

/-- Halves of integers of fewer than 25 bits are binary32 values. -/
lemma fl32_div_two (k : Int) (hk : |k| < 16777216) : fl32 ((k : ℚ) / 2) = (k : ℚ) / 2 := by
  have := fl32_dyadic k (-1) hk (by norm_num)
  rw [zpow_neg_one] at this
  exact this

lemma Sprite.handleInputFl_index_nonneg (fl : F → F) (s : Sprite F) (moon : Bool) (now : Nat)
    (cos : F → F) (pi : F) (keys : Keys) (tiles : List Tile) (inputEnabled : Bool) (t : Tile)
    (ht : t ∈ tiles) (hc : Sprite.landingCandidateFl fl s moon now keys inputEnabled t)
    (hmin : INT_MIN < t.rect.y) :
    0 ≤ (Sprite.handleInputFl fl s moon now cos pi keys tiles inputEnabled).2 := by
  obtain ⟨-, hcase⟩ := Sprite.handleInputFl_cases fl s moon now cos pi keys tiles inputEnabled
  rcases hcase with ⟨-, -, -, -, -, hall⟩ | ⟨k, u, -, -, hidx, -⟩
  · exact absurd (hall t ht hc) (not_le.mpr hmin)
  · rw [hidx]
    exact Int.natCast_nonneg k

lemma fallingSprite_candidateFl :
    Sprite.landingCandidateFl fl32 fallingSprite false 0 noKeys true (platformAt 136 112) := by
  have hwf := Sprite.sizeOk_sample 134 34 (0 : ℚ) 0 10 false 0
  have hdx : Sprite.inputDx (F := ℚ) noKeys true = 0 :=
    Sprite.inputDx_zero _ _ (Or.inr ⟨rfl, rfl⟩)
  have f0 : fl32 0 = 0 := fl32_zero
  have f1 : fl32 (1 / 2 : ℚ) = 1 / 2 := by
    have := fl32_div_two 1 (by norm_num)
    norm_num at this
    exact this
  have f2 : fl32 (21 / 2 : ℚ) = 21 / 2 := by
    have := fl32_div_two 21 (by norm_num)
    norm_num at this
    exact this
  have f3 : fl32 (98 : ℚ) = 98 := by
    have := fl32_intCast 98 (by norm_num)
    norm_num at this
    exact this
  have f4 : fl32 (108 : ℚ) = 108 := by
    have := fl32_intCast 108 (by norm_num)
    norm_num at this
    exact this
  have f5 : fl32 (100 : ℚ) = 100 := by
    have := fl32_intCast 100 (by norm_num)
    norm_num at this
    exact this
  have f6 : fl32 (201 / 2 : ℚ) = 201 / 2 := by
    have := fl32_div_two 201 (by norm_num)
    norm_num at this
    exact this
  have f7 : fl32 (199 / 2 : ℚ) = 199 / 2 := by
    have := fl32_div_two 199 (by norm_num)
    norm_num at this
    exact this
  have f8 : fl32 (10 : ℚ) = 10 := by
    have := fl32_intCast 10 (by norm_num)
    norm_num at this
    exact this
  have f9 : fl32 (69 / 2 : ℚ) = 69 / 2 := by
    have := fl32_div_two 69 (by norm_num)
    norm_num at this
    exact this
  have hx : toInt (0 : ℚ) = 0 := toInt_zero
  have hy2 : toInt ((21 : ℚ) / 2) = 10 :=
    toInt_of_floor (by norm_num) (by norm_num) (by norm_num)
  unfold fallingSprite
  rw [Sprite.landingCandidateFl_iff _ _ _ _ _ _ _ hwf, hdx]
  simp only [Sprite.sample, Sprite.collisionRect, Sprite.qualifiesFl, platformAt, gravityFl,
    HITBOX_SHRINK_X, HITBOX_SHRINK_Y, EPS, MAX_STEP, gravity, GRAVITY_NORMAL]
  norm_num [f0, f1, f2, f3, f4, f5, f6, f7, f8, f9, hx, hy2]

end LandingFloat

/-! ## The landing postcondition in binary32 -/

section LandingPostFloat

variable {F : Type} [LinearOrderedField F] [FloorRing F]

lemma deepSprite_candidate :
    Sprite.landingCandidateFl fl32 deepSprite false 0 noKeys true deepTile := by
  have hwf := Sprite.sizeOk_sample 134 34 (0 : ℚ) 16777000 300 false 0
  have hdx : Sprite.inputDx (F := ℚ) noKeys true = 0 :=
    Sprite.inputDx_zero _ _ (Or.inr ⟨rfl, rfl⟩)
  have f0 : fl32 0 = 0 := fl32_zero
  have f1 : fl32 (1 / 2 : ℚ) = 1 / 2 := by
    have := fl32_div_two 1 (by norm_num)
    norm_num at this
    exact this
  have f2 : fl32 (601 / 2 : ℚ) = 601 / 2 := by
    have := fl32_div_two 601 (by norm_num)
    norm_num at this
    exact this
  have f3 : fl32 (33554601 / 2 : ℚ) = 16777300 :=
    fl32_near _ _ 24 8388650 (by norm_num) (by norm_num) (by norm_num) (by norm_num)
      (by norm_num) (by norm_num)
  have f4 : fl32 (16777098 : ℚ) = 16777098 := by
    have := fl32_intCast 16777098 (by norm_num)
    norm_num at this
    exact this
  have f5 : fl32 (16777398 : ℚ) = 16777398 := by
    have := fl32_dyadic 8388699 1 (by norm_num) (by norm_num)
    norm_num at this
    exact this
  have f6 : fl32 (16777217 : ℚ) = 16777216 :=
    fl32_tie _ _ 24 8388608 (by norm_num) (by norm_num) (by norm_num) (by norm_num)
      (Or.inl (by norm_num)) (by norm_num)
  have f7 : fl32 (33554433 / 2 : ℚ) = 16777216 :=
    fl32_near _ _ 24 8388608 (by norm_num) (by norm_num) (by norm_num) (by norm_num)
      (by norm_num) (by norm_num)
  have f8 : fl32 (33554431 / 2 : ℚ) = 16777216 :=
    fl32_tie _ _ 23 16777216 (by norm_num) (by norm_num) (by norm_num) (by norm_num)
      (Or.inr (by norm_num)) (by norm_num)
  have f9 : fl32 (300 : ℚ) = 300 := by
    have := fl32_intCast 300 (by norm_num)
    norm_num at this
    exact this
  have f10 : fl32 (649 / 2 : ℚ) = 649 / 2 := by
    have := fl32_div_two 649 (by norm_num)
    norm_num at this
    exact this
  have hx : toInt (0 : ℚ) = 0 := toInt_zero
  have hy1 : toInt (16777000 : ℚ) = 16777000 := by
    have : (16777000 : ℚ) = ((16777000 : Int) : ℚ) := by norm_num
    rw [this, toInt_intCast]
  have hy2 : toInt (16777300 : ℚ) = 16777300 := by
    have : (16777300 : ℚ) = ((16777300 : Int) : ℚ) := by norm_num
    rw [this, toInt_intCast]
  unfold deepSprite
  rw [Sprite.landingCandidateFl_iff _ _ _ _ _ _ _ hwf, hdx]
  simp only [Sprite.sample, Sprite.collisionRect, Sprite.qualifiesFl, deepTile, gravityFl,
    HITBOX_SHRINK_X, HITBOX_SHRINK_Y, EPS, MAX_STEP, gravity, GRAVITY_NORMAL]
  norm_num [f0, f1, f2, f3, f4, f5, f6, f7, f8, f9, f10, hx, hy1, hy2]

/-- C5 (counterexample). In binary32 arithmetic, a sprite of render size 402 by
102 falling at `velY = 300` from `y = 16777000` onto a platform with top
`16777217`: the tile's top converts to the `float` `16777216`, the landing is
registered, the snap sets `y = 16777216 - 98`, and the bottom edge of the
collision box is `16777216`, one above the tile's top. -/
theorem landingPostcondition_counterexample :
    ¬ LandingPostcondition fl32 deepSprite false 0 (fun v => v) 0 noKeys [deepTile] true := by
  intro hclaim
  have hcand := deepSprite_candidate
  have hidx0 := Sprite.handleInputFl_index_nonneg fl32 deepSprite false 0 (fun v => v) 0 noKeys
    [deepTile] true deepTile (List.mem_singleton.mpr rfl) hcand (by decide)
  obtain ⟨t, ht, hbot, -⟩ := hclaim hidx0
  have htt : t = deepTile := by
    have := List.getElem?_mem ht
    exact List.mem_singleton.mp this
  have hwf : deepSprite.SizeOk := Sprite.sizeOk_sample 134 34 (0 : ℚ) 16777000 300 false 0
  obtain ⟨⟨-, hdst, -, -⟩, hcase⟩ := Sprite.handleInputFl_cases fl32 deepSprite false 0
    (fun v => v) 0 noKeys [deepTile] true
  obtain ⟨-, -, -, -, -, -, -, hmd⟩ := Sprite.moveAndAnimateFl_fields fl32 deepSprite 0 noKeys true
  have hh1 : deepSprite.collisionRect.h = 94 := by
    simp only [deepSprite, Sprite.sample, Sprite.collisionRect, HITBOX_SHRINK_Y]
    norm_num
  have hch : (Sprite.collisionRect (Sprite.moveAndAnimateFl fl32 deepSprite 0 noKeys true)).h
      = 94 := by
    rw [Sprite.collisionRect_h, (hmd hwf).2, ← Sprite.collisionRect_h, hh1]
  have hrh : (Sprite.handleInputFl fl32 deepSprite false 0 (fun v => v) 0 noKeys [deepTile]
      true).1.collisionRect.h = 94 := by
    rw [Sprite.collisionRect_h, hdst, ← Sprite.collisionRect_h, hch]
  rcases hcase with ⟨hneg, -⟩ | ⟨k, u, hk, -, -, -, -, hy, -⟩
  · rw [hneg] at hidx0
    exact absurd hidx0 (by decide)
  · have hu : u = deepTile := List.mem_singleton.mp (List.getElem?_mem hk)
    have f6 : fl32 (16777217 : ℚ) = 16777216 :=
      fl32_tie _ _ 24 8388608 (by norm_num) (by norm_num) (by norm_num) (by norm_num)
        (Or.inl (by norm_num)) (by norm_num)
    have f11 : fl32 (98 : ℚ) = 98 := by
      have := fl32_intCast 98 (by norm_num)
      norm_num at this
      exact this
    have f12 : fl32 (16777118 : ℚ) = 16777118 := by
      have := fl32_intCast 16777118 (by norm_num)
      norm_num at this
      exact this
    have hy3 : toInt (16777118 : ℚ) = 16777118 := by
      have : (16777118 : ℚ) = ((16777118 : Int) : ℚ) := by norm_num
      rw [this, toInt_intCast]
    have hyv : (Sprite.handleInputFl fl32 deepSprite false 0 (fun v => v) 0 noKeys [deepTile]
        true).1.y = 16777118 := by
      rw [hy, hch, hu]
      simp only [deepTile, HITBOX_SHRINK_Y]
      norm_num [f6, f11, f12]
    rw [htt, hrh, Sprite.collisionRect_y, hyv, hy3] at hbot
    simp only [deepTile, HITBOX_SHRINK_Y] at hbot
    omega

lemma fallingSprite_landsFl :
    0 ≤ (Sprite.handleInputFl fl32 fallingSprite false 0 (fun v => v) 0 noKeys stairTiles true).2 :=
  Sprite.handleInputFl_index_nonneg fl32 fallingSprite false 0 (fun v => v) 0 noKeys stairTiles
    true (platformAt 136 112) (by simp [stairTiles]) fallingSprite_candidateFl (by decide)

/-- Witness for `handleInput_landing_postcondition`: in binary32 arithmetic the
falling sprite lands on the step. -/
theorem handleInput_landing_postcondition_witness :
    0 ≤ (Sprite.handleInputFl fl32 fallingSprite false 0 (fun v => v) 0 noKeys stairTiles true).2 ∧
    ∃ t : Tile,
      stairTiles[((Sprite.handleInputFl fl32 fallingSprite false 0 (fun v => v) 0 noKeys
        stairTiles true).2).toNat]? = some t ∧
      (Sprite.handleInputFl fl32 fallingSprite false 0 (fun v => v) 0 noKeys stairTiles
        true).1.velY = 0 ∧
      (Sprite.handleInputFl fl32 fallingSprite false 0 (fun v => v) 0 noKeys stairTiles
        true).1.onGround = true ∧
      (Sprite.handleInputFl fl32 fallingSprite false 0 (fun v => v) 0 noKeys stairTiles
        true).1.jumpCount = 0 ∧
      (Sprite.handleInputFl fl32 fallingSprite false 0 (fun v => v) 0 noKeys stairTiles
        true).1.flipping = false ∧
      (Sprite.handleInputFl fl32 fallingSprite false 0 (fun v => v) 0 noKeys stairTiles
        true).1.flipAngle = 0 ∧
      (Sprite.handleInputFl fl32 fallingSprite false 0 (fun v => v) 0 noKeys stairTiles true).1.y
        = fl32 (fl32 (t.rect.y : ℚ)
            - fl32 (((Sprite.handleInputFl fl32 fallingSprite false 0 (fun v => v) 0 noKeys
                stairTiles true).1.collisionRect.h + HITBOX_SHRINK_Y : Int) : ℚ)) ∧
      (Float32Like fl32 → |t.rect.y| ≤ 16777216 →
        (Sprite.handleInputFl fl32 fallingSprite false 0 (fun v => v) 0 noKeys stairTiles
          true).1.collisionRect.h + HITBOX_SHRINK_Y ≤ 16777216 →
        |t.rect.y - ((Sprite.handleInputFl fl32 fallingSprite false 0 (fun v => v) 0 noKeys
            stairTiles true).1.collisionRect.h + HITBOX_SHRINK_Y)| ≤ 16777216 →
        (Sprite.handleInputFl fl32 fallingSprite false 0 (fun v => v) 0 noKeys stairTiles
          true).1.collisionRect.y
          + (Sprite.handleInputFl fl32 fallingSprite false 0 (fun v => v) 0 noKeys stairTiles
            true).1.collisionRect.h = t.rect.y) :=
  ⟨fallingSprite_landsFl,
    handleInput_landing_postcondition fl32 fallingSprite false 0 (fun v => v) 0 noKeys stairTiles
      true fallingSprite_landsFl⟩

end LandingPostFloat

/-! ## Landing at rest in float arithmetic -/

section RestFloat

variable {F : Type} [LinearOrderedField F] [FloorRing F]

omit [FloorRing F] in
lemma Float32Like.zero {fl : F → F} (hfl : Float32Like fl) : fl 0 = 0 := by
  have := hfl.int_fixed 0 (by norm_num)
  simpa using this

end RestFloat

/-! ## Landing selection: the player and the enemy resolver -/

section LandingSelection

variable {F : Type} [LinearOrderedField F] [FloorRing F]

lemma fallingSprite_stairFl :
    Sprite.landingCandidateFl fl32 fallingSprite false 0 noKeys true (platformAt 264 116) ∧
    ¬ Sprite.landingCandidateFl fl32 fallingSprite false 0 noKeys true groundTile := by
  have hwf := Sprite.sizeOk_sample 134 34 (0 : ℚ) 0 10 false 0
  have hdx : Sprite.inputDx (F := ℚ) noKeys true = 0 :=
    Sprite.inputDx_zero _ _ (Or.inr ⟨rfl, rfl⟩)
  have f0 : fl32 0 = 0 := fl32_zero
  have f1 : fl32 (1 / 2 : ℚ) = 1 / 2 := by
    have := fl32_div_two 1 (by norm_num)
    norm_num at this
    exact this
  have f2 : fl32 (21 / 2 : ℚ) = 21 / 2 := by
    have := fl32_div_two 21 (by norm_num)
    norm_num at this
    exact this
  have f3 : fl32 (98 : ℚ) = 98 := by
    have := fl32_intCast 98 (by norm_num)
    norm_num at this
    exact this
  have f4 : fl32 (108 : ℚ) = 108 := by
    have := fl32_intCast 108 (by norm_num)
    norm_num at this
    exact this
  have f5 : fl32 (104 : ℚ) = 104 := by
    have := fl32_intCast 104 (by norm_num)
    norm_num at this
    exact this
  have f6 : fl32 (209 / 2 : ℚ) = 209 / 2 := by
    have := fl32_div_two 209 (by norm_num)
    norm_num at this
    exact this
  have f7 : fl32 (207 / 2 : ℚ) = 207 / 2 := by
    have := fl32_div_two 207 (by norm_num)
    norm_num at this
    exact this
  have f8 : fl32 (10 : ℚ) = 10 := by
    have := fl32_intCast 10 (by norm_num)
    norm_num at this
    exact this
  have f9 : fl32 (69 / 2 : ℚ) = 69 / 2 := by
    have := fl32_div_two 69 (by norm_num)
    norm_num at this
    exact this
  have f10 : fl32 (950 : ℚ) = 950 := by
    have := fl32_intCast 950 (by norm_num)
    norm_num at this
    exact this
  have f11 : fl32 (1899 / 2 : ℚ) = 1899 / 2 := by
    have := fl32_div_two 1899 (by norm_num)
    norm_num at this
    exact this
  have f12 : fl32 (1901 / 2 : ℚ) = 1901 / 2 := by
    have := fl32_div_two 1901 (by norm_num)
    norm_num at this
    exact this
  have hx : toInt (0 : ℚ) = 0 := toInt_zero
  have hy2 : toInt ((21 : ℚ) / 2) = 10 :=
    toInt_of_floor (by norm_num) (by norm_num) (by norm_num)
  unfold fallingSprite
  constructor
  · rw [Sprite.landingCandidateFl_iff _ _ _ _ _ _ _ hwf, hdx]
    simp only [Sprite.sample, Sprite.collisionRect, Sprite.qualifiesFl, platformAt, gravityFl,
      HITBOX_SHRINK_X, HITBOX_SHRINK_Y, EPS, MAX_STEP, gravity, GRAVITY_NORMAL]
    norm_num [f0, f1, f2, f3, f4, f5, f6, f7, f8, f9, hx, hy2]
  · rw [Sprite.landingCandidateFl_iff _ _ _ _ _ _ _ hwf, hdx]
    simp only [Sprite.sample, Sprite.collisionRect, Sprite.qualifiesFl, groundTile, gravityFl,
      HITBOX_SHRINK_X, HITBOX_SHRINK_Y, EPS, MAX_STEP, gravity, GRAVITY_NORMAL, WORLD_GROUND_TOP]
    norm_num [f0, f1, f2, f3, f4, f8, f9, f10, f11, f12, hx, hy2]

/-- With the identity as rounding, `avocadoAIFl` is `avocadoAI`. -/
lemma avocadoTilesFl_exact (prevY : F) (tiles : List Tile) (acc : Avocado F × SDL_Rect × Bool) :
    avocadoTilesFl (fun v => v) prevY tiles acc = avocadoTiles prevY tiles acc := by
  induction tiles generalizing acc with
  | nil => rfl
  | cons t ts ih =>
    obtain ⟨a, aRect, grounded⟩ := acc
    unfold avocadoTilesFl avocadoTiles
    simp only [ih]

/-- A tile that fails the overlap test or the landing test leaves the enemy as
it is. -/
lemma avocadoTilesFl_skip (fl : F → F) (prevY : F) (t : Tile) (ts : List Tile) (a : Avocado F)
    (r : SDL_Rect) (g : Bool)
    (h : ¬ (overlapX r t.rect = true ∧ a.vy ≥ 0.0 ∧
      fl (prevY + fl (a.h : F)) ≤ fl (fl (t.rect.y : F) + EPS F) ∧
      fl (a.y + fl (a.h : F)) ≥ fl (fl (t.rect.y : F) - EPS F) ∧
      fl (fl (a.y + fl (a.h : F)) - fl (prevY + fl (a.h : F)))
        ≤ fl (MAX_STEP F + max 0.0 a.vy))) :
    avocadoTilesFl fl prevY (t :: ts) (a, r, g) = avocadoTilesFl fl prevY ts (a, r, g) := by
  conv_lhs => unfold avocadoTilesFl
  dsimp only
  split_ifs with h1 h2 h3
  · rfl
  · exfalso
    apply h
    refine ⟨?_, h2.1, h2.2.1, h2.2.2, h3⟩
    simpa using h1
  · rfl
  · rfl

/-- A tile that passes the overlap test and the landing test snaps the enemy on
its top. -/
lemma avocadoTilesFl_snap (fl : F → F) (prevY : F) (t : Tile) (ts : List Tile) (a : Avocado F)
    (r : SDL_Rect) (g : Bool)
    (h : overlapX r t.rect = true ∧ a.vy ≥ 0.0 ∧
      fl (prevY + fl (a.h : F)) ≤ fl (fl (t.rect.y : F) + EPS F) ∧
      fl (a.y + fl (a.h : F)) ≥ fl (fl (t.rect.y : F) - EPS F) ∧
      fl (fl (a.y + fl (a.h : F)) - fl (prevY + fl (a.h : F)))
        ≤ fl (MAX_STEP F + max 0.0 a.vy)) :
    avocadoTilesFl fl prevY (t :: ts) (a, r, g)
      = avocadoTilesFl fl prevY ts
          ({ a with y := fl ((t.rect.y - a.h : Int) : F), vy := 0.0 },
            { r with y := toInt (fl ((t.rect.y - a.h : Int) : F)) }, true) := by
  conv_lhs => unfold avocadoTilesFl
  dsimp only
  obtain ⟨h1, h2, h3, h4, h5⟩ := h
  rw [if_neg (by simp [h1]), if_pos ⟨h2, h3, h4⟩, if_pos h5]

/-- The vertical position and the size after `avocadoAI` are those the tile loop
leaves. -/
lemma avocadoAIFl_y (fl : F → F) (moon : Bool) (p : Sprite F) (a : Avocado F)
    (tiles : List Tile) :
    (avocadoAIFl fl moon p a tiles).y
      = (avocadoTilesFl fl a.y tiles
          ({ a with vy := fl (a.vy + gravityFl fl moon)
                    y := fl (a.y + fl (a.vy + gravityFl fl moon)) },
            { x := toInt a.x, y := toInt (fl (a.y + fl (a.vy + gravityFl fl moon)))
              w := a.w, h := a.h }, false)).1.y ∧
    (avocadoAIFl fl moon p a tiles).h
      = (avocadoTilesFl fl a.y tiles
          ({ a with vy := fl (a.vy + gravityFl fl moon)
                    y := fl (a.y + fl (a.vy + gravityFl fl moon)) },
            { x := toInt a.x, y := toInt (fl (a.y + fl (a.vy + gravityFl fl moon)))
              w := a.w, h := a.h }, false)).1.h := by
  unfold avocadoAIFl
  dsimp only
  split_ifs <;> exact ⟨rfl, rfl⟩

/-- The enemy resolver in binary32 arithmetic on `stairAvocado` over the step, in
either order of the two platforms: the enemy ends with `y = 60`, its bottom edge
on the upper platform's top `100`. -/
lemma stairAvocado_lands (p : Sprite ℚ) :
    ((avocadoAIFl fl32 false p stairAvocado stairTiles).y = 60 ∧
      (avocadoAIFl fl32 false p stairAvocado stairTiles).h = 40) ∧
    ((avocadoAIFl fl32 false p stairAvocado stairTilesRev).y = 60 ∧
      (avocadoAIFl fl32 false p stairAvocado stairTilesRev).h = 40) := by
  have h1 : toInt (180 : ℚ) = 180 := by
    have : (180 : ℚ) = ((180 : Int) : ℚ) := by norm_num
    rw [this, toInt_intCast]
  have h2 : toInt ((137 : ℚ) / 2) = 68 :=
    toInt_of_floor (by norm_num) (by norm_num) (by norm_num)
  have h3 : toInt (60 : ℚ) = 60 := by
    have : (60 : ℚ) = ((60 : Int) : ℚ) := by norm_num
    rw [this, toInt_intCast]
  have h4 : toInt (64 : ℚ) = 64 := by
    have : (64 : ℚ) = ((64 : Int) : ℚ) := by norm_num
    rw [this, toInt_intCast]
  have fi : ∀ n : Int, |n| ≤ 16777216 → fl32 (n : ℚ) = (n : ℚ) := fl32_intCast
  have fh : ∀ k : Int, |k| < 16777216 → fl32 ((k : ℚ) / 2) = (k : ℚ) / 2 := fl32_div_two
  have f1 : fl32 (1 / 2 : ℚ) = 1 / 2 := by
    have := fh 1 (by norm_num)
    norm_num at this
    exact this
  have f2 : fl32 (21 / 2 : ℚ) = 21 / 2 := by
    have := fh 21 (by norm_num)
    norm_num at this
    exact this
  have f3 : fl32 (137 / 2 : ℚ) = 137 / 2 := by
    have := fh 137 (by norm_num)
    norm_num at this
    exact this
  have f4 : fl32 (40 : ℚ) = 40 := by
    have := fi 40 (by norm_num)
    norm_num at this
    exact this
  have f5 : fl32 (98 : ℚ) = 98 := by
    have := fi 98 (by norm_num)
    norm_num at this
    exact this
  have f6 : fl32 (217 / 2 : ℚ) = 217 / 2 := by
    have := fh 217 (by norm_num)
    norm_num at this
    exact this
  have f7 : fl32 (950 : ℚ) = 950 := by
    have := fi 950 (by norm_num)
    norm_num at this
    exact this
  have f8 : fl32 (1899 / 2 : ℚ) = 1899 / 2 := by
    have := fh 1899 (by norm_num)
    norm_num at this
    exact this
  have f9 : fl32 (1901 / 2 : ℚ) = 1901 / 2 := by
    have := fh 1901 (by norm_num)
    norm_num at this
    exact this
  have f10 : fl32 (100 : ℚ) = 100 := by
    have := fi 100 (by norm_num)
    norm_num at this
    exact this
  have f11 : fl32 (201 / 2 : ℚ) = 201 / 2 := by
    have := fh 201 (by norm_num)
    norm_num at this
    exact this
  have f12 : fl32 (199 / 2 : ℚ) = 199 / 2 := by
    have := fh 199 (by norm_num)
    norm_num at this
    exact this
  have f13 : fl32 (104 : ℚ) = 104 := by
    have := fi 104 (by norm_num)
    norm_num at this
    exact this
  have f14 : fl32 (209 / 2 : ℚ) = 209 / 2 := by
    have := fh 209 (by norm_num)
    norm_num at this
    exact this
  have f15 : fl32 (207 / 2 : ℚ) = 207 / 2 := by
    have := fh 207 (by norm_num)
    norm_num at this
    exact this
  have f16 : fl32 (69 / 2 : ℚ) = 69 / 2 := by
    have := fh 69 (by norm_num)
    norm_num at this
    exact this
  have f17 : fl32 (60 : ℚ) = 60 := by
    have := fi 60 (by norm_num)
    norm_num at this
    exact this
  have f18 : fl32 (64 : ℚ) = 64 := by
    have := fi 64 (by norm_num)
    norm_num at this
    exact this
  have f19 : fl32 (24 : ℚ) = 24 := by
    have := fi 24 (by norm_num)
    norm_num at this
    exact this
  have f20 : fl32 (6 : ℚ) = 6 := by
    have := fi 6 (by norm_num)
    norm_num at this
    exact this
  have f21 : fl32 (2 : ℚ) = 2 := by
    have := fi 2 (by norm_num)
    norm_num at this
    exact this
  have e0 : fl32 ((10 : ℚ) + gravityFl fl32 false) = 21 / 2 := by
    simp only [gravityFl, gravity, GRAVITY_NORMAL]
    norm_num [f1, f2]
  have e1 : fl32 ((58 : ℚ) + 21 / 2) = 137 / 2 := by
    norm_num [f3]
  have hz0 : (0.0 : ℚ) = 0 := by norm_num
  constructor
  · rw [(avocadoAIFl_y fl32 false p stairAvocado stairTiles).1,
      (avocadoAIFl_y fl32 false p stairAvocado stairTiles).2]
    simp only [stairAvocado, stairTiles, e0, e1, h1, h2]
    rw [avocadoTilesFl_skip, avocadoTilesFl_snap, avocadoTilesFl_skip]
    · exact ⟨by norm_num [avocadoTilesFl, platformAt, f17], rfl⟩
    · simp only [groundTile, platformAt, overlapX, EPS, MAX_STEP, WORLD_GROUND_TOP]
      norm_num [f4, f5, f10, f13, f14, f15, f17, f19, f20]
    · simp only [groundTile, platformAt, overlapX, EPS, MAX_STEP, WORLD_GROUND_TOP]
      norm_num [f2, f3, f4, f5, f6, f10, f11, f12, f16]
    · simp only [groundTile, platformAt, overlapX, EPS, MAX_STEP, WORLD_GROUND_TOP]
      norm_num [f2, f3, f4, f5, f6, f7, f8, f9]
  · rw [(avocadoAIFl_y fl32 false p stairAvocado stairTilesRev).1,
      (avocadoAIFl_y fl32 false p stairAvocado stairTilesRev).2]
    simp only [stairAvocado, stairTilesRev, e0, e1, h1, h2]
    rw [avocadoTilesFl_skip, avocadoTilesFl_snap, avocadoTilesFl_snap]
    · exact ⟨by norm_num [avocadoTilesFl, platformAt, f17], rfl⟩
    · simp only [groundTile, platformAt, overlapX, EPS, MAX_STEP, WORLD_GROUND_TOP]
      norm_num [f4, f5, f10, f11, f12, f13, f18, f19, f20]
    · simp only [groundTile, platformAt, overlapX, EPS, MAX_STEP, WORLD_GROUND_TOP]
      norm_num [f2, f3, f4, f5, f6, f13, f14, f15, f16]
    · simp only [groundTile, platformAt, overlapX, EPS, MAX_STEP, WORLD_GROUND_TOP]
      norm_num [f2, f3, f4, f5, f6, f7, f8, f9]

/-- The player's resolver in binary32 arithmetic on `fallingSprite` over a list
made of the ground and the two platforms of the step: it registers a landing on
the lower platform (top `104`) and sets `y = 6`. -/
lemma fallingSprite_lands_lower (tiles : List Tile) (hm : platformAt 264 116 ∈ tiles)
    (hall : ∀ t ∈ tiles, t = groundTile ∨ t = platformAt 136 112 ∨ t = platformAt 264 116) :
    ∃ k : Nat, tiles[k]? = some (platformAt 264 116) ∧
      (Sprite.handleInputFl fl32 fallingSprite false 0 (fun v => v) 0 noKeys tiles true).2
        = (k : Int) ∧
      (Sprite.handleInputFl fl32 fallingSprite false 0 (fun v => v) 0 noKeys tiles true).1.y = 6 ∧
      (Sprite.handleInputFl fl32 fallingSprite false 0 (fun v => v) 0 noKeys tiles
        true).1.collisionRect.y
        + (Sprite.handleInputFl fl32 fallingSprite false 0 (fun v => v) 0 noKeys tiles
          true).1.collisionRect.h = 104 := by
  obtain ⟨candB, ncandG⟩ := fallingSprite_stairFl
  have hwf : fallingSprite.SizeOk := Sprite.sizeOk_sample 134 34 (0 : ℚ) 0 10 false 0
  obtain ⟨⟨-, hdst, -, -⟩, hcase⟩ := Sprite.handleInputFl_cases fl32 fallingSprite false 0
    (fun v => v) 0 noKeys tiles true
  obtain ⟨-, -, -, -, -, -, -, hmd⟩ :=
    Sprite.moveAndAnimateFl_fields fl32 fallingSprite 0 noKeys true
  have hh1 : fallingSprite.collisionRect.h = 94 := by
    simp only [fallingSprite, Sprite.sample, Sprite.collisionRect, HITBOX_SHRINK_Y]
    norm_num
  have hch : (Sprite.collisionRect (Sprite.moveAndAnimateFl fl32 fallingSprite 0 noKeys true)).h
      = 94 := by
    rw [Sprite.collisionRect_h, (hmd hwf).2, ← Sprite.collisionRect_h, hh1]
  have hrh : (Sprite.handleInputFl fl32 fallingSprite false 0 (fun v => v) 0 noKeys tiles
      true).1.collisionRect.h = 94 := by
    rw [Sprite.collisionRect_h, hdst, ← Sprite.collisionRect_h, hch]
  rcases hcase with ⟨-, -, -, -, -, hnone⟩ | ⟨k, u, hk, hq, hidx, -, hmax, hy, -⟩
  · exact absurd (hnone _ hm candB) (by decide)
  · obtain ⟨j, hj⟩ := List.getElem?_of_mem hm
    have h1 : (104 : Int) ≤ u.rect.y := (hmax j _ hj candB).1
    have hu : u = platformAt 264 116 := by
      rcases hall u (List.getElem?_mem hk) with h | h | h
      · rw [h] at hq
        exact absurd hq ncandG
      · rw [h] at h1
        exact absurd h1 (by decide)
      · exact h
    have f1 : fl32 (104 : ℚ) = 104 := by
      have := fl32_intCast 104 (by norm_num)
      norm_num at this
      exact this
    have f2 : fl32 (98 : ℚ) = 98 := by
      have := fl32_intCast 98 (by norm_num)
      norm_num at this
      exact this
    have f3 : fl32 (6 : ℚ) = 6 := by
      have := fl32_intCast 6 (by norm_num)
      norm_num at this
      exact this
    have hy6 : toInt (6 : ℚ) = 6 := by
      have : (6 : ℚ) = ((6 : Int) : ℚ) := by norm_num
      rw [this, toInt_intCast]
    have hyv : (Sprite.handleInputFl fl32 fallingSprite false 0 (fun v => v) 0 noKeys tiles
        true).1.y = 6 := by
      rw [hy, hch, hu]
      simp only [platformAt, HITBOX_SHRINK_Y]
      norm_num [f1, f2, f3]
    refine ⟨k, by rw [hk, hu], hidx, hyv, ?_⟩
    rw [hrh, Sprite.collisionRect_y, hyv, hy6]
    simp only [HITBOX_SHRINK_Y]
    norm_num

/-- C4 (the code at the failing input). In binary32 arithmetic, a sprite of
render size 402 by 102 falling at `velY = 10` from `y = 0` onto the seam of two
adjacent platforms with tops `100` and `104` (tiles 1 and 2 of `stairTiles`):
both are landing candidates, and `Sprite::handleInput` returns index `2` and
sets `y = 6`, which puts the collision box's bottom on `104`, the lower
platform, 4 units inside the upper one; with the two platforms in the other
order it lands on `104` as well.  The enemy resolver `avocadoAI` on the same
step, for an enemy with the same previous bottom `98` and the same fall, ends
with `y = 60`, its bottom on the upper platform's top `100`, in either order of
the platforms. -/
theorem landing_selection_diverges :
    Sprite.landingCandidateFl fl32 fallingSprite false 0 noKeys true (platformAt 136 112) ∧
    Sprite.landingCandidateFl fl32 fallingSprite false 0 noKeys true (platformAt 264 116) ∧
    (platformAt 136 112).rect.y = 100 ∧ (platformAt 264 116).rect.y = 104 ∧
    stairTiles[1]? = some (platformAt 136 112) ∧ stairTiles[2]? = some (platformAt 264 116) ∧
    (Sprite.handleInputFl fl32 fallingSprite false 0 (fun v => v) 0 noKeys stairTiles true).2
      = 2 ∧
    (Sprite.handleInputFl fl32 fallingSprite false 0 (fun v => v) 0 noKeys stairTiles true).1.y
      = 6 ∧
    (Sprite.handleInputFl fl32 fallingSprite false 0 (fun v => v) 0 noKeys stairTiles
      true).1.collisionRect.y
      + (Sprite.handleInputFl fl32 fallingSprite false 0 (fun v => v) 0 noKeys stairTiles
        true).1.collisionRect.h = 104 ∧
    (Sprite.handleInputFl fl32 fallingSprite false 0 (fun v => v) 0 noKeys stairTilesRev true).2
      = 1 ∧
    (Sprite.handleInputFl fl32 fallingSprite false 0 (fun v => v) 0 noKeys stairTilesRev
      true).1.y = 6 ∧
    stairAvocado.y + (stairAvocado.h : ℚ) = 98 ∧
    (avocadoAIFl fl32 false fallingSprite stairAvocado stairTiles).y
      + ((avocadoAIFl fl32 false fallingSprite stairAvocado stairTiles).h : ℚ) = 100 ∧
    (avocadoAIFl fl32 false fallingSprite stairAvocado stairTilesRev).y
      + ((avocadoAIFl fl32 false fallingSprite stairAvocado stairTilesRev).h : ℚ) = 100 := by
  obtain ⟨k, hk, hidx, hy, hb⟩ := fallingSprite_lands_lower stairTiles (by simp [stairTiles])
    (by simp [stairTiles])
  obtain ⟨k2, hk2, hidx2, hy2, -⟩ := fallingSprite_lands_lower stairTilesRev
    (by simp [stairTilesRev]) (by
      intro t ht
      simp only [stairTilesRev, List.mem_cons, List.mem_singleton, List.not_mem_nil,
        or_false] at ht
      tauto)
  have hkv : k = 2 := by
    rcases k with _ | _ | _ | k
    · exact absurd hk (by decide)
    · exact absurd hk (by decide)
    · rfl
    · simp [stairTiles] at hk
  have hkv2 : k2 = 1 := by
    rcases k2 with _ | _ | k2
    · exact absurd hk2 (by decide)
    · rfl
    · rcases k2 with _ | k2
      · exact absurd hk2 (by decide)
      · simp [stairTilesRev] at hk2
  subst hkv
  subst hkv2
  obtain ⟨⟨ha1, hh1⟩, ha2, hh2⟩ := stairAvocado_lands fallingSprite
  refine ⟨fallingSprite_candidateFl, fallingSprite_stairFl.1, rfl, rfl, rfl, rfl, hidx, hy, hb,
    hidx2, hy2, ?_, ?_, ?_⟩
  · simp only [stairAvocado]
    norm_num
  · rw [ha1, hh1]
    norm_num
  · rw [ha2, hh2]
    norm_num

end LandingSelection

/-! ## Hits, hit points and the score -/

section HitScoring

variable {F : Type} [LinearOrderedField F] [FloorRing F]

/-- The enemy loop for a knife that registers on no enemy: nothing changes. -/
lemma hitAvocados_miss (now : Nat) (kr : SDL_Rect) (avs : List (Avocado F))
    (h : ∀ b ∈ avs, registers kr b = false) : hitAvocados now kr avs = (avs, false, 0) := by
  induction avs with
  | nil => rfl
  | cons a rest ih =>
    have hr := ih (fun b hb => h b (List.mem_cons_of_mem _ hb))
    have ha := h a (List.mem_cons_self _ _)
    rw [hitAvocados]
    dsimp only
    by_cases h1 : a.w = 0 ∨ a.h = 0
    · rw [if_pos h1, hr]
    · have h2 : ¬ SDL_HasIntersection kr { x := toInt a.x, y := toInt a.y, w := a.w, h := a.h }
          = true := by
        intro h2
        unfold registers at ha
        rw [h2] at ha
        simp at ha
        exact h1 (by tauto)
      rw [if_neg h1, if_neg h2, hr]

/-- The enemy loop for a knife whose first registering enemy is `a`: only `a`
changes, the knife is used up, and the hit is booked as lines 798-800 say. -/
lemma hitAvocados_register (now : Nat) (kr : SDL_Rect) (pre post : List (Avocado F))
    (a : Avocado F) (hpre : ∀ b ∈ pre, registers kr b = false) (ha : registers kr a = true) :
    ∃ (b : Avocado F) (inc : Int),
      hitAvocados now kr (pre ++ a :: post) = (pre ++ b :: post, true, inc) ∧
      (a.split = true → b = a ∧ inc = 0) ∧
      (a.split = false → b.hp = a.hp - KNIFE_DMG ∧
        (a.hp - KNIFE_DMG ≤ 0 →
          b.split = true ∧ b.counted = true ∧
          b.splitUntilMS = u32add now AVOCADO_SPLIT_SHOWMS ∧
          (a.counted = false → inc = 1) ∧ (a.counted = true → inc = 0)) ∧
        (0 < a.hp - KNIFE_DMG → b.split = false ∧ b.counted = a.counted ∧ inc = 0)) := by
  induction pre with
  | nil =>
    unfold registers at ha
    rw [Bool.and_eq_true] at ha
    obtain ⟨ha1, ha2⟩ := ha
    have hnz : ¬ (a.w = 0 ∨ a.h = 0) := by
      intro hc
      rcases hc with hc | hc <;> simp [hc] at ha1
    rw [List.nil_append, hitAvocados]
    dsimp only
    rw [if_neg hnz, if_pos ha2]
    by_cases hsp : a.split = true
    · have e : ¬ (!a.split) = true := by simp [hsp]
      rw [if_neg e]
      exact ⟨a, 0, rfl, fun _ => ⟨rfl, rfl⟩, fun hc => absurd (hsp.symm.trans hc) (by decide)⟩
    · have hsf : a.split = false := by simpa using hsp
      have e : (!a.split) = true := by simp [hsf]
      rw [if_pos e]
      by_cases hhp : a.hp - KNIFE_DMG ≤ 0
      · rw [if_pos hhp]
        by_cases hc : a.counted = true
        · have e2 : ¬ (!a.counted) = true := by simp [hc]
          rw [if_neg e2]
          exact ⟨_, 0, rfl, fun h => absurd (hsf.symm.trans h) (by decide),
            fun _ => ⟨rfl, fun _ => ⟨rfl, hc, rfl, fun h => absurd (h.symm.trans hc) (by decide),
              fun _ => rfl⟩, fun h => absurd hhp (not_le.mpr h)⟩⟩
        · have hcf : a.counted = false := by simpa using hc
          have e2 : (!a.counted) = true := by simp [hcf]
          rw [if_pos e2]
          exact ⟨_, 1, rfl, fun h => absurd (hsf.symm.trans h) (by decide),
            fun _ => ⟨rfl, fun _ => ⟨rfl, rfl, rfl, fun _ => rfl,
              fun h => absurd (hcf.symm.trans h) (by decide)⟩,
              fun h => absurd hhp (not_le.mpr h)⟩⟩
      · rw [if_neg hhp]
        exact ⟨_, 0, rfl, fun h => absurd (hsf.symm.trans h) (by decide),
          fun _ => ⟨rfl, fun h => absurd h hhp, fun _ => ⟨hsf, rfl, rfl⟩⟩⟩
  | cons c pre ih =>
    obtain ⟨b, inc, h1, h2, h3⟩ := ih (fun x hx => hpre x (List.mem_cons_of_mem _ hx))
    have hc := hpre c (List.mem_cons_self _ _)
    refine ⟨b, inc, ?_, h2, h3⟩
    rw [List.cons_append, hitAvocados]
    dsimp only
    by_cases q1 : c.w = 0 ∨ c.h = 0
    · rw [if_pos q1, h1]
      rfl
    · have q2 : ¬ SDL_HasIntersection kr { x := toInt c.x, y := toInt c.y, w := c.w, h := c.h }
          = true := by
        intro q2
        unfold registers at hc
        rw [q2] at hc
        simp at hc
        exact q1 (by tauto)
      rw [if_neg q1, if_neg q2, h1]
      rfl

/-- The knife loop runs the enemy loop once per active knife, in order; the
enemies and the score it leaves are those of the last run. -/
lemma hitKnives_fold (now : Nat) (ks : List (Knife F)) (avs : List (Avocado F)) (score : Int) :
    (hitKnives now ks avs score).2 = ks.foldl (knifeHit now) (avs, score) := by
  induction ks generalizing avs score with
  | nil => rfl
  | cons k ks ih =>
    rw [hitKnives, List.foldl_cons]
    dsimp only
    unfold knifeHit
    cases hk : k.active with
    | true =>
      simp only [Bool.not_true, Bool.false_eq_true, if_false, if_true]
      exact ih _ _
    | false =>
      simp only [Bool.not_false, if_true, Bool.false_eq_true, if_false]
      exact ih _ _

/-- The knives that enter the hit detection are the knives of the frame's start
moved by `moveKnife`; the enemies are those of the frame's start moved by the
enemy step; score and game-over flag are those of the frame's start. -/
lemma hitLoopEntry_fields (sqrt cos : F → F) (pi : F) (now : Nat) (dt : F) (keys : Keys)
    (g : Game F) :
    (hitLoopEntry sqrt cos pi now dt keys g).knives = g.knives.map (moveKnife now) ∧
    (hitLoopEntry sqrt cos pi now dt keys g).avocadosCollected = g.avocadosCollected ∧
    (hitLoopEntry sqrt cos pi now dt keys g).gameOver = g.gameOver ∧
    (g.gameOver = false →
      ∃ p : Sprite F, (hitLoopEntry sqrt cos pi now dt keys g).avocados
        = g.avocados.map (stepAvocado now g.MOON_MODE p g.allTiles)) := by
  have h1 : ∀ x : Game F, (releasePhase sqrt x).knives = x.knives ∧
      (releasePhase sqrt x).MOON_MODE = x.MOON_MODE := by
    intro x
    unfold releasePhase
    split_ifs <;> exact ⟨rfl, rfl⟩
  have h2 : ∀ x : Game F, (latchedPhase sqrt dt x).knives = x.knives ∧
      (latchedPhase sqrt dt x).MOON_MODE = x.MOON_MODE := by
    intro x
    unfold latchedPhase
    split_ifs <;> exact ⟨rfl, rfl⟩
  have h2b : ∀ x : Game F, (shootingPhase dt x).knives = x.knives ∧
      (shootingPhase dt x).MOON_MODE = x.MOON_MODE := by
    intro x
    exact ⟨rfl, rfl⟩
  have h3 : ∀ x : Game F, (rechargePhase now x).knives = x.knives ∧
      (rechargePhase now x).MOON_MODE = x.MOON_MODE := by
    intro x
    unfold rechargePhase
    split_ifs <;> exact ⟨rfl, rfl⟩
  have h4 : (playerPhase now cos pi keys g).knives = g.knives ∧
      (playerPhase now cos pi keys g).MOON_MODE = g.MOON_MODE := by
    unfold playerPhase
    dsimp only
    split_ifs <;> exact ⟨rfl, rfl⟩
  have h5 : ∀ (x : Game F), (avocadoPhase now g.allTiles x).knives = x.knives ∧
      (avocadoPhase now g.allTiles x).avocadosCollected = x.avocadosCollected ∧
      (avocadoPhase now g.allTiles x).gameOver = x.gameOver := by
    intro x
    unfold avocadoPhase
    split_ifs <;> exact ⟨rfl, rfl, rfl⟩
  obtain ⟨p1, p2, p3⟩ := earlyPhases_avocados sqrt cos pi now dt keys g
  have hk : (releasePhase sqrt (latchedPhase sqrt dt (shootingPhase dt (knifePhase now
      (rechargePhase now (playerPhase now cos pi keys g)))))).knives
      = g.knives.map (moveKnife now) := by
    rw [(h1 _).1, (h2 _).1, (h2b _).1]
    show ((rechargePhase now _).knives).map (moveKnife now) = _
    rw [(h3 _).1, h4.1]
  have hm : (releasePhase sqrt (latchedPhase sqrt dt (shootingPhase dt (knifePhase now
      (rechargePhase now (playerPhase now cos pi keys g)))))).MOON_MODE = g.MOON_MODE := by
    rw [(h1 _).2, (h2 _).2, (h2b _).2]
    show (rechargePhase now _).MOON_MODE = _
    rw [(h3 _).2, h4.2]
  unfold hitLoopEntry
  refine ⟨?_, ?_, ?_, ?_⟩
  · rw [(h5 _).1, hk]
  · rw [(h5 _).2.1, p2]
  · rw [(h5 _).2.2, p3]
  · intro hgo
    refine ⟨(releasePhase sqrt (latchedPhase sqrt dt (shootingPhase dt (knifePhase now
      (rechargePhase now (playerPhase now cos pi keys g)))))).player, ?_⟩
    unfold avocadoPhase
    rw [if_pos (by rw [p3, hgo]; rfl), hm, p1]

lemma book_filter {l1 l2 : List (Avocado F)} (h : List.Forall₂ Avocado.SameBook l1 l2) :
    List.Forall₂ Avocado.SameBook (l1.filter Avocado.nonzero) (l2.filter Avocado.nonzero) := by
  induction h with
  | nil => exact List.Forall₂.nil
  | @cons a b r1 r2 hab _ ih =>
    have hn : b.nonzero = a.nonzero := by
      unfold Avocado.nonzero
      rw [hab.1, hab.2.1]
    rw [List.filter_cons, List.filter_cons, hn]
    split_ifs
    · exact List.Forall₂.cons hab ih
    · exact ih

/-- The score and the enemies at the end of a frame of a game that is not over
are those the knife loop leaves from the state entering hit detection; contact
damage and the compacting pass change no hit points, split flag or `counted`
flag and remove the enemies of size zero. -/
lemma frameUpdate_hits (sqrt cos : F → F) (pi : F) (now : Nat) (dt : F) (keys : Keys)
    (g : Game F) (hgo : g.gameOver = false) :
    (frameUpdate sqrt cos pi now dt keys g).avocadosCollected
      = ((hitLoopEntry sqrt cos pi now dt keys g).knives.foldl (knifeHit now)
          ((hitLoopEntry sqrt cos pi now dt keys g).avocados, g.avocadosCollected)).2 ∧
    List.Forall₂ Avocado.SameBook
      (((hitLoopEntry sqrt cos pi now dt keys g).knives.foldl (knifeHit now)
          ((hitLoopEntry sqrt cos pi now dt keys g).avocados, g.avocadosCollected)).1.filter
        Avocado.nonzero)
      (frameUpdate sqrt cos pi now dt keys g).avocados := by
  obtain ⟨-, e2, e3, -⟩ := hitLoopEntry_fields sqrt cos pi now dt keys g
  have hfu : frameUpdate sqrt cos pi now dt keys g
      = gameOverPhase (prunePhase (contactPhase now (hitPhase now
          (hitLoopEntry sqrt cos pi now dt keys g)))) := rfl
  generalize hitLoopEntry sqrt cos pi now dt keys g = x at e2 e3 hfu
  have hng : (!x.gameOver) = true := by rw [e3, hgo]; rfl
  have hfold := hitKnives_fold now x.knives x.avocados x.avocadosCollected
  have e5 : ∀ y : Game F, (gameOverPhase y).avocados = y.avocados ∧
      (gameOverPhase y).avocadosCollected = y.avocadosCollected := by
    intro y
    unfold gameOverPhase
    split_ifs <;> exact ⟨rfl, rfl⟩
  have h1 : (hitPhase now x).avocados = (hitKnives now x.knives x.avocados x.avocadosCollected).2.1
      ∧ (hitPhase now x).avocadosCollected
        = (hitKnives now x.knives x.avocados x.avocadosCollected).2.2
      ∧ (hitPhase now x).gameOver = x.gameOver := by
    unfold hitPhase
    rw [if_pos hng]
    exact ⟨rfl, rfl, rfl⟩
  have h2 : (contactPhase now (hitPhase now x)).avocados
      = (contactLoop now (hitPhase now x).player.worldRect (hitPhase now x).avocados
          (hitPhase now x).playerHP).1 ∧
      (contactPhase now (hitPhase now x)).avocadosCollected = (hitPhase now x).avocadosCollected := by
    unfold contactPhase
    rw [if_pos (by rw [h1.2.2]; exact hng)]
    exact ⟨rfl, rfl⟩
  have c1 := contactLoop_book now (hitPhase now x).player.worldRect (hitPhase now x).avocados
    (hitPhase now x).playerHP
  rw [hfu, (e5 _).1, (e5 _).2, prunePhase_avocados]
  have e4 : (prunePhase (contactPhase now (hitPhase now x))).avocadosCollected
      = (contactPhase now (hitPhase now x)).avocadosCollected := rfl
  rw [e4, h2.1, h2.2, h1.2.1, ← e2, ← hfold]
  refine ⟨rfl, ?_⟩
  have := book_filter c1
  rw [h1.1]
  rw [h1.1] at this
  exact this

/-- The enemies that enter the hit detection have consistent bookkeeping when
those of the frame's start have. -/
lemma hitLoopEntry_sound (sqrt cos : F → F) (pi : F) (now : Nat) (dt : F) (keys : Keys)
    (g : Game F) (hgo : g.gameOver = false) (hs : ∀ a ∈ g.avocados, a.Sound) :
    ∀ b ∈ (hitLoopEntry sqrt cos pi now dt keys g).avocados, b.Sound := by
  obtain ⟨-, -, -, ea⟩ := hitLoopEntry_fields sqrt cos pi now dt keys g
  obtain ⟨p, hp⟩ := ea hgo
  rw [hp]
  intro b hb
  obtain ⟨a, ha, rfl⟩ := List.mem_map.mp hb
  obtain ⟨f1, f2, f3⟩ := stepAvocado_flags now g.MOON_MODE p g.allTiles a
  obtain ⟨g1, g2⟩ := hs a ha
  exact ⟨fun hc => f2.trans (g1 (f3.symm.trans hc)), fun hb => by
    rw [f1]
    exact g2 (f2.symm.trans hb)⟩

/-- C14. Enemy scoring.  (1) A knife that registers on an enemy (the first
enemy of non-zero size its rectangle intersects) is used up and changes that
enemy only: an enemy that is already split keeps its hit points and the score
does not move; an enemy that is not split loses `KNIFE_DMG` hit points, and if
that brings its hit points to zero or below it becomes split and counted and the
score increment is `1` (`0` had it been counted before, which consistent
bookkeeping excludes), otherwise it stays unsplit and the increment is `0`.
(2) A knife that registers on no enemy changes nothing.  (3) In a frame of a
game that is not over, the score and the enemies at the end of the frame are
those left by running (1)-(2) once per active knife, in order, from the state
entering hit detection, whose enemies have consistent bookkeeping; every enemy
the frame keeps meets its `Fate` (once split, hit points, split flag and
`counted` flag no longer change whatever hits register; split only with hit
points zero or below), and the score grows by exactly the number of enemies that
became split in the frame.  (4) In a game-over frame the score does not change.
(5) Consistent bookkeeping (as spawned) is kept, so the same holds for every
later frame. -/
theorem enemy_scoring (sqrt cos : F → F) (pi : F) (now : Nat) (dt : F) (keys : Keys)
    (g : Game F) (hs : ∀ a ∈ g.avocados, a.Sound) :
    (∀ (kr : SDL_Rect) (pre post : List (Avocado F)) (a : Avocado F),
      (∀ b ∈ pre, registers kr b = false) → registers kr a = true →
      ∃ (b : Avocado F) (inc : Int),
        hitAvocados now kr (pre ++ a :: post) = (pre ++ b :: post, true, inc) ∧
        (a.split = true → b = a ∧ inc = 0) ∧
        (a.split = false → b.hp = a.hp - KNIFE_DMG ∧
          (a.hp - KNIFE_DMG ≤ 0 →
            b.split = true ∧ b.counted = true ∧
            b.splitUntilMS = u32add now AVOCADO_SPLIT_SHOWMS ∧
            (a.counted = false → inc = 1) ∧ (a.counted = true → inc = 0)) ∧
          (0 < a.hp - KNIFE_DMG → b.split = false ∧ b.counted = a.counted ∧ inc = 0))) ∧
    (∀ (kr : SDL_Rect) (avs : List (Avocado F)),
      (∀ b ∈ avs, registers kr b = false) → hitAvocados now kr avs = (avs, false, 0)) ∧
    (g.gameOver = false →
      (∀ a ∈ (hitLoopEntry sqrt cos pi now dt keys g).avocados, a.Sound) ∧
      (frameUpdate sqrt cos pi now dt keys g).avocadosCollected
        = ((hitLoopEntry sqrt cos pi now dt keys g).knives.foldl (knifeHit now)
            ((hitLoopEntry sqrt cos pi now dt keys g).avocados, g.avocadosCollected)).2 ∧
      List.Forall₂ Avocado.SameBook
        (((hitLoopEntry sqrt cos pi now dt keys g).knives.foldl (knifeHit now)
            ((hitLoopEntry sqrt cos pi now dt keys g).avocados, g.avocadosCollected)).1.filter
          Avocado.nonzero)
        (frameUpdate sqrt cos pi now dt keys g).avocados ∧
      List.Forall₂ Avocado.Fate (g.avocados.filter (keptAvocado now))
        (frameUpdate sqrt cos pi now dt keys g).avocados ∧
      (frameUpdate sqrt cos pi now dt keys g).avocadosCollected
        = g.avocadosCollected
          + newlySplit (g.avocados.filter (keptAvocado now))
              (frameUpdate sqrt cos pi now dt keys g).avocados) ∧
    (g.gameOver = true →
      (frameUpdate sqrt cos pi now dt keys g).avocados = g.avocados.filter Avocado.nonzero ∧
      (frameUpdate sqrt cos pi now dt keys g).avocadosCollected = g.avocadosCollected) ∧
    (∀ b ∈ (frameUpdate sqrt cos pi now dt keys g).avocados, b.Sound) := by
  obtain ⟨hA, hB, hC⟩ := enemy_scoring_frame sqrt cos pi now dt keys g hs
  refine ⟨fun kr pre post a => hitAvocados_register now kr pre post a,
    fun kr avs => hitAvocados_miss now kr avs, fun hgo => ?_, hB, hC⟩
  obtain ⟨h1, h2⟩ := frameUpdate_hits sqrt cos pi now dt keys g hgo
  exact ⟨hitLoopEntry_sound sqrt cos pi now dt keys g hgo hs, h1, h2, (hA hgo).1, (hA hgo).2⟩

lemma flyingKnife_move :
    moveKnife 100 flyingKnife = { flyingKnife with x := 1193, angleDeg := 72 } := by
  simp [moveKnife, flyingKnife, u32sub, KNIFE_LIFETIME_MS]
  norm_num

lemma freshAvocado_step (p : Sprite ℚ) :
    stepAvocado 100 false p [groundTile] freshAvocado
      = { freshAvocado with y := 1805 / 2, vy := 1 / 2 } := by
  have h1 : toInt (1200 : ℚ) = 1200 := by
    have : (1200 : ℚ) = ((1200 : Int) : ℚ) := by norm_num
    rw [this, toInt_intCast]
  have h2 : toInt ((1805 : ℚ) / 2) = 902 :=
    toInt_of_floor (by norm_num) (by norm_num) (by norm_num)
  simp only [stepAvocado, avocadoAI, avocadoTiles, freshAvocado, groundTile, overlapX, gravity,
    GRAVITY_NORMAL, EPS, MAX_STEP, WORLD_GROUND_TOP]
  norm_num [h1, h2]

/-- The hit detection of a frame at tick `100` on `sliceGame`, from the state
entering it: the first knife takes one of the enemy's two hit points, the second
one splits it and scores; the third knife registers on the split enemy and
changes neither the hit points nor the score. -/
lemma sliceGame_entry_hits :
    ((hitLoopEntry (fun v => v) (fun v => v) 0 100 (1 / 60) noKeys sliceGame).knives.foldl
        (knifeHit 100)
        ((hitLoopEntry (fun v => v) (fun v => v) 0 100 (1 / 60) noKeys sliceGame).avocados,
          sliceGame.avocadosCollected))
      = ([{ freshAvocado with y := 1805 / 2, vy := 1 / 2, hp := 0, split := true
                              splitUntilMS := 750, counted := true }], 1) := by
  obtain ⟨ek, -, -, ea⟩ :=
    hitLoopEntry_fields (fun v : ℚ => v) (fun v => v) 0 100 (1 / 60) noKeys sliceGame
  obtain ⟨p, hp⟩ := ea rfl
  have hk : sliceGame.knives = [flyingKnife, flyingKnife, flyingKnife] := rfl
  have ha : sliceGame.avocados = [freshAvocado] := rfl
  have ht : sliceGame.allTiles = [groundTile] := rfl
  have hm : sliceGame.MOON_MODE = false := rfl
  have hsc : sliceGame.avocadosCollected = 0 := rfl
  rw [ek, hp, hk, ha, ht, hm, hsc]
  simp only [List.map_cons, List.map_nil, flyingKnife_move, freshAvocado_step]
  have h1 : toInt (1193 : ℚ) = 1193 := by
    have : (1193 : ℚ) = ((1193 : Int) : ℚ) := by norm_num
    rw [this, toInt_intCast]
  have h2 : toInt (910 : ℚ) = 910 := by
    have : (910 : ℚ) = ((910 : Int) : ℚ) := by norm_num
    rw [this, toInt_intCast]
  have h3 : toInt (1200 : ℚ) = 1200 := by
    have : (1200 : ℚ) = ((1200 : Int) : ℚ) := by norm_num
    rw [this, toInt_intCast]
  have h4 : toInt ((1805 : ℚ) / 2) = 902 :=
    toInt_of_floor (by norm_num) (by norm_num) (by norm_num)
  simp [knifeHit, Knife.rect, hitAvocados, flyingKnife, freshAvocado, SDL_HasIntersection, h1, h2,
    h3, h4, AVOCADO_HP, KNIFE_DMG, u32add, AVOCADO_SPLIT_SHOWMS]

/-- Witness for `enemy_scoring`: a frame update at tick `100` of `sliceGame`,
whose one enemy has two hit points and is under three knives.  The score goes
from `0` to `1`, and the enemy ends with hit points `0`, split and counted. -/
theorem enemy_scoring_witness :
    (∀ a ∈ sliceGame.avocados, a.Sound) ∧
    sliceGame.gameOver = false ∧
    sliceGame.avocadosCollected = 0 ∧
    sliceGame.avocados.map (fun a => (a.hp, a.split, a.counted)) = [(2, false, false)] ∧
    (frameUpdate (fun v => v) (fun v => v) 0 100 (1 / 60) noKeys sliceGame).avocadosCollected
      = 1 ∧
    (frameUpdate (fun v => v) (fun v => v) 0 100 (1 / 60) noKeys sliceGame).avocados.map
      (fun a => (a.hp, a.split, a.counted)) = [(0, true, true)] := by
  have h := enemy_scoring (fun v : ℚ => v) (fun v => v) 0 100 (1 / 60) noKeys sliceGame
    sliceGame_sound
  obtain ⟨-, h1, h2, -, -⟩ := h.2.2.1 rfl
  rw [sliceGame_entry_hits] at h1 h2
  refine ⟨sliceGame_sound, rfl, rfl, rfl, h1, ?_⟩
  generalize (frameUpdate (fun v : ℚ => v) (fun v => v) 0 100 (1 / 60) noKeys sliceGame).avocados
    = l at h2 ⊢
  have hf : List.filter Avocado.nonzero
      [({ freshAvocado with y := 1805 / 2, vy := 1 / 2, hp := 0, split := true
                            splitUntilMS := 750, counted := true } : Avocado ℚ)]
      = [{ freshAvocado with y := 1805 / 2, vy := 1 / 2, hp := 0, split := true
                             splitUntilMS := 750, counted := true }] := by
    simp [Avocado.nonzero, freshAvocado]
  dsimp only at h2
  rw [hf] at h2
  cases h2 with
  | cons hab hrest =>
    cases hrest
    obtain ⟨-, -, e3, e4, e5, -⟩ := hab
    simp only [List.map_cons, List.map_nil, e3, e4, e5]

end HitScoring

/-! ## The Shooting phase in float arithmetic -/

section ShootingFloat

variable {F : Type} [LinearOrderedField F] [FloorRing F]

/-- With the identity as rounding, the `float` Shooting step is `shootingStep`. -/
lemma shootingStepFl_exact (dt : F) (w : Web F) :
    shootingStepFl (fun v => v) dt w = shootingStep dt w := rfl

/-- With the identity as rounding, the `float` iteration is `loopIteration`. -/
lemma loopIterationFl_exact (sqrt cos : F → F) (pi : F) (nowTick : Nat)
    (events : List (Ambient × Event)) (keys : Keys) (g : Game F) :
    loopIterationFl (fun v => v) sqrt cos pi nowTick events keys g
      = loopIteration sqrt cos pi nowTick events keys g := rfl

omit [FloorRing F] in
/-- The `float` Shooting step, for a grapple that is Shooting. -/
lemma shootingStepFl_shooting (fl : F → F) (dt : F) (w : Web F)
    (hs : w.state = WebState.Shooting) :
    (shootingStepFl fl dt w).curLen
      = min (fl (w.curLen + fl (w.shootSpeed * dt))) w.targetLen ∧
    ((shootingStepFl fl dt w).state = WebState.Latched
      ↔ fl (w.curLen + fl (w.shootSpeed * dt)) ≥ w.targetLen) ∧
    ((shootingStepFl fl dt w).state = WebState.Shooting
      ↔ ¬ fl (w.curLen + fl (w.shootSpeed * dt)) ≥ w.targetLen) ∧
    (shootingStepFl fl dt w).curLen ≤ (shootingStepFl fl dt w).targetLen ∧
    (shootingStepFl fl dt w).targetLen = w.targetLen ∧
    (shootingStepFl fl dt w).shootSpeed = w.shootSpeed ∧
    (shootingStepFl fl dt w).rmbHeld = w.rmbHeld := by
  unfold shootingStepFl
  rw [if_pos hs]
  dsimp only
  by_cases h : fl (w.curLen + fl (w.shootSpeed * dt)) ≥ w.targetLen
  · rw [if_pos h]
    refine ⟨(min_eq_right h).symm, ⟨fun _ => h, fun _ => rfl⟩, ⟨fun hh => ?_, fun hh => absurd h hh⟩,
      le_refl _, rfl, rfl, rfl⟩
    cases hh
  · rw [if_neg h]
    have hlt : fl (w.curLen + fl (w.shootSpeed * dt)) < w.targetLen := not_le.mp h
    refine ⟨(min_eq_left (le_of_lt hlt)).symm, ⟨fun hh => ?_, fun hh => absurd hh h⟩,
      ⟨fun _ => h, fun _ => hs⟩, le_of_lt hlt, rfl, rfl, rfl⟩
    rw [hs] at hh
    cases hh

omit [FloorRing F] in
lemma shootingStepFl_fields (fl : F → F) (dt : F) (w : Web F) :
    (shootingStepFl fl dt w).rmbHeld = w.rmbHeld ∧
    (w.state ≠ WebState.Shooting → shootingStepFl fl dt w = w) := by
  unfold shootingStepFl
  dsimp only
  split_ifs with h1 h2
  · exact ⟨rfl, fun h => absurd h1 h⟩
  · exact ⟨rfl, fun h => absurd h1 h⟩
  · exact ⟨rfl, fun _ => rfl⟩

/-- The grapple after a `float` frame update that starts with the cast button
held: the Shooting step, then the Latched step if the grapple is Latched by
then. -/
lemma frameUpdateFl_web_held (fl : F → F) (sqrt cos : F → F) (pi : F) (now : Nat) (dt : F)
    (keys : Keys) (g : Game F) (hh : g.web.rmbHeld = true) :
    (frameUpdateFl fl sqrt cos pi now dt keys g).web.rmbHeld = true ∧
    (frameUpdateFl fl sqrt cos pi now dt keys g).web.state = (shootingStepFl fl dt g.web).state ∧
    ((shootingStepFl fl dt g.web).state ≠ WebState.Latched →
      (frameUpdateFl fl sqrt cos pi now dt keys g).web = shootingStepFl fl dt g.web) := by
  unfold frameUpdateFl
  dsimp only
  obtain ⟨p1, -⟩ := playerPhase_web now cos pi keys g
  obtain ⟨r1, -⟩ := rechargePhase_web now (playerPhase now cos pi keys g)
  have w4 : (shootingPhaseFl fl dt (knifePhase now (rechargePhase now
      (playerPhase now cos pi keys g)))).web = shootingStepFl fl dt g.web := by
    show shootingStepFl fl dt (rechargePhase now (playerPhase now cos pi keys g)).web = _
    rw [r1, p1]
  have h4 : (shootingPhaseFl fl dt (knifePhase now (rechargePhase now
      (playerPhase now cos pi keys g)))).web.rmbHeld = true := by
    rw [w4, (shootingStepFl_fields fl dt g.web).1, hh]
  have h5 : (latchedPhase sqrt dt (shootingPhaseFl fl dt (knifePhase now (rechargePhase now
      (playerPhase now cos pi keys g))))).web.rmbHeld = true ∧
      (latchedPhase sqrt dt (shootingPhaseFl fl dt (knifePhase now (rechargePhase now
      (playerPhase now cos pi keys g))))).web.state = (shootingStepFl fl dt g.web).state ∧
      ((shootingStepFl fl dt g.web).state ≠ WebState.Latched →
        (latchedPhase sqrt dt (shootingPhaseFl fl dt (knifePhase now (rechargePhase now
        (playerPhase now cos pi keys g))))).web = shootingStepFl fl dt g.web) := by
    by_cases hl : (shootingPhaseFl fl dt (knifePhase now (rechargePhase now
        (playerPhase now cos pi keys g)))).web.state = WebState.Latched
    · obtain ⟨-, -, -, e4, e5, -⟩ := latchedPhase_web_held sqrt dt _ hl h4
      refine ⟨e5.trans h4, ?_, ?_⟩
      · rw [e4, w4]
      · intro hne
        rw [w4] at hl
        exact absurd hl hne
    · have : latchedPhase sqrt dt (shootingPhaseFl fl dt (knifePhase now (rechargePhase now
          (playerPhase now cos pi keys g))))
          = shootingPhaseFl fl dt (knifePhase now (rechargePhase now
          (playerPhase now cos pi keys g))) := by
        unfold latchedPhase
        rw [if_neg]
        exact fun h => hl h.1
      rw [this]
      exact ⟨h4, by rw [w4], fun _ => w4⟩
  rw [releasePhase_held sqrt _ h5.1]
  obtain ⟨t1, -⟩ := tailPhases_web now g.allTiles (latchedPhase sqrt dt (shootingPhaseFl fl dt
    (knifePhase now (rechargePhase now (playerPhase now cos pi keys g)))))
  rw [t1]
  exact h5

omit [FloorRing F] in
/-- Every frame time is at least the `float` constant `1.0f/240.0f`. -/
lemma frameDtFl_ge (fl : F → F) (nowTick prevTick : Nat) :
    fl (1 / 240) ≤ frameDtFl fl nowTick prevTick := by
  unfold frameDtFl
  have : (1.0 / 240.0 : F) = 1 / 240 := by norm_num
  rw [this]
  exact le_max_left _ _

omit [FloorRing F] in
lemma Web.SameCast.rfl_ (a : Web F) : Web.SameCast a a :=
  ⟨rfl, rfl, rfl, fun _ => ⟨rfl, rfl⟩⟩

omit [FloorRing F] in
lemma Web.SameCast.chain {a b c : Web F} (h1 : Web.SameCast a b) (h2 : Web.SameCast b c) :
    Web.SameCast a c := by
  obtain ⟨a1, a2, a3, a4⟩ := h1
  obtain ⟨b1, b2, b3, b4⟩ := h2
  refine ⟨b1.trans a1, b2.trans a2, b3.trans a3, fun hs => ?_⟩
  obtain ⟨c1, c2⟩ := a4 hs
  obtain ⟨d1, d2⟩ := b4 (a1.trans hs)
  exact ⟨d1.trans c1, d2.trans c2⟩

omit [FloorRing F] in
lemma Web.SameCast.of_eq {a b : Web F} (h : b = a) : Web.SameCast a b := by
  rw [h]
  exact Web.SameCast.rfl_ a

lemma keyDownAlive_cast (amb : Ambient) (sym : Keycode) (g : Game F) :
    Web.SameCast g.web (keyDownAlive amb sym g).web ∧
    (keyDownAlive amb sym g).dt = g.dt ∧ (keyDownAlive amb sym g).prevTick = g.prevTick := by
  have hsp : ∀ (fx fy : F) (y : Game F), (spawnAvocado fx fy y).web = y.web ∧
      (spawnAvocado fx fy y).dt = y.dt ∧ (spawnAvocado fx fy y).prevTick = y.prevTick := by
    intro fx fy y
    unfold spawnAvocado
    cases y.texAvo with
    | none => exact ⟨rfl, rfl, rfl⟩
    | some tk =>
      obtain ⟨aw, ah⟩ := tk
      dsimp only
      split_ifs <;> exact ⟨rfl, rfl, rfl⟩
  unfold keyDownAlive
  cases sym <;> first
    | exact ⟨⟨rfl, rfl, rfl, fun _ => ⟨rfl, rfl⟩⟩, rfl, rfl⟩
    | exact ⟨Web.SameCast.of_eq (hsp _ _ _).1, (hsp _ _ _).2.1, (hsp _ _ _).2.2⟩
    | (dsimp only; split_ifs <;> exact ⟨⟨rfl, rfl, rfl, fun _ => ⟨rfl, rfl⟩⟩, rfl, rfl⟩)

lemma onKeyDown_cast (amb : Ambient) (sym : Keycode) (g : Game F) (hr : sym ≠ Keycode.r) :
    Web.SameCast g.web (onKeyDown amb sym g).web := by
  unfold onKeyDown
  dsimp only
  rw [if_neg hr]
  split_ifs
  · exact (keyDownAlive_cast amb sym g).1
  · exact Web.SameCast.rfl_ _
  · exact Web.SameCast.rfl_ _

lemma onKeyDown_dt (amb : Ambient) (sym : Keycode) (g : Game F) :
    (onKeyDown amb sym g).dt = g.dt ∧ (onKeyDown amb sym g).prevTick = g.prevTick := by
  unfold onKeyDown
  dsimp only
  split_ifs <;> first
    | exact ⟨rfl, rfl⟩
    | exact (keyDownAlive_cast amb sym _).2

omit [FloorRing F] in
lemma onKeyUp_cast (sym : Keycode) (g : Game F) :
    Web.SameCast g.web (onKeyUp sym g).web ∧ (onKeyUp sym g).dt = g.dt ∧
    (onKeyUp sym g).prevTick = g.prevTick := by
  unfold onKeyUp
  cases sym <;> exact ⟨⟨rfl, rfl, rfl, fun _ => ⟨rfl, rfl⟩⟩, rfl, rfl⟩

omit [FloorRing F] in
lemma onMouseWheel_cast (y : Int) (g : Game F) :
    Web.SameCast g.web (onMouseWheel y g).web ∧ (onMouseWheel y g).dt = g.dt ∧
    (onMouseWheel y g).prevTick = g.prevTick := by
  unfold onMouseWheel
  by_cases h : g.web.state = WebState.Latched
  · rw [if_pos h]
    refine ⟨⟨rfl, rfl, rfl, fun hs => ?_⟩, rfl, rfl⟩
    rw [h] at hs
    cases hs
  · rw [if_neg h]
    exact ⟨Web.SameCast.rfl_ _, rfl, rfl⟩

lemma spawnKnife_dt (now : Nat) (dir : Int) (g : Game F) :
    (spawnKnife now dir g).dt = g.dt ∧ (spawnKnife now dir g).prevTick = g.prevTick := by
  unfold spawnKnife
  cases g.texKnife with
  | none => exact ⟨rfl, rfl⟩
  | some tk =>
    obtain ⟨kw, kh⟩ := tk
    dsimp only
    split_ifs <;> exact ⟨rfl, rfl⟩

lemma onMouseButtonDown_dt (sqrt : F → F) (amb : Ambient) (b : MouseButton) (g : Game F) :
    (onMouseButtonDown sqrt amb b g).dt = g.dt ∧
    (onMouseButtonDown sqrt amb b g).prevTick = g.prevTick := by
  unfold onMouseButtonDown
  cases b
  · exact spawnKnife_dt _ _ _
  · dsimp only
    split_ifs
    · exact ⟨rfl, rfl⟩
    · unfold castWeb
      dsimp only
      split_ifs <;> exact ⟨rfl, rfl⟩
  · exact ⟨rfl, rfl⟩

/-- No event handler assigns `dt` or `prevTick`. -/
lemma handleEvent_dt (sqrt : F → F) (amb : Ambient) (e : Event) (g : Game F) :
    (handleEvent sqrt amb e g).dt = g.dt ∧ (handleEvent sqrt amb e g).prevTick = g.prevTick := by
  apply handleEvent_induct (fun x => x.dt = g.dt ∧ x.prevTick = g.prevTick) sqrt amb e g
    ⟨rfl, rfl⟩
  · intro x hx
    exact hx
  · intro sym x hx
    exact ⟨(onKeyDown_dt amb sym x).1.trans hx.1, (onKeyDown_dt amb sym x).2.trans hx.2⟩
  · intro sym x hx
    exact ⟨(onKeyUp_cast sym x).2.1.trans hx.1, (onKeyUp_cast sym x).2.2.trans hx.2⟩
  · intro y x hx
    exact ⟨(onMouseWheel_cast y x).2.1.trans hx.1, (onMouseWheel_cast y x).2.2.trans hx.2⟩
  · intro b x hx
    exact hx
  · intro b x hx
    exact ⟨(onMouseButtonDown_dt sqrt amb b x).1.trans hx.1,
      (onMouseButtonDown_dt sqrt amb b x).2.trans hx.2⟩
  · intro x hx
    exact hx

/-- An event that leaves the cast alone: the grapple after the handler carries
the cast it had before. -/
lemma handleEvent_cast (sqrt : F → F) (amb : Ambient) (e : Event) (g : Game F)
    (he : e.keepsCast = true) : Web.SameCast g.web (handleEvent sqrt amb e g).web := by
  unfold handleEvent
  lift_lets
  extract_lets g1 g2 g3 g4 g5
  have q1 : Web.SameCast g.web g1.web := by
    show Web.SameCast g.web (if e = Event.quit then { g with running := false } else g).web
    split_ifs
    · exact Web.SameCast.rfl_ _
    · exact Web.SameCast.rfl_ _
  clear_value g1
  have q2 : Web.SameCast g.web g2.web := by
    show Web.SameCast g.web (match e with
      | Event.keyDown sym => onKeyDown amb sym g1
      | _ => g1).web
    cases e with
    | keyDown sym =>
      have hr : sym ≠ Keycode.r := by
        intro h
        rw [h] at he
        cases he
      exact q1.chain (onKeyDown_cast amb sym g1 hr)
    | _ => exact q1
  clear_value g2
  have q3 : Web.SameCast g.web g3.web := by
    show Web.SameCast g.web (match e with
      | Event.keyUp sym => onKeyUp sym g2
      | _ => g2).web
    cases e with
    | keyUp sym => exact q2.chain (onKeyUp_cast sym g2).1
    | _ => exact q2
  clear_value g3
  have q4 : Web.SameCast g.web g4.web := by
    show Web.SameCast g.web (match e with
      | Event.mouseWheel y => onMouseWheel y g3
      | _ => g3).web
    cases e with
    | mouseWheel y => exact q3.chain (onMouseWheel_cast y g3).1
    | _ => exact q3
  clear_value g4
  have q5 : Web.SameCast g.web g5.web := by
    show Web.SameCast g.web (match e with
      | Event.keyDown Keycode.n => { g4 with nHeld := true }
      | Event.keyUp Keycode.n => { g4 with nHeld := false }
      | _ => g4).web
    cases e with
    | keyDown sym => cases sym <;> exact q4
    | keyUp sym => cases sym <;> exact q4
    | _ => exact q4
  clear_value g5
  split_ifs
  · cases e with
    | mouseButtonDown b =>
      cases b with
      | left => exact q5.chain (Web.SameCast.of_eq (spawnKnife_hold _ _ _).1)
      | right => cases he
      | middle => exact q5
    | mouseButtonUp b =>
      cases b with
      | right => cases he
      | _ => exact q5
    | _ => exact q5
  · exact q5

/-- Events that leave the cast alone, handled in order. -/
lemma handleEvents_cast (sqrt : F → F) (evs : List (Ambient × Event)) (g : Game F)
    (he : ∀ ev ∈ evs, ev.2.keepsCast = true) :
    Web.SameCast g.web (evs.foldl (fun acc ev => handleEvent sqrt ev.1 ev.2 acc) g).web ∧
    (evs.foldl (fun acc ev => handleEvent sqrt ev.1 ev.2 acc) g).dt = g.dt ∧
    (evs.foldl (fun acc ev => handleEvent sqrt ev.1 ev.2 acc) g).prevTick = g.prevTick := by
  induction evs generalizing g with
  | nil => exact ⟨Web.SameCast.rfl_ _, rfl, rfl⟩
  | cons ev rest ih =>
    rw [List.foldl_cons]
    obtain ⟨i1, i2, i3⟩ := ih (handleEvent sqrt ev.1 ev.2 g)
      (fun x hx => he x (List.mem_cons_of_mem _ hx))
    exact ⟨(handleEvent_cast sqrt ev.1 ev.2 g (he ev (List.mem_cons_self _ _))).chain i1,
      i2.trans (handleEvent_dt sqrt ev.1 ev.2 g).1, i3.trans (handleEvent_dt sqrt ev.1 ev.2 g).2⟩

/-- No phase of the frame update assigns `prevTick`. -/
lemma frameUpdateFl_prevTick (fl : F → F) (sqrt cos : F → F) (pi : F) (now : Nat) (dt : F)
    (keys : Keys) (g : Game F) :
    (frameUpdateFl fl sqrt cos pi now dt keys g).prevTick = g.prevTick := by
  have h1 : (playerPhase now cos pi keys g).prevTick = g.prevTick := by
    unfold playerPhase
    dsimp only
    split_ifs <;> rfl
  have h2 : ∀ x : Game F, (rechargePhase now x).prevTick = x.prevTick := by
    intro x
    unfold rechargePhase
    split_ifs <;> rfl
  have h5 : ∀ x : Game F, (latchedPhase sqrt dt x).prevTick = x.prevTick := by
    intro x
    unfold latchedPhase
    split_ifs <;> rfl
  have h6 : ∀ x : Game F, (releasePhase sqrt x).prevTick = x.prevTick := by
    intro x
    unfold releasePhase
    split_ifs <;> rfl
  have h7 : ∀ x : Game F, (avocadoPhase now g.allTiles x).prevTick = x.prevTick := by
    intro x
    unfold avocadoPhase
    split_ifs <;> rfl
  have h8 : ∀ x : Game F, (hitPhase now x).prevTick = x.prevTick := by
    intro x
    unfold hitPhase
    split_ifs <;> rfl
  have h9 : ∀ x : Game F, (contactPhase now x).prevTick = x.prevTick := by
    intro x
    unfold contactPhase
    split_ifs <;> rfl
  have h11 : ∀ x : Game F, (gameOverPhase x).prevTick = x.prevTick := by
    intro x
    unfold gameOverPhase
    split_ifs <;> rfl
  unfold frameUpdateFl
  dsimp only
  rw [h11]
  show (contactPhase now _).prevTick = _
  rw [h9, h8, h7, h6, h5]
  show (rechargePhase now _).prevTick = _
  rw [h2, h1]

/-- One iteration of the main loop whose events leave the cast alone, on a held
grapple: the button stays held; a Latched grapple stays Latched; a Shooting
grapple takes the `float` Shooting step with the frame time of line 577. -/
lemma loopIterationFl_cast (fl : F → F) (sqrt cos : F → F) (pi : F) (t : Nat)
    (evs : List (Ambient × Event)) (keys : Keys) (g : Game F)
    (he : ∀ ev ∈ evs, ev.2.keepsCast = true) (hh : g.web.rmbHeld = true) :
    (loopIterationFl fl sqrt cos pi t evs keys g).web.rmbHeld = true ∧
    (loopIterationFl fl sqrt cos pi t evs keys g).prevTick = t ∧
    (g.web.state = WebState.Latched →
      (loopIterationFl fl sqrt cos pi t evs keys g).web.state = WebState.Latched) ∧
    (g.web.state = WebState.Shooting →
      (loopIterationFl fl sqrt cos pi t evs keys g).web.state
        = (shootingStepFl fl (frameDtFl fl t g.prevTick) g.web).state ∧
      ((shootingStepFl fl (frameDtFl fl t g.prevTick) g.web).state ≠ WebState.Latched →
        (loopIterationFl fl sqrt cos pi t evs keys g).web.curLen
          = (shootingStepFl fl (frameDtFl fl t g.prevTick) g.web).curLen ∧
        (loopIterationFl fl sqrt cos pi t evs keys g).web.targetLen = g.web.targetLen ∧
        (loopIterationFl fl sqrt cos pi t evs keys g).web.shootSpeed = g.web.shootSpeed)) := by
  unfold loopIterationFl
  dsimp only
  obtain ⟨⟨c1, c2, c3, c4⟩, hdt, hpt⟩ := handleEvents_cast sqrt evs
    { g with dt := frameDtFl fl t g.prevTick, prevTick := t } he
  have hpt2 : (evs.foldl (fun acc ev => handleEvent sqrt ev.1 ev.2 acc)
      { g with dt := frameDtFl fl t g.prevTick, prevTick := t }).prevTick = t := hpt
  have hdt2 : (evs.foldl (fun acc ev => handleEvent sqrt ev.1 ev.2 acc)
      { g with dt := frameDtFl fl t g.prevTick, prevTick := t }).dt
      = frameDtFl fl t g.prevTick := hdt
  generalize evs.foldl (fun acc ev => handleEvent sqrt ev.1 ev.2 acc)
      { g with dt := frameDtFl fl t g.prevTick, prevTick := t } = x at c1 c2 c3 c4 hdt2 hpt2
  have c1b : x.web.state = g.web.state := c1
  have c2b : x.web.rmbHeld = g.web.rmbHeld := c2
  have c3b : x.web.shootSpeed = g.web.shootSpeed := c3
  have c4b : g.web.state = WebState.Shooting →
      x.web.curLen = g.web.curLen ∧ x.web.targetLen = g.web.targetLen := c4
  rw [hdt2]
  obtain ⟨f1, f2, f3⟩ := frameUpdateFl_web_held fl sqrt cos pi t (frameDtFl fl t g.prevTick) keys x
    (c2b.trans hh)
  refine ⟨f1, ?_, ?_, ?_⟩
  · rw [frameUpdateFl_prevTick, hpt2]
  · intro hl
    rw [f2, (shootingStepFl_fields fl _ x.web).2 (by rw [c1b, hl]; decide), c1b, hl]
  · intro hs
    obtain ⟨d1, d2⟩ := c4b hs
    obtain ⟨s1, s2, s3, s4, s5, s6, s7⟩ :=
      shootingStepFl_shooting fl (frameDtFl fl t g.prevTick) x.web (c1b.trans hs)
    obtain ⟨t1, t2, t3, t4, t5, t6, t7⟩ :=
      shootingStepFl_shooting fl (frameDtFl fl t g.prevTick) g.web hs
    rw [d1, d2, c3b] at s1 s2 s3
    have hst : (shootingStepFl fl (frameDtFl fl t g.prevTick) x.web).state
        = (shootingStepFl fl (frameDtFl fl t g.prevTick) g.web).state := by
      by_cases hc : fl (g.web.curLen + fl (g.web.shootSpeed * frameDtFl fl t g.prevTick))
          ≥ g.web.targetLen
      · rw [s2.mpr hc, t2.mpr hc]
      · rw [s3.mpr hc, t3.mpr hc]
    refine ⟨f2.trans hst, ?_⟩
    intro hne
    have hw := f3 (by rw [hst]; exact hne)
    rw [hw, s1, t1, s5, s6, d2, c3b]
    exact ⟨rfl, rfl, rfl⟩

/-- Iterations whose events leave the cast alone, with the button held: a Latched
grapple stays Latched, and a Shooting grapple is Latched once the iterations,
each of which lengthens the rope by `δ` or more unless it latches, cover the
remaining length. -/
lemma runFl_latches (fl : F → F) (sqrt cos : F → F) (pi : F) (s T δ : F) (hδ : 0 ≤ δ)
    (hstep : ∀ c dt : F, 0 ≤ c → fl (1 / 240) ≤ dt → fl (c + fl (s * dt)) < T →
      c + δ ≤ fl (c + fl (s * dt)))
    (frames : List (Nat × List (Ambient × Event) × Keys)) (g : Game F)
    (hev : ∀ f ∈ frames, ∀ ev ∈ f.2.1, ev.2.keepsCast = true)
    (hh : g.web.rmbHeld = true)
    (hst : g.web.state = WebState.Latched ∨
      (g.web.state = WebState.Shooting ∧ g.web.shootSpeed = s ∧ g.web.targetLen = T ∧
        0 ≤ g.web.curLen ∧ 1 ≤ frames.length ∧
        T - g.web.curLen ≤ δ * (frames.length : F))) :
    (runFl fl sqrt cos pi g frames).web.state = WebState.Latched := by
  induction frames generalizing g with
  | nil =>
    rcases hst with h | ⟨-, -, -, -, h, -⟩
    · exact h
    · exact absurd h (by decide)
  | cons f rest ih =>
    obtain ⟨t, evs, k⟩ := f
    obtain ⟨l1, -, l3, l4⟩ := loopIterationFl_cast fl sqrt cos pi t evs k g
      (hev (t, evs, k) (List.mem_cons_self _ _)) hh
    show (runFl fl sqrt cos pi (loopIterationFl fl sqrt cos pi t evs k g) rest).web.state = _
    apply ih _ (fun f hf => hev f (List.mem_cons_of_mem _ hf)) l1
    rcases hst with h | ⟨h1, hS, hT, hc, -, h4⟩
    · left
      exact l3 h
    · obtain ⟨m1, m2⟩ := l4 h1
      obtain ⟨s1, s2, s3, -⟩ := shootingStepFl_shooting fl (frameDtFl fl t g.prevTick) g.web h1
      rw [hS, hT] at s1 s2 s3
      by_cases hlatch : fl (g.web.curLen + fl (s * frameDtFl fl t g.prevTick)) ≥ T
      · left
        rw [m1]
        exact s2.mpr hlatch
      · right
        have hsh := s3.mpr hlatch
        obtain ⟨n1, n2, n3⟩ := m2 (by rw [hsh]; decide)
        have hlt : fl (g.web.curLen + fl (s * frameDtFl fl t g.prevTick)) < T := not_le.mp hlatch
        have hgain := hstep g.web.curLen (frameDtFl fl t g.prevTick) hc (frameDtFl_ge fl _ _) hlt
        have hcur : (loopIterationFl fl sqrt cos pi t evs k g).web.curLen
            = fl (g.web.curLen + fl (s * frameDtFl fl t g.prevTick)) := by
          rw [n1, s1]
          exact min_eq_left (le_of_lt hlt)
        have hlen : (((t, evs, k) :: rest).length : F) = (rest.length : F) + 1 := by
          rw [List.length_cons]
          push_cast
          rfl
        rw [hlen] at h4
        refine ⟨m1.trans hsh, n3.trans hS, n2.trans hT, ?_, ?_, ?_⟩
        · rw [hcur]
          linarith
        · by_contra hr
          have hr0 : rest.length = 0 := by omega
          rw [hr0] at h4
          simp only [Nat.cast_zero, zero_add, mul_one] at h4
          linarith
        · rw [hcur]
          linarith

omit [FloorRing F] in
/-- The gain of one `float` Shooting step that does not latch: with a rounding
of relative error `2 ^ (-24)`, `shootSpeed >= 1`, `targetLen <= 4 * shootSpeed`
and a frame time of at least the `float` `1/240`, the rope grows by at least
`8191/8192` of `shootSpeed / 240`. -/
lemma shooting_gain {fl : F → F} (hfl : Float32Like fl) (s T c dt : F) (hs : 1 ≤ s)
    (hT : T ≤ 4 * s) (hc : 0 ≤ c) (hdt : fl (1 / 240) ≤ dt)
    (hlt : fl (c + fl (s * dt)) < T) :
    c + s / 240 * (8191 / 8192) ≤ fl (c + fl (s * dt)) := by
  have h0 : (1 - 1 / 16777216) * (1 / 240 : F) ≤ fl (1 / 240) :=
    hfl.rel_err _ (by norm_num)
  have hd : (1 - 1 / 16777216) * (1 / 240 : F) ≤ dt := le_trans h0 hdt
  have hs0 : (0 : F) ≤ s := by linarith
  have hsd : s * ((1 - 1 / 16777216) * (1 / 240 : F)) ≤ s * dt :=
    mul_le_mul_of_nonneg_left hd hs0
  have hsd1 : (1 / 2 ^ 126 : F) ≤ s * dt := by
    have h1 : (1 / 2 ^ 126 : F) ≤ (1 - 1 / 16777216) * (1 / 240 : F) := by norm_num
    have h2 : (1 - 1 / 16777216) * (1 / 240 : F) ≤ s * ((1 - 1 / 16777216) * (1 / 240 : F)) :=
      le_mul_of_one_le_left (by norm_num) hs
    linarith
  have hp := hfl.rel_err (s * dt) hsd1
  have hX1 : (1 / 2 ^ 126 : F) ≤ c + fl (s * dt) := by
    have : (1 - 1 / 16777216) * (s * dt) ≤ fl (s * dt) := hp
    have h3 : (1 / 2 ^ 126 : F) ≤ (1 - 1 / 16777216) * (s * dt) := by
      have h1 : (1 / 2 ^ 126 : F) ≤ (1 - 1 / 16777216) * ((1 - 1 / 16777216) * (1 / 240 : F)) := by
        norm_num
      have h2 : (1 - 1 / 16777216) * (1 / 240 : F) ≤ s * ((1 - 1 / 16777216) * (1 / 240 : F)) :=
        le_mul_of_one_le_left (by norm_num) hs
      have h4 : (1 - 1 / 16777216) * ((1 - 1 / 16777216) * (1 / 240 : F))
          ≤ (1 - 1 / 16777216) * (s * dt) :=
        mul_le_mul_of_nonneg_left (le_trans h2 hsd) (by norm_num)
      linarith
    linarith
  have hX := hfl.rel_err (c + fl (s * dt)) hX1
  have hP : (1 - 1 / 16777216) * (s * ((1 - 1 / 16777216) * (1 / 240 : F))) ≤ fl (s * dt) :=
    le_trans (mul_le_mul_of_nonneg_left hsd (by norm_num)) hp
  generalize fl (c + fl (s * dt)) = c1 at hlt hX ⊢
  generalize fl (s * dt) = P at hX hP
  linarith

/-- With a rounding of relative error `2 ^ (-24)`, `shootSpeed >= 1` and
`targetLen <= 4 * shootSpeed`, a held cast is Latched after
`ceil(targetLen * 240 / shootSpeed) + 1` iterations whose events leave it
alone. -/
lemma runFl_latches_rounded {fl : F → F} (hfl : Float32Like fl) (sqrt cos : F → F) (pi : F)
    (g : Game F) (frames : List (Nat × List (Ambient × Event) × Keys))
    (hs : g.web.state = WebState.Shooting) (hh : g.web.rmbHeld = true)
    (hc : 0 ≤ g.web.curLen)
    (hev : ∀ f ∈ frames, ∀ ev ∈ f.2.1, ev.2.keepsCast = true)
    (hs1 : 1 ≤ g.web.shootSpeed) (hT : g.web.targetLen ≤ 4 * g.web.shootSpeed)
    (hn : Nat.ceil (g.web.targetLen * 240 / g.web.shootSpeed) + 1 ≤ frames.length) :
    (runFl fl sqrt cos pi g frames).web.state = WebState.Latched := by
  have hsp : 0 < g.web.shootSpeed := by linarith
  apply runFl_latches fl sqrt cos pi g.web.shootSpeed g.web.targetLen
    (g.web.shootSpeed / 240 * (8191 / 8192)) (by positivity)
    (fun c dt h1 h2 h3 => shooting_gain hfl _ _ c dt hs1 hT h1 h2 h3) frames g hev hh
  right
  have h1 : g.web.targetLen * 240 / g.web.shootSpeed + 1 ≤ (frames.length : F) := by
    have := Nat.le_ceil (g.web.targetLen * 240 / g.web.shootSpeed)
    have h2 : ((Nat.ceil (g.web.targetLen * 240 / g.web.shootSpeed) + 1 : Nat) : F)
        ≤ (frames.length : F) := by exact_mod_cast hn
    push_cast at h2
    linarith
  have h2 : g.web.targetLen * 240 + g.web.shootSpeed
      ≤ g.web.shootSpeed * (frames.length : F) := by
    have h3 : g.web.targetLen * 240 / g.web.shootSpeed ≤ (frames.length : F) - 1 := by linarith
    rw [div_le_iff₀ hsp] at h3
    linarith
  refine ⟨hs, rfl, rfl, hc, by omega, ?_⟩
  have e : g.web.shootSpeed / 240 * (8191 / 8192) * (frames.length : F)
      = g.web.shootSpeed * (frames.length : F) * (8191 / (240 * 8192)) := by ring
  rw [e]
  linarith

/-- In exact arithmetic a held cast is Latched after
`ceil(targetLen * 240 / shootSpeed)` iterations whose events leave it alone. -/
lemma runFl_latches_exact (fl : F → F) (hfl : ∀ x, fl x = x) (sqrt cos : F → F) (pi : F)
    (g : Game F) (frames : List (Nat × List (Ambient × Event) × Keys))
    (hs : g.web.state = WebState.Shooting) (hh : g.web.rmbHeld = true)
    (hc : 0 ≤ g.web.curLen) (hsp : 0 < g.web.shootSpeed) (ht : 0 < g.web.targetLen)
    (hev : ∀ f ∈ frames, ∀ ev ∈ f.2.1, ev.2.keepsCast = true)
    (hn : Nat.ceil (g.web.targetLen * 240 / g.web.shootSpeed) ≤ frames.length) :
    (runFl fl sqrt cos pi g frames).web.state = WebState.Latched := by
  apply runFl_latches fl sqrt cos pi g.web.shootSpeed g.web.targetLen
    (g.web.shootSpeed / 240) (by positivity) ?_ frames g hev hh
  · right
    have h1 : g.web.targetLen * 240 / g.web.shootSpeed ≤ (frames.length : F) :=
      Nat.ceil_le.mp hn
    have h2 : g.web.targetLen * 240 ≤ g.web.shootSpeed * (frames.length : F) := by
      rw [div_le_iff₀ hsp] at h1
      linarith
    refine ⟨hs, rfl, rfl, hc, ?_, ?_⟩
    · by_contra hz
      have h0 : frames.length = 0 := by omega
      rw [h0] at h2
      simp only [Nat.cast_zero, mul_zero] at h2
      linarith
    · have e : g.web.shootSpeed / 240 * (frames.length : F)
          = g.web.shootSpeed * (frames.length : F) / 240 := by ring
      rw [e, le_div_iff₀ (by norm_num)]
      linarith
  · intro c dt _ hdt _
    rw [hfl, hfl]
    rw [hfl] at hdt
    have : g.web.shootSpeed * (1 / 240) ≤ g.web.shootSpeed * dt :=
      mul_le_mul_of_nonneg_left hdt (le_of_lt hsp)
    linarith

/-- C19 (as amended). Shooting phase in `float` arithmetic with rounding `fl`.
For every frame time `dt` the Shooting step sets `curLen` to
`min(fl(curLen + fl(shootSpeed * dt)), targetLen)`, the state becomes Latched
exactly when `fl(curLen + fl(shootSpeed * dt)) >= targetLen` and stays Shooting
otherwise, so `curLen <= targetLen` afterwards, and the grapple state at the end
of the frame update is the one this step leaves; every frame time is at least the
`float` `fl(1/240)`; and over iterations of the main loop whose events neither
reset the game nor press or release the right mouse button, a held cast
(`0 <= curLen`, positive `targetLen`) is Latched after
`ceil(targetLen * 240 / shootSpeed) + 1` or more iterations when `fl` has the
properties `Float32Like` (binary32), `shootSpeed >= 1` and
`targetLen <= 4 * shootSpeed` (the program has `shootSpeed = 1400` and
`targetLen <= maxLen = 1800`), and after `ceil(targetLen * 240 / shootSpeed)` or
more iterations when the arithmetic is exact. -/
theorem shooting_latches (fl : F → F) (sqrt cos : F → F) (pi : F) (g : Game F)
    (frames : List (Nat × List (Ambient × Event) × Keys))
    (hs : g.web.state = WebState.Shooting) (hh : g.web.rmbHeld = true)
    (hc : 0 ≤ g.web.curLen) (hsp : 0 < g.web.shootSpeed) (ht : 0 < g.web.targetLen)
    (hev : ∀ f ∈ frames, ∀ ev ∈ f.2.1, ev.2.keepsCast = true) :
    (∀ dt : F,
      (shootingStepFl fl dt g.web).curLen
        = min (fl (g.web.curLen + fl (g.web.shootSpeed * dt))) g.web.targetLen ∧
      ((shootingStepFl fl dt g.web).state = WebState.Latched
        ↔ fl (g.web.curLen + fl (g.web.shootSpeed * dt)) ≥ g.web.targetLen) ∧
      ((shootingStepFl fl dt g.web).state = WebState.Shooting
        ↔ ¬ fl (g.web.curLen + fl (g.web.shootSpeed * dt)) ≥ g.web.targetLen) ∧
      (shootingStepFl fl dt g.web).curLen ≤ (shootingStepFl fl dt g.web).targetLen ∧
      (∀ (now : Nat) (keys : Keys),
        (frameUpdateFl fl sqrt cos pi now dt keys g).web.state
          = (shootingStepFl fl dt g.web).state)) ∧
    (∀ nowTick prevTick : Nat, fl (1 / 240) ≤ frameDtFl fl nowTick prevTick) ∧
    (Float32Like fl → 1 ≤ g.web.shootSpeed → g.web.targetLen ≤ 4 * g.web.shootSpeed →
      Nat.ceil (g.web.targetLen * 240 / g.web.shootSpeed) + 1 ≤ frames.length →
      (runFl fl sqrt cos pi g frames).web.state = WebState.Latched) ∧
    ((∀ x, fl x = x) →
      Nat.ceil (g.web.targetLen * 240 / g.web.shootSpeed) ≤ frames.length →
      (runFl fl sqrt cos pi g frames).web.state = WebState.Latched) := by
  refine ⟨?_, frameDtFl_ge fl, ?_, ?_⟩
  · intro dt
    obtain ⟨s1, s2, s3, s4, -⟩ := shootingStepFl_shooting fl dt g.web hs
    exact ⟨s1, s2, s3, s4,
      fun now keys => (frameUpdateFl_web_held fl sqrt cos pi now dt keys g hh).2.1⟩
  · intro hfl hs1 hT hn
    exact runFl_latches_rounded hfl sqrt cos pi g frames hs hh hc hev hs1 hT hn
  · intro hfl hn
    exact runFl_latches_exact fl hfl sqrt cos pi g frames hs hh hc hsp ht hev hn

/-- Quiet iterations at tick `0` from a held cast at tick `0`: as long as the
rounded sums of the chain stay below `targetLen`, the grapple is still
Shooting. -/
lemma runFl_chain (fl : F → F) (sqrt cos : F → F) (pi : F) (s T : F) (cs : List F) (c : F)
    (g : Game F) (hh : g.web.rmbHeld = true) (hs : g.web.state = WebState.Shooting)
    (hS : g.web.shootSpeed = s) (hT : g.web.targetLen = T) (hc : g.web.curLen = c)
    (hp : g.prevTick = 0)
    (hch : List.Chain (fun a b => fl (a + fl (s * frameDtFl fl 0 0)) = b ∧ b < T) c cs) :
    (runFl fl sqrt cos pi g (List.replicate cs.length (0, [], noKeys))).web.state
      = WebState.Shooting := by
  induction cs generalizing c g with
  | nil => exact hs
  | cons b rest ih =>
    rw [List.length_cons, List.replicate_succ]
    show (runFl fl sqrt cos pi (loopIterationFl fl sqrt cos pi 0 [] noKeys g)
      (List.replicate rest.length (0, [], noKeys))).web.state = _
    obtain ⟨l1, l2, -, l4⟩ := loopIterationFl_cast fl sqrt cos pi 0 [] noKeys g
      (fun ev hev => absurd hev (List.not_mem_nil ev)) hh
    obtain ⟨m1, m2⟩ := l4 hs
    obtain ⟨s1, s2, s3, -⟩ := shootingStepFl_shooting fl (frameDtFl fl 0 g.prevTick) g.web hs
    rw [hS, hT, hc, hp] at s1 s2 s3
    rw [hp] at m1 m2
    cases hch with
    | cons hab hrest =>
      obtain ⟨e1, e2⟩ := hab
      have hne : ¬ fl (c + fl (s * frameDtFl fl 0 0)) ≥ T := by
        rw [e1]
        exact not_le.mpr e2
      have hsh := s3.mpr hne
      obtain ⟨n1, n2, n3⟩ := m2 (by rw [hsh]; decide)
      apply ih b _ l1 (m1.trans hsh) (n3.trans hS) (n2.trans hT) _ l2 hrest
      rw [n1, s1, e1]
      exact min_eq_left (le_of_lt e2)

lemma frameDtFl_zero : frameDtFl fl32 0 0 = 8947849 / 2147483648 := by
  have h240 : fl32 (1 / 240 : ℚ) = 8947849 / 2147483648 :=
    fl32_near _ _ (-8) 8947849 (by norm_num) (by norm_num) (by norm_num) (by norm_num)
      (by norm_num) (by norm_num)
  have h30 : (0 : ℚ) ≤ fl32 (1 / 30) := fl32_nonneg (by norm_num)
  unfold frameDtFl
  have e1 : (1.0 / 240.0 : ℚ) = 1 / 240 := by norm_num
  have e2 : (1.0 / 30.0 : ℚ) = 1 / 30 := by norm_num
  have e3 : ((u32sub 0 0 : Nat) : ℚ) = 0 := by
    norm_num [u32sub]
  rw [e1, e2, e3, fl32_zero, zero_div, fl32_zero, min_eq_right h30, h240]
  norm_num

/-- The binary32 rope lengths of the first 30 frames of the cast of
`shortCastGame` at frame time `1/240f`: every one is below `175`. -/
lemma shortCast_chain :
    List.Chain (fun a b => fl32 (a + fl32 (1400 * frameDtFl fl32 0 0)) = b ∧ b < 175) (0 : ℚ)
      [(12233387 / 2097152 : ℚ), (12233387 / 1048576 : ℚ), (35 / 2 : ℚ), (12233387 / 524288 : ℚ), (7645867 / 262144 : ℚ), (35 : ℚ), (10704213 / 262144 : ℚ), (6116693 / 131072 : ℚ), (13762559 / 262144 : ℚ), (3822933 / 65536 : ℚ), (8410453 / 131072 : ℚ), (70 : ℚ), (9939627 / 131072 : ℚ), (5352107 / 65536 : ℚ), (11468801 / 131072 : ℚ), (3058347 / 32768 : ℚ), (12997975 / 131072 : ℚ), (6881281 / 65536 : ℚ), (14527149 / 131072 : ℚ), (1911467 / 16384 : ℚ), (16056323 / 131072 : ℚ), (8410455 / 65536 : ℚ), (2198187 / 16384 : ℚ), (9175041 / 65536 : ℚ), (4778667 / 32768 : ℚ), (9939627 / 65536 : ℚ), (315 / 2 : ℚ), (10704213 / 65536 : ℚ), (5543253 / 32768 : ℚ), (11468799 / 65536 : ℚ)] := by
  have hP : fl32 (1400 * frameDtFl fl32 0 0) = 12233387 / 2097152 := by
    rw [frameDtFl_zero]
    exact fl32_near _ _ 2 12233387 (by norm_num) (by norm_num) (by norm_num) (by norm_num)
      (by norm_num) (by norm_num)
  have f1 : fl32 ((0 : ℚ) + fl32 (1400 * frameDtFl fl32 0 0)) = (12233387 / 2097152 : ℚ) := by
    rw [hP]
    exact fl32_near _ _ 2 12233387 (by norm_num) (by norm_num) (by norm_num) (by norm_num) (by norm_num) (by norm_num)
  have f2 : fl32 ((12233387 / 2097152 : ℚ) + fl32 (1400 * frameDtFl fl32 0 0)) = (12233387 / 1048576 : ℚ) := by
    rw [hP]
    exact fl32_near _ _ 3 12233387 (by norm_num) (by norm_num) (by norm_num) (by norm_num) (by norm_num) (by norm_num)
  have f3 : fl32 ((12233387 / 1048576 : ℚ) + fl32 (1400 * frameDtFl fl32 0 0)) = (35 / 2 : ℚ) := by
    rw [hP]
    exact fl32_near _ _ 4 9175040 (by norm_num) (by norm_num) (by norm_num) (by norm_num) (by norm_num) (by norm_num)
  have f4 : fl32 ((35 / 2 : ℚ) + fl32 (1400 * frameDtFl fl32 0 0)) = (12233387 / 524288 : ℚ) := by
    rw [hP]
    exact fl32_near _ _ 4 12233387 (by norm_num) (by norm_num) (by norm_num) (by norm_num) (by norm_num) (by norm_num)
  have f5 : fl32 ((12233387 / 524288 : ℚ) + fl32 (1400 * frameDtFl fl32 0 0)) = (7645867 / 262144 : ℚ) := by
    rw [hP]
    exact fl32_near _ _ 4 15291734 (by norm_num) (by norm_num) (by norm_num) (by norm_num) (by norm_num) (by norm_num)
  have f6 : fl32 ((7645867 / 262144 : ℚ) + fl32 (1400 * frameDtFl fl32 0 0)) = (35 : ℚ) := by
    rw [hP]
    exact fl32_near _ _ 5 9175040 (by norm_num) (by norm_num) (by norm_num) (by norm_num) (by norm_num) (by norm_num)
  have f7 : fl32 ((35 : ℚ) + fl32 (1400 * frameDtFl fl32 0 0)) = (10704213 / 262144 : ℚ) := by
    rw [hP]
    exact fl32_near _ _ 5 10704213 (by norm_num) (by norm_num) (by norm_num) (by norm_num) (by norm_num) (by norm_num)
  have f8 : fl32 ((10704213 / 262144 : ℚ) + fl32 (1400 * frameDtFl fl32 0 0)) = (6116693 / 131072 : ℚ) := by
    rw [hP]
    exact fl32_near _ _ 5 12233386 (by norm_num) (by norm_num) (by norm_num) (by norm_num) (by norm_num) (by norm_num)
  have f9 : fl32 ((6116693 / 131072 : ℚ) + fl32 (1400 * frameDtFl fl32 0 0)) = (13762559 / 262144 : ℚ) := by
    rw [hP]
    exact fl32_near _ _ 5 13762559 (by norm_num) (by norm_num) (by norm_num) (by norm_num) (by norm_num) (by norm_num)
  have f10 : fl32 ((13762559 / 262144 : ℚ) + fl32 (1400 * frameDtFl fl32 0 0)) = (3822933 / 65536 : ℚ) := by
    rw [hP]
    exact fl32_near _ _ 5 15291732 (by norm_num) (by norm_num) (by norm_num) (by norm_num) (by norm_num) (by norm_num)
  have f11 : fl32 ((3822933 / 65536 : ℚ) + fl32 (1400 * frameDtFl fl32 0 0)) = (8410453 / 131072 : ℚ) := by
    rw [hP]
    exact fl32_near _ _ 6 8410453 (by norm_num) (by norm_num) (by norm_num) (by norm_num) (by norm_num) (by norm_num)
  have f12 : fl32 ((8410453 / 131072 : ℚ) + fl32 (1400 * frameDtFl fl32 0 0)) = (70 : ℚ) := by
    rw [hP]
    exact fl32_near _ _ 6 9175040 (by norm_num) (by norm_num) (by norm_num) (by norm_num) (by norm_num) (by norm_num)
  have f13 : fl32 ((70 : ℚ) + fl32 (1400 * frameDtFl fl32 0 0)) = (9939627 / 131072 : ℚ) := by
    rw [hP]
    exact fl32_near _ _ 6 9939627 (by norm_num) (by norm_num) (by norm_num) (by norm_num) (by norm_num) (by norm_num)
  have f14 : fl32 ((9939627 / 131072 : ℚ) + fl32 (1400 * frameDtFl fl32 0 0)) = (5352107 / 65536 : ℚ) := by
    rw [hP]
    exact fl32_near _ _ 6 10704214 (by norm_num) (by norm_num) (by norm_num) (by norm_num) (by norm_num) (by norm_num)
  have f15 : fl32 ((5352107 / 65536 : ℚ) + fl32 (1400 * frameDtFl fl32 0 0)) = (11468801 / 131072 : ℚ) := by
    rw [hP]
    exact fl32_near _ _ 6 11468801 (by norm_num) (by norm_num) (by norm_num) (by norm_num) (by norm_num) (by norm_num)
  have f16 : fl32 ((11468801 / 131072 : ℚ) + fl32 (1400 * frameDtFl fl32 0 0)) = (3058347 / 32768 : ℚ) := by
    rw [hP]
    exact fl32_near _ _ 6 12233388 (by norm_num) (by norm_num) (by norm_num) (by norm_num) (by norm_num) (by norm_num)
  have f17 : fl32 ((3058347 / 32768 : ℚ) + fl32 (1400 * frameDtFl fl32 0 0)) = (12997975 / 131072 : ℚ) := by
    rw [hP]
    exact fl32_near _ _ 6 12997975 (by norm_num) (by norm_num) (by norm_num) (by norm_num) (by norm_num) (by norm_num)
  have f18 : fl32 ((12997975 / 131072 : ℚ) + fl32 (1400 * frameDtFl fl32 0 0)) = (6881281 / 65536 : ℚ) := by
    rw [hP]
    exact fl32_near _ _ 6 13762562 (by norm_num) (by norm_num) (by norm_num) (by norm_num) (by norm_num) (by norm_num)
  have f19 : fl32 ((6881281 / 65536 : ℚ) + fl32 (1400 * frameDtFl fl32 0 0)) = (14527149 / 131072 : ℚ) := by
    rw [hP]
    exact fl32_near _ _ 6 14527149 (by norm_num) (by norm_num) (by norm_num) (by norm_num) (by norm_num) (by norm_num)
  have f20 : fl32 ((14527149 / 131072 : ℚ) + fl32 (1400 * frameDtFl fl32 0 0)) = (1911467 / 16384 : ℚ) := by
    rw [hP]
    exact fl32_near _ _ 6 15291736 (by norm_num) (by norm_num) (by norm_num) (by norm_num) (by norm_num) (by norm_num)
  have f21 : fl32 ((1911467 / 16384 : ℚ) + fl32 (1400 * frameDtFl fl32 0 0)) = (16056323 / 131072 : ℚ) := by
    rw [hP]
    exact fl32_near _ _ 6 16056323 (by norm_num) (by norm_num) (by norm_num) (by norm_num) (by norm_num) (by norm_num)
  have f22 : fl32 ((16056323 / 131072 : ℚ) + fl32 (1400 * frameDtFl fl32 0 0)) = (8410455 / 65536 : ℚ) := by
    rw [hP]
    exact fl32_near _ _ 7 8410455 (by norm_num) (by norm_num) (by norm_num) (by norm_num) (by norm_num) (by norm_num)
  have f23 : fl32 ((8410455 / 65536 : ℚ) + fl32 (1400 * frameDtFl fl32 0 0)) = (2198187 / 16384 : ℚ) := by
    rw [hP]
    exact fl32_near _ _ 7 8792748 (by norm_num) (by norm_num) (by norm_num) (by norm_num) (by norm_num) (by norm_num)
  have f24 : fl32 ((2198187 / 16384 : ℚ) + fl32 (1400 * frameDtFl fl32 0 0)) = (9175041 / 65536 : ℚ) := by
    rw [hP]
    exact fl32_near _ _ 7 9175041 (by norm_num) (by norm_num) (by norm_num) (by norm_num) (by norm_num) (by norm_num)
  have f25 : fl32 ((9175041 / 65536 : ℚ) + fl32 (1400 * frameDtFl fl32 0 0)) = (4778667 / 32768 : ℚ) := by
    rw [hP]
    exact fl32_near _ _ 7 9557334 (by norm_num) (by norm_num) (by norm_num) (by norm_num) (by norm_num) (by norm_num)
  have f26 : fl32 ((4778667 / 32768 : ℚ) + fl32 (1400 * frameDtFl fl32 0 0)) = (9939627 / 65536 : ℚ) := by
    rw [hP]
    exact fl32_near _ _ 7 9939627 (by norm_num) (by norm_num) (by norm_num) (by norm_num) (by norm_num) (by norm_num)
  have f27 : fl32 ((9939627 / 65536 : ℚ) + fl32 (1400 * frameDtFl fl32 0 0)) = (315 / 2 : ℚ) := by
    rw [hP]
    exact fl32_near _ _ 7 10321920 (by norm_num) (by norm_num) (by norm_num) (by norm_num) (by norm_num) (by norm_num)
  have f28 : fl32 ((315 / 2 : ℚ) + fl32 (1400 * frameDtFl fl32 0 0)) = (10704213 / 65536 : ℚ) := by
    rw [hP]
    exact fl32_near _ _ 7 10704213 (by norm_num) (by norm_num) (by norm_num) (by norm_num) (by norm_num) (by norm_num)
  have f29 : fl32 ((10704213 / 65536 : ℚ) + fl32 (1400 * frameDtFl fl32 0 0)) = (5543253 / 32768 : ℚ) := by
    rw [hP]
    exact fl32_near _ _ 7 11086506 (by norm_num) (by norm_num) (by norm_num) (by norm_num) (by norm_num) (by norm_num)
  have f30 : fl32 ((5543253 / 32768 : ℚ) + fl32 (1400 * frameDtFl fl32 0 0)) = (11468799 / 65536 : ℚ) := by
    rw [hP]
    exact fl32_near _ _ 7 11468799 (by norm_num) (by norm_num) (by norm_num) (by norm_num) (by norm_num) (by norm_num)
  exact (List.Chain.cons ⟨f1, by norm_num⟩
    (List.Chain.cons ⟨f2, by norm_num⟩
    (List.Chain.cons ⟨f3, by norm_num⟩
    (List.Chain.cons ⟨f4, by norm_num⟩
    (List.Chain.cons ⟨f5, by norm_num⟩
    (List.Chain.cons ⟨f6, by norm_num⟩
    (List.Chain.cons ⟨f7, by norm_num⟩
    (List.Chain.cons ⟨f8, by norm_num⟩
    (List.Chain.cons ⟨f9, by norm_num⟩
    (List.Chain.cons ⟨f10, by norm_num⟩
    (List.Chain.cons ⟨f11, by norm_num⟩
    (List.Chain.cons ⟨f12, by norm_num⟩
    (List.Chain.cons ⟨f13, by norm_num⟩
    (List.Chain.cons ⟨f14, by norm_num⟩
    (List.Chain.cons ⟨f15, by norm_num⟩
    (List.Chain.cons ⟨f16, by norm_num⟩
    (List.Chain.cons ⟨f17, by norm_num⟩
    (List.Chain.cons ⟨f18, by norm_num⟩
    (List.Chain.cons ⟨f19, by norm_num⟩
    (List.Chain.cons ⟨f20, by norm_num⟩
    (List.Chain.cons ⟨f21, by norm_num⟩
    (List.Chain.cons ⟨f22, by norm_num⟩
    (List.Chain.cons ⟨f23, by norm_num⟩
    (List.Chain.cons ⟨f24, by norm_num⟩
    (List.Chain.cons ⟨f25, by norm_num⟩
    (List.Chain.cons ⟨f26, by norm_num⟩
    (List.Chain.cons ⟨f27, by norm_num⟩
    (List.Chain.cons ⟨f28, by norm_num⟩
    (List.Chain.cons ⟨f29, by norm_num⟩
    (List.Chain.cons ⟨f30, by norm_num⟩
    List.Chain.nil))))))))))))))))))))))))))))))

/-- C19 (counterexample). In binary32 arithmetic the bound
`ceil(targetLen * 240 / shootSpeed)` fails: a held cast with `targetLen = 175`
and `shootSpeed = 1400` run for `ceil(175 * 240 / 1400) = 30` iterations at tick
`0`, each with frame time `1/240f`, has `curLen = 11468799/65536 < 175` and is
still Shooting. -/
theorem latchesWithinBound_counterexample :
    ¬ LatchesWithinBound fl32 (fun v => v) (fun v => v) 0 (shortCastGame ℚ)
        (List.replicate 30 (0, [], noKeys)) := by
  intro hclaim
  have h1 : (0 : ℚ) ≤ (shortCastGame ℚ).web.curLen := by
    show (0 : ℚ) ≤ 0.0
    norm_num
  have h2 : (0 : ℚ) < (shortCastGame ℚ).web.shootSpeed := by
    show (0 : ℚ) < 1400.0
    norm_num
  have h3 : (0 : ℚ) < (shortCastGame ℚ).web.targetLen := by
    show (0 : ℚ) < 175
    norm_num
  have h4 : Nat.ceil ((shortCastGame ℚ).web.targetLen * 240 / (shortCastGame ℚ).web.shootSpeed)
      ≤ (List.replicate 30 ((0 : Nat), ([] : List (Ambient × Event)), noKeys)).length := by
    rw [List.length_replicate]
    apply Nat.ceil_le.mpr
    show (175 : ℚ) * 240 / 1400.0 ≤ ((30 : Nat) : ℚ)
    norm_num
  have hev : ∀ f ∈ List.replicate 30 ((0 : Nat), ([] : List (Ambient × Event)), noKeys),
      ∀ ev ∈ f.2.1, ev.2.keepsCast = true := by
    intro f hf ev hev
    rw [List.eq_of_mem_replicate hf] at hev
    exact absurd hev (List.not_mem_nil ev)
  have hl := hclaim rfl rfl h1 h2 h3 hev h4
  have hS : (shortCastGame ℚ).web.shootSpeed = 1400 := by
    show (1400.0 : ℚ) = 1400
    norm_num
  have hc0 : (shortCastGame ℚ).web.curLen = 0 := by
    show (0.0 : ℚ) = 0
    norm_num
  have hsh := runFl_chain fl32 (fun v => v) (fun v => v) 0 1400 175 _ 0 (shortCastGame ℚ)
    rfl rfl hS rfl hc0 rfl shortCast_chain
  rw [show ([(12233387 / 2097152 : ℚ), (12233387 / 1048576 : ℚ), (35 / 2 : ℚ), (12233387 / 524288 : ℚ), (7645867 / 262144 : ℚ), (35 : ℚ), (10704213 / 262144 : ℚ), (6116693 / 131072 : ℚ), (13762559 / 262144 : ℚ), (3822933 / 65536 : ℚ), (8410453 / 131072 : ℚ), (70 : ℚ), (9939627 / 131072 : ℚ), (5352107 / 65536 : ℚ), (11468801 / 131072 : ℚ), (3058347 / 32768 : ℚ), (12997975 / 131072 : ℚ), (6881281 / 65536 : ℚ), (14527149 / 131072 : ℚ), (1911467 / 16384 : ℚ), (16056323 / 131072 : ℚ), (8410455 / 65536 : ℚ), (2198187 / 16384 : ℚ), (9175041 / 65536 : ℚ), (4778667 / 32768 : ℚ), (9939627 / 65536 : ℚ), (315 / 2 : ℚ), (10704213 / 65536 : ℚ), (5543253 / 32768 : ℚ), (11468799 / 65536 : ℚ)] : List ℚ).length = 30 from rfl] at hsh
  rw [hsh] at hl
  cases hl

lemma shootingGame_events :
    ∀ f ∈ List.replicate 53 ((0 : Nat), [(clickAmbient, Event.keyDown Keycode.e)], noKeys),
      ∀ ev ∈ f.2.1, ev.2.keepsCast = true := by
  intro f hf ev hev
  rw [List.eq_of_mem_replicate hf] at hev
  rw [List.mem_singleton.mp hev]
  rfl

/-- Witness for `shooting_latches`: in binary32 arithmetic, the cast of
`shootingGame` (rope length 300 at 1400 per second) run for 53 iterations, in
each of which the key `e` goes down. -/
theorem shooting_latches_witness :
    (shootingGame ℚ).web.state = WebState.Shooting ∧ (shootingGame ℚ).web.rmbHeld = true ∧
    0 ≤ (shootingGame ℚ).web.curLen ∧ 0 < (shootingGame ℚ).web.shootSpeed ∧
    0 < (shootingGame ℚ).web.targetLen ∧
    (∀ f ∈ List.replicate 53 ((0 : Nat), [(clickAmbient, Event.keyDown Keycode.e)], noKeys),
      ∀ ev ∈ f.2.1, ev.2.keepsCast = true) ∧
    Float32Like fl32 ∧ 1 ≤ (shootingGame ℚ).web.shootSpeed ∧
    (shootingGame ℚ).web.targetLen ≤ 4 * (shootingGame ℚ).web.shootSpeed ∧
    Nat.ceil ((shootingGame ℚ).web.targetLen * 240 / (shootingGame ℚ).web.shootSpeed) + 1
      ≤ (List.replicate 53
          ((0 : Nat), [(clickAmbient, Event.keyDown Keycode.e)], noKeys)).length ∧
    (∀ nowTick prevTick : Nat, fl32 (1 / 240) ≤ frameDtFl fl32 nowTick prevTick) ∧
    (runFl fl32 (fun v => v) (fun v => v) 0 (shootingGame ℚ)
      (List.replicate 53 ((0 : Nat), [(clickAmbient, Event.keyDown Keycode.e)],
        noKeys))).web.state = WebState.Latched := by
  have h1 : (0 : ℚ) ≤ (shootingGame ℚ).web.curLen := by
    show (0 : ℚ) ≤ 0.0
    norm_num
  have h2 : (0 : ℚ) < (shootingGame ℚ).web.shootSpeed := by
    show (0 : ℚ) < 1400.0
    norm_num
  have h3 : (0 : ℚ) < (shootingGame ℚ).web.targetLen := by
    show (0 : ℚ) < 300
    norm_num
  have h5 : (1 : ℚ) ≤ (shootingGame ℚ).web.shootSpeed := by
    show (1 : ℚ) ≤ 1400.0
    norm_num
  have h6 : (shootingGame ℚ).web.targetLen ≤ 4 * (shootingGame ℚ).web.shootSpeed := by
    show (300 : ℚ) ≤ 4 * 1400.0
    norm_num
  have h4 : Nat.ceil ((shootingGame ℚ).web.targetLen * 240 / (shootingGame ℚ).web.shootSpeed) + 1
      ≤ (List.replicate 53
          ((0 : Nat), [(clickAmbient, Event.keyDown Keycode.e)], noKeys)).length := by
    rw [List.length_replicate]
    have : Nat.ceil ((shootingGame ℚ).web.targetLen * 240 / (shootingGame ℚ).web.shootSpeed)
        ≤ 52 := by
      apply Nat.ceil_le.mpr
      show (300 : ℚ) * 240 / 1400.0 ≤ ((52 : Nat) : ℚ)
      norm_num
    omega
  have h := shooting_latches fl32 (fun v => v) (fun v => v) 0 (shootingGame ℚ)
    (List.replicate 53 ((0 : Nat), [(clickAmbient, Event.keyDown Keycode.e)], noKeys))
    rfl rfl h1 h2 h3 shootingGame_events
  exact ⟨rfl, rfl, h1, h2, h3, shootingGame_events, fl32_float32Like, h5, h6, h4, h.2.1,
    h.2.2.1 fl32_float32Like h5 h6 h4⟩

end ShootingFloat

/-! ## Landing at rest beyond the half-integer range of binary32 -/

section RestFar

variable {F : Type} [LinearOrderedField F] [FloorRing F]

lemma farSprite_facts :
    farSprite.AtRestOn { rect := ⟨100, 8388707, 128, 24⟩, isDynamic := true, glowUntilMS := 0 } ∧
    Sprite.landingCandidateFl fl32 farSprite false 0 noKeys true
      { rect := ⟨200, 8388708, 128, 24⟩, isDynamic := true, glowUntilMS := 0 } ∧
    farSprite.collisionRect.h = 94 := by
  have hwf := Sprite.sizeOk_sample 134 34 (0 : ℚ) 8388609 0 true 0
  have hdx : Sprite.inputDx (F := ℚ) noKeys true = 0 :=
    Sprite.inputDx_zero _ _ (Or.inr ⟨rfl, rfl⟩)
  have f0 : fl32 0 = 0 := fl32_zero
  have f1 : fl32 (1 / 2 : ℚ) = 1 / 2 := by
    have := fl32_div_two 1 (by norm_num)
    norm_num at this
    exact this
  have f2 : fl32 (16777219 / 2 : ℚ) = 8388610 :=
    fl32_tie _ _ 23 8388610 (by norm_num) (by norm_num) (by norm_num) (by norm_num)
      (Or.inr (by norm_num)) (by norm_num)
  have f3 : fl32 (8388707 : ℚ) = 8388707 := by
    have := fl32_intCast 8388707 (by norm_num)
    norm_num at this
    exact this
  have f4 : fl32 (8388708 : ℚ) = 8388708 := by
    have := fl32_intCast 8388708 (by norm_num)
    norm_num at this
    exact this
  have f5 : fl32 (16777417 / 2 : ℚ) = 8388708 :=
    fl32_tie _ _ 23 8388708 (by norm_num) (by norm_num) (by norm_num) (by norm_num)
      (Or.inl (by norm_num)) (by norm_num)
  have f6 : fl32 (16777415 / 2 : ℚ) = 8388708 :=
    fl32_tie _ _ 23 8388708 (by norm_num) (by norm_num) (by norm_num) (by norm_num)
      (Or.inr (by norm_num)) (by norm_num)
  have f7 : fl32 (1 : ℚ) = 1 := by
    have := fl32_intCast 1 (by norm_num)
    norm_num at this
    exact this
  have f8 : fl32 (49 / 2 : ℚ) = 49 / 2 := by
    have := fl32_div_two 49 (by norm_num)
    norm_num at this
    exact this
  have hx : toInt (0 : ℚ) = 0 := toInt_zero
  have hy1 : toInt (8388609 : ℚ) = 8388609 := by
    have : (8388609 : ℚ) = ((8388609 : Int) : ℚ) := by norm_num
    rw [this, toInt_intCast]
  have hy2 : toInt (8388610 : ℚ) = 8388610 := by
    have : (8388610 : ℚ) = ((8388610 : Int) : ℚ) := by norm_num
    rw [this, toInt_intCast]
  refine ⟨⟨rfl, rfl, rfl, ?_, ?_⟩, ?_, ?_⟩
  · simp only [farSprite, Sprite.sample, Sprite.collisionRect, hy1, HITBOX_SHRINK_Y]
    norm_num
  · simp only [farSprite, Sprite.sample, Sprite.collisionRect, toInt_zero, HITBOX_SHRINK_X]
    norm_num
  · unfold farSprite
    rw [Sprite.landingCandidateFl_iff _ _ _ _ _ _ _ hwf, hdx]
    simp only [Sprite.sample, Sprite.collisionRect, Sprite.qualifiesFl, gravityFl,
      HITBOX_SHRINK_X, HITBOX_SHRINK_Y, EPS, MAX_STEP, gravity, GRAVITY_NORMAL]
    norm_num [f0, f1, f2, f3, f4, f5, f6, f7, f8, hx, hy1, hy2]
  · simp only [farSprite, Sprite.sample, Sprite.collisionRect, HITBOX_SHRINK_Y]
    norm_num

/-- Landing is not idempotent in binary32 arithmetic from magnitude `2 ^ 23` on,
also for a whole, non-negative `y`.  A sprite at rest at `y = 8388609` on a
platform with top `8388707`, next to a platform with top `8388708`: the sum
`y + g = 8388609.5` is not a binary32 value and rounds to `8388610`, both
platforms pass the landing test, the lower one is selected and `y` becomes
`8388610`. -/
lemma atRest_far_moves :
    ¬ LandingIdempotentFl fl32 farSprite
        { rect := ⟨100, 8388707, 128, 24⟩, isDynamic := true, glowUntilMS := 0 } false 0
        (fun v => v) 0 noKeys farTiles true := by
  intro hclaim
  obtain ⟨hrest, candB, hh⟩ := farSprite_facts
  obtain ⟨hy, -, -⟩ := hclaim (by simp [farTiles]) hrest (Or.inr ⟨rfl, rfl⟩)
  have hwf : farSprite.SizeOk := Sprite.sizeOk_sample 134 34 (0 : ℚ) 8388609 0 true 0
  obtain ⟨-, hcase⟩ := Sprite.handleInputFl_cases fl32 farSprite false 0 (fun v => v) 0
    noKeys farTiles true
  obtain ⟨-, -, -, -, -, -, -, hmd⟩ :=
    Sprite.moveAndAnimateFl_fields fl32 farSprite 0 noKeys true
  have hch : (Sprite.collisionRect (Sprite.moveAndAnimateFl fl32 farSprite 0 noKeys true)).h
      = 94 := by
    rw [Sprite.collisionRect_h, (hmd hwf).2, ← Sprite.collisionRect_h, hh]
  rcases hcase with ⟨-, -, -, -, -, hall⟩ | ⟨k, u, -, -, -, -, hmax, hy2, -⟩
  · have := hall _ (by simp [farTiles]) candB
    exact absurd this (by decide)
  · have h1 : (8388708 : Int) ≤ u.rect.y := (hmax 1 _ rfl candB).1
    rw [hy2, hch] at hy
    have h2 : farSprite.y = 8388609 := rfl
    rw [h2] at hy
    have f4 : fl32 (8388708 : ℚ) = 8388708 := by
      have := fl32_intCast 8388708 (by norm_num)
      norm_num at this
      exact this
    have f98 : fl32 (((94 + HITBOX_SHRINK_Y : Int) : Int) : ℚ) = 98 := by
      have := fl32_intCast 98 (by norm_num)
      norm_num at this
      simp only [HITBOX_SHRINK_Y]
      norm_num
      exact this
    have f9 : fl32 (8388610 : ℚ) = 8388610 := by
      have := fl32_intCast 8388610 (by norm_num)
      norm_num at this
      exact this
    have h3 : (8388708 : ℚ) ≤ fl32 (u.rect.y : ℚ) := by
      have := fl32_mono (x := (8388708 : ℚ)) (y := (u.rect.y : ℚ)) (by exact_mod_cast h1)
      rwa [f4] at this
    have h4 := fl32_mono (x := (8388610 : ℚ)) (y := fl32 (u.rect.y : ℚ)
      - fl32 (((94 + HITBOX_SHRINK_Y : Int) : Int) : ℚ)) (by rw [f98]; linarith)
    rw [f9, hy] at h4
    norm_num at h4

end RestFar

end Moki
